import Mathlib

/-!
# BRE frame orchestration: resource states, begin/final pass, fences

A shallow embedding of `RenderManager` (src/BRE/RenderManager/RenderManager.cpp)
together with the collaborators it calls.  Process-wide singletons of the source
(the resource-state manager, the command-list executor) are threaded explicitly
through the `RenderManager` record; the calls made on the executor, the swap chain
and the command lists are appended, in program order, to an event log.

The command list recorders `BasicCmdListRecorder`
(src/D3D12/Scene/CmdListRecorders/BasicCmdListRecorder.cpp) and `BlurCmdListRecorder`
(src/BRE/AmbientLightPass/BlurCmdListRecorder.cpp) and the pass
`AmbientOcclusionPass` (src/BRE/AmbientOcclusionPass/AmbientOcclusionPass.cpp) are
embedded the same way, each in the namespace of its class.
-/

namespace BRE

/-! ## Data model -/

/-- D3D12 resource usage states are bit masks (`D3D12_RESOURCE_STATES` of d3d12.h). -/
abbrev D3D12_RESOURCE_STATES := Nat

/-- State `D3D12_RESOURCE_STATE_PRESENT` (value 0 in d3d12.h). -/
def D3D12_RESOURCE_STATE_PRESENT : D3D12_RESOURCE_STATES := 0

/-- State `D3D12_RESOURCE_STATE_RENDER_TARGET` (value 0x4 in d3d12.h). -/
def D3D12_RESOURCE_STATE_RENDER_TARGET : D3D12_RESOURCE_STATES := 0x4

/-- State `D3D12_RESOURCE_STATE_DEPTH_WRITE` (value 0x10 in d3d12.h). -/
def D3D12_RESOURCE_STATE_DEPTH_WRITE : D3D12_RESOURCE_STATES := 0x10

/-- State `D3D12_RESOURCE_STATE_PIXEL_SHADER_RESOURCE` (value 0x80 in d3d12.h). -/
def D3D12_RESOURCE_STATE_PIXEL_SHADER_RESOURCE : D3D12_RESOURCE_STATES := 0x80

/-- Identity of a GPU resource (`ID3D12Resource`).  The render manager owns the
swap-chain buffers `mFrameBuffers[i]`, `mIntermediateColorBuffer1`,
`mIntermediateColorBuffer2` and `mDepthBuffer`; each comes from its own creation
call (swap-chain `GetBuffer(i)`, `CreateCommittedResource`) and the members are
never reassigned, so they are named by where they come from.  Every other
resource is named by its address. -/
inductive Resource where
  | frameBuffer (i : Nat)
  | intermediateColorBuffer1
  | intermediateColorBuffer2
  | depthBuffer
  | other (address : Nat)
  deriving DecidableEq, Repr

/-- A transition barrier, as built by `CD3DX12_RESOURCE_BARRIER::Transition`. -/
structure ResourceBarrier where
  resource : Resource
  stateBefore : D3D12_RESOURCE_STATES
  stateAfter : D3D12_RESOURCE_STATES
  deriving DecidableEq, Repr

/-- Commands recorded into an `ID3D12GraphicsCommandList`.  A clear names the
resource whose view (render-target view or depth-stencil view) it clears. -/
inductive Command where
  | ResourceBarrier (barriers : List ResourceBarrier)
  | ClearRenderTargetView (target : Resource)
  | ClearDepthStencilView (target : Resource)
  | Close
  deriving DecidableEq, Repr

/-- The `CommandListPerFrame` members of the render manager and of the ambient
occlusion pass. -/
inductive CommandListOwner where
  | mBeginCommandListPerFrame
  | mFinalCommandListPerFrame
  | mPrePassCommandListPerFrame
  | mMiddlePassCommandListPerFrame
  deriving DecidableEq, Repr

/-- The statements of the frame loop body of `RenderManager::execute` that the
specification calls stages. -/
inductive Stage where
  | BeginPass
  | GeometryPass
  | EnvironmentLightPass
  | SkyBoxPass
  | ToneMappingPass
  | PostProcessPass
  | FinalPass
  | Present
  deriving DecidableEq, Repr

/-- Calls observable outside the render manager, logged in program order. -/
inductive Event where
  | EnterStage (stage : Stage)
  | ResetCommandListWithNextCommandAllocator (owner : CommandListOwner)
  | ExecuteCommandListAndWaitForCompletion (commands : List Command)
  | PushCommandList (commands : List Command)
  | SwapChainPresent
  | SignalFenceAndWaitForCompletion (valueToSignal valueToWaitFor : Nat)
  | ExecutorTerminate
  deriving DecidableEq, Repr

/-! ## Resource state manager -/

/-- Modelled from the spec: the `ResourceStateManager` of
ResourceStateManager/ResourceStateManager.h is not among the sources.  Spec 2 and
4.1: it "maps each GPU resource to its last-known usage state"; a resource that
was never registered has no entry. -/
abbrev ResourceStateManager := Resource → Option D3D12_RESOURCE_STATES

namespace ResourceStateManager

/-- Modelled from the spec: writing the recorded state of one resource ("updates
the recorded state to `targetState`", spec 4.1); every other entry is kept. -/
def setState (m : ResourceStateManager) (resource : Resource)
    (state : D3D12_RESOURCE_STATES) : ResourceStateManager :=
  fun r => if r = resource then some state else m r

/-- Modelled from the spec: `AddResource(resource, initialState)`, spec 4.1:
"every tracked resource must be registered exactly once"; registering a resource
that is already tracked is the failure `none`. -/
def AddResource (m : ResourceStateManager) (resource : Resource)
    (initialState : D3D12_RESOURCE_STATES) : Option ResourceStateManager :=
  match m resource with
  | some _ => none
  | none => some (setState m resource initialState)

/-- Modelled from the spec: `GetState(resource) -> state`, spec 4.1: "fails/asserts
if resource unknown"; the failure is `none`. -/
def GetResourceState (m : ResourceStateManager) (resource : Resource) :
    Option D3D12_RESOURCE_STATES :=
  m resource

/-- Modelled from the spec: the transition request of spec 4.1, in the form the
source calls it (always under the guard that the tracked state differs from the
new one): it returns the barrier (resource, recorded state, new state) and records
the new state; "requesting a transition for an unregistered resource is a fatal
programming error", the failure `none`. -/
def ChangeResourceStateAndGetBarrier (m : ResourceStateManager) (resource : Resource)
    (newState : D3D12_RESOURCE_STATES) : Option (ResourceBarrier × ResourceStateManager) :=
  match m resource with
  | none => none
  | some oldState =>
    some (⟨resource, oldState, newState⟩, setState m resource newState)

end ResourceStateManager

/-! ## Render manager state -/

/-- Modelled from the spec: the constants of `ApplicationSettings` used by the
render manager; their header is not among the sources.  `sQueuedFrameCount` is the
queued-frame count K of the spec, `sSwapChainBufferCount` the fixed buffer count of
the swap chain. -/
structure ApplicationSettings where
  sQueuedFrameCount : Nat
  sSwapChainBufferCount : Nat
  deriving DecidableEq, Repr

/-- The mutable state `RenderManager`'s frame loop reads and writes, plus the
singletons it calls.  `currentBackBufferIndex` is what
`mSwapChain->GetCurrentBackBufferIndex()` returns; fence values are 64-bit,
kept below `2 ^ 64` by the operations. -/
structure RenderManager where
  currentBackBufferIndex : Nat
  mFenceValueByQueuedFrameIndex : List Nat
  mCurrentQueuedFrameIndex : Nat
  mCurrentFenceValue : Nat
  mTerminate : Bool
  resourceStates : ResourceStateManager
  log : List Event

namespace RenderManager

/-- Modelled from the spec: `GetCurrentFrameBuffer()` is declared in the absent
RenderManager.h; it is the swap-chain buffer at the current back-buffer index
("the current swap-chain back-buffer index", spec 3). -/
def GetCurrentFrameBuffer (rm : RenderManager) : Resource :=
  Resource.frameBuffer rm.currentBackBufferIndex

/-- The block the source repeats for every resource of a barrier pass:
`if (GetResourceState(r) != target) { barriers[barrierCount] =
ChangeResourceStateAndGetBarrier(r, target); ++barrierCount; }`.
The pair is the tracker and `barriers[0 .. barrierCount)`. -/
def transitionIfNeeded (resource : Resource) (target : D3D12_RESOURCE_STATES)
    (st : ResourceStateManager × List ResourceBarrier) :
    Option (ResourceStateManager × List ResourceBarrier) :=
  match ResourceStateManager.GetResourceState st.1 resource with
  | none => none
  | some current =>
    if current ≠ target then
      match ResourceStateManager.ChangeResourceStateAndGetBarrier st.1 resource target with
      | none => none
      | some (barrier, m) => some (m, st.2 ++ [barrier])
    else
      some st

/-- Commands `if (barrierCount > 0UL) commandList.ResourceBarrier(barrierCount, barriers);`. -/
def recordBarriers (barriers : List ResourceBarrier) : List Command :=
  if barriers.length > 0 then [Command.ResourceBarrier barriers] else []

/-- Embedding of `RenderManager::ExecuteBeginPass` (RenderManager.cpp lines 266-325). -/
def ExecuteBeginPass (rm : RenderManager) : Option RenderManager :=
  let log1 := rm.log ++
    [Event.ResetCommandListWithNextCommandAllocator CommandListOwner.mBeginCommandListPerFrame]
  match
    (some (rm.resourceStates, ([] : List ResourceBarrier))
      >>= transitionIfNeeded rm.GetCurrentFrameBuffer D3D12_RESOURCE_STATE_RENDER_TARGET
      >>= transitionIfNeeded Resource.intermediateColorBuffer1 D3D12_RESOURCE_STATE_RENDER_TARGET
      >>= transitionIfNeeded Resource.intermediateColorBuffer2 D3D12_RESOURCE_STATE_RENDER_TARGET
      >>= transitionIfNeeded Resource.depthBuffer D3D12_RESOURCE_STATE_DEPTH_WRITE) with
  | none => none
  | some (m, barriers) =>
    let commandList : List Command :=
      recordBarriers barriers ++
        [Command.ClearRenderTargetView rm.GetCurrentFrameBuffer,
         Command.ClearRenderTargetView Resource.intermediateColorBuffer1,
         Command.ClearRenderTargetView Resource.intermediateColorBuffer2,
         Command.ClearDepthStencilView Resource.depthBuffer,
         Command.Close]
    some { rm with
      resourceStates := m
      log := log1 ++ [Event.ExecuteCommandListAndWaitForCompletion commandList] }

/-- Embedding of `RenderManager::ExecuteFinalPass` (RenderManager.cpp lines 327-344). -/
def ExecuteFinalPass (rm : RenderManager) : Option RenderManager :=
  match transitionIfNeeded rm.GetCurrentFrameBuffer D3D12_RESOURCE_STATE_PRESENT
      (rm.resourceStates, ([] : List ResourceBarrier)) with
  | none => none
  | some (m, barriers) =>
    if barriers.length > 0 then
      some { rm with
        resourceStates := m
        log := rm.log ++
          [Event.ResetCommandListWithNextCommandAllocator
             CommandListOwner.mFinalCommandListPerFrame,
           Event.ExecuteCommandListAndWaitForCompletion
             [Command.ResourceBarrier barriers, Command.Close]] }
    else
      some { rm with resourceStates := m }

/-- Embedding of `RenderManager::InitPasses` (RenderManager.cpp lines 195-229).  The
`Init` calls of the passes are outside the frame orchestration core; what the
function does to the render manager's own state is the closing loop
`for (i < _countof(mFenceValueByQueuedFrameIndex)) mFenceValueByQueuedFrameIndex[i] =
mCurrentFenceValue`. -/
def InitPasses (rm : RenderManager) : RenderManager :=
  { rm with
    mFenceValueByQueuedFrameIndex :=
      rm.mFenceValueByQueuedFrameIndex.map (fun _ => rm.mCurrentFenceValue) }

/-- Embedding of `RenderManager::FlushCommandQueue` (RenderManager.cpp lines 452-459):
`++mCurrentFenceValue` on a `std::uint64_t`, then
`SignalFenceAndWaitForCompletion(*mFence, mCurrentFenceValue, mCurrentFenceValue)`. -/
def FlushCommandQueue (rm : RenderManager) : RenderManager :=
  let value := (rm.mCurrentFenceValue + 1) % 2 ^ 64
  { rm with
    mCurrentFenceValue := value
    log := rm.log ++ [Event.SignalFenceAndWaitForCompletion value value] }

/-- Modelled from the spec: `mSwapChain->Present(0U, 0U)`; the swap chain is a DXGI
object, spec 6: "back-buffer index cycles `(index+1) mod buffer_count` each call". -/
def swapChainPresent (cfg : ApplicationSettings) (rm : RenderManager) : RenderManager :=
  { rm with
    currentBackBufferIndex := (rm.currentBackBufferIndex + 1) % cfg.sSwapChainBufferCount
    log := rm.log ++ [Event.SwapChainPresent] }

/-- Embedding of `RenderManager::PresentCurrentFrameAndBeginNextFrame`
(RenderManager.cpp lines 461-486, the branch without `V_SYNC`).  The array write and
read are in bounds when the index is below the array length; the index stays below
`sQueuedFrameCount`, so no wrap of the index arithmetic is possible. -/
def PresentCurrentFrameAndBeginNextFrame (cfg : ApplicationSettings)
    (rm : RenderManager) : RenderManager :=
  let rm1 := swapChainPresent cfg rm
  let value := (rm1.mCurrentFenceValue + 1) % 2 ^ 64
  let fences := rm1.mFenceValueByQueuedFrameIndex.set rm1.mCurrentQueuedFrameIndex value
  let index := (rm1.mCurrentQueuedFrameIndex + 1) % cfg.sQueuedFrameCount
  let oldestFence := fences.getD index 0
  { rm1 with
    mFenceValueByQueuedFrameIndex := fences
    mCurrentQueuedFrameIndex := index
    mCurrentFenceValue := value
    log := rm1.log ++ [Event.SignalFenceAndWaitForCompletion value oldestFence] }

/-- The two fence-signalling operations of the render manager. -/
inductive FenceCall where
  | PresentCurrentFrameAndBeginNextFrame
  | FlushCommandQueue
  deriving DecidableEq, Repr

/-- One call of a fence-signalling operation. -/
def applyCall (cfg : ApplicationSettings) (rm : RenderManager) : FenceCall → RenderManager
  | FenceCall.PresentCurrentFrameAndBeginNextFrame => PresentCurrentFrameAndBeginNextFrame cfg rm
  | FenceCall.FlushCommandQueue => FlushCommandQueue rm

/-- A sequence of calls, made in list order. -/
def applyCalls (cfg : ApplicationSettings) (rm : RenderManager) (calls : List FenceCall) :
    RenderManager :=
  calls.foldl (applyCall cfg) rm

/-- The (value signalled, value waited for) pairs of the
`SignalFenceAndWaitForCompletion` calls of a log, in call order. -/
def fenceSignals : List Event → List (Nat × Nat)
  | [] => []
  | Event.SignalFenceAndWaitForCompletion s w :: rest => (s, w) :: fenceSignals rest
  | _ :: rest => fenceSignals rest

/-- The stages entered by the frame loop, in order. -/
def stageTrace : List Event → List Stage
  | [] => []
  | Event.EnterStage s :: rest => s :: stageTrace rest
  | _ :: rest => stageTrace rest

/-- The barriers of one command. -/
def commandBarriers : Command → List ResourceBarrier
  | Command.ResourceBarrier barriers => barriers
  | _ => []

/-- The barriers recorded into the command lists handed to the executor, in order. -/
def recordedBarriers : List Event → List ResourceBarrier
  | [] => []
  | Event.ExecuteCommandListAndWaitForCompletion commands :: rest =>
    commands.flatMap commandBarriers ++ recordedBarriers rest
  | Event.PushCommandList commands :: rest =>
    commands.flatMap commandBarriers ++ recordedBarriers rest
  | _ :: rest => recordedBarriers rest

/-- The command lists handed to the blocking `ExecuteCommandListAndWaitForCompletion`. -/
def executedCommandLists : List Event → List (List Command)
  | [] => []
  | Event.ExecuteCommandListAndWaitForCompletion commands :: rest =>
    commands :: executedCommandLists rest
  | _ :: rest => executedCommandLists rest

/-- The rendering passes are collaborators outside the orchestration core.  What the
frame loop can observe of `Execute` of a pass is the tracker it leaves behind and the
command lists it pushed to the executor; both may depend on the frame and on the
current frame buffer. -/
structure Passes where
  Execute : Stage → Nat → Resource → ResourceStateManager →
    ResourceStateManager × List (List Command)

/-- The call of a stage from the frame loop is logged. -/
def enterStage (stage : Stage) (rm : RenderManager) : RenderManager :=
  { rm with log := rm.log ++ [Event.EnterStage stage] }

/-- A call `m<Pass>.Execute(...)` of the frame loop. -/
def executePass (passes : Passes) (stage : Stage) (frame : Nat) (rm : RenderManager) :
    RenderManager :=
  let rm1 := enterStage stage rm
  let result := passes.Execute stage frame rm1.GetCurrentFrameBuffer rm1.resourceStates
  { rm1 with
    resourceStates := result.1
    log := rm1.log ++ result.2.map Event.PushCommandList }

/-- `RenderManager::Terminate` runs on another thread: `requests frame statement` says
that it sets `mTerminate` while the render thread executes statement number
`statement` (0 to 9) of the body of frame number `frame`. -/
def observeTerminate (requests : Nat → Nat → Bool) (frame statement : Nat)
    (rm : RenderManager) : RenderManager :=
  { rm with mTerminate := rm.mTerminate || requests frame statement }

/-- The body of the loop of `RenderManager::execute` (RenderManager.cpp lines 242-255):
ten statements, the timer tick and the camera update first, then the eight stages. -/
def executeFrame (cfg : ApplicationSettings) (passes : Passes) (requests : Nat → Nat → Bool)
    (frame : Nat) (rm : RenderManager) : Option RenderManager :=
  let rm0 := observeTerminate requests frame 0 rm
  let rm1 := observeTerminate requests frame 1 rm0
  match ExecuteBeginPass (enterStage Stage.BeginPass rm1) with
  | none => none
  | some r2 =>
    let rm2 := observeTerminate requests frame 2 r2
    let rm3 := observeTerminate requests frame 3 (executePass passes Stage.GeometryPass frame rm2)
    let rm4 := observeTerminate requests frame 4
      (executePass passes Stage.EnvironmentLightPass frame rm3)
    let rm5 := observeTerminate requests frame 5 (executePass passes Stage.SkyBoxPass frame rm4)
    let rm6 := observeTerminate requests frame 6
      (executePass passes Stage.ToneMappingPass frame rm5)
    let rm7 := observeTerminate requests frame 7
      (executePass passes Stage.PostProcessPass frame rm6)
    match ExecuteFinalPass (enterStage Stage.FinalPass rm7) with
    | none => none
    | some r8 =>
      let rm8 := observeTerminate requests frame 8 r8
      some (observeTerminate requests frame 9
        (PresentCurrentFrameAndBeginNextFrame cfg (enterStage Stage.Present rm8)))

/-- The loop `while (!mTerminate) { ... }` of `RenderManager::execute`; `frame` numbers
the iterations.  The result is `none` when an assertion of the body fails or the
fuel runs out before the flag is seen. -/
def executeLoop (cfg : ApplicationSettings) (passes : Passes) (requests : Nat → Nat → Bool) :
    Nat → Nat → RenderManager → Option RenderManager
  | 0, _, _ => none
  | fuel + 1, frame, rm =>
    if rm.mTerminate then some rm
    else
      match executeFrame cfg passes requests frame rm with
      | none => none
      | some rm1 => executeLoop cfg passes requests fuel (frame + 1) rm1

/-- What `RenderManager::execute` does after the loop (RenderManager.cpp lines 258-261):
`CommandListExecutor::Get().Terminate(); FlushCommandQueue();`. -/
def afterLoop (rm : RenderManager) : RenderManager :=
  FlushCommandQueue { rm with log := rm.log ++ [Event.ExecutorTerminate] }

/-- Embedding of `RenderManager::execute` (RenderManager.cpp lines 238-264). -/
def execute (cfg : ApplicationSettings) (passes : Passes) (requests : Nat → Nat → Bool)
    (fuel : Nat) (rm : RenderManager) : Option RenderManager :=
  match executeLoop cfg passes requests fuel 0 rm with
  | none => none
  | some rm1 => some (afterLoop rm1)

/-- The stage sequence of one iteration of the frame loop. -/
def frameStages : List Stage :=
  [Stage.BeginPass, Stage.GeometryPass, Stage.EnvironmentLightPass, Stage.SkyBoxPass,
   Stage.ToneMappingPass, Stage.PostProcessPass, Stage.FinalPass, Stage.Present]

/-- Whether `mTerminate` is set when the loop condition of iteration `frame` is
evaluated: it was set before the loop, or during one of the earlier iterations. -/
def terminateSeenAt (requests : Nat → Nat → Bool) (initial : Bool) (frame : Nat) : Bool :=
  initial || (List.range frame).any (fun i => (List.range 10).any (fun j => requests i j))

/-- The resources the frame loop asks the tracker about are registered: every swap-chain
buffer, both intermediate colour buffers and the depth buffer; and the current
back-buffer index is the index of a swap-chain buffer. -/
def Registered (cfg : ApplicationSettings) (rm : RenderManager) : Prop :=
  rm.currentBackBufferIndex < cfg.sSwapChainBufferCount ∧
  (∀ i, i < cfg.sSwapChainBufferCount →
    (rm.resourceStates (Resource.frameBuffer i)).isSome = true) ∧
  (rm.resourceStates Resource.intermediateColorBuffer1).isSome = true ∧
  (rm.resourceStates Resource.intermediateColorBuffer2).isSome = true ∧
  (rm.resourceStates Resource.depthBuffer).isSome = true

/-- A pass changes recorded states only: it never removes a resource from the tracker
(the tracker of spec 4.1 has no operation that removes an entry). -/
def KeepsRegistration (passes : Passes) : Prop :=
  ∀ (stage : Stage) (frame : Nat) (frameBuffer : Resource) (m : ResourceStateManager)
    (r : Resource), (m r).isSome = true → ((passes.Execute stage frame frameBuffer m).1 r).isSome = true

/-- Passes that record nothing and leave the tracker alone. -/
def noopPasses : Passes :=
  { Execute := fun _ _ _ m => (m, []) }

/-- A schedule in which `Terminate` is called once, during statement 4 (the
environment-light pass) of frame 1. -/
def exampleRequests : Nat → Nat → Bool :=
  fun frame statement => decide (frame = 1 ∧ statement = 4)

/-- A tracker as the constructor of the render manager leaves it for three swap-chain
buffers, except that intermediate colour buffer 2 was last used as a shader
resource: swap-chain buffers in `PRESENT` (RenderManager.cpp line 369), intermediate
colour buffer 1 in `RENDER_TARGET` (line 173), the depth buffer in `DEPTH_WRITE`
(line 399). -/
def exampleStates : ResourceStateManager
  | Resource.frameBuffer i => if i < 3 then some D3D12_RESOURCE_STATE_PRESENT else none
  | Resource.intermediateColorBuffer1 => some D3D12_RESOURCE_STATE_RENDER_TARGET
  | Resource.intermediateColorBuffer2 => some D3D12_RESOURCE_STATE_PIXEL_SHADER_RESOURCE
  | Resource.depthBuffer => some D3D12_RESOURCE_STATE_DEPTH_WRITE
  | Resource.other _ => none

/-- A render manager before its first frame: back buffer 0, three queued-frame slots,
fence value 0, nothing logged. -/
def exampleRenderManager : RenderManager :=
  { currentBackBufferIndex := 0
    mFenceValueByQueuedFrameIndex := [0, 0, 0]
    mCurrentQueuedFrameIndex := 0
    mCurrentFenceValue := 0
    mTerminate := false
    resourceStates := exampleStates
    log := [] }

/-- Settings with three queued frames and three swap-chain buffers. -/
def exampleSettings : ApplicationSettings :=
  { sQueuedFrameCount := 3, sSwapChainBufferCount := 3 }

/-- Settings with two queued frames and three swap-chain buffers. -/
def twoSlotSettings : ApplicationSettings :=
  { sQueuedFrameCount := 2, sSwapChainBufferCount := 3 }

/-- The example render manager with two queued-frame slots. -/
def twoSlotRenderManager : RenderManager :=
  { exampleRenderManager with mFenceValueByQueuedFrameIndex := [0, 0] }

/-- The state of the render manager after `InitPasses` and `n` calls of
`PresentCurrentFrameAndBeginNextFrame`, one per frame. -/
def afterPresents (cfg : ApplicationSettings) (rm0 : RenderManager) (n : Nat) : RenderManager :=
  applyCalls cfg (InitPasses rm0) (List.replicate n FenceCall.PresentCurrentFrameAndBeginNextFrame)

/-- The index of the swap-chain buffer a command clears as a render target, if any. -/
def clearedFrameBuffer : Command → List Nat
  | Command.ClearRenderTargetView (Resource.frameBuffer i) => [i]
  | _ => []

/-- Whether a command list clears a render target or a depth stencil view. -/
def isClearCommandList (commands : List Command) : Bool :=
  commands.any (fun c => match c with
    | Command.ClearRenderTargetView _ => true
    | Command.ClearDepthStencilView _ => true
    | _ => false)

/-- The clear command lists handed to the blocking executor call, which only
`ExecuteBeginPass` records. -/
def beginPassClearLists (log : List Event) : List (List Command) :=
  (executedCommandLists log).filter isClearCommandList

/-- The number of `mSwapChain->Present` calls of a log. -/
def presentCalls (log : List Event) : Nat :=
  log.count Event.SwapChainPresent

/-- The swap-chain buffer indices cleared by the command lists handed to the
blocking executor call, in order: the back buffer each begin pass used. -/
def backBuffersUsed (log : List Event) : List Nat :=
  (executedCommandLists log).flatMap (fun commands => commands.flatMap clearedFrameBuffer)

/-- What the frame loop has done to the swap chain so far: the number of clear
command lists of the begin pass, the number of `Present` calls, the back buffers
used, and the current back-buffer index. -/
def frameCounters (rm : RenderManager) : Nat × Nat × List Nat × Nat :=
  ((beginPassClearLists rm.log).length, presentCalls rm.log, backBuffersUsed rm.log,
    rm.currentBackBufferIndex)

/-- Embedding of `RenderManager::CreateFrameBuffersAndRenderTargetViews`
(RenderManager.cpp lines 346-371), as far as the resource state tracker is
concerned: the loop `for (i < sSwapChainBufferCount)` calls
`ResourceStateManager::AddResource(*mFrameBuffers[i].Get(), D3D12_RESOURCE_STATE_PRESENT)`
for buffer `i` of the swap chain. -/
def CreateFrameBuffersAndRenderTargetViews (cfg : ApplicationSettings)
    (m : ResourceStateManager) : Option ResourceStateManager :=
  (List.range cfg.sSwapChainBufferCount).foldlM
    (fun tracker i =>
      ResourceStateManager.AddResource tracker (Resource.frameBuffer i) D3D12_RESOURCE_STATE_PRESENT)
    m

/-- A tracker in which nothing is registered. -/
def emptyStates : ResourceStateManager :=
  fun _ => none

/-- The tracker the constructor of the render manager leaves for a swap chain of
two buffers: the swap-chain buffers in `PRESENT`, the intermediate colour buffers
in `RENDER_TARGET`, the depth buffer in `DEPTH_WRITE`. -/
def twoBufferStates : ResourceStateManager
  | Resource.frameBuffer i => if i < 2 then some D3D12_RESOURCE_STATE_PRESENT else none
  | Resource.intermediateColorBuffer1 => some D3D12_RESOURCE_STATE_RENDER_TARGET
  | Resource.intermediateColorBuffer2 => some D3D12_RESOURCE_STATE_RENDER_TARGET
  | Resource.depthBuffer => some D3D12_RESOURCE_STATE_DEPTH_WRITE
  | Resource.other _ => none

/-- Settings with three queued frames and a swap chain of two buffers. -/
def twoBufferSettings : ApplicationSettings :=
  { sQueuedFrameCount := 3, sSwapChainBufferCount := 2 }

/-- A render manager before its first frame on a swap chain of two buffers. -/
def twoBufferRenderManager : RenderManager :=
  { exampleRenderManager with resourceStates := twoBufferStates }

/-- A schedule in which `Terminate` is called once, during the last statement of
frame 4, so that the loop makes five iterations. -/
def fiveFrameRequests : Nat → Nat → Bool :=
  fun frame statement => decide (frame = 4 ∧ statement = 9)

/-- The block of `transitionIfNeeded` with the local array the source writes to:
`barriers` has `capacity` entries and `barriers[barrierCount] = ...` is a write out
of bounds, `none`, when `barrierCount` is not below `capacity`. -/
def transitionIfNeededIn (capacity : Nat) (resource : Resource)
    (target : D3D12_RESOURCE_STATES) (st : ResourceStateManager × List ResourceBarrier) :
    Option (ResourceStateManager × List ResourceBarrier) :=
  match ResourceStateManager.GetResourceState st.1 resource with
  | none => none
  | some current =>
    if current ≠ target then
      match ResourceStateManager.ChangeResourceStateAndGetBarrier st.1 resource target with
      | none => none
      | some (barrier, m) =>
        if st.2.length < capacity then some (m, st.2 ++ [barrier]) else none
    else
      some st

/-- The four blocks of `ExecuteBeginPass` (RenderManager.cpp lines 271-295) on an
array of `capacity` entries; the source declares `barriers[4U]`. -/
def beginPassBarriers (capacity : Nat) (rm : RenderManager) :
    Option (ResourceStateManager × List ResourceBarrier) :=
  some (rm.resourceStates, ([] : List ResourceBarrier))
    >>= transitionIfNeededIn capacity rm.GetCurrentFrameBuffer D3D12_RESOURCE_STATE_RENDER_TARGET
    >>= transitionIfNeededIn capacity Resource.intermediateColorBuffer1
          D3D12_RESOURCE_STATE_RENDER_TARGET
    >>= transitionIfNeededIn capacity Resource.intermediateColorBuffer2
          D3D12_RESOURCE_STATE_RENDER_TARGET
    >>= transitionIfNeededIn capacity Resource.depthBuffer D3D12_RESOURCE_STATE_DEPTH_WRITE

/-- The block of `ExecuteFinalPass` (RenderManager.cpp lines 330-336) on an array of
`capacity` entries; the source declares `barriers[4U]`. -/
def finalPassBarriers (capacity : Nat) (rm : RenderManager) :
    Option (ResourceStateManager × List ResourceBarrier) :=
  transitionIfNeededIn capacity rm.GetCurrentFrameBuffer D3D12_RESOURCE_STATE_PRESENT
    (rm.resourceStates, ([] : List ResourceBarrier))

/-- The four blocks of `AmbientOcclusionPass::RecordAndPushPrePassCommandLists`
(AmbientOcclusionPass.cpp lines 149-173) on an array of `capacity` entries; the
source declares `barriers[4U]`. -/
def prePassBarriers (capacity : Nat) (m : ResourceStateManager)
    (ambient blur normalRoughness depth : Resource) :
    Option (ResourceStateManager × List ResourceBarrier) :=
  some (m, ([] : List ResourceBarrier))
    >>= transitionIfNeededIn capacity ambient D3D12_RESOURCE_STATE_RENDER_TARGET
    >>= transitionIfNeededIn capacity blur D3D12_RESOURCE_STATE_PIXEL_SHADER_RESOURCE
    >>= transitionIfNeededIn capacity normalRoughness D3D12_RESOURCE_STATE_PIXEL_SHADER_RESOURCE
    >>= transitionIfNeededIn capacity depth D3D12_RESOURCE_STATE_PIXEL_SHADER_RESOURCE

/-- The two blocks of `AmbientOcclusionPass::RecordAndPushMiddlePassCommandLists`
(AmbientOcclusionPass.cpp lines 199-211) on an array of `capacity` entries; the
source declares `barriers[2U]`. -/
def middlePassBarriers (capacity : Nat) (m : ResourceStateManager) (ambient blur : Resource) :
    Option (ResourceStateManager × List ResourceBarrier) :=
  some (m, ([] : List ResourceBarrier))
    >>= transitionIfNeededIn capacity ambient D3D12_RESOURCE_STATE_PIXEL_SHADER_RESOURCE
    >>= transitionIfNeededIn capacity blur D3D12_RESOURCE_STATE_RENDER_TARGET

/-- The barrier counts passed to `ResourceBarrier` in a command list. -/
def barrierCounts (commands : List Command) : List Nat :=
  commands.filterMap (fun c => match c with
    | Command.ResourceBarrier barriers => some barriers.length
    | _ => none)

/-- The passes change the tracked state of no swap-chain buffer other than the
current back buffer they are given. -/
def KeepsOtherFrameBuffers (passes : Passes) : Prop :=
  ∀ (stage : Stage) (frame : Nat) (frameBuffer : Resource) (m : ResourceStateManager) (i : Nat),
    Resource.frameBuffer i ≠ frameBuffer →
    (passes.Execute stage frame frameBuffer m).1 (Resource.frameBuffer i) =
      m (Resource.frameBuffer i)

/-- Every swap-chain buffer is tracked in `PRESENT`. -/
def AllPresent (cfg : ApplicationSettings) (m : ResourceStateManager) : Prop :=
  ∀ i, i < cfg.sSwapChainBufferCount →
    m (Resource.frameBuffer i) = some D3D12_RESOURCE_STATE_PRESENT

/-- State `s` has the back-buffer index of `rm` and the tracked state of `rm` for
every swap-chain buffer other than the current back buffer. -/
def OnlyBackBufferChanged (rm s : RenderManager) : Prop :=
  s.currentBackBufferIndex = rm.currentBackBufferIndex ∧
  ∀ i, i ≠ rm.currentBackBufferIndex →
    s.resourceStates (Resource.frameBuffer i) = rm.resourceStates (Resource.frameBuffer i)

/-- The states of the render manager at the top of the iterations of the loop of
`RenderManager::execute` (where `mTerminate` is tested), each with the number of
its iteration; the run is cut where the fuel ends or an assertion fails. -/
def executeLoopTops (cfg : ApplicationSettings) (passes : Passes)
    (requests : Nat → Nat → Bool) : Nat → Nat → RenderManager → List (Nat × RenderManager)
  | 0, _, _ => []
  | fuel + 1, frame, rm =>
    (frame, rm) ::
      (if rm.mTerminate then []
       else
         match executeFrame cfg passes requests frame rm with
         | none => []
         | some rm1 => executeLoopTops cfg passes requests fuel (frame + 1) rm1)

/-- The state in which the body of the loop calls `ExecuteBeginPass`. -/
def beginPassEntry (requests : Nat → Nat → Bool) (frame : Nat) (rm : RenderManager) :
    RenderManager :=
  enterStage Stage.BeginPass
    (observeTerminate requests frame 1 (observeTerminate requests frame 0 rm))

/-- The states of the render manager inside one iteration of the loop body, after
`ExecuteBeginPass`, after each of the five passes and after `ExecuteFinalPass`,
as far as the iteration gets. -/
def executeFrameStates (passes : Passes) (requests : Nat → Nat → Bool)
    (frame : Nat) (rm : RenderManager) : List RenderManager :=
  match ExecuteBeginPass (beginPassEntry requests frame rm) with
  | none => []
  | some r2 =>
    let rm2 := observeTerminate requests frame 2 r2
    let rm3 := observeTerminate requests frame 3 (executePass passes Stage.GeometryPass frame rm2)
    let rm4 := observeTerminate requests frame 4
      (executePass passes Stage.EnvironmentLightPass frame rm3)
    let rm5 := observeTerminate requests frame 5 (executePass passes Stage.SkyBoxPass frame rm4)
    let rm6 := observeTerminate requests frame 6
      (executePass passes Stage.ToneMappingPass frame rm5)
    let rm7 := observeTerminate requests frame 7
      (executePass passes Stage.PostProcessPass frame rm6)
    [r2, rm3, rm4, rm5, rm6, rm7] ++
      (match ExecuteFinalPass (enterStage Stage.FinalPass rm7) with
       | none => []
       | some r8 => [r8])

end RenderManager

/-! ## Command list recorders -/

/-- Calls a command list recorder makes while it records one command list, in
program order. `slot` is the value of the frame index the call is made with,
`allocator` the pointer stored in that slot (0 is `nullptr`). -/
inductive RecorderCall where
  | CopyData (slot : Nat)
  | AllocatorReset (slot : Nat) (allocator : Nat)
  | CommandListReset (slot : Nat) (allocator : Nat)
  | RSSetViewports
  | RSSetScissorRects
  | OMSetRenderTargets (count : Nat)
  | SetDescriptorHeaps
  | SetGraphicsRootSignature
  | IASetPrimitiveTopology
  | SetGraphicsRootConstantBufferView (rootParameterIndex : Nat) (slot : Nat)
  | IASetVertexBuffers (geometry : Nat)
  | IASetIndexBuffer (geometry : Nat)
  | SetGraphicsRootDescriptorTable (rootParameterIndex : Nat) (ptr : Nat)
  | DrawIndexedInstanced (indexCount : Nat)
  | DrawInstanced (vertexCount : Nat)
  | Close
  deriving DecidableEq, Repr

/-- The allocator slots a recorded command list was reset with. -/
def allocatorSlots (calls : List RecorderCall) : List Nat :=
  calls.filterMap (fun c => match c with
    | RecorderCall.AllocatorReset slot _ => some slot
    | _ => none)

/-- An entry of `mVertexAndIndexBufferDataVec`: the vertex buffer view, the
index buffer view and the index count `second.mCount`. -/
structure VertexAndIndexBufferData where
  vertexBufferView : Nat
  indexBufferView : Nat
  mCount : Nat
  deriving DecidableEq, Repr

/-- The members of `CmdListRecorder` and `BasicCmdListRecorder` that
`RecordCommandLists` and `ValidateData` read or write, for `K = sQueuedFrameCount`
(the constant is not defined in the sources). Pointers and descriptor handles
are numbers, 0 being `nullptr`; a world matrix is the unit value because only
the number of matrices is read. `mCmdListQueue` holds the recorded calls of
every command list pushed so far. -/
structure BasicCmdListRecorder (K : Nat) where
  mCmdListQueue : List (List RecorderCall)
  mCmdList : Nat
  mCmdAlloc : Fin K → Nat
  mCurrFrameIndex : Nat
  mCbvSrvUavDescHeap : Nat
  mRootSign : Nat
  mPSO : Nat
  mFrameCBuffer : Fin K → Nat
  mObjectCBuffer : Nat
  mObjectCBufferGpuDescHandleBegin : Nat
  mMaterialsCBuffer : Nat
  mMaterialsCBufferGpuDescHandleBegin : Nat
  mVertexAndIndexBufferDataVec : List VertexAndIndexBufferData
  mWorldMatrices : List (List Unit)

/-- What `RecordCommandLists` takes from code that is not among the sources:
the result of the base class check `CmdListRecorder::ValidateData` (only its
declaration is present) and the value of
`mDevice.GetDescriptorHandleIncrementSize`. -/
structure RecorderEnvironment (K : Nat) where
  baseValidateData : BasicCmdListRecorder K → Bool
  descHandleIncSize : Nat

namespace BasicCmdListRecorder

/-- `BasicCmdListRecorder::ValidateData`. -/
def ValidateData {K : Nat} (env : RecorderEnvironment K) (r : BasicCmdListRecorder K) : Bool :=
  if r.mWorldMatrices.any (fun ws => ws.isEmpty) then false
  else if (List.finRange K).any (fun i => r.mFrameCBuffer i == 0) then false
  else
    env.baseValidateData r &&
    (r.mObjectCBuffer != 0) &&
    (r.mObjectCBufferGpuDescHandleBegin != 0) &&
    (r.mVertexAndIndexBufferDataVec.isEmpty == false) &&
    (r.mWorldMatrices.isEmpty == false) &&
    (r.mVertexAndIndexBufferDataVec.length == r.mWorldMatrices.length) &&
    (r.mMaterialsCBuffer != 0) &&
    (r.mMaterialsCBufferGpuDescHandleBegin != 0)

/-- The inner loop of `RecordCommandLists` over the world matrices of one
geometry entry: `count` iterations from the two descriptor handles, returning
the calls and the handles after the loop. The handles are 64-bit. -/
def drawInstances (indexCount descHandleIncSize : Nat) :
    Nat → Nat → Nat → List RecorderCall × Nat × Nat
  | 0, objectHandle, materialsHandle => ([], objectHandle, materialsHandle)
  | count + 1, objectHandle, materialsHandle =>
    let rest := drawInstances indexCount descHandleIncSize count
      ((objectHandle + descHandleIncSize) % 2 ^ 64)
      ((materialsHandle + descHandleIncSize) % 2 ^ 64)
    ([RecorderCall.SetGraphicsRootDescriptorTable 0 objectHandle,
      RecorderCall.SetGraphicsRootDescriptorTable 2 materialsHandle,
      RecorderCall.DrawIndexedInstanced indexCount] ++ rest.1, rest.2.1, rest.2.2)

/-- The outer loop of `RecordCommandLists` from geometry index `i` over the
remaining entries of `mVertexAndIndexBufferDataVec`. Reading `mWorldMatrices[i]`
out of bounds is undefined behaviour, modelled as `none`. -/
def drawObjects (worldMatrices : List (List Unit)) (descHandleIncSize : Nat) :
    Nat → List VertexAndIndexBufferData → Nat → Nat → Option (List RecorderCall)
  | _, [], _, _ => some []
  | i, geometry :: rest, objectHandle, materialsHandle =>
    match worldMatrices[i]? with
    | none => none
    | some ws =>
      let drawn := drawInstances geometry.mCount descHandleIncSize ws.length
        objectHandle materialsHandle
      match drawObjects worldMatrices descHandleIncSize (i + 1) rest drawn.2.1 drawn.2.2 with
      | none => none
      | some calls =>
        some ([RecorderCall.IASetVertexBuffers i, RecorderCall.IASetIndexBuffer i] ++
          drawn.1 ++ calls)

/-- `BasicCmdListRecorder::RecordCommandLists`. The arguments are the pointer
`geomPassRtvCpuDescHandles` and its count; the matrices and the depth stencil
handle are only copied into calls. A failed `ASSERT` and an access out of
bounds are `none`. The index is below `K` when it is incremented, so the 32-bit
addition cannot wrap. -/
def RecordCommandLists {K : Nat} (env : RecorderEnvironment K)
    (geomPassRtvCpuDescHandles geomPassRtvCpuDescHandlesCount : Nat)
    (r : BasicCmdListRecorder K) : Option (BasicCmdListRecorder K) :=
  if ValidateData env r = false then none
  else if geomPassRtvCpuDescHandles = 0 then none
  else if geomPassRtvCpuDescHandlesCount = 0 then none
  else if h : r.mCurrFrameIndex < K then
    let cmdAlloc := r.mCmdAlloc ⟨r.mCurrFrameIndex, h⟩
    if cmdAlloc = 0 then none
    else
      match drawObjects r.mWorldMatrices env.descHandleIncSize 0
          r.mVertexAndIndexBufferDataVec r.mObjectCBufferGpuDescHandleBegin
          r.mMaterialsCBufferGpuDescHandleBegin with
      | none => none
      | some draws =>
        some { r with
          mCmdListQueue := r.mCmdListQueue ++
            [[RecorderCall.CopyData r.mCurrFrameIndex,
              RecorderCall.AllocatorReset r.mCurrFrameIndex cmdAlloc,
              RecorderCall.CommandListReset r.mCurrFrameIndex cmdAlloc,
              RecorderCall.RSSetViewports,
              RecorderCall.RSSetScissorRects,
              RecorderCall.OMSetRenderTargets geomPassRtvCpuDescHandlesCount,
              RecorderCall.SetDescriptorHeaps,
              RecorderCall.SetGraphicsRootSignature,
              RecorderCall.IASetPrimitiveTopology,
              RecorderCall.SetGraphicsRootConstantBufferView 1 r.mCurrFrameIndex,
              RecorderCall.SetGraphicsRootConstantBufferView 3 r.mCurrFrameIndex] ++
              draws ++ [RecorderCall.Close]]
          mCurrFrameIndex := (r.mCurrFrameIndex + 1) % K }
  else none

/-- A sequence of `RecordCommandLists` calls on one recorder, one call per
pair of arguments. -/
def recordCalls {K : Nat} (env : RecorderEnvironment K) :
    List (Nat × Nat) → BasicCmdListRecorder K → Option (BasicCmdListRecorder K)
  | [], r => some r
  | args :: rest, r =>
    match RecordCommandLists env args.1 args.2 r with
    | none => none
    | some r1 => recordCalls env rest r1

/-- The allocator slots of the command lists in the queue, oldest first. -/
def queuedSlots {K : Nat} (r : BasicCmdListRecorder K) : List Nat :=
  r.mCmdListQueue.flatMap allocatorSlots

/-- The descriptor handle after `k` executions of `handle.ptr += descHandleIncSize`
from `handleBegin`; the pointer is 64-bit. -/
def handleAt (handleBegin descHandleIncSize : Nat) : Nat → Nat
  | 0 => handleBegin
  | k + 1 => (handleAt handleBegin descHandleIncSize k + descHandleIncSize) % 2 ^ 64

/-- The indexed draws of a list of calls, in order, each with the descriptor
tables bound to root parameters 0 and 2 when the draw is issued and with its
index count; `bound0` and `bound2` are the tables bound before the first call. -/
def drawsFrom (bound0 bound2 : Option Nat) : List RecorderCall → List (Option Nat × Option Nat × Nat)
  | [] => []
  | RecorderCall.SetGraphicsRootDescriptorTable rootParameterIndex ptr :: rest =>
    drawsFrom (if rootParameterIndex = 0 then some ptr else bound0)
      (if rootParameterIndex = 2 then some ptr else bound2) rest
  | RecorderCall.DrawIndexedInstanced indexCount :: rest =>
    (bound0, bound2, indexCount) :: drawsFrom bound0 bound2 rest
  | _ :: rest => drawsFrom bound0 bound2 rest

/-- The indexed draws of a command list that starts with no table bound. -/
def indexedDraws (calls : List RecorderCall) : List (Option Nat × Option Nat × Nat) :=
  drawsFrom none none calls

/-- The index count of every draw a recorder is to issue: for each geometry entry,
in order, one draw per world matrix of the entry, with the index count of the
entry. -/
def indexCounts (geometry : List VertexAndIndexBufferData) (worldMatrices : List (List Unit)) :
    List Nat :=
  (List.zip geometry worldMatrices).flatMap (fun p => List.replicate p.2.length p.1.mCount)

/-- A recorder for three queued frames with one geometry entry drawn twice. -/
def exampleRecorder : BasicCmdListRecorder 3 :=
  { mCmdListQueue := []
    mCmdList := 1
    mCmdAlloc := fun i => 10 + i.val
    mCurrFrameIndex := 0
    mCbvSrvUavDescHeap := 2
    mRootSign := 3
    mPSO := 4
    mFrameCBuffer := fun i => 20 + i.val
    mObjectCBuffer := 5
    mObjectCBufferGpuDescHandleBegin := 1000
    mMaterialsCBuffer := 6
    mMaterialsCBufferGpuDescHandleBegin := 2000
    mVertexAndIndexBufferDataVec := [{ vertexBufferView := 7, indexBufferView := 8, mCount := 36 }]
    mWorldMatrices := [[(), ()]] }

/-- An environment whose base class check accepts every recorder. -/
def exampleEnvironment : RecorderEnvironment 3 :=
  { baseValidateData := fun _ => true, descHandleIncSize := 32 }

end BasicCmdListRecorder

/-- The members of `BlurCmdListRecorder` read by `RecordAndPushCommandLists` and
`ValidateData`, for `K = sQueuedFrameCount`. Pointers and descriptor handles
are numbers, 0 being `nullptr`. -/
structure BlurCmdListRecorder (K : Nat) where
  mCommandList : Nat
  mCommandAllocators : Fin K → Nat
  mInputColorBufferGpuDesc : Nat
  mOutputColorBufferCpuDesc : Nat

/-- The state `BlurCmdListRecorder.cpp` keeps outside the instances: the
file-level `sPSO` and `sRootSignature`, the function-local
`static std::uint32_t currentFrameIndex` of `RecordAndPushCommandLists`, and the
command lists added to the executor, each as the pointer `mCommandList` of the
instance that added it with the calls recorded in it. -/
structure BlurStatics where
  sPSO : Nat
  sRootSignature : Nat
  currentFrameIndex : Nat
  addedCommandLists : List (Nat × List RecorderCall)
  deriving DecidableEq, Repr

namespace BlurCmdListRecorder

/-- `BlurCmdListRecorder::InitPSO`; `createdRootSignature` and `createdPSO` are
the addresses returned by the root signature manager and the PSO manager. -/
def InitPSO (createdRootSignature createdPSO : Nat) (statics : BlurStatics) :
    Option BlurStatics :=
  if statics.sPSO ≠ 0 then none
  else if statics.sRootSignature ≠ 0 then none
  else if createdPSO = 0 then none
  else if createdRootSignature = 0 then none
  else some { statics with sRootSignature := createdRootSignature, sPSO := createdPSO }

/-- `BlurCmdListRecorder::ValidateData`. -/
def ValidateData {K : Nat} (r : BlurCmdListRecorder K) : Bool :=
  if (List.finRange K).any (fun i => r.mCommandAllocators i == 0) then false
  else
    (r.mCommandList != 0) &&
    (r.mInputColorBufferGpuDesc != 0) &&
    (r.mOutputColorBufferCpuDesc != 0)

/-- `BlurCmdListRecorder::RecordAndPushCommandLists` called on instance `r`.
The instance is not written; the frame index read and advanced is the
function-local static. A failed `ASSERT` and an access out of bounds are
`none`. The index is below `K` when it is incremented, so the 32-bit addition
cannot wrap. -/
def RecordAndPushCommandLists {K : Nat} (r : BlurCmdListRecorder K) (statics : BlurStatics) :
    Option BlurStatics :=
  if ValidateData r = false then none
  else if statics.sPSO = 0 then none
  else if statics.sRootSignature = 0 then none
  else if h : statics.currentFrameIndex < K then
    let commandAllocator := r.mCommandAllocators ⟨statics.currentFrameIndex, h⟩
    if commandAllocator = 0 then none
    else
      some { statics with
        addedCommandLists := statics.addedCommandLists ++
          [(r.mCommandList,
            [RecorderCall.AllocatorReset statics.currentFrameIndex commandAllocator,
             RecorderCall.CommandListReset statics.currentFrameIndex commandAllocator,
             RecorderCall.RSSetViewports,
             RecorderCall.RSSetScissorRects,
             RecorderCall.OMSetRenderTargets 1,
             RecorderCall.SetDescriptorHeaps,
             RecorderCall.SetGraphicsRootSignature,
             RecorderCall.SetGraphicsRootDescriptorTable 0 r.mInputColorBufferGpuDesc,
             RecorderCall.IASetPrimitiveTopology,
             RecorderCall.DrawInstanced 6,
             RecorderCall.Close])]
        currentFrameIndex := (statics.currentFrameIndex + 1) % K }
  else none

/-- Calls of `RecordAndPushCommandLists` on the given instances, in order. -/
def recordAll {K : Nat} : List (BlurCmdListRecorder K) → BlurStatics → Option BlurStatics
  | [], statics => some statics
  | r :: rest, statics =>
    match RecordAndPushCommandLists r statics with
    | none => none
    | some statics1 => recordAll rest statics1

/-- The allocator slots used by the calls made on the instance whose command
list is `commandList`, oldest first. -/
def slotsOfInstance (commandList : Nat) (statics : BlurStatics) : List Nat :=
  (statics.addedCommandLists.filter (fun e => e.1 == commandList)).flatMap
    (fun e => allocatorSlots e.2)

/-- The statics before `InitPSO`: both pointers null. -/
def uninitialisedStatics : BlurStatics :=
  { sPSO := 0, sRootSignature := 0, currentFrameIndex := 0, addedCommandLists := [] }

/-- The statics after one `InitPSO`, before any command list was recorded. -/
def initialisedStatics : BlurStatics :=
  { sPSO := 1, sRootSignature := 2, currentFrameIndex := 0, addedCommandLists := [] }

/-- A recorder instance for two queued frames. -/
def instanceA : BlurCmdListRecorder 2 :=
  { mCommandList := 100
    mCommandAllocators := fun i => 110 + i.val
    mInputColorBufferGpuDesc := 120
    mOutputColorBufferCpuDesc := 130 }

/-- A second recorder instance for two queued frames. -/
def instanceB : BlurCmdListRecorder 2 :=
  { mCommandList := 200
    mCommandAllocators := fun i => 210 + i.val
    mInputColorBufferGpuDesc := 220
    mOutputColorBufferCpuDesc := 230 }

end BlurCmdListRecorder

/-! ## Ambient occlusion pass -/

/-- The members of `AmbientOcclusionPass` read by `IsDataValid`. A buffer pointer
is `none` when it is `nullptr`; a descriptor handle is its `ptr`, 0 when null. -/
structure AmbientOcclusionPass where
  mAmbientAccessibilityBuffer : Option Resource
  mAmbientAccessibilityBufferShaderResourceView : Nat
  mAmbientAccessibilityBufferRenderTargetView : Nat
  mBlurBuffer : Option Resource
  mBlurBufferShaderResourceView : Nat
  mBlurBufferRenderTargetView : Nat
  mNormalRoughnessBuffer : Option Resource
  mDepthBuffer : Option Resource
  deriving DecidableEq, Repr

/-- What the pass reads and writes outside itself: the resource state tracker and
the calls made on the command list executor and on the command lists. -/
structure PassContext where
  resourceStates : ResourceStateManager
  log : List Event

/-- What one `RecordAndPushCommandLists` call of a recorder of the pass does. The
recorders `AmbientOcclusionCommandListRecorder` and `BlurCommandListRecorder` are
not among the sources: the count a call returns (a `std::uint32_t`) and the
command lists it pushes to the executor are given. -/
structure RecorderOutput where
  count : Nat
  pushed : List (List Command)
  deriving DecidableEq, Repr

/-- What `CreateResourceAndRenderTargetView` obtains from the resource manager and
the descriptor managers in the two calls of `Init`: the created buffer (the address
of a reference, never null) and its two descriptor handles. -/
structure CreatedBuffers where
  ambientAccessibilityBuffer : Resource
  ambientAccessibilityBufferRenderTargetView : Nat
  ambientAccessibilityBufferShaderResourceView : Nat
  blurBuffer : Resource
  blurBufferRenderTargetView : Nat
  blurBufferShaderResourceView : Nat
  deriving DecidableEq, Repr

namespace AmbientOcclusionPass

/-- `AmbientOcclusionPass::IsDataValid`. -/
def IsDataValid (p : AmbientOcclusionPass) : Bool :=
  p.mAmbientAccessibilityBuffer.isSome &&
  (p.mAmbientAccessibilityBufferShaderResourceView != 0) &&
  (p.mAmbientAccessibilityBufferRenderTargetView != 0) &&
  p.mBlurBuffer.isSome &&
  (p.mBlurBufferShaderResourceView != 0) &&
  (p.mBlurBufferRenderTargetView != 0) &&
  p.mNormalRoughnessBuffer.isSome &&
  p.mDepthBuffer.isSome

/-- The pass as its constructor leaves it: every buffer and view null. -/
def fresh : AmbientOcclusionPass :=
  { mAmbientAccessibilityBuffer := none
    mAmbientAccessibilityBufferShaderResourceView := 0
    mAmbientAccessibilityBufferRenderTargetView := 0
    mBlurBuffer := none
    mBlurBufferShaderResourceView := 0
    mBlurBufferRenderTargetView := 0
    mNormalRoughnessBuffer := none
    mDepthBuffer := none }

/-- `AmbientOcclusionPass::Init` (AmbientOcclusionPass.cpp lines 71-108) with the
two calls of `CreateResourceAndRenderTargetView` (lines 22-68) in place. The
shared state and the `Init` of the two recorders, and what the resource manager
does when it creates a buffer, are outside the sources. A failed `BRE_ASSERT` is
`none`. -/
def Init (created : CreatedBuffers) (normalRoughnessBuffer depthStencilBuffer : Resource)
    (p : AmbientOcclusionPass) : Option AmbientOcclusionPass :=
  if IsDataValid p then none
  else if p.mAmbientAccessibilityBuffer.isSome then none
  else
    let p1 := { p with
      mAmbientAccessibilityBuffer := some created.ambientAccessibilityBuffer
      mAmbientAccessibilityBufferRenderTargetView :=
        created.ambientAccessibilityBufferRenderTargetView
      mAmbientAccessibilityBufferShaderResourceView :=
        created.ambientAccessibilityBufferShaderResourceView }
    if p1.mBlurBuffer.isSome then none
    else
      let p2 := { p1 with
        mBlurBuffer := some created.blurBuffer
        mBlurBufferRenderTargetView := created.blurBufferRenderTargetView
        mBlurBufferShaderResourceView := created.blurBufferShaderResourceView }
      let p3 := { p2 with
        mNormalRoughnessBuffer := some normalRoughnessBuffer
        mDepthBuffer := some depthStencilBuffer }
      if IsDataValid p3 then some p3 else none

/-- `AmbientOcclusionPass::RecordAndPushPrePassCommandLists` (lines 142-189). The
result is the returned count and the context after the call; the view cleared is
named by the buffer it is the render target view of. A failed `BRE_ASSERT` and a
request on an unregistered resource are `none`. -/
def RecordAndPushPrePassCommandLists (p : AmbientOcclusionPass) (ctx : PassContext) :
    Option (Nat × PassContext) :=
  if IsDataValid p = false then none
  else
    match p.mAmbientAccessibilityBuffer, p.mBlurBuffer, p.mNormalRoughnessBuffer,
        p.mDepthBuffer with
    | some ambient, some blur, some normalRoughness, some depth =>
      match
        (some (ctx.resourceStates, ([] : List ResourceBarrier))
          >>= RenderManager.transitionIfNeeded ambient D3D12_RESOURCE_STATE_RENDER_TARGET
          >>= RenderManager.transitionIfNeeded blur D3D12_RESOURCE_STATE_PIXEL_SHADER_RESOURCE
          >>= RenderManager.transitionIfNeeded normalRoughness
                D3D12_RESOURCE_STATE_PIXEL_SHADER_RESOURCE
          >>= RenderManager.transitionIfNeeded depth
                D3D12_RESOURCE_STATE_PIXEL_SHADER_RESOURCE) with
      | none => none
      | some (m, barriers) =>
        some (1,
          { resourceStates := m
            log := ctx.log ++
              [Event.ResetCommandListWithNextCommandAllocator
                 CommandListOwner.mPrePassCommandListPerFrame,
               Event.PushCommandList
                 (RenderManager.recordBarriers barriers ++
                   [Command.ClearRenderTargetView ambient, Command.Close])] })
    | _, _, _, _ => none

/-- `AmbientOcclusionPass::RecordAndPushMiddlePassCommandLists` (lines 191-227). -/
def RecordAndPushMiddlePassCommandLists (p : AmbientOcclusionPass) (ctx : PassContext) :
    Option (Nat × PassContext) :=
  if IsDataValid p = false then none
  else
    match p.mAmbientAccessibilityBuffer, p.mBlurBuffer with
    | some ambient, some blur =>
      match
        (some (ctx.resourceStates, ([] : List ResourceBarrier))
          >>= RenderManager.transitionIfNeeded ambient
                D3D12_RESOURCE_STATE_PIXEL_SHADER_RESOURCE
          >>= RenderManager.transitionIfNeeded blur D3D12_RESOURCE_STATE_RENDER_TARGET) with
      | none => none
      | some (m, barriers) =>
        some (1,
          { resourceStates := m
            log := ctx.log ++
              [Event.ResetCommandListWithNextCommandAllocator
                 CommandListOwner.mMiddlePassCommandListPerFrame,
               Event.PushCommandList
                 (RenderManager.recordBarriers barriers ++
                   [Command.ClearRenderTargetView blur, Command.Close])] })
    | _, _ => none

/-- A `RecordAndPushCommandLists` call of a recorder: its command lists are pushed
to the executor, and its count is added to the 32-bit `commandListCount`. -/
def recorderCall (output : RecorderOutput) (st : Nat × PassContext) : Nat × PassContext :=
  ((st.1 + output.count) % 2 ^ 32,
    { st.2 with log := st.2.log ++ output.pushed.map Event.PushCommandList })

/-- `AmbientOcclusionPass::Execute` (lines 110-124); `occlusion` and `blur` are what
the calls of the two recorders do. `commandListCount` is a `std::uint32_t`. -/
def Execute (p : AmbientOcclusionPass) (occlusion blur : RecorderOutput) (ctx : PassContext) :
    Option (Nat × PassContext) :=
  if IsDataValid p = false then none
  else
    match RecordAndPushPrePassCommandLists p ctx with
    | none => none
    | some (prePassCount, ctx1) =>
      let st2 := recorderCall occlusion ((0 + prePassCount) % 2 ^ 32, ctx1)
      match RecordAndPushMiddlePassCommandLists p st2.2 with
      | none => none
      | some (middlePassCount, ctx3) =>
        some (recorderCall blur ((st2.1 + middlePassCount) % 2 ^ 32, ctx3))

/-- The command lists pushed to the executor, in push order. -/
def pushedCommandLists : List Event → List (List Command)
  | [] => []
  | Event.PushCommandList commands :: rest => commands :: pushedCommandLists rest
  | _ :: rest => pushedCommandLists rest

/-- Buffers and views as one `Init` creates them, all non-null. -/
def exampleCreated : CreatedBuffers :=
  { ambientAccessibilityBuffer := Resource.other 1
    ambientAccessibilityBufferRenderTargetView := 11
    ambientAccessibilityBufferShaderResourceView := 12
    blurBuffer := Resource.other 2
    blurBufferRenderTargetView := 21
    blurBufferShaderResourceView := 22 }

/-- The pass after `Init` with the example buffers, the normal/roughness buffer at
address 3 and the depth buffer of the render manager. -/
def examplePass : AmbientOcclusionPass :=
  { mAmbientAccessibilityBuffer := some (Resource.other 1)
    mAmbientAccessibilityBufferShaderResourceView := 12
    mAmbientAccessibilityBufferRenderTargetView := 11
    mBlurBuffer := some (Resource.other 2)
    mBlurBufferShaderResourceView := 22
    mBlurBufferRenderTargetView := 21
    mNormalRoughnessBuffer := some (Resource.other 3)
    mDepthBuffer := some Resource.depthBuffer }

/-- A tracker as it is when the pass runs for the first time: both buffers of the
pass in their creation state `PIXEL_SHADER_RESOURCE`, the normal/roughness buffer
a render target of the geometry pass, the depth buffer in `DEPTH_WRITE`. -/
def exampleTracker : ResourceStateManager
  | Resource.other 1 => some D3D12_RESOURCE_STATE_PIXEL_SHADER_RESOURCE
  | Resource.other 2 => some D3D12_RESOURCE_STATE_PIXEL_SHADER_RESOURCE
  | Resource.other 3 => some D3D12_RESOURCE_STATE_RENDER_TARGET
  | Resource.depthBuffer => some D3D12_RESOURCE_STATE_DEPTH_WRITE
  | _ => none

/-- The example tracker and an empty log. -/
def exampleContext : PassContext :=
  { resourceStates := exampleTracker, log := [] }

/-- An occlusion recorder call that pushes one command list and returns 1. -/
def exampleOcclusion : RecorderOutput :=
  { count := 1, pushed := [[Command.Close]] }

/-- A blur recorder call that pushes one command list and returns 1. -/
def exampleBlur : RecorderOutput :=
  { count := 1, pushed := [[Command.Close]] }

end AmbientOcclusionPass

/-! ## Application shell -/

/-- Calls `D3DApp` makes on the command queue, the fence, the device, the timer
and the window system, logged in program order. -/
inductive AppCall where
  | Signal (value : Nat)
  | GetCompletedValue (completed : Nat)
  | CreateEventEx (eventHandle : Nat)
  | SetEventOnCompletion (value : Nat) (eventHandle : Nat)
  | WaitForSingleObject (eventHandle : Nat)
  | CloseHandle (eventHandle : Nat)
  | TimerStop
  | TimerStart
  | PostQuitMessage
  | SetMinTrackSize
  | OnMouseMove (btnState : Nat) (lParam : Nat)
  | DefWindowProc (msg : Nat) (wParam lParam : Nat)
  | GetBuffer (buffer : Nat)
  | CreateRenderTargetView (buffer : Nat) (handle : Nat)
  deriving DecidableEq, Repr

/-- The members of `D3DApp` the embedded functions read or write (D3dApp.h is not
among the sources). `mCurrentFence` is the 64-bit value passed to `Signal`;
`fenceCompletedValue` is the completed value of `mFence` as the application last
knows it; `rtvHeapStart` and `rtvHeapNumDescriptors` are the start handle and
the descriptor count of `mRtvHeap`. -/
structure D3DApp where
  mCurrentFence : Nat
  fenceCompletedValue : Nat
  mAppPaused : Bool
  mCurrBackBuffer : Nat
  mRtvDescSize : Nat
  rtvHeapStart : Nat
  rtvHeapNumDescriptors : Nat
  log : List AppCall
  deriving DecidableEq, Repr

namespace D3DApp

/-- The calls with which `FlushCommandQueue` creates the event and blocks on the completion event. -/
def waitCalls (value eventHandle : Nat) : List AppCall :=
  [AppCall.CreateEventEx eventHandle,
   AppCall.SetEventOnCompletion value eventHandle,
   AppCall.WaitForSingleObject eventHandle,
   AppCall.CloseHandle eventHandle]

/-- `D3DApp::FlushCommandQueue` (D3dApp.cpp lines 354-375). The fence is written
by the GPU: `completedAfterSignal` is what `GetCompletedValue` returns,
`eventHandle` what `CreateEventEx` returns, and `completedAtWake` the completed
value of the fence when `WaitForSingleObject` returns. A failed `ASSERT` is
`none`. -/
def FlushCommandQueue (completedAfterSignal eventHandle completedAtWake : Nat) (app : D3DApp) :
    Option D3DApp :=
  let value := (app.mCurrentFence + 1) % 2 ^ 64
  let log1 := app.log ++ [AppCall.Signal value, AppCall.GetCompletedValue completedAfterSignal]
  if completedAfterSignal < value then
    if eventHandle = 0 then none
    else
      some { app with
        mCurrentFence := value
        fenceCompletedValue := completedAtWake
        log := log1 ++ waitCalls value eventHandle }
  else
    some { app with
      mCurrentFence := value
      fenceCompletedValue := completedAfterSignal
      log := log1 }

/-- Window message `WM_DESTROY` (WinUser.h). -/
def WM_DESTROY : Nat := 0x0002

/-- Window message `WM_ACTIVATE` (WinUser.h). -/
def WM_ACTIVATE : Nat := 0x0006

/-- Window message `WM_GETMINMAXINFO` (WinUser.h). -/
def WM_GETMINMAXINFO : Nat := 0x0024

/-- Window message `WM_KEYUP` (WinUser.h). -/
def WM_KEYUP : Nat := 0x0101

/-- Window message `WM_MENUCHAR` (WinUser.h). -/
def WM_MENUCHAR : Nat := 0x0120

/-- Window message `WM_MOUSEMOVE` (WinUser.h). -/
def WM_MOUSEMOVE : Nat := 0x0200

/-- Window message `WM_ENTERSIZEMOVE` (WinUser.h). -/
def WM_ENTERSIZEMOVE : Nat := 0x0231

/-- Window message `WM_EXITSIZEMOVE` (WinUser.h). -/
def WM_EXITSIZEMOVE : Nat := 0x0232

/-- Activation state `WA_INACTIVE` (WinUser.h). -/
def WA_INACTIVE : Nat := 0

/-- Virtual key `VK_ESCAPE` (WinUser.h). -/
def VK_ESCAPE : Nat := 0x1B

/-- Menu result `MNC_CLOSE` (WinUser.h). -/
def MNC_CLOSE : Nat := 1

/-- The macro `LOWORD` (minwindef.h): the low 16 bits. -/
def LOWORD (value : Nat) : Nat :=
  value % 2 ^ 16

/-- The macro `MAKELRESULT(low, high)` (WinUser.h). -/
def MAKELRESULT (low high : Nat) : Nat :=
  (low % 2 ^ 16) + (high % 2 ^ 16) * 2 ^ 16

/-- `D3DApp::MsgProc` (D3dApp.cpp lines 182-240): the result and the application
afterwards. `defWindowProcResult` is what `DefWindowProc` returns. -/
def MsgProc (defWindowProcResult : Nat) (msg wParam lParam : Nat) (app : D3DApp) :
    Nat × D3DApp :=
  if msg = WM_ACTIVATE then
    if LOWORD wParam = WA_INACTIVE then
      (0, { app with mAppPaused := true, log := app.log ++ [AppCall.TimerStop] })
    else
      (0, { app with mAppPaused := false, log := app.log ++ [AppCall.TimerStart] })
  else if msg = WM_ENTERSIZEMOVE then
    (0, { app with mAppPaused := true, log := app.log ++ [AppCall.TimerStop] })
  else if msg = WM_EXITSIZEMOVE then
    (0, { app with mAppPaused := false, log := app.log ++ [AppCall.TimerStart] })
  else if msg = WM_DESTROY then
    (0, { app with log := app.log ++ [AppCall.PostQuitMessage] })
  else if msg = WM_MENUCHAR then
    (MAKELRESULT 0 MNC_CLOSE, app)
  else if msg = WM_GETMINMAXINFO then
    (0, { app with log := app.log ++ [AppCall.SetMinTrackSize] })
  else if msg = WM_MOUSEMOVE then
    (0, { app with log := app.log ++ [AppCall.OnMouseMove wParam lParam] })
  else if msg = WM_KEYUP then
    if wParam = VK_ESCAPE then
      (0, { app with log := app.log ++ [AppCall.PostQuitMessage] })
    else
      (0, app)
  else
    (defWindowProcResult,
      { app with log := app.log ++ [AppCall.DefWindowProc msg wParam lParam] })

/-- Whether the last call made on the timer stopped it; `none` when the timer was
neither stopped nor started. -/
def timerLastStopped : List AppCall → Option Bool
  | [] => none
  | call :: rest =>
    match timerLastStopped rest with
    | some stopped => some stopped
    | none =>
      match call with
      | AppCall.TimerStop => some true
      | AppCall.TimerStart => some false
      | _ => none

/-- Modelled from the spec: the handle arithmetic of `CD3DX12_CPU_DESCRIPTOR_HANDLE`
(DXUtils/d3dx12.h is not among the sources). The handle `offsetInDescriptors`
descriptors after `ptr` is `ptr + offsetInDescriptors * descriptorIncrementSize`;
`ptr` is a 64-bit `SIZE_T`. -/
def offsetHandle (ptr offsetInDescriptors descriptorIncrementSize : Nat) : Nat :=
  (ptr + offsetInDescriptors * descriptorIncrementSize) % 2 ^ 64

/-- `D3DApp::CreateRtvAndDsvDescriptorHeaps` (D3dApp.cpp lines 73-87), the RTV
heap: `heapStart` is the start handle of the heap the device creates for
`NumDescriptors = sSwapChainBufferCount`. -/
def CreateRtvAndDsvDescriptorHeaps (sSwapChainBufferCount heapStart : Nat) (app : D3DApp) :
    D3DApp :=
  { app with rtvHeapStart := heapStart % 2 ^ 64, rtvHeapNumDescriptors := sSwapChainBufferCount }

/-- The loop of `D3DApp::CreateRtvAndDsv` (D3dApp.cpp lines 134-139) from buffer
`i` with `remaining` iterations to go and the current `rtvHeapHandle`. -/
def createRtvLoop (mRtvDescSize : Nat) : Nat → Nat → Nat → List AppCall
  | 0, _, _ => []
  | remaining + 1, i, rtvHeapHandle =>
    [AppCall.GetBuffer i, AppCall.CreateRenderTargetView i rtvHeapHandle] ++
      createRtvLoop mRtvDescSize remaining (i + 1) (offsetHandle rtvHeapHandle 1 mRtvDescSize)

/-- `D3DApp::CreateRtvAndDsv` (D3dApp.cpp lines 130-180), the render target views;
the device and swap chain pointers of the two `ASSERT`s are not part of the
model. -/
def CreateRtvAndDsv (sSwapChainBufferCount : Nat) (app : D3DApp) : D3DApp :=
  { app with
    log := app.log ++ createRtvLoop app.mRtvDescSize sSwapChainBufferCount 0 app.rtvHeapStart }

/-- `D3DApp::CurrentBackBufferView` (D3dApp.cpp lines 381-383). -/
def CurrentBackBufferView (app : D3DApp) : Nat :=
  offsetHandle app.rtvHeapStart app.mCurrBackBuffer app.mRtvDescSize

/-- The handle at which the render target view of swap-chain buffer `buffer` was
created last, if it was created. -/
def renderTargetViewOf (buffer : Nat) : List AppCall → Option Nat
  | [] => none
  | call :: rest =>
    match renderTargetViewOf buffer rest with
    | some handle => some handle
    | none =>
      match call with
      | AppCall.CreateRenderTargetView b handle => if b = buffer then some handle else none
      | _ => none

/-- An application before its first flush: fence value 0, not paused. -/
def exampleApp : D3DApp :=
  { mCurrentFence := 0
    fenceCompletedValue := 0
    mAppPaused := false
    mCurrBackBuffer := 0
    mRtvDescSize := 32
    rtvHeapStart := 4096
    rtvHeapNumDescriptors := 3
    log := [] }

end D3DApp

/-! ## Keyboard -/

/-- The two state arrays of `Keyboard` (Keyboard.h lines 32-33): 256 bytes each,
indexed by a `std::uint8_t` key. -/
structure Keyboard where
  mCurrentState : Fin 256 → Nat
  mLastState : Fin 256 → Nat

namespace Keyboard

/-- `Keyboard::IsKeyUp`. -/
def IsKeyUp (kb : Keyboard) (key : Fin 256) : Bool :=
  (kb.mCurrentState key &&& 0x80) == 0

/-- `Keyboard::IsKeyDown`. -/
def IsKeyDown (kb : Keyboard) (key : Fin 256) : Bool :=
  (kb.mCurrentState key &&& 0x80) != 0

/-- `Keyboard::WasKeyUp`. -/
def WasKeyUp (kb : Keyboard) (key : Fin 256) : Bool :=
  (kb.mLastState key &&& 0x80) == 0

/-- `Keyboard::WasKeyDown`. -/
def WasKeyDown (kb : Keyboard) (key : Fin 256) : Bool :=
  (kb.mLastState key &&& 0x80) != 0

/-- `Keyboard::WasKeyPressedThisFrame`. -/
def WasKeyPressedThisFrame (kb : Keyboard) (key : Fin 256) : Bool :=
  IsKeyDown kb key && WasKeyUp kb key

/-- `Keyboard::WasKeyReleasedThisFrame`. -/
def WasKeyReleasedThisFrame (kb : Keyboard) (key : Fin 256) : Bool :=
  IsKeyUp kb key && WasKeyDown kb key

/-- `Keyboard::IsKeyHeldDown`. -/
def IsKeyHeldDown (kb : Keyboard) (key : Fin 256) : Bool :=
  IsKeyDown kb key && WasKeyDown kb key

/-- A keyboard on which key 17 went down in this frame and key 30 is held. -/
def exampleKeyboard : Keyboard :=
  { mCurrentState := fun key => if key.val = 17 ∨ key.val = 30 then 0x80 else 0
    mLastState := fun key => if key.val = 30 then 0x81 else 0 }

end Keyboard

/-! ## Camera update

`UpdateCameraAndFrameCBuffer` accumulates the elapsed frame time in a function-local
`static float` and compares it with the `float` `sSecondsPerFrame`. The arithmetic of
`float` is IEEE 754 binary32 with round to nearest, ties to even. A finite binary32
value is an integer multiple of `2 ^ -149`, the smallest subnormal; the model keeps
that integer, so that sums and differences of two values are exact integers before
they are rounded. -/

/-- The number of low bits a magnitude `n` (in units of `2 ^ -149`) loses when it is
cut to the 24 significant bits of binary32: 0 below `2 ^ 24` (subnormal values and
the first binade), otherwise one more than for `n / 2`. `fuel` bounds the halvings;
`n` itself is always enough. -/
def droppedBits : Nat → Nat → Nat
  | 0, _ => 0
  | fuel + 1, n => if n < 2 ^ 24 then 0 else droppedBits fuel (n / 2) + 1

/-- Round to nearest, ties to even, of `n` to a multiple of `2 ^ drop`. -/
def roundAt (drop n : Nat) : Nat :=
  if 2 * (n % 2 ^ drop) > 2 ^ drop ∨ (2 * (n % 2 ^ drop) = 2 ^ drop ∧ (n / 2 ^ drop) % 2 = 1) then
    (n / 2 ^ drop + 1) * 2 ^ drop
  else
    n / 2 ^ drop * 2 ^ drop

/-- The binary32 rounding of a magnitude given in units of `2 ^ -149`, with the
exponent range unbounded above. -/
def roundToNearestEven (n : Nat) : Nat :=
  roundAt (droppedBits n n) n

/-- A value of the C++ type `float` (IEEE 754 binary32): a finite value
`units * 2 ^ -149`, an infinity or a NaN. The sign of a zero, which no comparison
and no sum below observes, is not kept. -/
inductive Binary32 where
  | finite (units : Int)
  | posInf
  | negInf
  | nan
deriving DecidableEq

namespace Binary32

/-- The binary32 value of an exact result of `z` units: the rounded magnitude, or an
infinity when that reaches `2 ^ 128`. -/
def ofExact (z : Int) : Binary32 :=
  if roundToNearestEven z.natAbs ≥ 2 ^ 128 * 2 ^ 149 then
    (if z < 0 then negInf else posInf)
  else
    finite (if z < 0 then -(roundToNearestEven z.natAbs : Int) else roundToNearestEven z.natAbs)

/-- The operator `+` of `float`. -/
def add : Binary32 → Binary32 → Binary32
  | nan, _ => nan
  | _, nan => nan
  | posInf, negInf => nan
  | negInf, posInf => nan
  | posInf, _ => posInf
  | _, posInf => posInf
  | negInf, _ => negInf
  | _, negInf => negInf
  | finite a, finite b => ofExact (a + b)

/-- The operator `-` of `float`. -/
def sub : Binary32 → Binary32 → Binary32
  | nan, _ => nan
  | _, nan => nan
  | posInf, posInf => nan
  | negInf, negInf => nan
  | posInf, _ => posInf
  | _, negInf => posInf
  | negInf, _ => negInf
  | _, posInf => negInf
  | finite a, finite b => ofExact (a - b)

/-- The operator `>=` of `float`; false when an operand is a NaN. -/
def ge : Binary32 → Binary32 → Bool
  | nan, _ => false
  | _, nan => false
  | posInf, _ => true
  | _, negInf => true
  | negInf, _ => false
  | _, posInf => false
  | finite a, finite b => decide (a ≥ b)

end Binary32

/-- The loop `while (elapsedFrameTimeAccumulator >= sSecondsPerFrame) { ...;
elapsedFrameTimeAccumulator -= sSecondsPerFrame; }` of `UpdateCameraAndFrameCBuffer`
(RenderManager.cpp lines 36-91) on `float` values. The body updates the camera
from the keyboard and the mouse; what is kept of it is the number of times it
ran. The result is `none` when the fuel runs out. -/
def catchUpLoop (sSecondsPerFrame : Binary32) : Nat → Binary32 → Nat → Option (Binary32 × Nat)
  | 0, _, _ => none
  | fuel + 1, elapsedFrameTimeAccumulator, steps =>
    if Binary32.ge elapsedFrameTimeAccumulator sSecondsPerFrame then
      catchUpLoop sSecondsPerFrame fuel
        (Binary32.sub elapsedFrameTimeAccumulator sSecondsPerFrame) (steps + 1)
    else
      some (elapsedFrameTimeAccumulator, steps)

/-- `UpdateCameraAndFrameCBuffer` (RenderManager.cpp lines 29-92): the
function-local `static float elapsedFrameTimeAccumulator` is passed in and
returned, with the number of camera sub-steps made. `sSecondsPerFrame` is a
constant of `ApplicationSettings`, which is not among the sources. -/
def UpdateCameraAndFrameCBuffer (sSecondsPerFrame : Binary32) (fuel : Nat)
    (elapsedFrameTimeAccumulator elapsedFrameTime : Binary32) : Option (Binary32 × Nat) :=
  catchUpLoop sSecondsPerFrame fuel (Binary32.add elapsedFrameTimeAccumulator elapsedFrameTime) 0

/-- The value `1.0f / 60.0f` (bit pattern `0x3C888889`): `8947849 * 2 ^ -29`. -/
def exampleSecondsPerFrame : Binary32 := Binary32.finite (8947849 * 2 ^ 120)

namespace RenderManager

/-! ## Resource state manager: basic facts -/

theorem setState_same (m : ResourceStateManager) (r : Resource) (s : D3D12_RESOURCE_STATES) :
    ResourceStateManager.setState m r s r = some s := by
  simp [ResourceStateManager.setState]

theorem setState_other (m : ResourceStateManager) {r r1 : Resource}
    (s : D3D12_RESOURCE_STATES) (h : r1 ≠ r) :
    ResourceStateManager.setState m r s r1 = m r1 := by
  simp [ResourceStateManager.setState, h]

theorem setState_eq_self {m : ResourceStateManager} {r : Resource} {s : D3D12_RESOURCE_STATES}
    (h : m r = some s) : ResourceStateManager.setState m r s = m := by
  funext x
  by_cases hx : x = r
  · subst hx
    simp [ResourceStateManager.setState, h]
  · simp [ResourceStateManager.setState, hx]

theorem transitionIfNeeded_eq {m : ResourceStateManager} {r : Resource}
    {s : D3D12_RESOURCE_STATES} (target : D3D12_RESOURCE_STATES)
    (bs : List ResourceBarrier) (h : m r = some s) :
    transitionIfNeeded r target (m, bs) =
      some (ResourceStateManager.setState m r target,
            bs ++ (if s ≠ target then [⟨r, s, target⟩] else [])) := by
  by_cases hst : s = target
  · subst hst
    simp [transitionIfNeeded, ResourceStateManager.GetResourceState, h, setState_eq_self h]
  · simp [transitionIfNeeded, ResourceStateManager.GetResourceState,
      ResourceStateManager.ChangeResourceStateAndGetBarrier, h, hst]

theorem transitionIfNeeded_none {m : ResourceStateManager} {r : Resource}
    (target : D3D12_RESOURCE_STATES) (bs : List ResourceBarrier) (h : m r = none) :
    transitionIfNeeded r target (m, bs) = none := by
  simp [transitionIfNeeded, ResourceStateManager.GetResourceState, h]

/-- What `ExecuteBeginPass` computes when the four resources are registered. -/
theorem ExecuteBeginPass_eq (rm : RenderManager) {sb s1 s2 sd : D3D12_RESOURCE_STATES}
    (hb : rm.resourceStates rm.GetCurrentFrameBuffer = some sb)
    (h1 : rm.resourceStates Resource.intermediateColorBuffer1 = some s1)
    (h2 : rm.resourceStates Resource.intermediateColorBuffer2 = some s2)
    (hd : rm.resourceStates Resource.depthBuffer = some sd) :
    ExecuteBeginPass rm = some { rm with
      resourceStates :=
        ResourceStateManager.setState (ResourceStateManager.setState
          (ResourceStateManager.setState
            (ResourceStateManager.setState rm.resourceStates rm.GetCurrentFrameBuffer
              D3D12_RESOURCE_STATE_RENDER_TARGET)
            Resource.intermediateColorBuffer1 D3D12_RESOURCE_STATE_RENDER_TARGET)
          Resource.intermediateColorBuffer2 D3D12_RESOURCE_STATE_RENDER_TARGET)
          Resource.depthBuffer D3D12_RESOURCE_STATE_DEPTH_WRITE
      log := rm.log ++
        [Event.ResetCommandListWithNextCommandAllocator
           CommandListOwner.mBeginCommandListPerFrame,
         Event.ExecuteCommandListAndWaitForCompletion
           (recordBarriers
              ((if sb ≠ D3D12_RESOURCE_STATE_RENDER_TARGET then
                  [⟨rm.GetCurrentFrameBuffer, sb, D3D12_RESOURCE_STATE_RENDER_TARGET⟩]
                else []) ++
               (if s1 ≠ D3D12_RESOURCE_STATE_RENDER_TARGET then
                  [⟨Resource.intermediateColorBuffer1, s1, D3D12_RESOURCE_STATE_RENDER_TARGET⟩]
                else []) ++
               (if s2 ≠ D3D12_RESOURCE_STATE_RENDER_TARGET then
                  [⟨Resource.intermediateColorBuffer2, s2, D3D12_RESOURCE_STATE_RENDER_TARGET⟩]
                else []) ++
               (if sd ≠ D3D12_RESOURCE_STATE_DEPTH_WRITE then
                  [⟨Resource.depthBuffer, sd, D3D12_RESOURCE_STATE_DEPTH_WRITE⟩]
                else [])) ++
            [Command.ClearRenderTargetView rm.GetCurrentFrameBuffer,
             Command.ClearRenderTargetView Resource.intermediateColorBuffer1,
             Command.ClearRenderTargetView Resource.intermediateColorBuffer2,
             Command.ClearDepthStencilView Resource.depthBuffer,
             Command.Close])] } := by
  have e1 := transitionIfNeeded_eq D3D12_RESOURCE_STATE_RENDER_TARGET [] hb
  have h1a : ResourceStateManager.setState rm.resourceStates rm.GetCurrentFrameBuffer
      D3D12_RESOURCE_STATE_RENDER_TARGET Resource.intermediateColorBuffer1 = some s1 := by
    rw [setState_other _ _ (by simp [GetCurrentFrameBuffer])]; exact h1
  have h2a : ResourceStateManager.setState (ResourceStateManager.setState rm.resourceStates
      rm.GetCurrentFrameBuffer D3D12_RESOURCE_STATE_RENDER_TARGET)
      Resource.intermediateColorBuffer1 D3D12_RESOURCE_STATE_RENDER_TARGET
      Resource.intermediateColorBuffer2 = some s2 := by
    rw [setState_other _ _ (by simp), setState_other _ _ (by simp [GetCurrentFrameBuffer])]
    exact h2
  have hda : ResourceStateManager.setState (ResourceStateManager.setState
      (ResourceStateManager.setState rm.resourceStates
      rm.GetCurrentFrameBuffer D3D12_RESOURCE_STATE_RENDER_TARGET)
      Resource.intermediateColorBuffer1 D3D12_RESOURCE_STATE_RENDER_TARGET)
      Resource.intermediateColorBuffer2 D3D12_RESOURCE_STATE_RENDER_TARGET
      Resource.depthBuffer = some sd := by
    rw [setState_other _ _ (by simp), setState_other _ _ (by simp),
      setState_other _ _ (by simp [GetCurrentFrameBuffer])]
    exact hd
  simp only [ExecuteBeginPass, Option.some_bind, Option.bind_eq_bind, e1,
    transitionIfNeeded_eq _ _ h1a, transitionIfNeeded_eq _ _ h2a,
    transitionIfNeeded_eq _ _ hda, List.nil_append, List.append_assoc, List.cons_append]

/-- When `ExecuteBeginPass` returns, the four resources were registered. -/
theorem ExecuteBeginPass_registered (rm rm1 : RenderManager)
    (h : ExecuteBeginPass rm = some rm1) :
    ∃ sb s1 s2 sd,
      rm.resourceStates rm.GetCurrentFrameBuffer = some sb ∧
      rm.resourceStates Resource.intermediateColorBuffer1 = some s1 ∧
      rm.resourceStates Resource.intermediateColorBuffer2 = some s2 ∧
      rm.resourceStates Resource.depthBuffer = some sd := by
  cases hb : rm.resourceStates rm.GetCurrentFrameBuffer with
  | none =>
    simp [ExecuteBeginPass, transitionIfNeeded_none _ _ hb] at h
  | some sb =>
    have e1 := transitionIfNeeded_eq D3D12_RESOURCE_STATE_RENDER_TARGET [] hb
    cases h1 : rm.resourceStates Resource.intermediateColorBuffer1 with
    | none =>
      have h1a : ResourceStateManager.setState rm.resourceStates rm.GetCurrentFrameBuffer
          D3D12_RESOURCE_STATE_RENDER_TARGET Resource.intermediateColorBuffer1 = none := by
        rw [setState_other _ _ (by simp [GetCurrentFrameBuffer])]; exact h1
      simp [ExecuteBeginPass, e1, transitionIfNeeded_none _ _ h1a] at h
    | some s1 =>
      have h1a : ResourceStateManager.setState rm.resourceStates rm.GetCurrentFrameBuffer
          D3D12_RESOURCE_STATE_RENDER_TARGET Resource.intermediateColorBuffer1 = some s1 := by
        rw [setState_other _ _ (by simp [GetCurrentFrameBuffer])]; exact h1
      cases h2 : rm.resourceStates Resource.intermediateColorBuffer2 with
      | none =>
        have h2a : ResourceStateManager.setState (ResourceStateManager.setState
            rm.resourceStates rm.GetCurrentFrameBuffer D3D12_RESOURCE_STATE_RENDER_TARGET)
            Resource.intermediateColorBuffer1 D3D12_RESOURCE_STATE_RENDER_TARGET
            Resource.intermediateColorBuffer2 = none := by
          rw [setState_other _ _ (by simp),
            setState_other _ _ (by simp [GetCurrentFrameBuffer])]
          exact h2
        simp [ExecuteBeginPass, e1, transitionIfNeeded_eq _ _ h1a,
          transitionIfNeeded_none _ _ h2a] at h
      | some s2 =>
        have h2a : ResourceStateManager.setState (ResourceStateManager.setState
            rm.resourceStates rm.GetCurrentFrameBuffer D3D12_RESOURCE_STATE_RENDER_TARGET)
            Resource.intermediateColorBuffer1 D3D12_RESOURCE_STATE_RENDER_TARGET
            Resource.intermediateColorBuffer2 = some s2 := by
          rw [setState_other _ _ (by simp),
            setState_other _ _ (by simp [GetCurrentFrameBuffer])]
          exact h2
        cases hd : rm.resourceStates Resource.depthBuffer with
        | none =>
          have hda : ResourceStateManager.setState (ResourceStateManager.setState
              (ResourceStateManager.setState rm.resourceStates
              rm.GetCurrentFrameBuffer D3D12_RESOURCE_STATE_RENDER_TARGET)
              Resource.intermediateColorBuffer1 D3D12_RESOURCE_STATE_RENDER_TARGET)
              Resource.intermediateColorBuffer2 D3D12_RESOURCE_STATE_RENDER_TARGET
              Resource.depthBuffer = none := by
            rw [setState_other _ _ (by simp), setState_other _ _ (by simp),
              setState_other _ _ (by simp [GetCurrentFrameBuffer])]
            exact hd
          simp [ExecuteBeginPass, e1, transitionIfNeeded_eq _ _ h1a,
            transitionIfNeeded_eq _ _ h2a, transitionIfNeeded_none _ _ hda] at h
        | some sd => exact ⟨sb, s1, s2, sd, rfl, rfl, rfl, rfl⟩

/-- What `ExecuteFinalPass` computes when the current back buffer is registered. -/
theorem ExecuteFinalPass_eq (rm : RenderManager) {s : D3D12_RESOURCE_STATES}
    (hb : rm.resourceStates rm.GetCurrentFrameBuffer = some s) :
    ExecuteFinalPass rm = some { rm with
      resourceStates := ResourceStateManager.setState rm.resourceStates
        rm.GetCurrentFrameBuffer D3D12_RESOURCE_STATE_PRESENT
      log := rm.log ++
        (if s ≠ D3D12_RESOURCE_STATE_PRESENT then
          [Event.ResetCommandListWithNextCommandAllocator
             CommandListOwner.mFinalCommandListPerFrame,
           Event.ExecuteCommandListAndWaitForCompletion
             [Command.ResourceBarrier
                [⟨rm.GetCurrentFrameBuffer, s, D3D12_RESOURCE_STATE_PRESENT⟩],
              Command.Close]]
        else []) } := by
  by_cases hs : s = D3D12_RESOURCE_STATE_PRESENT
  · simp [ExecuteFinalPass, transitionIfNeeded_eq _ _ hb, hs]
  · simp [ExecuteFinalPass, transitionIfNeeded_eq _ _ hb, hs]

theorem recordedBarriers_append (l1 l2 : List Event) :
    recordedBarriers (l1 ++ l2) = recordedBarriers l1 ++ recordedBarriers l2 := by
  induction l1 with
  | nil => simp [recordedBarriers]
  | cons e rest ih => cases e <;> simp [recordedBarriers, ih]

theorem recordBarriers_shape (bs : List ResourceBarrier) :
    recordBarriers bs = [] ∨
      ∃ barriers, barriers ≠ [] ∧ recordBarriers bs = [Command.ResourceBarrier barriers] := by
  cases bs with
  | nil => left; simp [recordBarriers]
  | cons b rest => right; exact ⟨b :: rest, by simp, by simp [recordBarriers]⟩

theorem flatMap_recordBarriers (bs : List ResourceBarrier) :
    (recordBarriers bs).flatMap commandBarriers = bs := by
  cases bs with
  | nil => simp [recordBarriers]
  | cons b rest => simp [recordBarriers, commandBarriers]


/-! ## Begin pass and final pass -/

/-- C1: when the current back buffer, the two intermediate colour buffers and the depth
buffer are registered, `ExecuteBeginPass` returns and the barriers it records are,
in this order, one for the back buffer, intermediate 1, intermediate 2 and the depth
buffer, each present exactly when the state tracked on entry differs from the
pass-ready state (`RENDER_TARGET` for the colour buffers, `DEPTH_WRITE` for the depth
buffer), with before = the state tracked on entry and after = the pass-ready state. -/
theorem ExecuteBeginPass_barriers (rm : RenderManager) (sb s1 s2 sd : D3D12_RESOURCE_STATES)
    (hb : rm.resourceStates rm.GetCurrentFrameBuffer = some sb)
    (h1 : rm.resourceStates Resource.intermediateColorBuffer1 = some s1)
    (h2 : rm.resourceStates Resource.intermediateColorBuffer2 = some s2)
    (hd : rm.resourceStates Resource.depthBuffer = some sd) :
    ∃ rm1, ExecuteBeginPass rm = some rm1 ∧
      recordedBarriers rm1.log = recordedBarriers rm.log ++
        ((if sb ≠ D3D12_RESOURCE_STATE_RENDER_TARGET then
            [⟨rm.GetCurrentFrameBuffer, sb, D3D12_RESOURCE_STATE_RENDER_TARGET⟩]
          else []) ++
         (if s1 ≠ D3D12_RESOURCE_STATE_RENDER_TARGET then
            [⟨Resource.intermediateColorBuffer1, s1, D3D12_RESOURCE_STATE_RENDER_TARGET⟩]
          else []) ++
         (if s2 ≠ D3D12_RESOURCE_STATE_RENDER_TARGET then
            [⟨Resource.intermediateColorBuffer2, s2, D3D12_RESOURCE_STATE_RENDER_TARGET⟩]
          else []) ++
         (if sd ≠ D3D12_RESOURCE_STATE_DEPTH_WRITE then
            [⟨Resource.depthBuffer, sd, D3D12_RESOURCE_STATE_DEPTH_WRITE⟩]
          else [])) := by
  refine ⟨_, ExecuteBeginPass_eq rm hb h1 h2 hd, ?_⟩
  simp only [recordedBarriers_append, recordedBarriers, List.flatMap_append,
    flatMap_recordBarriers, List.append_nil]
  simp [List.flatMap, commandBarriers]

/-- Witness of C1: back buffer in `PRESENT`, intermediate 2 a shader resource, the other
two pass-ready: two barriers, back buffer first. -/
theorem ExecuteBeginPass_barriers_witness :
    ∃ rm1, ExecuteBeginPass exampleRenderManager = some rm1 ∧
      recordedBarriers rm1.log =
        [⟨Resource.frameBuffer 0, D3D12_RESOURCE_STATE_PRESENT,
            D3D12_RESOURCE_STATE_RENDER_TARGET⟩,
         ⟨Resource.intermediateColorBuffer2, D3D12_RESOURCE_STATE_PIXEL_SHADER_RESOURCE,
            D3D12_RESOURCE_STATE_RENDER_TARGET⟩] :=
  ExecuteBeginPass_barriers exampleRenderManager D3D12_RESOURCE_STATE_PRESENT
    D3D12_RESOURCE_STATE_RENDER_TARGET D3D12_RESOURCE_STATE_PIXEL_SHADER_RESOURCE
    D3D12_RESOURCE_STATE_DEPTH_WRITE rfl rfl rfl rfl

/-- C2: when the current back buffer, the two intermediate colour buffers and the depth
buffer are registered (they are four distinct resources), `ExecuteBeginPass` returns
and the tracker then reports `RENDER_TARGET` for the three colour buffers and
`DEPTH_WRITE` for the depth buffer. -/
theorem ExecuteBeginPass_final_states (rm : RenderManager)
    (sb s1 s2 sd : D3D12_RESOURCE_STATES)
    (hb : rm.resourceStates rm.GetCurrentFrameBuffer = some sb)
    (h1 : rm.resourceStates Resource.intermediateColorBuffer1 = some s1)
    (h2 : rm.resourceStates Resource.intermediateColorBuffer2 = some s2)
    (hd : rm.resourceStates Resource.depthBuffer = some sd) :
    rm.GetCurrentFrameBuffer ≠ Resource.intermediateColorBuffer1 ∧
    rm.GetCurrentFrameBuffer ≠ Resource.intermediateColorBuffer2 ∧
    rm.GetCurrentFrameBuffer ≠ Resource.depthBuffer ∧
    ∃ rm1, ExecuteBeginPass rm = some rm1 ∧
      rm1.GetCurrentFrameBuffer = rm.GetCurrentFrameBuffer ∧
      rm1.resourceStates rm.GetCurrentFrameBuffer = some D3D12_RESOURCE_STATE_RENDER_TARGET ∧
      rm1.resourceStates Resource.intermediateColorBuffer1
        = some D3D12_RESOURCE_STATE_RENDER_TARGET ∧
      rm1.resourceStates Resource.intermediateColorBuffer2
        = some D3D12_RESOURCE_STATE_RENDER_TARGET ∧
      rm1.resourceStates Resource.depthBuffer = some D3D12_RESOURCE_STATE_DEPTH_WRITE := by
  refine ⟨by simp [GetCurrentFrameBuffer], by simp [GetCurrentFrameBuffer],
    by simp [GetCurrentFrameBuffer], _, ExecuteBeginPass_eq rm hb h1 h2 hd, rfl, ?_, ?_, ?_, ?_⟩
  · simp [ResourceStateManager.setState, GetCurrentFrameBuffer]
  · simp [ResourceStateManager.setState]
  · simp [ResourceStateManager.setState]
  · simp [ResourceStateManager.setState]

/-- Witness of C2 on the example render manager. -/
theorem ExecuteBeginPass_final_states_witness :
    ∃ rm1, ExecuteBeginPass exampleRenderManager = some rm1 ∧
      rm1.resourceStates (Resource.frameBuffer 0) = some D3D12_RESOURCE_STATE_RENDER_TARGET ∧
      rm1.resourceStates Resource.intermediateColorBuffer2
        = some D3D12_RESOURCE_STATE_RENDER_TARGET ∧
      rm1.resourceStates Resource.depthBuffer = some D3D12_RESOURCE_STATE_DEPTH_WRITE := by
  obtain ⟨_, _, _, rm1, h, _, hb, _, h2, hd⟩ :=
    ExecuteBeginPass_final_states exampleRenderManager D3D12_RESOURCE_STATE_PRESENT
      D3D12_RESOURCE_STATE_RENDER_TARGET D3D12_RESOURCE_STATE_PIXEL_SHADER_RESOURCE
      D3D12_RESOURCE_STATE_DEPTH_WRITE rfl rfl rfl rfl
  exact ⟨rm1, h, hb, h2, hd⟩

/-- C3: for every tracker state, a call of `ExecuteBeginPass` returns exactly when the four
resources are registered, and a call that returns has acquired one command list
(one reset of the begin list), recorded into it at most one `ResourceBarrier` command
followed by exactly the three render-target clears (back buffer, intermediate 1,
intermediate 2), the depth clear and `Close`, and handed that one list to
`ExecuteCommandListAndWaitForCompletion`; the clears are the same whatever the
barriers. -/
theorem ExecuteBeginPass_commands (rm : RenderManager) :
    ((∃ sb s1 s2 sd,
        rm.resourceStates rm.GetCurrentFrameBuffer = some sb ∧
        rm.resourceStates Resource.intermediateColorBuffer1 = some s1 ∧
        rm.resourceStates Resource.intermediateColorBuffer2 = some s2 ∧
        rm.resourceStates Resource.depthBuffer = some sd) ↔
      ∃ rm1, ExecuteBeginPass rm = some rm1) ∧
    ∀ rm1, ExecuteBeginPass rm = some rm1 →
      ∃ barrierCommands : List Command,
        (barrierCommands = [] ∨
          ∃ barriers, barriers ≠ [] ∧ barrierCommands = [Command.ResourceBarrier barriers]) ∧
        rm1.log = rm.log ++
          [Event.ResetCommandListWithNextCommandAllocator
             CommandListOwner.mBeginCommandListPerFrame,
           Event.ExecuteCommandListAndWaitForCompletion
             (barrierCommands ++
               [Command.ClearRenderTargetView rm.GetCurrentFrameBuffer,
                Command.ClearRenderTargetView Resource.intermediateColorBuffer1,
                Command.ClearRenderTargetView Resource.intermediateColorBuffer2,
                Command.ClearDepthStencilView Resource.depthBuffer,
                Command.Close])] := by
  refine ⟨⟨?_, ?_⟩, ?_⟩
  · rintro ⟨sb, s1, s2, sd, hb, h1, h2, hd⟩
    exact ⟨_, ExecuteBeginPass_eq rm hb h1 h2 hd⟩
  · rintro ⟨rm1, h⟩
    exact ExecuteBeginPass_registered rm rm1 h
  · intro rm1 h
    obtain ⟨sb, s1, s2, sd, hb, h1, h2, hd⟩ := ExecuteBeginPass_registered rm rm1 h
    rw [ExecuteBeginPass_eq rm hb h1 h2 hd] at h
    injection h with h
    subst h
    exact ⟨_, recordBarriers_shape _, rfl⟩

/-- Witness of C3: the call on the example render manager returns, with one barrier
command ahead of the four clears. -/
theorem ExecuteBeginPass_commands_witness :
    ∃ rm1, ExecuteBeginPass exampleRenderManager = some rm1 ∧
      ∃ barrierCommands : List Command,
        rm1.log =
          [Event.ResetCommandListWithNextCommandAllocator
             CommandListOwner.mBeginCommandListPerFrame,
           Event.ExecuteCommandListAndWaitForCompletion
             (barrierCommands ++
               [Command.ClearRenderTargetView (Resource.frameBuffer 0),
                Command.ClearRenderTargetView Resource.intermediateColorBuffer1,
                Command.ClearRenderTargetView Resource.intermediateColorBuffer2,
                Command.ClearDepthStencilView Resource.depthBuffer,
                Command.Close])] := by
  obtain ⟨rm1, h⟩ := (ExecuteBeginPass_commands exampleRenderManager).1.1
    ⟨_, _, _, _, rfl, rfl, rfl, rfl⟩
  obtain ⟨cmds, _, hlog⟩ := (ExecuteBeginPass_commands exampleRenderManager).2 rm1 h
  exact ⟨rm1, h, cmds, hlog⟩

/-- C4: when the current back buffer is registered with state `s`, `ExecuteFinalPass`
returns; it records exactly one barrier, (back buffer, `s`, `PRESENT`), when `s` is
not `PRESENT` and no barrier when it is, and in both cases the tracker reports
`PRESENT` for the back buffer afterwards. -/
theorem ExecuteFinalPass_barrier (rm : RenderManager) (s : D3D12_RESOURCE_STATES)
    (hb : rm.resourceStates rm.GetCurrentFrameBuffer = some s) :
    ∃ rm1, ExecuteFinalPass rm = some rm1 ∧
      recordedBarriers rm1.log = recordedBarriers rm.log ++
        (if s ≠ D3D12_RESOURCE_STATE_PRESENT then
          [⟨rm.GetCurrentFrameBuffer, s, D3D12_RESOURCE_STATE_PRESENT⟩]
        else []) ∧
      rm1.GetCurrentFrameBuffer = rm.GetCurrentFrameBuffer ∧
      rm1.resourceStates rm.GetCurrentFrameBuffer = some D3D12_RESOURCE_STATE_PRESENT := by
  refine ⟨_, ExecuteFinalPass_eq rm hb, ?_, rfl, ?_⟩
  · by_cases hs : s = D3D12_RESOURCE_STATE_PRESENT
    · simp [hs]
    · simp [hs, recordedBarriers_append, recordedBarriers, commandBarriers]
  · simp [ResourceStateManager.setState]

/-- Witness of C4: a back buffer tracked as `RENDER_TARGET` gets the one barrier to
`PRESENT`. -/
theorem ExecuteFinalPass_barrier_witness :
    ∃ rm1, ExecuteFinalPass { exampleRenderManager with
        resourceStates := ResourceStateManager.setState exampleStates
          (Resource.frameBuffer 0) D3D12_RESOURCE_STATE_RENDER_TARGET } = some rm1 ∧
      recordedBarriers rm1.log =
        [⟨Resource.frameBuffer 0, D3D12_RESOURCE_STATE_RENDER_TARGET,
          D3D12_RESOURCE_STATE_PRESENT⟩] ∧
      rm1.resourceStates (Resource.frameBuffer 0) = some D3D12_RESOURCE_STATE_PRESENT := by
  obtain ⟨rm1, h, hbar, _, hst⟩ := ExecuteFinalPass_barrier
    { exampleRenderManager with
      resourceStates := ResourceStateManager.setState exampleStates
        (Resource.frameBuffer 0) D3D12_RESOURCE_STATE_RENDER_TARGET }
    D3D12_RESOURCE_STATE_RENDER_TARGET rfl
  exact ⟨rm1, h, hbar, hst⟩

/-- C5, counterexample: with the back buffer already in `PRESENT` the call of
`ExecuteFinalPass` returns without having acquired or submitted any command list;
the log is still empty. -/
theorem ExecuteFinalPass_elided_submits_nothing :
    ∃ rm1, ExecuteFinalPass exampleRenderManager = some rm1 ∧
      rm1.log = [] ∧ executedCommandLists rm1.log = [] :=
  ⟨_, ExecuteFinalPass_eq exampleRenderManager
    (show exampleRenderManager.resourceStates exampleRenderManager.GetCurrentFrameBuffer
      = some D3D12_RESOURCE_STATE_PRESENT from rfl), rfl, rfl⟩

/-- C5, amended: when the current back buffer is registered with state `s`,
`ExecuteFinalPass` submits a command list (the barrier to `PRESENT` and `Close`) to
the blocking `ExecuteCommandListAndWaitForCompletion` exactly when `s` is not
`PRESENT`; when the transition is elided it logs no call at all. -/
theorem ExecuteFinalPass_submission (rm : RenderManager) (s : D3D12_RESOURCE_STATES)
    (hb : rm.resourceStates rm.GetCurrentFrameBuffer = some s) :
    ∃ rm1, ExecuteFinalPass rm = some rm1 ∧
      (s ≠ D3D12_RESOURCE_STATE_PRESENT →
        rm1.log = rm.log ++
          [Event.ResetCommandListWithNextCommandAllocator
             CommandListOwner.mFinalCommandListPerFrame,
           Event.ExecuteCommandListAndWaitForCompletion
             [Command.ResourceBarrier
                [⟨rm.GetCurrentFrameBuffer, s, D3D12_RESOURCE_STATE_PRESENT⟩],
              Command.Close]]) ∧
      (s = D3D12_RESOURCE_STATE_PRESENT → rm1.log = rm.log) := by
  refine ⟨_, ExecuteFinalPass_eq rm hb, ?_, ?_⟩
  · intro hs
    simp [hs]
  · intro hs
    simp [hs]

/-- Witness of C5 amended: a back buffer tracked as `RENDER_TARGET` makes the final pass
submit one list. -/
theorem ExecuteFinalPass_submission_witness :
    ∃ rm1, ExecuteFinalPass { exampleRenderManager with
        resourceStates := ResourceStateManager.setState exampleStates
          (Resource.frameBuffer 0) D3D12_RESOURCE_STATE_RENDER_TARGET } = some rm1 ∧
      executedCommandLists rm1.log =
        [[Command.ResourceBarrier
            [⟨Resource.frameBuffer 0, D3D12_RESOURCE_STATE_RENDER_TARGET,
              D3D12_RESOURCE_STATE_PRESENT⟩],
          Command.Close]] := by
  obtain ⟨rm1, h, hlog, _⟩ := ExecuteFinalPass_submission
    { exampleRenderManager with
      resourceStates := ResourceStateManager.setState exampleStates
        (Resource.frameBuffer 0) D3D12_RESOURCE_STATE_RENDER_TARGET }
    D3D12_RESOURCE_STATE_RENDER_TARGET rfl
  refine ⟨rm1, h, ?_⟩
  rw [hlog (by decide)]
  rfl

/-! ## Fence values -/

theorem fenceSignals_append (l1 l2 : List Event) :
    fenceSignals (l1 ++ l2) = fenceSignals l1 ++ fenceSignals l2 := by
  induction l1 with
  | nil => simp [fenceSignals]
  | cons e rest ih => cases e <;> simp [fenceSignals, ih]

theorem applyCalls_snoc (cfg : ApplicationSettings) (rm : RenderManager)
    (calls : List FenceCall) (c : FenceCall) :
    applyCalls cfg rm (calls ++ [c]) = applyCall cfg (applyCalls cfg rm calls) c := by
  simp [applyCalls, List.foldl_append]

theorem applyCall_fenceValue (cfg : ApplicationSettings) (rm : RenderManager) (c : FenceCall) :
    (applyCall cfg rm c).mCurrentFenceValue = (rm.mCurrentFenceValue + 1) % 2 ^ 64 := by
  cases c <;>
    simp [applyCall, PresentCurrentFrameAndBeginNextFrame, FlushCommandQueue, swapChainPresent]

theorem applyCall_signalled (cfg : ApplicationSettings) (rm : RenderManager) (c : FenceCall) :
    (fenceSignals (applyCall cfg rm c).log).map Prod.fst =
      (fenceSignals rm.log).map Prod.fst ++ [(rm.mCurrentFenceValue + 1) % 2 ^ 64] := by
  cases c <;>
    simp [applyCall, PresentCurrentFrameAndBeginNextFrame, FlushCommandQueue, swapChainPresent,
      fenceSignals_append, fenceSignals]

theorem applyCalls_fenceValue (cfg : ApplicationSettings) (rm : RenderManager)
    (calls : List FenceCall) :
    (applyCalls cfg rm calls).mCurrentFenceValue
      = (rm.mCurrentFenceValue + calls.length) % 2 ^ 64 ∨
    (calls = [] ∧ (applyCalls cfg rm calls).mCurrentFenceValue = rm.mCurrentFenceValue) := by
  induction calls using List.reverseRecOn with
  | nil => right; exact ⟨rfl, rfl⟩
  | append_singleton calls c ih =>
    left
    rw [applyCalls_snoc, applyCall_fenceValue]
    rcases ih with ih | ⟨hnil, ih⟩
    · rw [ih]
      simp only [List.length_append, List.length_singleton]
      omega
    · rw [ih, hnil]
      simp

theorem applyCalls_signalled (cfg : ApplicationSettings) (rm : RenderManager)
    (calls : List FenceCall) :
    (fenceSignals (applyCalls cfg rm calls).log).map Prod.fst =
      (fenceSignals rm.log).map Prod.fst ++
        (List.range calls.length).map (fun i => (rm.mCurrentFenceValue + (i + 1)) % 2 ^ 64) := by
  induction calls using List.reverseRecOn with
  | nil => simp [applyCalls]
  | append_singleton calls c ih =>
    rw [applyCalls_snoc, applyCall_signalled, ih]
    simp only [List.length_append, List.length_singleton, List.range_succ, List.map_append,
      List.map_cons, List.map_nil, List.append_assoc, List.append_cancel_left_eq,
      List.cons.injEq, and_true]
    rcases applyCalls_fenceValue cfg rm calls with h | ⟨hnil, h⟩
    · rw [h]; omega
    · rw [h, hnil]; simp

/-- C8: for every sequence of `PresentCurrentFrameAndBeginNextFrame` and
`FlushCommandQueue` calls, the call number i (from 0) signals the fence value
`(mCurrentFenceValue + (i + 1)) mod 2 ^ 64`, one more than the call before it; in
particular from `mCurrentFenceValue = 0` the N-th call signals N.  While the 64-bit
counter does not wrap the signalled values are `mCurrentFenceValue + 1, + 2, ...`:
strictly increasing, so none is reused and none decreases. -/
theorem fence_signal_increments (cfg : ApplicationSettings) (rm : RenderManager)
    (calls : List FenceCall) :
    (fenceSignals (applyCalls cfg rm calls).log).map Prod.fst =
      (fenceSignals rm.log).map Prod.fst ++
        (List.range calls.length).map (fun i => (rm.mCurrentFenceValue + (i + 1)) % 2 ^ 64) ∧
    (rm.mCurrentFenceValue + calls.length < 2 ^ 64 →
      (fenceSignals (applyCalls cfg rm calls).log).map Prod.fst =
        (fenceSignals rm.log).map Prod.fst ++
          (List.range calls.length).map (fun i => rm.mCurrentFenceValue + (i + 1)) ∧
      List.Pairwise (fun a b => a < b)
        ((List.range calls.length).map (fun i => rm.mCurrentFenceValue + (i + 1)))) := by
  refine ⟨applyCalls_signalled cfg rm calls, fun hlt => ⟨?_, ?_⟩⟩
  · rw [applyCalls_signalled]
    congr 1
    apply List.map_congr_left
    intro i hi
    have := List.mem_range.mp hi
    exact Nat.mod_eq_of_lt (by omega)
  · rw [List.pairwise_map]
    exact (List.pairwise_lt_range _).imp (fun h => by omega)

/-- Witness of C8: from fence value 0, a present, a flush and a present signal 1, 2, 3. -/
theorem fence_signal_increments_witness :
    (fenceSignals (applyCalls exampleSettings exampleRenderManager
        [FenceCall.PresentCurrentFrameAndBeginNextFrame, FenceCall.FlushCommandQueue,
         FenceCall.PresentCurrentFrameAndBeginNextFrame]).log).map Prod.fst = [1, 2, 3] :=
  ((fence_signal_increments exampleSettings exampleRenderManager
      [FenceCall.PresentCurrentFrameAndBeginNextFrame, FenceCall.FlushCommandQueue,
       FenceCall.PresentCurrentFrameAndBeginNextFrame]).2 (by decide)).1

theorem Present_fences (cfg : ApplicationSettings) (rm : RenderManager) :
    (PresentCurrentFrameAndBeginNextFrame cfg rm).mFenceValueByQueuedFrameIndex =
      rm.mFenceValueByQueuedFrameIndex.set rm.mCurrentQueuedFrameIndex
        ((rm.mCurrentFenceValue + 1) % 2 ^ 64) := rfl

theorem Present_index (cfg : ApplicationSettings) (rm : RenderManager) :
    (PresentCurrentFrameAndBeginNextFrame cfg rm).mCurrentQueuedFrameIndex =
      (rm.mCurrentQueuedFrameIndex + 1) % cfg.sQueuedFrameCount := rfl

theorem Present_fenceValue (cfg : ApplicationSettings) (rm : RenderManager) :
    (PresentCurrentFrameAndBeginNextFrame cfg rm).mCurrentFenceValue =
      (rm.mCurrentFenceValue + 1) % 2 ^ 64 := rfl

theorem Present_log (cfg : ApplicationSettings) (rm : RenderManager) :
    (PresentCurrentFrameAndBeginNextFrame cfg rm).log =
      rm.log ++ [Event.SwapChainPresent,
        Event.SignalFenceAndWaitForCompletion ((rm.mCurrentFenceValue + 1) % 2 ^ 64)
          ((rm.mFenceValueByQueuedFrameIndex.set rm.mCurrentQueuedFrameIndex
              ((rm.mCurrentFenceValue + 1) % 2 ^ 64)).getD
            ((rm.mCurrentQueuedFrameIndex + 1) % cfg.sQueuedFrameCount) 0)] := by
  simp [PresentCurrentFrameAndBeginNextFrame, swapChainPresent]

theorem Flush_log (rm : RenderManager) :
    (FlushCommandQueue rm).log =
      rm.log ++ [Event.SignalFenceAndWaitForCompletion ((rm.mCurrentFenceValue + 1) % 2 ^ 64)
        ((rm.mCurrentFenceValue + 1) % 2 ^ 64)] := rfl

theorem applyCalls_cons (cfg : ApplicationSettings) (rm : RenderManager) (c : FenceCall)
    (calls : List FenceCall) :
    applyCalls cfg rm (c :: calls) = applyCalls cfg (applyCall cfg rm c) calls := rfl

theorem flushes_fences (cfg : ApplicationSettings) (rm : RenderManager) (m : Nat) :
    (applyCalls cfg rm (List.replicate m FenceCall.FlushCommandQueue)).mFenceValueByQueuedFrameIndex
      = rm.mFenceValueByQueuedFrameIndex := by
  induction m with
  | zero => rfl
  | succ m ih =>
    rw [List.replicate_succ', applyCalls_snoc]
    exact ih

theorem getD_mem {l : List Nat} {i : Nat} (h : i < l.length) : l.getD i 0 ∈ l := by
  rw [List.getD_eq_getElem l 0 h]
  exact List.getElem_mem h

/-- The fence bookkeeping invariant of the render manager along any sequence of
`PresentCurrentFrameAndBeginNextFrame` and `FlushCommandQueue` calls made after
`InitPasses`, while the 64-bit counter does not wrap. -/
theorem fence_invariant (cfg : ApplicationSettings) (rm0 : RenderManager)
    (calls : List FenceCall)
    (hK : 0 < cfg.sQueuedFrameCount)
    (hlen : rm0.mFenceValueByQueuedFrameIndex.length = cfg.sQueuedFrameCount)
    (hidx : rm0.mCurrentQueuedFrameIndex < cfg.sQueuedFrameCount)
    (hno : rm0.mCurrentFenceValue + calls.length < 2 ^ 64) :
    (applyCalls cfg (InitPasses rm0) calls).mFenceValueByQueuedFrameIndex.length
      = cfg.sQueuedFrameCount ∧
    (applyCalls cfg (InitPasses rm0) calls).mCurrentQueuedFrameIndex
      < cfg.sQueuedFrameCount ∧
    (applyCalls cfg (InitPasses rm0) calls).mCurrentFenceValue
      = rm0.mCurrentFenceValue + calls.length ∧
    ∃ new : List (Nat × Nat),
      fenceSignals (applyCalls cfg (InitPasses rm0) calls).log = fenceSignals rm0.log ++ new ∧
      new.length = calls.length ∧
      (∀ e ∈ (applyCalls cfg (InitPasses rm0) calls).mFenceValueByQueuedFrameIndex,
        e ≤ rm0.mCurrentFenceValue + calls.length ∧
        (e = rm0.mCurrentFenceValue ∨ ∃ q ∈ new, q.1 = e)) ∧
      (∀ p ∈ new, p.1 ≤ rm0.mCurrentFenceValue + calls.length ∧ p.2 ≤ p.1 ∧
        (p.2 = rm0.mCurrentFenceValue ∨ ∃ q ∈ new, q.1 = p.2 ∧ q.1 ≤ p.1)) := by
  induction calls using List.reverseRecOn with
  | nil =>
    refine ⟨by simp [applyCalls, InitPasses, hlen], by simpa [applyCalls, InitPasses] using hidx,
      by simp [applyCalls, InitPasses], [], by simp [applyCalls, InitPasses], rfl, ?_, ?_⟩
    · intro e he
      simp only [applyCalls, InitPasses, List.foldl_nil, List.mem_map] at he
      obtain ⟨_, _, rfl⟩ := he
      simp
    · intro p hp
      simp at hp
  | append_singleton calls c ih =>
    have hno1 : rm0.mCurrentFenceValue + calls.length < 2 ^ 64 := by
      simp only [List.length_append, List.length_singleton] at hno
      omega
    have hlt : rm0.mCurrentFenceValue + calls.length + 1 < 2 ^ 64 := by
      simp only [List.length_append, List.length_singleton] at hno
      omega
    obtain ⟨ihlen, ihidx, ihcur, new, ihsig, ihnl, ihent, ihnew⟩ := ih hno1
    have hv : ((applyCalls cfg (InitPasses rm0) calls).mCurrentFenceValue + 1) % 2 ^ 64
        = rm0.mCurrentFenceValue + calls.length + 1 := by
      rw [ihcur]; exact Nat.mod_eq_of_lt hlt
    rw [applyCalls_snoc]
    simp only [List.length_append, List.length_singleton]
    cases c with
    | FlushCommandQueue =>
      refine ⟨ihlen, ihidx, ?_, new ++ [(rm0.mCurrentFenceValue + calls.length + 1,
        rm0.mCurrentFenceValue + calls.length + 1)], ?_, by simp [ihnl], ?_, ?_⟩
      · rw [← Nat.add_assoc]; exact hv
      · show fenceSignals (FlushCommandQueue _).log = _
        rw [Flush_log, fenceSignals_append, ihsig, hv]
        simp [fenceSignals]
      · intro e he
        obtain ⟨h1, h2⟩ := ihent e he
        refine ⟨by omega, ?_⟩
        rcases h2 with h2 | ⟨q, hq, hqe⟩
        · exact Or.inl h2
        · exact Or.inr ⟨q, List.mem_append_left _ hq, hqe⟩
      · intro p hp
        rcases List.mem_append.mp hp with hp | hp
        · obtain ⟨h1, h2, h3⟩ := ihnew p hp
          refine ⟨by omega, h2, ?_⟩
          rcases h3 with h3 | ⟨q, hq, hqe, hql⟩
          · exact Or.inl h3
          · exact Or.inr ⟨q, List.mem_append_left _ hq, hqe, hql⟩
        · simp only [List.mem_singleton] at hp
          subst hp
          exact ⟨Nat.le_of_eq (Nat.add_assoc _ _ _), le_refl _,
            Or.inr ⟨_, List.mem_append_right _ (List.mem_singleton.mpr rfl), rfl, le_refl _⟩⟩
    | PresentCurrentFrameAndBeginNextFrame =>
      have hent : ∀ e ∈ ((applyCalls cfg (InitPasses rm0) calls).mFenceValueByQueuedFrameIndex.set
          (applyCalls cfg (InitPasses rm0) calls).mCurrentQueuedFrameIndex
          (rm0.mCurrentFenceValue + calls.length + 1)),
          e ≤ rm0.mCurrentFenceValue + calls.length + 1 ∧
          (e = rm0.mCurrentFenceValue ∨
            ∃ q ∈ new, q.1 = e) ∨ e = rm0.mCurrentFenceValue + calls.length + 1 := by
        intro e he
        rcases List.mem_or_eq_of_mem_set he with h | h
        · obtain ⟨h1, h2⟩ := ihent e h
          exact Or.inl ⟨by omega, h2⟩
        · exact Or.inr h
      have hidx1 : ((applyCalls cfg (InitPasses rm0) calls).mCurrentQueuedFrameIndex + 1)
          % cfg.sQueuedFrameCount <
          ((applyCalls cfg (InitPasses rm0) calls).mFenceValueByQueuedFrameIndex.set
          (applyCalls cfg (InitPasses rm0) calls).mCurrentQueuedFrameIndex
          (rm0.mCurrentFenceValue + calls.length + 1)).length := by
        rw [List.length_set, ihlen]
        exact Nat.mod_lt _ hK
      refine ⟨?_, ?_, ?_, new ++ [(rm0.mCurrentFenceValue + calls.length + 1,
        ((applyCalls cfg (InitPasses rm0) calls).mFenceValueByQueuedFrameIndex.set
          (applyCalls cfg (InitPasses rm0) calls).mCurrentQueuedFrameIndex
          (rm0.mCurrentFenceValue + calls.length + 1)).getD
          (((applyCalls cfg (InitPasses rm0) calls).mCurrentQueuedFrameIndex + 1)
            % cfg.sQueuedFrameCount) 0)], ?_, by simp [ihnl], ?_, ?_⟩
      · simp [applyCall, Present_fences, ihlen]
      · simp only [applyCall, Present_index]
        exact Nat.mod_lt _ hK
      · rw [← Nat.add_assoc]; exact hv
      · show fenceSignals (PresentCurrentFrameAndBeginNextFrame cfg _).log = _
        rw [Present_log, fenceSignals_append, ihsig, hv]
        simp [fenceSignals]
      · intro e he
        simp only [applyCall, Present_fences, hv] at he
        rcases hent e he with ⟨h1, h2⟩ | h
        · refine ⟨h1, ?_⟩
          rcases h2 with h2 | ⟨q, hq, hqe⟩
          · exact Or.inl h2
          · exact Or.inr ⟨q, List.mem_append_left _ hq, hqe⟩
        · exact ⟨by omega,
            Or.inr ⟨_, List.mem_append_right _ (List.mem_singleton.mpr rfl), h.symm⟩⟩
      · intro p hp
        rcases List.mem_append.mp hp with hp | hp
        · obtain ⟨h1, h2, h3⟩ := ihnew p hp
          refine ⟨by omega, h2, ?_⟩
          rcases h3 with h3 | ⟨q, hq, hqe, hql⟩
          · exact Or.inl h3
          · exact Or.inr ⟨q, List.mem_append_left _ hq, hqe, hql⟩
        · simp only [List.mem_singleton] at hp
          subst hp
          refine ⟨Nat.le_of_eq (Nat.add_assoc _ _ _), ?_, ?_⟩
          · rcases hent _ (getD_mem hidx1) with ⟨h1, _⟩ | h
            · exact h1
            · exact le_of_eq h
          · rcases hent _ (getD_mem hidx1) with ⟨h1, h2⟩ | h
            · rcases h2 with h2 | ⟨q, hq, hqe⟩
              · exact Or.inl h2
              · exact Or.inr ⟨q, List.mem_append_left _ hq, hqe, by rw [hqe]; exact h1⟩
            · exact Or.inr ⟨_, List.mem_append_right _ (List.mem_singleton.mpr rfl), h.symm,
                le_refl _⟩

/-- Whatever the fence counter does, a queued-frame slot holds the fence value of
`InitPasses` or a value signalled since, and so does every wait target: the value
waited for by a call was signalled by that call or an earlier one. -/
theorem wait_targets_invariant (cfg : ApplicationSettings) (rm0 : RenderManager)
    (calls : List FenceCall)
    (hK : 0 < cfg.sQueuedFrameCount)
    (hlen : rm0.mFenceValueByQueuedFrameIndex.length = cfg.sQueuedFrameCount)
    (hidx : rm0.mCurrentQueuedFrameIndex < cfg.sQueuedFrameCount) :
    (applyCalls cfg (InitPasses rm0) calls).mFenceValueByQueuedFrameIndex.length
      = cfg.sQueuedFrameCount ∧
    (applyCalls cfg (InitPasses rm0) calls).mCurrentQueuedFrameIndex
      < cfg.sQueuedFrameCount ∧
    ∃ new : List (Nat × Nat),
      fenceSignals (applyCalls cfg (InitPasses rm0) calls).log = fenceSignals rm0.log ++ new ∧
      new.length = calls.length ∧
      (∀ e ∈ (applyCalls cfg (InitPasses rm0) calls).mFenceValueByQueuedFrameIndex,
        e = rm0.mCurrentFenceValue ∨ ∃ q ∈ new, q.1 = e) ∧
      (∀ i p, new[i]? = some p →
        p.2 = rm0.mCurrentFenceValue ∨ ∃ q ∈ new.take (i + 1), q.1 = p.2) := by
  induction calls using List.reverseRecOn with
  | nil =>
    refine ⟨by simp [applyCalls, InitPasses, hlen], by simpa [applyCalls, InitPasses] using hidx,
      [], by simp [applyCalls, InitPasses], rfl, ?_, ?_⟩
    · intro e he
      simp only [applyCalls, InitPasses, List.foldl_nil, List.mem_map] at he
      obtain ⟨_, _, rfl⟩ := he
      exact Or.inl rfl
    · intro i p hp
      simp at hp
  | append_singleton calls c ih =>
    obtain ⟨ihlen, ihidx, new, ihsig, ihnl, ihent, ihpos⟩ := ih
    rw [applyCalls_snoc]
    simp only [List.length_append, List.length_singleton]
    have hstep : ∀ (p1 : Nat × Nat),
        (p1.2 = rm0.mCurrentFenceValue ∨ ∃ q ∈ new ++ [p1], q.1 = p1.2) →
        ∀ i p, (new ++ [p1])[i]? = some p →
          p.2 = rm0.mCurrentFenceValue ∨ ∃ q ∈ (new ++ [p1]).take (i + 1), q.1 = p.2 := by
      intro p1 hp1 i p hp
      rcases Nat.lt_or_ge i new.length with hi | hi
      · rw [List.getElem?_append_left hi] at hp
        rw [List.take_append_of_le_length (by omega)]
        exact ihpos i p hp
      · rw [List.getElem?_append_right hi] at hp
        have hi0 : i - new.length = 0 := by
          rcases Nat.eq_zero_or_pos (i - new.length) with h | h
          · exact h
          · rw [List.getElem?_eq_none (by simp; omega)] at hp
            exact absurd hp (by simp)
        rw [hi0] at hp
        simp only [List.getElem?_cons_zero, Option.some.injEq] at hp
        subst hp
        rw [List.take_of_length_le (by simp; omega)]
        exact hp1
    cases c with
    | FlushCommandQueue =>
      refine ⟨ihlen, ihidx, new ++ [(((applyCalls cfg (InitPasses rm0) calls).mCurrentFenceValue + 1)
          % 2 ^ 64, ((applyCalls cfg (InitPasses rm0) calls).mCurrentFenceValue + 1) % 2 ^ 64)],
        ?_, by simp [ihnl], ?_, ?_⟩
      · show fenceSignals (FlushCommandQueue _).log = _
        rw [Flush_log, fenceSignals_append, ihsig]
        simp only [fenceSignals, List.append_assoc]
      · intro e he
        rcases ihent e he with h | ⟨q, hq, hqe⟩
        · exact Or.inl h
        · exact Or.inr ⟨q, List.mem_append_left _ hq, hqe⟩
      · exact hstep _ (Or.inr ⟨_, List.mem_append_right _ (List.mem_singleton.mpr rfl), rfl⟩)
    | PresentCurrentFrameAndBeginNextFrame =>
      have hidx1 : ((applyCalls cfg (InitPasses rm0) calls).mCurrentQueuedFrameIndex + 1)
          % cfg.sQueuedFrameCount <
          ((applyCalls cfg (InitPasses rm0) calls).mFenceValueByQueuedFrameIndex.set
          (applyCalls cfg (InitPasses rm0) calls).mCurrentQueuedFrameIndex
          (((applyCalls cfg (InitPasses rm0) calls).mCurrentFenceValue + 1) % 2 ^ 64)).length := by
        rw [List.length_set, ihlen]
        exact Nat.mod_lt _ hK
      have hent : ∀ (w : Nat), ∀ e ∈
          ((applyCalls cfg (InitPasses rm0) calls).mFenceValueByQueuedFrameIndex.set
          (applyCalls cfg (InitPasses rm0) calls).mCurrentQueuedFrameIndex
          (((applyCalls cfg (InitPasses rm0) calls).mCurrentFenceValue + 1) % 2 ^ 64)),
          e = rm0.mCurrentFenceValue ∨ ∃ q ∈ new ++
            [(((applyCalls cfg (InitPasses rm0) calls).mCurrentFenceValue + 1) % 2 ^ 64, w)],
            q.1 = e := by
        intro w e he
        rcases List.mem_or_eq_of_mem_set he with h | h
        · rcases ihent e h with h | ⟨q, hq, hqe⟩
          · exact Or.inl h
          · exact Or.inr ⟨q, List.mem_append_left _ hq, hqe⟩
        · exact Or.inr ⟨_, List.mem_append_right _ (List.mem_singleton.mpr rfl), h.symm⟩
      refine ⟨?_, ?_, new ++ [(((applyCalls cfg (InitPasses rm0) calls).mCurrentFenceValue + 1)
          % 2 ^ 64,
        ((applyCalls cfg (InitPasses rm0) calls).mFenceValueByQueuedFrameIndex.set
          (applyCalls cfg (InitPasses rm0) calls).mCurrentQueuedFrameIndex
          (((applyCalls cfg (InitPasses rm0) calls).mCurrentFenceValue + 1) % 2 ^ 64)).getD
          (((applyCalls cfg (InitPasses rm0) calls).mCurrentQueuedFrameIndex + 1)
            % cfg.sQueuedFrameCount) 0)], ?_, by simp [ihnl], ?_, ?_⟩
      · show (PresentCurrentFrameAndBeginNextFrame cfg _).mFenceValueByQueuedFrameIndex.length = _
        rw [Present_fences, List.length_set, ihlen]
      · show (PresentCurrentFrameAndBeginNextFrame cfg _).mCurrentQueuedFrameIndex < _
        rw [Present_index]
        exact Nat.mod_lt _ hK
      · show fenceSignals (PresentCurrentFrameAndBeginNextFrame cfg _).log = _
        rw [Present_log, fenceSignals_append, ihsig]
        simp only [fenceSignals, List.append_assoc]
      · intro e he
        exact hent _ e he
      · exact hstep _ (hent _ _ (getD_mem hidx1))

/-- C9, counterexample: from fence value 0, one `PresentCurrentFrameAndBeginNextFrame`
(slot 0 receives 1) followed by `2 ^ 64 - 1` calls of `FlushCommandQueue` wraps the
64-bit `mCurrentFenceValue` round to 0, below the entry 1 of the slot array. -/
theorem fence_counter_wraps_below_slot :
    ∃ e ∈ (applyCalls exampleSettings (InitPasses exampleRenderManager)
        (FenceCall.PresentCurrentFrameAndBeginNextFrame ::
          List.replicate (2 ^ 64 - 1) FenceCall.FlushCommandQueue)).mFenceValueByQueuedFrameIndex,
      (applyCalls exampleSettings (InitPasses exampleRenderManager)
        (FenceCall.PresentCurrentFrameAndBeginNextFrame ::
          List.replicate (2 ^ 64 - 1) FenceCall.FlushCommandQueue)).mCurrentFenceValue < e := by
  rw [applyCalls_cons, flushes_fences]
  refine ⟨1, by decide, ?_⟩
  rcases applyCalls_fenceValue exampleSettings
    (applyCall exampleSettings (InitPasses exampleRenderManager)
      FenceCall.PresentCurrentFrameAndBeginNextFrame)
    (List.replicate (2 ^ 64 - 1) FenceCall.FlushCommandQueue) with h | ⟨h, _⟩
  · rw [h, List.length_replicate]
    decide
  · have hl := congrArg List.length h
    rw [List.length_replicate] at hl
    exact absurd hl (by decide)

/-- C9, amended: in every state reached from `InitPasses` by
`PresentCurrentFrameAndBeginNextFrame` and `FlushCommandQueue` calls (queued-frame array
of `sQueuedFrameCount >= 1` slots, index below it), the wait target of every
`SignalFenceAndWaitForCompletion` call made on the way is the fence value of
`InitPasses` or a value signalled by that call or an earlier one; and as long as the
64-bit counter has not wrapped, every entry of `mFenceValueByQueuedFrameIndex` is at
most `mCurrentFenceValue` and no wait target is greater than the value signalled in
the same call. -/
theorem wait_target_was_signalled (cfg : ApplicationSettings) (rm0 : RenderManager)
    (calls : List FenceCall)
    (hK : 0 < cfg.sQueuedFrameCount)
    (hlen : rm0.mFenceValueByQueuedFrameIndex.length = cfg.sQueuedFrameCount)
    (hidx : rm0.mCurrentQueuedFrameIndex < cfg.sQueuedFrameCount) :
    ∃ new : List (Nat × Nat),
      fenceSignals (applyCalls cfg (InitPasses rm0) calls).log = fenceSignals rm0.log ++ new ∧
      new.length = calls.length ∧
      (∀ i p, new[i]? = some p →
        p.2 = rm0.mCurrentFenceValue ∨ ∃ q ∈ new.take (i + 1), q.1 = p.2) ∧
      (rm0.mCurrentFenceValue + calls.length < 2 ^ 64 →
        (∀ e ∈ (applyCalls cfg (InitPasses rm0) calls).mFenceValueByQueuedFrameIndex,
          e ≤ (applyCalls cfg (InitPasses rm0) calls).mCurrentFenceValue) ∧
        ∀ p ∈ new, p.2 ≤ p.1) := by
  obtain ⟨_, _, new, hsig, hnl, _, hpos⟩ := wait_targets_invariant cfg rm0 calls hK hlen hidx
  refine ⟨new, hsig, hnl, hpos, fun hno => ?_⟩
  obtain ⟨_, _, hcur, new2, hsig2, _, hent, hnew⟩ :=
    fence_invariant cfg rm0 calls hK hlen hidx hno
  have hsame : new = new2 := by
    rw [hsig] at hsig2
    exact List.append_cancel_left hsig2
  subst hsame
  refine ⟨fun e he => ?_, fun p hp => (hnew p hp).2.1⟩
  rw [hcur]
  exact (hent e he).1

/-- Witness of C9 amended: three slots, a present, a flush and a present after
`InitPasses`; the slot written last holds 3, the current fence value. -/
theorem wait_target_was_signalled_witness :
    3 ∈ (applyCalls exampleSettings (InitPasses exampleRenderManager)
        [FenceCall.PresentCurrentFrameAndBeginNextFrame, FenceCall.FlushCommandQueue,
         FenceCall.PresentCurrentFrameAndBeginNextFrame]).mFenceValueByQueuedFrameIndex ∧
    3 ≤ (applyCalls exampleSettings (InitPasses exampleRenderManager)
        [FenceCall.PresentCurrentFrameAndBeginNextFrame, FenceCall.FlushCommandQueue,
         FenceCall.PresentCurrentFrameAndBeginNextFrame]).mCurrentFenceValue := by
  obtain ⟨_, _, _, _, h⟩ := wait_target_was_signalled exampleSettings exampleRenderManager
    [FenceCall.PresentCurrentFrameAndBeginNextFrame, FenceCall.FlushCommandQueue,
     FenceCall.PresentCurrentFrameAndBeginNextFrame] (by decide) rfl (by decide)
  exact ⟨by decide, (h (by decide)).1 3 (by decide)⟩

theorem ring_after_set (l : List Nat) (i v : Nat) (hi : i < l.length) :
    List.drop ((i + 1) % l.length) (l.set i v) ++ List.take ((i + 1) % l.length) (l.set i v)
      = List.drop (i + 1) l ++ List.take i l ++ [v] := by
  have hset : l.set i v = List.take i l ++ v :: List.drop (i + 1) l := by
    rw [List.set_eq_take_append_cons_drop, if_pos hi]
  have htl : (List.take i l).length = i := by
    rw [List.length_take]; omega
  rcases Nat.lt_or_ge (i + 1) l.length with h | h
  · rw [Nat.mod_eq_of_lt h, hset, List.drop_append_eq_append_drop,
      List.take_append_eq_append_take, htl]
    have hd : List.drop (i + 1) (List.take i l) = [] := by
      apply List.drop_eq_nil_of_le; omega
    have ht : List.take (i + 1) (List.take i l) = List.take i l := by
      apply List.take_of_length_le; omega
    rw [hd, ht]
    simp
  · have hlen : i + 1 = l.length := by omega
    have hd : List.drop (i + 1) l = [] := List.drop_eq_nil_of_le (by omega)
    rw [hlen, Nat.mod_self, hset, ← hlen, hd]
    simp

theorem ring_head_le (l : List Nat) (i : Nat) (hi : i < l.length)
    (hp : List.Pairwise (fun a b => a ≤ b) (List.drop i l ++ List.take i l)) :
    ∀ e ∈ l, l.getD i 0 ≤ e := by
  intro e he
  rw [List.getD_eq_getElem l 0 hi]
  rw [List.drop_eq_getElem_cons hi, List.cons_append, List.pairwise_cons] at hp
  rw [← List.take_append_drop i l, List.drop_eq_getElem_cons hi] at he
  simp only [List.mem_append, List.mem_cons] at he
  rcases he with he | he | he
  · exact hp.1 e (List.mem_append_right _ he)
  · exact le_of_eq he.symm
  · exact hp.1 e (List.mem_append_left _ he)

/-- Along `PresentCurrentFrameAndBeginNextFrame` calls the slots, read in ring order
from the current queued-frame index, hold non-decreasing fence values. -/
theorem ring_sorted (cfg : ApplicationSettings) (rm0 : RenderManager) (n : Nat)
    (hK : 0 < cfg.sQueuedFrameCount)
    (hlen : rm0.mFenceValueByQueuedFrameIndex.length = cfg.sQueuedFrameCount)
    (hidx : rm0.mCurrentQueuedFrameIndex < cfg.sQueuedFrameCount)
    (hno : rm0.mCurrentFenceValue + n < 2 ^ 64) :
    List.Pairwise (fun a b => a ≤ b)
      (List.drop
        (applyCalls cfg (InitPasses rm0)
          (List.replicate n FenceCall.PresentCurrentFrameAndBeginNextFrame)).mCurrentQueuedFrameIndex
        (applyCalls cfg (InitPasses rm0)
          (List.replicate n FenceCall.PresentCurrentFrameAndBeginNextFrame)).mFenceValueByQueuedFrameIndex
       ++ List.take
        (applyCalls cfg (InitPasses rm0)
          (List.replicate n FenceCall.PresentCurrentFrameAndBeginNextFrame)).mCurrentQueuedFrameIndex
        (applyCalls cfg (InitPasses rm0)
          (List.replicate n FenceCall.PresentCurrentFrameAndBeginNextFrame)).mFenceValueByQueuedFrameIndex) := by
  induction n with
  | zero =>
    apply List.pairwise_of_forall_mem_list
    intro a ha b hb
    have hall : ∀ x ∈ (applyCalls cfg (InitPasses rm0)
        (List.replicate 0 FenceCall.PresentCurrentFrameAndBeginNextFrame)).mFenceValueByQueuedFrameIndex,
        x = rm0.mCurrentFenceValue := by
      intro x hx
      simp only [applyCalls, InitPasses, List.replicate_zero, List.foldl_nil, List.mem_map] at hx
      obtain ⟨_, _, rfl⟩ := hx
      rfl
    have hmem : ∀ x, x ∈ List.drop
        (applyCalls cfg (InitPasses rm0)
          (List.replicate 0 FenceCall.PresentCurrentFrameAndBeginNextFrame)).mCurrentQueuedFrameIndex
        (applyCalls cfg (InitPasses rm0)
          (List.replicate 0 FenceCall.PresentCurrentFrameAndBeginNextFrame)).mFenceValueByQueuedFrameIndex
       ++ List.take
        (applyCalls cfg (InitPasses rm0)
          (List.replicate 0 FenceCall.PresentCurrentFrameAndBeginNextFrame)).mCurrentQueuedFrameIndex
        (applyCalls cfg (InitPasses rm0)
          (List.replicate 0 FenceCall.PresentCurrentFrameAndBeginNextFrame)).mFenceValueByQueuedFrameIndex →
        x = rm0.mCurrentFenceValue := by
      intro x hx
      rcases List.mem_append.mp hx with h | h
      · exact hall x (List.mem_of_mem_drop h)
      · exact hall x (List.mem_of_mem_take h)
    rw [hmem a ha, hmem b hb]
  | succ n ih =>
    have hno1 : rm0.mCurrentFenceValue + n < 2 ^ 64 := by omega
    have hno2 : rm0.mCurrentFenceValue +
        (List.replicate n FenceCall.PresentCurrentFrameAndBeginNextFrame).length < 2 ^ 64 := by
      rw [List.length_replicate]; exact hno1
    obtain ⟨ihlen, ihidx, ihcur, new, _, _, ihent, _⟩ :=
      fence_invariant cfg rm0 _ hK hlen hidx hno2
    rw [List.length_replicate] at ihcur
    have ihp := ih hno1
    have hi : (applyCalls cfg (InitPasses rm0)
        (List.replicate n FenceCall.PresentCurrentFrameAndBeginNextFrame)).mCurrentQueuedFrameIndex <
        (applyCalls cfg (InitPasses rm0)
        (List.replicate n FenceCall.PresentCurrentFrameAndBeginNextFrame)).mFenceValueByQueuedFrameIndex.length := by
      rw [ihlen]; exact ihidx
    rw [List.replicate_succ', applyCalls_snoc]
    show List.Pairwise _ (List.drop (PresentCurrentFrameAndBeginNextFrame cfg _).mCurrentQueuedFrameIndex
      (PresentCurrentFrameAndBeginNextFrame cfg _).mFenceValueByQueuedFrameIndex ++
      List.take (PresentCurrentFrameAndBeginNextFrame cfg _).mCurrentQueuedFrameIndex
      (PresentCurrentFrameAndBeginNextFrame cfg _).mFenceValueByQueuedFrameIndex)
    rw [Present_index, Present_fences, ← ihlen, ring_after_set _ _ _ hi]
    rw [List.drop_eq_getElem_cons hi, List.cons_append, List.pairwise_cons] at ihp
    rw [List.pairwise_append]
    refine ⟨ihp.2, List.pairwise_singleton _ _, ?_⟩
    intro a ha b hb
    rw [List.mem_singleton] at hb
    subst hb
    have hal : a ∈ (applyCalls cfg (InitPasses rm0)
        (List.replicate n FenceCall.PresentCurrentFrameAndBeginNextFrame)).mFenceValueByQueuedFrameIndex := by
      rcases List.mem_append.mp ha with h | h
      · exact List.mem_of_mem_drop h
      · exact List.mem_of_mem_take h
    have h1 := (ihent a hal).1
    rw [List.length_replicate] at h1
    rw [ihcur, Nat.mod_eq_of_lt (by omega)]
    omega

/-- With two slots and fence value 0 at `InitPasses`, the state after `n + 1` calls of
`PresentCurrentFrameAndBeginNextFrame`, as long as the counter has not wrapped. -/
theorem two_slot_state (n : Nat) (hn : n + 1 < 2 ^ 64) :
    (applyCalls twoSlotSettings (InitPasses twoSlotRenderManager)
      (List.replicate (n + 1) FenceCall.PresentCurrentFrameAndBeginNextFrame)).mCurrentFenceValue
      = n + 1 ∧
    (applyCalls twoSlotSettings (InitPasses twoSlotRenderManager)
      (List.replicate (n + 1)
        FenceCall.PresentCurrentFrameAndBeginNextFrame)).mCurrentQueuedFrameIndex
      = (n + 1) % 2 ∧
    (applyCalls twoSlotSettings (InitPasses twoSlotRenderManager)
      (List.replicate (n + 1)
        FenceCall.PresentCurrentFrameAndBeginNextFrame)).mFenceValueByQueuedFrameIndex
      = (if (n + 1) % 2 = 1 then [n + 1, n] else [n, n + 1]) := by
  induction n with
  | zero => decide
  | succ n ih =>
    obtain ⟨hcur, hidx, hent⟩ := ih (by omega)
    rw [List.replicate_succ', applyCalls_snoc]
    have hv : (n + 1 + 1) % 2 ^ 64 = n + 1 + 1 := Nat.mod_eq_of_lt hn
    refine ⟨?_, ?_, ?_⟩
    · show (PresentCurrentFrameAndBeginNextFrame twoSlotSettings _).mCurrentFenceValue = _
      rw [Present_fenceValue, hcur, hv]
    · show (PresentCurrentFrameAndBeginNextFrame twoSlotSettings _).mCurrentQueuedFrameIndex = _
      rw [Present_index, hidx]
      show ((n + 1) % 2 + 1) % 2 = (n + 1 + 1) % 2
      omega
    · show (PresentCurrentFrameAndBeginNextFrame twoSlotSettings
        _).mFenceValueByQueuedFrameIndex = _
      rw [Present_fences, hcur, hidx, hent, hv]
      rcases Nat.mod_two_eq_zero_or_one (n + 1) with h | h
      · have h2 : (n + 1 + 1) % 2 = 1 := by omega
        rw [h, h2]
        simp
      · have h2 : (n + 1 + 1) % 2 = 0 := by omega
        rw [h, h2]
        simp

/-- C10, counterexample: with two slots and fence value 0 at `InitPasses`, after
`2 ^ 64 - 1` calls of `PresentCurrentFrameAndBeginNextFrame` the next call signals the
wrapped value 0 and stores it in a slot, yet waits for `2 ^ 64 - 1`, which is not
the minimum of the slot array. -/
theorem oldest_fence_not_minimum_after_wrap :
    (PresentCurrentFrameAndBeginNextFrame twoSlotSettings
      (applyCalls twoSlotSettings (InitPasses twoSlotRenderManager)
        (List.replicate (2 ^ 64 - 1) FenceCall.PresentCurrentFrameAndBeginNextFrame))).log =
      (applyCalls twoSlotSettings (InitPasses twoSlotRenderManager)
        (List.replicate (2 ^ 64 - 1) FenceCall.PresentCurrentFrameAndBeginNextFrame)).log ++
        [Event.SwapChainPresent, Event.SignalFenceAndWaitForCompletion 0 (2 ^ 64 - 1)] ∧
    0 ∈ (PresentCurrentFrameAndBeginNextFrame twoSlotSettings
      (applyCalls twoSlotSettings (InitPasses twoSlotRenderManager)
        (List.replicate (2 ^ 64 - 1)
          FenceCall.PresentCurrentFrameAndBeginNextFrame))).mFenceValueByQueuedFrameIndex := by
  obtain ⟨hcur, hidx, hent⟩ := two_slot_state (2 ^ 64 - 2) (by decide)
  have hN : 2 ^ 64 - 2 + 1 = 2 ^ 64 - 1 := by decide
  rw [hN] at hcur hidx hent
  refine ⟨?_, ?_⟩
  · rw [Present_log, hcur, hidx, hent]
    congr 1
  · rw [Present_fences, hcur, hidx, hent]
    decide

/-- C10, amended: in every state reached from `InitPasses` by `n` calls of
`PresentCurrentFrameAndBeginNextFrame` (queued-frame array of `sQueuedFrameCount >= 1`
slots, index below it) and as long as the 64-bit counter does not wrap, the next call
signals `mCurrentFenceValue + 1` and passes as wait target `oldestFence` an entry of
`mFenceValueByQueuedFrameIndex` that is less than or equal to every entry of the array
as the call leaves it: the minimum, the fence value of the oldest queued-frame slot. -/
theorem oldest_fence_is_minimum (cfg : ApplicationSettings) (rm0 : RenderManager) (n : Nat)
    (hK : 0 < cfg.sQueuedFrameCount)
    (hlen : rm0.mFenceValueByQueuedFrameIndex.length = cfg.sQueuedFrameCount)
    (hidx : rm0.mCurrentQueuedFrameIndex < cfg.sQueuedFrameCount)
    (hno : rm0.mCurrentFenceValue + (n + 1) < 2 ^ 64) :
    ∃ oldestFence : Nat,
      (PresentCurrentFrameAndBeginNextFrame cfg (applyCalls cfg (InitPasses rm0)
          (List.replicate n FenceCall.PresentCurrentFrameAndBeginNextFrame))).log =
        (applyCalls cfg (InitPasses rm0)
          (List.replicate n FenceCall.PresentCurrentFrameAndBeginNextFrame)).log ++
          [Event.SwapChainPresent,
           Event.SignalFenceAndWaitForCompletion (rm0.mCurrentFenceValue + (n + 1)) oldestFence] ∧
      oldestFence ∈ (PresentCurrentFrameAndBeginNextFrame cfg (applyCalls cfg (InitPasses rm0)
          (List.replicate n FenceCall.PresentCurrentFrameAndBeginNextFrame))).mFenceValueByQueuedFrameIndex ∧
      ∀ e ∈ (PresentCurrentFrameAndBeginNextFrame cfg (applyCalls cfg (InitPasses rm0)
          (List.replicate n FenceCall.PresentCurrentFrameAndBeginNextFrame))).mFenceValueByQueuedFrameIndex,
        oldestFence ≤ e := by
  have hno1 : rm0.mCurrentFenceValue +
      (List.replicate n FenceCall.PresentCurrentFrameAndBeginNextFrame).length < 2 ^ 64 := by
    rw [List.length_replicate]; omega
  obtain ⟨ihlen, ihidx, ihcur, _⟩ := fence_invariant cfg rm0 _ hK hlen hidx hno1
  rw [List.length_replicate] at ihcur
  have hsorted := ring_sorted cfg rm0 (n + 1) hK hlen hidx hno
  rw [List.replicate_succ', applyCalls_snoc] at hsorted
  have hi : (PresentCurrentFrameAndBeginNextFrame cfg (applyCalls cfg (InitPasses rm0)
      (List.replicate n FenceCall.PresentCurrentFrameAndBeginNextFrame))).mCurrentQueuedFrameIndex <
      (PresentCurrentFrameAndBeginNextFrame cfg (applyCalls cfg (InitPasses rm0)
      (List.replicate n FenceCall.PresentCurrentFrameAndBeginNextFrame))).mFenceValueByQueuedFrameIndex.length := by
    rw [Present_index, Present_fences, List.length_set, ihlen]
    exact Nat.mod_lt _ hK
  refine ⟨(PresentCurrentFrameAndBeginNextFrame cfg (applyCalls cfg (InitPasses rm0)
      (List.replicate n FenceCall.PresentCurrentFrameAndBeginNextFrame))).mFenceValueByQueuedFrameIndex.getD
      (PresentCurrentFrameAndBeginNextFrame cfg (applyCalls cfg (InitPasses rm0)
      (List.replicate n FenceCall.PresentCurrentFrameAndBeginNextFrame))).mCurrentQueuedFrameIndex 0,
    ?_, getD_mem hi, ring_head_le _ _ hi hsorted⟩
  rw [Present_log, Present_fences, Present_index, ihcur, Nat.mod_eq_of_lt (by omega),
    Nat.add_assoc]

/-- Witness of C10 amended: three slots, the fifth present after `InitPasses`. -/
theorem oldest_fence_is_minimum_witness :
    ∃ oldestFence : Nat,
      (PresentCurrentFrameAndBeginNextFrame exampleSettings
        (applyCalls exampleSettings (InitPasses exampleRenderManager)
          (List.replicate 4 FenceCall.PresentCurrentFrameAndBeginNextFrame))).log =
        (applyCalls exampleSettings (InitPasses exampleRenderManager)
          (List.replicate 4 FenceCall.PresentCurrentFrameAndBeginNextFrame)).log ++
          [Event.SwapChainPresent, Event.SignalFenceAndWaitForCompletion 5 oldestFence] ∧
      oldestFence ∈ (PresentCurrentFrameAndBeginNextFrame exampleSettings
        (applyCalls exampleSettings (InitPasses exampleRenderManager)
          (List.replicate 4 FenceCall.PresentCurrentFrameAndBeginNextFrame))).mFenceValueByQueuedFrameIndex ∧
      ∀ e ∈ (PresentCurrentFrameAndBeginNextFrame exampleSettings
        (applyCalls exampleSettings (InitPasses exampleRenderManager)
          (List.replicate 4 FenceCall.PresentCurrentFrameAndBeginNextFrame))).mFenceValueByQueuedFrameIndex,
        oldestFence ≤ e :=
  oldest_fence_is_minimum exampleSettings exampleRenderManager 4
    (by decide) rfl (by decide) (by decide)

/-! ## The frame loop -/

theorem stageTrace_append (l1 l2 : List Event) :
    stageTrace (l1 ++ l2) = stageTrace l1 ++ stageTrace l2 := by
  induction l1 with
  | nil => simp [stageTrace]
  | cons e rest ih => cases e <;> simp [stageTrace, ih]

theorem stageTrace_pushes (lists : List (List Command)) :
    stageTrace (lists.map Event.PushCommandList) = [] := by
  induction lists with
  | nil => rfl
  | cons c rest ih => simpa [stageTrace] using ih

theorem ExecuteFinalPass_registered (rm rm1 : RenderManager)
    (h : ExecuteFinalPass rm = some rm1) :
    ∃ s, rm.resourceStates rm.GetCurrentFrameBuffer = some s := by
  cases hb : rm.resourceStates rm.GetCurrentFrameBuffer with
  | none => simp [ExecuteFinalPass, transitionIfNeeded_none _ _ hb] at h
  | some s => exact ⟨s, rfl⟩

theorem setState_isSome (m : ResourceStateManager) (r x : Resource)
    (s : D3D12_RESOURCE_STATES) (h : (m x).isSome = true) :
    (ResourceStateManager.setState m r s x).isSome = true := by
  unfold ResourceStateManager.setState
  split
  · rfl
  · exact h

/-- What a returning `ExecuteBeginPass` leaves of the state the loop depends on. -/
theorem ExecuteBeginPass_frame (rm rm1 : RenderManager) (h : ExecuteBeginPass rm = some rm1) :
    (∃ commands, rm1.log = rm.log ++
      [Event.ResetCommandListWithNextCommandAllocator CommandListOwner.mBeginCommandListPerFrame,
       Event.ExecuteCommandListAndWaitForCompletion commands]) ∧
    rm1.mTerminate = rm.mTerminate ∧
    rm1.currentBackBufferIndex = rm.currentBackBufferIndex ∧
    ∀ x, (rm.resourceStates x).isSome = true → (rm1.resourceStates x).isSome = true := by
  obtain ⟨sb, s1, s2, sd, hb, h1, h2, hd⟩ := ExecuteBeginPass_registered rm rm1 h
  rw [ExecuteBeginPass_eq rm hb h1 h2 hd] at h
  injection h with h
  subst h
  refine ⟨⟨_, rfl⟩, rfl, rfl, fun x hx => ?_⟩
  exact setState_isSome _ _ _ _ (setState_isSome _ _ _ _ (setState_isSome _ _ _ _
    (setState_isSome _ _ _ _ hx)))

/-- What a returning `ExecuteFinalPass` leaves of the state the loop depends on. -/
theorem ExecuteFinalPass_frame (rm rm1 : RenderManager) (h : ExecuteFinalPass rm = some rm1) :
    (∃ events, rm1.log = rm.log ++ events ∧ stageTrace events = []) ∧
    rm1.mTerminate = rm.mTerminate ∧
    rm1.currentBackBufferIndex = rm.currentBackBufferIndex ∧
    ∀ x, (rm.resourceStates x).isSome = true → (rm1.resourceStates x).isSome = true := by
  obtain ⟨s, hb⟩ := ExecuteFinalPass_registered rm rm1 h
  rw [ExecuteFinalPass_eq rm hb] at h
  injection h with h
  subst h
  refine ⟨⟨_, rfl, ?_⟩, rfl, rfl, fun x hx => setState_isSome _ _ _ _ hx⟩
  split <;> rfl

theorem executePass_log (passes : Passes) (stage : Stage) (frame : Nat) (rm : RenderManager) :
    stageTrace (executePass passes stage frame rm).log = stageTrace rm.log ++ [stage] := by
  simp [executePass, enterStage, stageTrace_append, stageTrace_pushes, stageTrace]

theorem terminateSeenAt_succ (requests : Nat → Nat → Bool) (initial : Bool) (k : Nat) :
    terminateSeenAt requests initial (k + 1) =
      (terminateSeenAt requests initial k || (List.range 10).any (fun j => requests k j)) := by
  simp [terminateSeenAt, List.range_succ, List.any_append, Bool.or_assoc]

/-- One iteration of the loop body that returns: the stages it entered, the flag it
leaves, and the calls the log ends with. -/
theorem executeFrame_spec (cfg : ApplicationSettings) (passes : Passes)
    (requests : Nat → Nat → Bool) (frame : Nat) (rm rm1 : RenderManager)
    (h : executeFrame cfg passes requests frame rm = some rm1) :
    stageTrace rm1.log = stageTrace rm.log ++ frameStages ∧
    rm1.mTerminate = (rm.mTerminate || (List.range 10).any (fun j => requests frame j)) ∧
    ∃ before signalled oldestFence, rm1.log = before ++
      [Event.EnterStage Stage.Present, Event.SwapChainPresent,
       Event.SignalFenceAndWaitForCompletion signalled oldestFence] := by
  unfold executeFrame at h
  cases hb : ExecuteBeginPass (enterStage Stage.BeginPass
      (observeTerminate requests frame 1 (observeTerminate requests frame 0 rm))) with
  | none => simp [hb] at h
  | some r2 =>
    simp only [hb] at h
    cases hf : ExecuteFinalPass (enterStage Stage.FinalPass
        (observeTerminate requests frame 7 (executePass passes Stage.PostProcessPass frame
        (observeTerminate requests frame 6 (executePass passes Stage.ToneMappingPass frame
        (observeTerminate requests frame 5 (executePass passes Stage.SkyBoxPass frame
        (observeTerminate requests frame 4 (executePass passes Stage.EnvironmentLightPass frame
        (observeTerminate requests frame 3 (executePass passes Stage.GeometryPass frame
        (observeTerminate requests frame 2 r2)))))))))))) with
    | none => simp [hf] at h
    | some r8 =>
      simp only [hf, Option.some.injEq] at h
      subst h
      obtain ⟨⟨cmds, hblog⟩, hbt, _, _⟩ := ExecuteBeginPass_frame _ _ hb
      obtain ⟨⟨evs, hflog, hfst⟩, hft, _, _⟩ := ExecuteFinalPass_frame _ _ hf
      refine ⟨?_, ?_, r8.log,
        (PresentCurrentFrameAndBeginNextFrame cfg (enterStage Stage.Present
          (observeTerminate requests frame 8 r8))).mCurrentFenceValue,
        (PresentCurrentFrameAndBeginNextFrame cfg (enterStage Stage.Present
          (observeTerminate requests frame 8 r8))).mFenceValueByQueuedFrameIndex.getD
          (PresentCurrentFrameAndBeginNextFrame cfg (enterStage Stage.Present
            (observeTerminate requests frame 8 r8))).mCurrentQueuedFrameIndex 0, ?_⟩
      · simp only [observeTerminate, Present_log, enterStage, stageTrace_append, hflog, hfst,
          executePass_log, hblog]
        simp [stageTrace, frameStages, executePass, enterStage, stageTrace_append,
          stageTrace_pushes]
      · simp only [observeTerminate, PresentCurrentFrameAndBeginNextFrame, swapChainPresent,
          enterStage, hft, executePass, hbt]
        simp [List.range_succ, Bool.or_assoc]
      · simp [observeTerminate, PresentCurrentFrameAndBeginNextFrame, swapChainPresent,
          enterStage]

theorem Registered_mono {cfg : ApplicationSettings} {rm rm1 : RenderManager}
    (h : Registered cfg rm)
    (hidx : rm1.currentBackBufferIndex = rm.currentBackBufferIndex)
    (hmono : ∀ x, (rm.resourceStates x).isSome = true → (rm1.resourceStates x).isSome = true) :
    Registered cfg rm1 := by
  obtain ⟨h0, hf, h1, h2, hd⟩ := h
  exact ⟨by rw [hidx]; exact h0, fun i hi => hmono _ (hf i hi), hmono _ h1, hmono _ h2,
    hmono _ hd⟩

theorem ExecuteBeginPass_runs {cfg : ApplicationSettings} {rm : RenderManager}
    (h : Registered cfg rm) : ∃ rm1, ExecuteBeginPass rm = some rm1 := by
  obtain ⟨h0, hf, h1, h2, hd⟩ := h
  obtain ⟨sb, hb⟩ := Option.isSome_iff_exists.mp (hf _ h0)
  obtain ⟨s1, h1⟩ := Option.isSome_iff_exists.mp h1
  obtain ⟨s2, h2⟩ := Option.isSome_iff_exists.mp h2
  obtain ⟨sd, hd⟩ := Option.isSome_iff_exists.mp hd
  exact ⟨_, ExecuteBeginPass_eq rm hb h1 h2 hd⟩

theorem ExecuteFinalPass_runs {cfg : ApplicationSettings} {rm : RenderManager}
    (h : Registered cfg rm) : ∃ rm1, ExecuteFinalPass rm = some rm1 := by
  obtain ⟨h0, hf, _⟩ := h
  obtain ⟨sb, hb⟩ := Option.isSome_iff_exists.mp (hf _ h0)
  exact ⟨_, ExecuteFinalPass_eq rm hb⟩

theorem executePass_registered {cfg : ApplicationSettings} {passes : Passes}
    (hkeep : KeepsRegistration passes) (stage : Stage) (frame : Nat) {rm : RenderManager}
    (h : Registered cfg rm) : Registered cfg (executePass passes stage frame rm) :=
  Registered_mono h rfl (fun x hx => hkeep _ _ _ _ x hx)

theorem observeTerminate_registered {cfg : ApplicationSettings} (requests : Nat → Nat → Bool)
    (frame statement : Nat) {rm : RenderManager} (h : Registered cfg rm) :
    Registered cfg (observeTerminate requests frame statement rm) :=
  Registered_mono h rfl (fun _ hx => hx)

theorem enterStage_registered {cfg : ApplicationSettings} (stage : Stage) {rm : RenderManager}
    (h : Registered cfg rm) : Registered cfg (enterStage stage rm) :=
  Registered_mono h rfl (fun _ hx => hx)

theorem Present_registered {cfg : ApplicationSettings} {rm : RenderManager}
    (h : Registered cfg rm) : Registered cfg (PresentCurrentFrameAndBeginNextFrame cfg rm) := by
  obtain ⟨h0, hf, h1, h2, hd⟩ := h
  exact ⟨Nat.mod_lt _ (by omega), hf, h1, h2, hd⟩

/-- With the resources registered and passes that keep them registered, an iteration of
the loop body returns and leaves them registered. -/
theorem executeFrame_runs (cfg : ApplicationSettings) (passes : Passes)
    (requests : Nat → Nat → Bool) (frame : Nat) (rm : RenderManager)
    (hreg : Registered cfg rm) (hkeep : KeepsRegistration passes) :
    ∃ rm1, executeFrame cfg passes requests frame rm = some rm1 ∧ Registered cfg rm1 := by
  have hA := enterStage_registered Stage.BeginPass
    (observeTerminate_registered requests frame 1 (observeTerminate_registered requests frame 0 hreg))
  obtain ⟨r2, hb⟩ := ExecuteBeginPass_runs hA
  obtain ⟨_, _, hbi, hbm⟩ := ExecuteBeginPass_frame _ _ hb
  have h2 : Registered cfg r2 := Registered_mono hA hbi hbm
  have hB := enterStage_registered Stage.FinalPass
    (observeTerminate_registered requests frame 7
      (executePass_registered hkeep Stage.PostProcessPass frame
    (observeTerminate_registered requests frame 6
      (executePass_registered hkeep Stage.ToneMappingPass frame
    (observeTerminate_registered requests frame 5
      (executePass_registered hkeep Stage.SkyBoxPass frame
    (observeTerminate_registered requests frame 4
      (executePass_registered hkeep Stage.EnvironmentLightPass frame
    (observeTerminate_registered requests frame 3
      (executePass_registered hkeep Stage.GeometryPass frame
    (observeTerminate_registered requests frame 2 h2)))))))))))
  obtain ⟨r8, hf⟩ := ExecuteFinalPass_runs hB
  obtain ⟨_, _, hfi, hfm⟩ := ExecuteFinalPass_frame _ _ hf
  have h8 : Registered cfg r8 := Registered_mono hB hfi hfm
  have he : executeFrame cfg passes requests frame rm = some (observeTerminate requests frame 9
      (PresentCurrentFrameAndBeginNextFrame cfg (enterStage Stage.Present
        (observeTerminate requests frame 8 r8)))) := by
    simp only [executeFrame, hb, hf]
  exact ⟨_, he, observeTerminate_registered requests frame 9
    (Present_registered (enterStage_registered Stage.Present
      (observeTerminate_registered requests frame 8 h8)))⟩

/-- A loop run that returns made a whole number of iterations, up to the first
iteration at whose top the flag is seen. -/
theorem executeLoop_sound (cfg : ApplicationSettings) (passes : Passes)
    (requests : Nat → Nat → Bool) (initial : Bool) :
    ∀ (fuel frame : Nat) (rm rm1 : RenderManager),
      rm.mTerminate = terminateSeenAt requests initial frame →
      executeLoop cfg passes requests fuel frame rm = some rm1 →
      ∃ n, frame ≤ n ∧ terminateSeenAt requests initial n = true ∧
        (∀ k, frame ≤ k → k < n → terminateSeenAt requests initial k = false) ∧
        stageTrace rm1.log
          = stageTrace rm.log ++ (List.replicate (n - frame) frameStages).flatten ∧
        (n = frame → rm1 = rm) ∧
        (frame < n → ∃ before signalled oldestFence, rm1.log = before ++
          [Event.EnterStage Stage.Present, Event.SwapChainPresent,
           Event.SignalFenceAndWaitForCompletion signalled oldestFence]) := by
  intro fuel
  induction fuel with
  | zero =>
    intro frame rm rm1 _ h
    simp [executeLoop] at h
  | succ fuel ih =>
    intro frame rm rm1 hinv h
    unfold executeLoop at h
    by_cases ht : rm.mTerminate = true
    · simp only [ht, if_true, Option.some.injEq] at h
      subst h
      refine ⟨frame, le_refl _, by rw [← hinv]; exact ht, fun k h1 h2 => by omega, by simp,
        fun _ => rfl, fun h => by omega⟩
    · simp only [ht, Bool.false_eq_true, if_false] at h
      cases hf : executeFrame cfg passes requests frame rm with
      | none => simp [hf] at h
      | some rmf =>
        simp only [hf] at h
        obtain ⟨hst, hterm, hlast⟩ := executeFrame_spec cfg passes requests frame rm rmf hf
        have hinv1 : rmf.mTerminate = terminateSeenAt requests initial (frame + 1) := by
          rw [hterm, terminateSeenAt_succ, hinv]
        obtain ⟨n, hn, hseen, hbefore, htrace, hsame, hend⟩ := ih (frame + 1) rmf rm1 hinv1 h
        refine ⟨n, by omega, hseen, ?_, ?_, fun h => by omega, fun _ => ?_⟩
        · intro k hk1 hk2
          rcases Nat.eq_or_lt_of_le hk1 with hk | hk
          · rw [← hk, ← hinv]
            simpa using ht
          · exact hbefore k hk hk2
        · have hsub : n - frame = (n - (frame + 1)) + 1 := by omega
          rw [htrace, hst, hsub, List.replicate_succ, List.flatten_cons, List.append_assoc]
        · rcases Nat.eq_or_lt_of_le hn with hk | hk
          · rw [hsame hk.symm]
            exact hlast
          · exact hend hk

/-- With the resources registered and passes that keep them registered, the loop returns
once the fuel exceeds the number of iterations before the flag is seen. -/
theorem executeLoop_runs (cfg : ApplicationSettings) (passes : Passes)
    (requests : Nat → Nat → Bool) (initial : Bool) (hkeep : KeepsRegistration passes) (n : Nat)
    (hseen : terminateSeenAt requests initial n = true) :
    ∀ (fuel frame : Nat) (rm : RenderManager),
      Registered cfg rm →
      rm.mTerminate = terminateSeenAt requests initial frame →
      frame ≤ n → n - frame < fuel →
      ∃ rm1, executeLoop cfg passes requests fuel frame rm = some rm1 := by
  intro fuel
  induction fuel with
  | zero => intro frame rm _ _ _ h; omega
  | succ fuel ih =>
    intro frame rm hreg hinv hle hfuel
    unfold executeLoop
    by_cases ht : rm.mTerminate = true
    · exact ⟨rm, by simp [ht]⟩
    · simp only [ht, Bool.false_eq_true, if_false]
      obtain ⟨rmf, hf, hregf⟩ := executeFrame_runs cfg passes requests frame rm hreg hkeep
      obtain ⟨_, hterm, _⟩ := executeFrame_spec cfg passes requests frame rm rmf hf
      have hinv1 : rmf.mTerminate = terminateSeenAt requests initial (frame + 1) := by
        rw [hterm, terminateSeenAt_succ, hinv]
      have hne : frame ≠ n := by
        intro h
        rw [h] at hinv
        rw [hinv] at ht
        exact ht hseen
      simp only [hf]
      exact ih (frame + 1) rmf hregf hinv1 (by omega) (by omega)

theorem terminateSeenAt_zero (requests : Nat → Nat → Bool) (initial : Bool) :
    terminateSeenAt requests initial 0 = initial := by
  simp [terminateSeenAt]

theorem stageTrace_afterLoop (rm : RenderManager) :
    stageTrace (afterLoop rm).log = stageTrace rm.log := by
  simp [afterLoop, FlushCommandQueue, stageTrace_append, stageTrace]

theorem execute_eq_some (cfg : ApplicationSettings) (passes : Passes)
    (requests : Nat → Nat → Bool) (fuel : Nat) (rm rm1 : RenderManager)
    (h : execute cfg passes requests fuel rm = some rm1) :
    ∃ rmLoop, executeLoop cfg passes requests fuel 0 rm = some rmLoop ∧
      rm1 = afterLoop rmLoop := by
  unfold execute at h
  cases hl : executeLoop cfg passes requests fuel 0 rm with
  | none => simp [hl] at h
  | some rmLoop =>
    simp only [hl, Option.some.injEq] at h
    exact ⟨rmLoop, rfl, h.symm⟩

/-- C6: every run of `RenderManager::execute` that returns has made n loop iterations,
n being the first iteration at whose top `mTerminate` is seen set, and its sequence
of stage events is exactly n repetitions of BeginPass, GeometryPass,
EnvironmentLightPass, SkyBoxPass, ToneMappingPass, PostProcessPass, FinalPass,
Present; and when the resources of the loop are registered and the passes keep them
registered, for every n such a run of n iterations exists (any fuel above n). -/
theorem execute_stage_sequence (cfg : ApplicationSettings) (passes : Passes)
    (requests : Nat → Nat → Bool) (rm : RenderManager) :
    (∀ fuel rm1, execute cfg passes requests fuel rm = some rm1 →
      ∃ n, terminateSeenAt requests rm.mTerminate n = true ∧
        (∀ k, k < n → terminateSeenAt requests rm.mTerminate k = false) ∧
        stageTrace rm1.log = stageTrace rm.log ++ (List.replicate n frameStages).flatten) ∧
    (Registered cfg rm → KeepsRegistration passes →
      ∀ n, terminateSeenAt requests rm.mTerminate n = true →
        (∀ k, k < n → terminateSeenAt requests rm.mTerminate k = false) →
        ∀ fuel, n < fuel →
          ∃ rm1, execute cfg passes requests fuel rm = some rm1 ∧
            stageTrace rm1.log
              = stageTrace rm.log ++ (List.replicate n frameStages).flatten) := by
  have hsound : ∀ fuel rm1, execute cfg passes requests fuel rm = some rm1 →
      ∃ n, terminateSeenAt requests rm.mTerminate n = true ∧
        (∀ k, k < n → terminateSeenAt requests rm.mTerminate k = false) ∧
        stageTrace rm1.log = stageTrace rm.log ++ (List.replicate n frameStages).flatten := by
    intro fuel rm1 h
    obtain ⟨rmLoop, hl, rfl⟩ := execute_eq_some cfg passes requests fuel rm rm1 h
    obtain ⟨n, _, hseen, hbefore, htrace, _, _⟩ :=
      executeLoop_sound cfg passes requests rm.mTerminate fuel 0 rm rmLoop
        (terminateSeenAt_zero _ _).symm hl
    exact ⟨n, hseen, fun k hk => hbefore k (Nat.zero_le _) hk,
      by rw [stageTrace_afterLoop, htrace, Nat.sub_zero]⟩
  refine ⟨hsound, fun hreg hkeep n hseen hbefore fuel hfuel => ?_⟩
  obtain ⟨rmLoop, hl⟩ := executeLoop_runs cfg passes requests rm.mTerminate hkeep n hseen
    fuel 0 rm hreg (terminateSeenAt_zero _ _).symm (Nat.zero_le _) (by omega)
  have he : execute cfg passes requests fuel rm = some (afterLoop rmLoop) := by
    simp only [execute, hl]
  obtain ⟨m, hm, hmb, hmt⟩ := hsound fuel _ he
  have hmn : m = n := by
    rcases Nat.lt_trichotomy m n with h | h | h
    · rw [hbefore m h] at hm; exact absurd hm (by simp)
    · exact h
    · rw [hmb n h] at hseen; exact absurd hseen (by simp)
  exact ⟨_, he, by rw [hmt, hmn]⟩

/-- Witness of C6: `Terminate` called during frame 1 gives a run of two iterations. -/
theorem execute_stage_sequence_witness :
    ∃ rm1, execute exampleSettings noopPasses exampleRequests 5 exampleRenderManager = some rm1 ∧
      stageTrace rm1.log = stageTrace exampleRenderManager.log ++
        (List.replicate 2 frameStages).flatten :=
  (execute_stage_sequence exampleSettings noopPasses exampleRequests exampleRenderManager).2
    ⟨by decide, fun i hi => by
      have hi3 : i < 3 := hi
      simp [exampleRenderManager, exampleStates, hi3], rfl, rfl, rfl⟩
    (fun _ _ _ _ _ h => h) 2 (by decide)
    (fun k hk => by interval_cases k <;> decide) 5 (by decide)

/-- C7: when `Terminate` sets the flag during any statement `j` of frame `i` (and not
before), every run of `RenderManager::execute` that returns has completed frame `i`
through FinalPass and Present and started no further frame (its stage sequence is
exactly `i + 1` whole iterations), and after the last Present it has made exactly
the calls `CommandListExecutor::Terminate` and one `SignalFenceAndWaitForCompletion`
whose wait target equals the value it signals; and with the resources of the loop
registered and passes that keep them registered the run does return (any fuel above
`i + 1`). -/
theorem terminate_during_frame (cfg : ApplicationSettings) (passes : Passes)
    (requests : Nat → Nat → Bool) (rm : RenderManager) (i j : Nat)
    (hj : j < 10) (hreq : requests i j = true)
    (hinit : rm.mTerminate = false)
    (hbefore : ∀ i1 j1, i1 < i → j1 < 10 → requests i1 j1 = false) :
    (∀ fuel rm1, execute cfg passes requests fuel rm = some rm1 →
      ∃ before signalled oldestFence drained,
        rm1.log = before ++
          [Event.EnterStage Stage.Present, Event.SwapChainPresent,
           Event.SignalFenceAndWaitForCompletion signalled oldestFence] ++
          [Event.ExecutorTerminate, Event.SignalFenceAndWaitForCompletion drained drained] ∧
        stageTrace rm1.log
          = stageTrace rm.log ++ (List.replicate (i + 1) frameStages).flatten) ∧
    (Registered cfg rm → KeepsRegistration passes → ∀ fuel, i + 1 < fuel →
      ∃ rm1, execute cfg passes requests fuel rm = some rm1) := by
  have hfalse : ∀ k, k ≤ i → terminateSeenAt requests rm.mTerminate k = false := by
    intro k hk
    simp only [terminateSeenAt, hinit, Bool.false_or, List.any_eq_false, List.mem_range,
      Bool.not_eq_true]
    intro x hx y hy
    exact hbefore x y (by omega) hy
  have hseen : terminateSeenAt requests rm.mTerminate (i + 1) = true := by
    rw [terminateSeenAt_succ, hfalse i (le_refl _), Bool.false_or, List.any_eq_true]
    exact ⟨j, List.mem_range.mpr hj, hreq⟩
  refine ⟨fun fuel rm1 h => ?_, fun hreg hkeep fuel hfuel => ?_⟩
  · obtain ⟨rmLoop, hl, rfl⟩ := execute_eq_some cfg passes requests fuel rm rm1 h
    obtain ⟨n, _, hn, hnb, htrace, _, hend⟩ :=
      executeLoop_sound cfg passes requests rm.mTerminate fuel 0 rm rmLoop
        (terminateSeenAt_zero _ _).symm hl
    have hni : n = i + 1 := by
      rcases Nat.lt_trichotomy n (i + 1) with h | h | h
      · rw [hfalse n (by omega)] at hn; exact absurd hn (by simp)
      · exact h
      · rw [hnb (i + 1) (Nat.zero_le _) h] at hseen; exact absurd hseen (by simp)
    obtain ⟨before, signalled, oldestFence, hlast⟩ := hend (by omega)
    refine ⟨before, signalled, oldestFence, (rmLoop.mCurrentFenceValue + 1) % 2 ^ 64, ?_, ?_⟩
    · rw [← hlast]
      simp [afterLoop, FlushCommandQueue]
    · rw [stageTrace_afterLoop, htrace, hni, Nat.sub_zero]
  · obtain ⟨rmLoop, hl⟩ := executeLoop_runs cfg passes requests rm.mTerminate hkeep (i + 1)
      hseen fuel 0 rm hreg (terminateSeenAt_zero _ _).symm (Nat.zero_le _) (by omega)
    exact ⟨afterLoop rmLoop, by simp only [execute, hl]⟩

/-- Witness of C7: `Terminate` called during the environment-light pass of frame 1; the
run returns and its stage sequence is two whole iterations. -/
theorem terminate_during_frame_witness :
    ∃ rm1, execute exampleSettings noopPasses exampleRequests 3 exampleRenderManager = some rm1 ∧
      ∃ before signalled oldestFence drained,
        rm1.log = before ++
          [Event.EnterStage Stage.Present, Event.SwapChainPresent,
           Event.SignalFenceAndWaitForCompletion signalled oldestFence] ++
          [Event.ExecutorTerminate, Event.SignalFenceAndWaitForCompletion drained drained] ∧
        stageTrace rm1.log = stageTrace exampleRenderManager.log ++
          (List.replicate (1 + 1) frameStages).flatten := by
  have h := terminate_during_frame exampleSettings noopPasses exampleRequests
    exampleRenderManager 1 4 (by decide) rfl rfl
    (fun i1 j1 h1 _ => by simp [exampleRequests]; omega)
  obtain ⟨rm1, hrun⟩ := h.2
    ⟨by decide, fun i hi => by
      have hi3 : i < 3 := hi
      simp [exampleRenderManager, exampleStates, hi3], rfl, rfl, rfl⟩
    (fun _ _ _ _ _ h => h) 3 (by decide)
  exact ⟨rm1, hrun, h.1 3 rm1 hrun⟩

/-! ## The queued-frame window -/

theorem afterPresents_succ (cfg : ApplicationSettings) (rm0 : RenderManager) (n : Nat) :
    afterPresents cfg rm0 (n + 1)
      = PresentCurrentFrameAndBeginNextFrame cfg (afterPresents cfg rm0 n) := by
  unfold afterPresents
  rw [List.replicate_succ', applyCalls_snoc]
  rfl

theorem afterPresents_next_value (cfg : ApplicationSettings) (rm0 : RenderManager) (n : Nat) :
    ((afterPresents cfg rm0 n).mCurrentFenceValue + 1) % 2 ^ 64
      = (rm0.mCurrentFenceValue + (n + 1)) % 2 ^ 64 := by
  rcases applyCalls_fenceValue cfg (InitPasses rm0)
    (List.replicate n FenceCall.PresentCurrentFrameAndBeginNextFrame) with h | ⟨_, h⟩
  · unfold afterPresents
    rw [h, List.length_replicate]
    show ((rm0.mCurrentFenceValue + n) % 2 ^ 64 + 1) % 2 ^ 64 = _
    omega
  · have hn : n = 0 := by
      rename_i h0
      have := congrArg List.length h0
      simpa using this
    subst hn
    rfl

theorem afterPresents_value (cfg : ApplicationSettings) (rm0 : RenderManager) (n : Nat) :
    (afterPresents cfg rm0 (n + 1)).mCurrentFenceValue
      = (rm0.mCurrentFenceValue + (n + 1)) % 2 ^ 64 := by
  rw [afterPresents_succ, Present_fenceValue, afterPresents_next_value]

theorem ring_head (l : List Nat) (i : Nat) (hi : i < l.length) :
    (List.drop i l ++ List.take i l)[0]? = some (l.getD i 0) := by
  rw [List.drop_eq_getElem_cons hi, List.getD_eq_getElem l 0 hi, List.cons_append,
    List.getElem?_cons_zero]

theorem ring_step (l : List Nat) (i v : Nat) (hi : i < l.length) :
    List.drop ((i + 1) % l.length) (l.set i v) ++ List.take ((i + 1) % l.length) (l.set i v)
      = (List.drop i l ++ List.take i l).tail ++ [v] := by
  rw [ring_after_set l i v hi, List.drop_eq_getElem_cons hi]
  rfl

/-- Read in ring order from the current queued-frame index, the slots are the last
`sQueuedFrameCount` entries of the initial fence value repeated `sQueuedFrameCount`
times followed by the values signalled so far: a sliding window. -/
theorem ring_window (cfg : ApplicationSettings) (rm0 : RenderManager) (n : Nat)
    (hK : 0 < cfg.sQueuedFrameCount)
    (hlen : rm0.mFenceValueByQueuedFrameIndex.length = cfg.sQueuedFrameCount)
    (hidx : rm0.mCurrentQueuedFrameIndex < cfg.sQueuedFrameCount) :
    (afterPresents cfg rm0 n).mFenceValueByQueuedFrameIndex.length = cfg.sQueuedFrameCount ∧
    (afterPresents cfg rm0 n).mCurrentQueuedFrameIndex < cfg.sQueuedFrameCount ∧
    List.drop (afterPresents cfg rm0 n).mCurrentQueuedFrameIndex
        (afterPresents cfg rm0 n).mFenceValueByQueuedFrameIndex ++
      List.take (afterPresents cfg rm0 n).mCurrentQueuedFrameIndex
        (afterPresents cfg rm0 n).mFenceValueByQueuedFrameIndex
      = List.drop n (List.replicate cfg.sQueuedFrameCount rm0.mCurrentFenceValue ++
          (List.range n).map (fun t => (rm0.mCurrentFenceValue + (t + 1)) % 2 ^ 64)) := by
  induction n with
  | zero =>
    have harr : (afterPresents cfg rm0 0).mFenceValueByQueuedFrameIndex
        = List.replicate cfg.sQueuedFrameCount rm0.mCurrentFenceValue := by
      show rm0.mFenceValueByQueuedFrameIndex.map (fun _ => rm0.mCurrentFenceValue) = _
      rw [← hlen]
      exact List.map_const' _ _
    refine ⟨by rw [harr, List.length_replicate], hidx, ?_⟩
    rw [harr]
    have hi0 : (afterPresents cfg rm0 0).mCurrentQueuedFrameIndex
        = rm0.mCurrentQueuedFrameIndex := rfl
    rw [hi0]
    simp only [List.range_zero, List.map_nil, List.append_nil, List.drop_zero,
      List.drop_replicate, List.take_replicate, List.append_replicate_replicate]
    congr 1
    omega
  | succ n ih =>
    obtain ⟨ihlen, ihidx, ihring⟩ := ih
    have hi : (afterPresents cfg rm0 n).mCurrentQueuedFrameIndex
        < (afterPresents cfg rm0 n).mFenceValueByQueuedFrameIndex.length := by
      rw [ihlen]; exact ihidx
    rw [afterPresents_succ, Present_fences, Present_index]
    refine ⟨by rw [List.length_set, ihlen], Nat.mod_lt _ hK, ?_⟩
    have hstep := ring_step (afterPresents cfg rm0 n).mFenceValueByQueuedFrameIndex
      (afterPresents cfg rm0 n).mCurrentQueuedFrameIndex
      (((afterPresents cfg rm0 n).mCurrentFenceValue + 1) % 2 ^ 64) hi
    rw [ihlen] at hstep
    have hdrop : List.drop (n + 1)
        ((List.replicate cfg.sQueuedFrameCount rm0.mCurrentFenceValue ++
          (List.range n).map (fun t => (rm0.mCurrentFenceValue + (t + 1)) % 2 ^ 64)) ++
          [(rm0.mCurrentFenceValue + (n + 1)) % 2 ^ 64])
        = List.drop (n + 1)
          (List.replicate cfg.sQueuedFrameCount rm0.mCurrentFenceValue ++
            (List.range n).map (fun t => (rm0.mCurrentFenceValue + (t + 1)) % 2 ^ 64)) ++
          [(rm0.mCurrentFenceValue + (n + 1)) % 2 ^ 64] :=
      List.drop_append_of_le_length (by simp; omega)
    rw [hstep, ihring, afterPresents_next_value, List.range_succ, List.map_append,
      List.map_singleton, ← List.append_assoc, hdrop, List.tail_drop]

theorem window_entry (K f0 n : Nat) (hK : 0 < K) :
    (List.drop (n + 1) (List.replicate K f0 ++
      (List.range (n + 1)).map (fun t => (f0 + (t + 1)) % 2 ^ 64)))[0]?
      = some (if n + 1 < K then f0 else (f0 + (n + 1 - K + 1)) % 2 ^ 64) := by
  rw [List.getElem?_drop, Nat.add_zero]
  by_cases h : n + 1 < K
  · rw [if_pos h, List.getElem?_append_left (by simpa using h)]
    simp [h]
  · rw [if_neg h, List.getElem?_append_right (by simp; omega), List.length_replicate]
    have hlt : n + 1 - K < n + 1 := by omega
    simp [List.getElem?_range, hlt]

/-- The call number `n + 1` of `PresentCurrentFrameAndBeginNextFrame` after `InitPasses`:
the value it signals and the value it waits for, in 64-bit arithmetic. -/
theorem present_signal_and_wait (cfg : ApplicationSettings) (rm0 : RenderManager) (n : Nat)
    (hK : 0 < cfg.sQueuedFrameCount)
    (hlen : rm0.mFenceValueByQueuedFrameIndex.length = cfg.sQueuedFrameCount)
    (hidx : rm0.mCurrentQueuedFrameIndex < cfg.sQueuedFrameCount) :
    (afterPresents cfg rm0 (n + 1)).log = (afterPresents cfg rm0 n).log ++
      [Event.SwapChainPresent,
       Event.SignalFenceAndWaitForCompletion ((rm0.mCurrentFenceValue + (n + 1)) % 2 ^ 64)
         (if n + 1 < cfg.sQueuedFrameCount then rm0.mCurrentFenceValue
          else (rm0.mCurrentFenceValue + (n + 1 - cfg.sQueuedFrameCount + 1)) % 2 ^ 64)] := by
  obtain ⟨hl1, hi1, hring⟩ := ring_window cfg rm0 (n + 1) hK hlen hidx
  have hhead := ring_head (afterPresents cfg rm0 (n + 1)).mFenceValueByQueuedFrameIndex
    (afterPresents cfg rm0 (n + 1)).mCurrentQueuedFrameIndex (by rw [hl1]; exact hi1)
  rw [hring, window_entry _ _ _ hK, Option.some.injEq] at hhead
  rw [hhead]
  conv_lhs => rw [afterPresents_succ, Present_log, afterPresents_next_value]
  rw [afterPresents_succ, Present_fences, Present_index, afterPresents_next_value]

/-- C11, counterexample: with three slots and fence value 0 at `InitPasses`, the call
number `2 ^ 64` of `PresentCurrentFrameAndBeginNextFrame` signals the wrapped value 0,
not `0 + 2 ^ 64`, and waits for `2 ^ 64 - 2`. -/
theorem present_signal_wraps :
    (afterPresents exampleSettings exampleRenderManager (2 ^ 64 - 1 + 1)).log =
      (afterPresents exampleSettings exampleRenderManager (2 ^ 64 - 1)).log ++
        [Event.SwapChainPresent, Event.SignalFenceAndWaitForCompletion 0 (2 ^ 64 - 2)] := by
  rw [present_signal_and_wait exampleSettings exampleRenderManager (2 ^ 64 - 1)
    (by decide) rfl (by decide)]
  congr 1

/-- C11, amended: with `sQueuedFrameCount = K >= 1` slots all initialised by `InitPasses`
to the fence value `f0`, the call number `n + 1` of
`PresentCurrentFrameAndBeginNextFrame` signals `(f0 + (n + 1)) mod 2 ^ 64` and waits
for `f0` when `n + 1 < K` and for `(f0 + (n + 1) - K + 1) mod 2 ^ 64` when
`n + 1 >= K`; as long as the 64-bit counter has not wrapped these are `f0 + (n + 1)`
and `f0 + (n + 1) - K + 1`, so fewer than `K` signalled fence values lie above the
value waited for when the next frame starts recording. -/
theorem nth_present_signal_and_wait (cfg : ApplicationSettings) (rm0 : RenderManager)
    (n : Nat)
    (hK : 0 < cfg.sQueuedFrameCount)
    (hlen : rm0.mFenceValueByQueuedFrameIndex.length = cfg.sQueuedFrameCount)
    (hidx : rm0.mCurrentQueuedFrameIndex < cfg.sQueuedFrameCount) :
    (afterPresents cfg rm0 (n + 1)).log = (afterPresents cfg rm0 n).log ++
      [Event.SwapChainPresent,
       Event.SignalFenceAndWaitForCompletion ((rm0.mCurrentFenceValue + (n + 1)) % 2 ^ 64)
         (if n + 1 < cfg.sQueuedFrameCount then rm0.mCurrentFenceValue
          else (rm0.mCurrentFenceValue + (n + 1 - cfg.sQueuedFrameCount + 1)) % 2 ^ 64)] ∧
    (rm0.mCurrentFenceValue + (n + 1) < 2 ^ 64 →
      ∃ signalled waitTarget,
        (afterPresents cfg rm0 (n + 1)).log = (afterPresents cfg rm0 n).log ++
          [Event.SwapChainPresent,
           Event.SignalFenceAndWaitForCompletion signalled waitTarget] ∧
        signalled = rm0.mCurrentFenceValue + (n + 1) ∧
        waitTarget = (if n + 1 < cfg.sQueuedFrameCount then rm0.mCurrentFenceValue
          else rm0.mCurrentFenceValue + (n + 1) - cfg.sQueuedFrameCount + 1) ∧
        signalled < waitTarget + cfg.sQueuedFrameCount) := by
  refine ⟨present_signal_and_wait cfg rm0 n hK hlen hidx, fun hno => ?_⟩
  refine ⟨_, _, present_signal_and_wait cfg rm0 n hK hlen hidx, Nat.mod_eq_of_lt hno, ?_, ?_⟩
  · by_cases h : n + 1 < cfg.sQueuedFrameCount
    · simp [h]
    · simp only [h, if_false]
      rw [Nat.mod_eq_of_lt (by omega)]
      omega
  · rw [Nat.mod_eq_of_lt hno]
    by_cases h : n + 1 < cfg.sQueuedFrameCount
    · simp only [h, if_true]
      omega
    · simp only [h, if_false]
      rw [Nat.mod_eq_of_lt (by omega)]
      omega

/-- Witness of C11 amended: three slots, fence value 0: the fifth call signals 5 and
waits for 3. -/
theorem nth_present_signal_and_wait_witness :
    (afterPresents exampleSettings exampleRenderManager (4 + 1)).log =
      (afterPresents exampleSettings exampleRenderManager 4).log ++
        [Event.SwapChainPresent, Event.SignalFenceAndWaitForCompletion 5 3] :=
  (nth_present_signal_and_wait exampleSettings exampleRenderManager 4
    (by decide) rfl (by decide)).1

theorem mod_ne_of_between (K d m : Nat) (h1 : d < m) (h2 : m < K + d) : m % K ≠ d % K := by
  intro h
  have hz : (m - d) % K = 0 := Nat.sub_mod_eq_zero_of_mod_eq h
  have hdvd : K ∣ m - d := Nat.dvd_of_mod_eq_zero hz
  have hle : K ≤ m - d := Nat.le_of_dvd (by omega) hdvd
  omega

/-- C12: frames are numbered from 1; a recorder invoked once per frame makes its call
number `n - 1` (from 0) in frame `n`, and it cycles through `K = sQueuedFrameCount`
allocators (`slotOfCall m = m mod K`, what `BasicCmdListRecorder` does).  For every
frame `n > K`: the allocator reset in frame `n` was last used in frame `n - K` and by
no frame in between, and the most recent bounded wait, made by the
`PresentCurrentFrameAndBeginNextFrame` that ended frame `n - 1`, had as wait target
exactly the fence value signalled at the end of frame `n - K`, so a wait target
greater than or equal to it. -/
theorem allocator_reset_after_fence (cfg : ApplicationSettings) (rm0 : RenderManager)
    (slotOfCall : Nat → Nat)
    (hcycle : ∀ m, slotOfCall m = m % cfg.sQueuedFrameCount)
    (hK : 0 < cfg.sQueuedFrameCount)
    (hlen : rm0.mFenceValueByQueuedFrameIndex.length = cfg.sQueuedFrameCount)
    (hidx : rm0.mCurrentQueuedFrameIndex < cfg.sQueuedFrameCount)
    (n : Nat) (hn : cfg.sQueuedFrameCount < n) :
    slotOfCall (n - cfg.sQueuedFrameCount - 1) = slotOfCall (n - 1) ∧
    (∀ m, n - cfg.sQueuedFrameCount - 1 < m → m < n - 1 → slotOfCall m ≠ slotOfCall (n - 1)) ∧
    ∃ signalled waitTarget,
      (afterPresents cfg rm0 (n - 1)).log = (afterPresents cfg rm0 (n - 2)).log ++
        [Event.SwapChainPresent,
         Event.SignalFenceAndWaitForCompletion signalled waitTarget] ∧
      waitTarget = (afterPresents cfg rm0 (n - cfg.sQueuedFrameCount)).mCurrentFenceValue ∧
      (afterPresents cfg rm0 (n - cfg.sQueuedFrameCount)).mCurrentFenceValue ≤ waitTarget := by
  obtain ⟨d, hd⟩ : ∃ d, n = cfg.sQueuedFrameCount + d + 1 := ⟨n - cfg.sQueuedFrameCount - 1, by omega⟩
  have e1 : n - cfg.sQueuedFrameCount - 1 = d := by omega
  have e2 : n - 1 = cfg.sQueuedFrameCount + d := by omega
  have e3 : n - 2 = cfg.sQueuedFrameCount + d - 1 := by omega
  have e4 : n - cfg.sQueuedFrameCount = d + 1 := by omega
  have e5 : cfg.sQueuedFrameCount + d = (cfg.sQueuedFrameCount + d - 1) + 1 := by omega
  rw [e1, e2, e3, e4]
  refine ⟨?_, ?_, ?_⟩
  · rw [hcycle, hcycle, Nat.add_mod_left]
  · intro m h1 h2
    rw [hcycle, hcycle, Nat.add_mod_left]
    exact mod_ne_of_between _ _ _ h1 h2
  · have hlog := present_signal_and_wait cfg rm0 (cfg.sQueuedFrameCount + d - 1) hK hlen hidx
    rw [← e5] at hlog
    have hw : (if cfg.sQueuedFrameCount + d < cfg.sQueuedFrameCount then rm0.mCurrentFenceValue
        else (rm0.mCurrentFenceValue + (cfg.sQueuedFrameCount + d - cfg.sQueuedFrameCount + 1))
          % 2 ^ 64) = (afterPresents cfg rm0 (d + 1)).mCurrentFenceValue := by
      rw [if_neg (by omega), afterPresents_value, Nat.add_sub_cancel_left]
    rw [hw] at hlog
    exact ⟨_, _, hlog, rfl, le_refl _⟩

/-- Witness of C12: three queued frames, frame 5: the allocator of slot 1 was last used
in frame 2, and the wait that ended frame 4 had the fence value of frame 2 as target. -/
theorem allocator_reset_after_fence_witness :
    (4 % 3 = 1 % 3) ∧
    ∃ signalled waitTarget,
      (afterPresents exampleSettings exampleRenderManager (5 - 1)).log =
        (afterPresents exampleSettings exampleRenderManager (5 - 2)).log ++
          [Event.SwapChainPresent,
           Event.SignalFenceAndWaitForCompletion signalled waitTarget] ∧
      waitTarget = (afterPresents exampleSettings exampleRenderManager (5 - 3)).mCurrentFenceValue := by
  obtain ⟨h1, _, s, w, hlog, hw, _⟩ := allocator_reset_after_fence exampleSettings
    exampleRenderManager (fun m => m % 3) (fun _ => rfl) (by decide) rfl (by decide) 5 (by decide)
  exact ⟨h1.symm, s, w, hlog, hw⟩

end RenderManager

/-! ## Command list recorders: allocator slots -/

namespace BasicCmdListRecorder

theorem allocatorSlots_append (xs ys : List RecorderCall) :
    allocatorSlots (xs ++ ys) = allocatorSlots xs ++ allocatorSlots ys := by
  simp [allocatorSlots, List.filterMap_append]

theorem allocatorSlots_drawInstances (indexCount inc count objectHandle materialsHandle : Nat) :
    allocatorSlots (drawInstances indexCount inc count objectHandle materialsHandle).1 = [] := by
  induction count generalizing objectHandle materialsHandle with
  | zero => rfl
  | succ count ih =>
    have h := ih ((objectHandle + inc) % 2 ^ 64) ((materialsHandle + inc) % 2 ^ 64)
    simp only [drawInstances, allocatorSlots_append, h]
    rfl

theorem allocatorSlots_drawObjects (worldMatrices : List (List Unit)) (inc : Nat)
    (geometry : List VertexAndIndexBufferData) (i objectHandle materialsHandle : Nat)
    (calls : List RecorderCall)
    (h : drawObjects worldMatrices inc i geometry objectHandle materialsHandle = some calls) :
    allocatorSlots calls = [] := by
  induction geometry generalizing i objectHandle materialsHandle calls with
  | nil =>
    simp only [drawObjects, Option.some.injEq] at h
    subst h
    rfl
  | cons g rest ih =>
    simp only [drawObjects] at h
    cases hw : worldMatrices[i]? with
    | none => simp [hw] at h
    | some ws =>
      simp only [hw] at h
      cases hd : drawObjects worldMatrices inc (i + 1) rest
          (drawInstances g.mCount inc ws.length objectHandle materialsHandle).2.1
          (drawInstances g.mCount inc ws.length objectHandle materialsHandle).2.2 with
      | none => simp [hd] at h
      | some tailCalls =>
        simp only [hd, Option.some.injEq] at h
        subst h
        simp only [allocatorSlots_append, allocatorSlots_drawInstances, ih _ _ _ _ hd]
        rfl

/-- A returning call was made with a frame index below `K`, resets exactly the
allocator of that slot, and advances the index by one modulo `K`. -/
theorem RecordCommandLists_some {K : Nat} (env : RecorderEnvironment K) (a b : Nat)
    (r r1 : BasicCmdListRecorder K) (h : RecordCommandLists env a b r = some r1) :
    r.mCurrFrameIndex < K ∧
    r1.mCurrFrameIndex = (r.mCurrFrameIndex + 1) % K ∧
    queuedSlots r1 = queuedSlots r ++ [r.mCurrFrameIndex] := by
  unfold RecordCommandLists at h
  split at h
  · exact absurd h (by simp)
  split at h
  · exact absurd h (by simp)
  split at h
  · exact absurd h (by simp)
  split at h
  · rename_i hK
    simp only at h
    split at h
    · exact absurd h (by simp)
    split at h
    · exact absurd h (by simp)
    · rename_i draws hd
      simp only [Option.some.injEq] at h
      subst h
      refine ⟨hK, rfl, ?_⟩
      have hdraws := allocatorSlots_drawObjects _ _ _ _ _ _ _ hd
      simp only [queuedSlots, List.flatMap_append, List.flatMap_cons, List.flatMap_nil,
        allocatorSlots_append, hdraws, List.append_nil]
      rfl
  · exact absurd h (by simp)

theorem range_shift (K i n : Nat) :
    [i % K] ++ (List.range n).map (fun m => ((i + 1) % K + m) % K) =
      (List.range (n + 1)).map (fun m => (i + m) % K) := by
  rw [List.range_succ_eq_map]
  simp only [List.map_cons, List.map_map, Nat.add_zero, List.singleton_append, List.cons.injEq,
    true_and]
  apply List.map_congr_left
  intro m _
  simp only [Function.comp, Nat.mod_add_mod]
  congr 1
  omega

/-- The slots used by a returning sequence of calls, from any starting index. -/
theorem recordCalls_slots {K : Nat} (env : RecorderEnvironment K) (args : List (Nat × Nat))
    (r r1 : BasicCmdListRecorder K) (h : recordCalls env args r = some r1) :
    queuedSlots r1 = queuedSlots r ++
      (List.range args.length).map (fun m => (r.mCurrFrameIndex + m) % K) := by
  induction args generalizing r with
  | nil =>
    simp only [recordCalls, Option.some.injEq] at h
    subst h
    simp
  | cons a rest ih =>
    simp only [recordCalls] at h
    cases hc : RecordCommandLists env a.1 a.2 r with
    | none => simp [hc] at h
    | some r2 =>
      simp only [hc] at h
      obtain ⟨hK, hidx, hq⟩ := RecordCommandLists_some env a.1 a.2 r r2 hc
      rw [ih r2 h, hq, hidx, List.append_assoc, List.length_cons, ← range_shift,
        Nat.mod_eq_of_lt hK]

theorem drawObjects_isSome (worldMatrices : List (List Unit)) (inc : Nat)
    (geometry : List VertexAndIndexBufferData) (i objectHandle materialsHandle : Nat)
    (h : i + geometry.length ≤ worldMatrices.length) :
    ∃ calls, drawObjects worldMatrices inc i geometry objectHandle materialsHandle = some calls := by
  induction geometry generalizing i objectHandle materialsHandle with
  | nil => exact ⟨[], rfl⟩
  | cons g rest ih =>
    have hi : i < worldMatrices.length := by
      simp only [List.length_cons] at h
      omega
    have hrest : i + 1 + rest.length ≤ worldMatrices.length := by
      simp only [List.length_cons] at h
      omega
    obtain ⟨calls, hcalls⟩ := ih (i + 1)
      (drawInstances g.mCount inc worldMatrices[i].length objectHandle materialsHandle).2.1
      (drawInstances g.mCount inc worldMatrices[i].length objectHandle materialsHandle).2.2 hrest
    simp only [drawObjects, List.getElem?_eq_getElem hi, hcalls]
    exact ⟨_, rfl⟩

theorem ValidateData_lengths {K : Nat} (env : RecorderEnvironment K) (r : BasicCmdListRecorder K)
    (h : ValidateData env r = true) :
    r.mVertexAndIndexBufferDataVec.length = r.mWorldMatrices.length := by
  unfold ValidateData at h
  split at h
  · exact absurd h (by simp)
  split at h
  · exact absurd h (by simp)
  simp only [Bool.and_eq_true, beq_iff_eq] at h
  exact h.1.1.2

/-- A call on valid data with non-null arguments, an index below `K` and a
non-null allocator in that slot returns, and writes only the queue and the index. -/
theorem RecordCommandLists_runs {K : Nat} (env : RecorderEnvironment K) (a b : Nat)
    (r : BasicCmdListRecorder K) (hv : ValidateData env r = true) (ha : a ≠ 0) (hb : b ≠ 0)
    (hK : r.mCurrFrameIndex < K) (halloc : ∀ i, r.mCmdAlloc i ≠ 0) :
    ∃ calls, RecordCommandLists env a b r =
      some { r with
        mCmdListQueue := r.mCmdListQueue ++ [calls]
        mCurrFrameIndex := (r.mCurrFrameIndex + 1) % K } := by
  obtain ⟨draws, hdraws⟩ := drawObjects_isSome r.mWorldMatrices env.descHandleIncSize
    r.mVertexAndIndexBufferDataVec 0 r.mObjectCBufferGpuDescHandleBegin
    r.mMaterialsCBufferGpuDescHandleBegin (by rw [ValidateData_lengths env r hv]; omega)
  simp only [RecordCommandLists, hv, ha, hb, hK, halloc, hdraws, Bool.true_eq_false, if_false,
    dite_true]
  exact ⟨_, rfl⟩

theorem ValidateData_after_call {K : Nat} (env : RecorderEnvironment K)
    (r : BasicCmdListRecorder K) (queue : List (List RecorderCall)) (index : Nat)
    (hbase : ∀ r1, env.baseValidateData r1 = true) (hv : ValidateData env r = true) :
    ValidateData env { r with mCmdListQueue := queue, mCurrFrameIndex := index } = true := by
  simp only [ValidateData, hbase] at hv ⊢
  exact hv

theorem recordCalls_runs {K : Nat} (env : RecorderEnvironment K) (args : List (Nat × Nat))
    (r : BasicCmdListRecorder K) (hbase : ∀ r1, env.baseValidateData r1 = true)
    (hv : ValidateData env r = true) (hK : r.mCurrFrameIndex < K)
    (halloc : ∀ i, r.mCmdAlloc i ≠ 0) (hargs : ∀ a ∈ args, a.1 ≠ 0 ∧ a.2 ≠ 0) :
    ∃ r1, recordCalls env args r = some r1 := by
  induction args generalizing r with
  | nil => exact ⟨r, rfl⟩
  | cons a rest ih =>
    have ha := hargs a (List.mem_cons_self a rest)
    obtain ⟨calls, hcall⟩ := RecordCommandLists_runs env a.1 a.2 r hv ha.1 ha.2 hK halloc
    have hpos : 0 < K := Nat.lt_of_le_of_lt (Nat.zero_le _) hK
    obtain ⟨r1, hr1⟩ := ih _
      (ValidateData_after_call env r (r.mCmdListQueue ++ [calls]) ((r.mCurrFrameIndex + 1) % K)
        hbase hv)
      (Nat.mod_lt _ hpos) halloc (fun x hx => hargs x (List.mem_cons_of_mem a hx))
    exact ⟨r1, by simp only [recordCalls, hcall, hr1]⟩

theorem recordCalls_index_lt {K : Nat} (env : RecorderEnvironment K) (args : List (Nat × Nat))
    (r r1 : BasicCmdListRecorder K) (h : recordCalls env args r = some r1)
    (hargs : 0 < args.length) : r.mCurrFrameIndex < K := by
  cases args with
  | nil => simp at hargs
  | cons a rest =>
    simp only [recordCalls] at h
    cases hc : RecordCommandLists env a.1 a.2 r with
    | none => simp [hc] at h
    | some r2 => exact (RecordCommandLists_some env a.1 a.2 r r2 hc).1

theorem getElem?_map_range (K n len : Nat) (h : n < len) :
    ((List.range len).map (fun m => m % K))[n]? = some (n % K) := by
  simp [List.getElem?_map, List.getElem?_range h]

/-- C13: on a recorder whose frame index is the initial 0, every returning
sequence of `RecordCommandLists` calls resets, in call number `n` (from 0), the
allocator slot `n % K`; the slot is below `K`, the slot of call 0 is used again
by call `K` (the `K+1`-th) and by no call in between. Such a sequence returns
whenever the data is valid, the allocators and the arguments are non-null and
`K` is positive. -/
theorem RecordCommandLists_slot_cycle {K : Nat} (env : RecorderEnvironment K)
    (r : BasicCmdListRecorder K) (args : List (Nat × Nat)) (hfresh : r.mCurrFrameIndex = 0) :
    (∀ r1, recordCalls env args r = some r1 →
      queuedSlots r1 = queuedSlots r ++ (List.range args.length).map (fun n => n % K) ∧
      (∀ n, n < args.length →
        ((queuedSlots r1).drop (queuedSlots r).length)[n]? = some (n % K) ∧ n % K < K) ∧
      (K < args.length →
        ((queuedSlots r1).drop (queuedSlots r).length)[K]? =
          ((queuedSlots r1).drop (queuedSlots r).length)[0]?) ∧
      (∀ m, 0 < m → m < K → m < args.length →
        ((queuedSlots r1).drop (queuedSlots r).length)[m]? ≠
          ((queuedSlots r1).drop (queuedSlots r).length)[0]?)) ∧
    ((∀ r1, env.baseValidateData r1 = true) → ValidateData env r = true → 0 < K →
      (∀ i, r.mCmdAlloc i ≠ 0) → (∀ a ∈ args, a.1 ≠ 0 ∧ a.2 ≠ 0) →
      ∃ r1, recordCalls env args r = some r1) := by
  constructor
  · intro r1 h
    have hslots := recordCalls_slots env args r r1 h
    simp only [hfresh, Nat.zero_add] at hslots
    have hdrop : (queuedSlots r1).drop (queuedSlots r).length =
        (List.range args.length).map (fun n => n % K) := by
      rw [hslots, List.drop_left]
    rw [hdrop]
    refine ⟨hslots, ?_, ?_, ?_⟩
    · intro n hn
      have hK : 0 < K := by
        have := recordCalls_index_lt env args r r1 h (by omega)
        omega
      exact ⟨getElem?_map_range K n _ hn, Nat.mod_lt _ hK⟩
    · intro hK
      rw [getElem?_map_range K K _ hK, getElem?_map_range K 0 _ (by omega)]
      simp
    · intro m hm hmK hlen
      rw [getElem?_map_range K m _ hlen, getElem?_map_range K 0 _ (by omega),
        Nat.mod_eq_of_lt hmK, Nat.zero_mod]
      intro heq
      simp only [Option.some.injEq] at heq
      omega
  · intro hbase hv hK halloc hargs
    exact recordCalls_runs env args r hbase hv (by omega) halloc hargs

theorem RecordCommandLists_slot_cycle_witness :
    ∃ r1, recordCalls exampleEnvironment [(1, 1), (1, 1), (1, 1), (1, 1)] exampleRecorder =
        some r1 ∧
      queuedSlots r1 = [0, 1, 2, 0] := by
  have h := RecordCommandLists_slot_cycle exampleEnvironment exampleRecorder
    [(1, 1), (1, 1), (1, 1), (1, 1)] rfl
  obtain ⟨r1, hr1⟩ := h.2 (fun _ => rfl) (by decide) (by decide)
    (by intro i; simp [exampleRecorder]) (by decide)
  exact ⟨r1, hr1, (h.1 r1 hr1).1⟩

end BasicCmdListRecorder

namespace BlurCmdListRecorder

/-- C14: with `K = 2` and two initialised instances recording in the same
frame, the calls A, B, A all return, and the two calls on instance A both use
allocator slot 0: call number 1 of A does not use slot `1 % 2`, it resets the
allocator A used in its previous call. -/
theorem shared_frame_index_reuses_slot :
    ∃ statics, recordAll [instanceA, instanceB, instanceA] initialisedStatics = some statics ∧
      slotsOfInstance instanceA.mCommandList statics = [0, 0] ∧
      slotsOfInstance instanceB.mCommandList statics = [1] ∧
      slotsOfInstance instanceA.mCommandList statics ≠ (List.range 2).map (fun n => n % 2) :=
  ⟨_, rfl, by decide, by decide, by decide⟩

end BlurCmdListRecorder

namespace RenderManager

/-! ## Back buffers of the frame loop -/

theorem executedCommandLists_append (l1 l2 : List Event) :
    executedCommandLists (l1 ++ l2) = executedCommandLists l1 ++ executedCommandLists l2 := by
  induction l1 with
  | nil => simp [executedCommandLists]
  | cons e rest ih => cases e <;> simp [executedCommandLists, ih]

theorem executedCommandLists_pushes (lists : List (List Command)) :
    executedCommandLists (lists.map Event.PushCommandList) = [] := by
  induction lists with
  | nil => rfl
  | cons l rest ih => simp [executedCommandLists, ih]

theorem presentCalls_pushes (lists : List (List Command)) :
    presentCalls (lists.map Event.PushCommandList) = 0 := by
  induction lists with
  | nil => rfl
  | cons l rest ih =>
    simp only [presentCalls] at ih
    simp [presentCalls, List.count_cons, ih]

theorem beginPassClearLists_append (l1 l2 : List Event) :
    beginPassClearLists (l1 ++ l2) = beginPassClearLists l1 ++ beginPassClearLists l2 := by
  simp [beginPassClearLists, executedCommandLists_append]

theorem presentCalls_append (l1 l2 : List Event) :
    presentCalls (l1 ++ l2) = presentCalls l1 + presentCalls l2 := by
  simp [presentCalls]

theorem backBuffersUsed_append (l1 l2 : List Event) :
    backBuffersUsed (l1 ++ l2) = backBuffersUsed l1 ++ backBuffersUsed l2 := by
  simp [backBuffersUsed, executedCommandLists_append]

theorem clearedFrameBuffer_recordBarriers (bs : List ResourceBarrier) :
    (recordBarriers bs).flatMap clearedFrameBuffer = [] := by
  rcases recordBarriers_shape bs with h | ⟨barriers, _, h⟩ <;> simp [h, clearedFrameBuffer]

/-- The effect of a pass call on the counters of the frame loop: none. -/
theorem executePass_counters (passes : Passes) (stage : Stage) (frame : Nat) (rm : RenderManager) :
    beginPassClearLists (executePass passes stage frame rm).log = beginPassClearLists rm.log ∧
    presentCalls (executePass passes stage frame rm).log = presentCalls rm.log ∧
    backBuffersUsed (executePass passes stage frame rm).log = backBuffersUsed rm.log ∧
    (executePass passes stage frame rm).currentBackBufferIndex = rm.currentBackBufferIndex := by
  refine ⟨?_, ?_, ?_, rfl⟩
  · simp [executePass, enterStage, beginPassClearLists, executedCommandLists_append,
      executedCommandLists_pushes, executedCommandLists]
  · have hstage : presentCalls [Event.EnterStage stage] = 0 := by simp [presentCalls]
    simp only [executePass, enterStage, presentCalls_append, presentCalls_pushes, hstage,
      Nat.add_zero]
  · simp [executePass, enterStage, backBuffersUsed, executedCommandLists_append,
      executedCommandLists_pushes, executedCommandLists]

/-- The effect of a returning begin pass on the counters: one clear list, for the
current back buffer. -/
theorem ExecuteBeginPass_counters (rm rm1 : RenderManager) (h : ExecuteBeginPass rm = some rm1) :
    (beginPassClearLists rm1.log).length = (beginPassClearLists rm.log).length + 1 ∧
    presentCalls rm1.log = presentCalls rm.log ∧
    backBuffersUsed rm1.log = backBuffersUsed rm.log ++ [rm.currentBackBufferIndex] ∧
    rm1.currentBackBufferIndex = rm.currentBackBufferIndex := by
  obtain ⟨sb, s1, s2, sd, hb, h1, h2, hd⟩ := ExecuteBeginPass_registered rm rm1 h
  rw [ExecuteBeginPass_eq rm hb h1 h2 hd] at h
  injection h with h
  subst h
  refine ⟨?_, ?_, ?_, rfl⟩
  · simp [beginPassClearLists, executedCommandLists_append, executedCommandLists,
      isClearCommandList]
  · simp [presentCalls_append]
    simp [presentCalls]
  · simp [backBuffersUsed, executedCommandLists_append, executedCommandLists,
      clearedFrameBuffer_recordBarriers, clearedFrameBuffer, GetCurrentFrameBuffer]

/-- The effect of a returning final pass on the counters: none. -/
theorem ExecuteFinalPass_counters (rm rm1 : RenderManager) (h : ExecuteFinalPass rm = some rm1) :
    beginPassClearLists rm1.log = beginPassClearLists rm.log ∧
    presentCalls rm1.log = presentCalls rm.log ∧
    backBuffersUsed rm1.log = backBuffersUsed rm.log ∧
    rm1.currentBackBufferIndex = rm.currentBackBufferIndex := by
  obtain ⟨s, hb⟩ := ExecuteFinalPass_registered rm rm1 h
  rw [ExecuteFinalPass_eq rm hb] at h
  injection h with h
  subst h
  by_cases hs : s = D3D12_RESOURCE_STATE_PRESENT
  · simp [hs]
  · refine ⟨?_, ?_, ?_, rfl⟩
    · simp [hs, beginPassClearLists, executedCommandLists_append, executedCommandLists,
        isClearCommandList]
    · simp [hs, presentCalls_append]
      simp [presentCalls]
    · simp [hs, backBuffersUsed, executedCommandLists_append, executedCommandLists,
        clearedFrameBuffer]

theorem executePass_frameCounters (passes : Passes) (stage : Stage) (frame : Nat)
    (rm : RenderManager) : frameCounters (executePass passes stage frame rm) = frameCounters rm := by
  obtain ⟨h1, h2, h3, h4⟩ := executePass_counters passes stage frame rm
  simp only [frameCounters, h1, h2, h3, h4]

theorem observeTerminate_frameCounters (requests : Nat → Nat → Bool) (frame statement : Nat)
    (rm : RenderManager) :
    frameCounters (observeTerminate requests frame statement rm) = frameCounters rm := rfl

theorem enterStage_frameCounters (stage : Stage) (rm : RenderManager) :
    frameCounters (enterStage stage rm) = frameCounters rm := by
  have hstage : presentCalls [Event.EnterStage stage] = 0 := by simp [presentCalls]
  simp [frameCounters, enterStage, beginPassClearLists, backBuffersUsed,
    executedCommandLists_append, executedCommandLists, presentCalls_append, hstage]

theorem ExecuteBeginPass_frameCounters (rm rm1 : RenderManager)
    (h : ExecuteBeginPass rm = some rm1) :
    frameCounters rm1 =
      ((frameCounters rm).1 + 1, (frameCounters rm).2.1,
        (frameCounters rm).2.2.1 ++ [rm.currentBackBufferIndex], (frameCounters rm).2.2.2) := by
  obtain ⟨h1, h2, h3, h4⟩ := ExecuteBeginPass_counters rm rm1 h
  simp only [frameCounters, h1, h2, h3, h4]

theorem ExecuteFinalPass_frameCounters (rm rm1 : RenderManager)
    (h : ExecuteFinalPass rm = some rm1) : frameCounters rm1 = frameCounters rm := by
  obtain ⟨h1, h2, h3, h4⟩ := ExecuteFinalPass_counters rm rm1 h
  simp only [frameCounters, h1, h2, h3, h4]

theorem Present_frameCounters (cfg : ApplicationSettings) (rm : RenderManager) :
    frameCounters (PresentCurrentFrameAndBeginNextFrame cfg rm) =
      ((frameCounters rm).1, (frameCounters rm).2.1 + 1, (frameCounters rm).2.2.1,
        (rm.currentBackBufferIndex + 1) % cfg.sSwapChainBufferCount) := by
  simp [frameCounters, PresentCurrentFrameAndBeginNextFrame, swapChainPresent,
    beginPassClearLists, backBuffersUsed, executedCommandLists_append, executedCommandLists,
    presentCalls_append]
  simp [presentCalls]

/-- One returning iteration of the loop body: one clear list for the current back
buffer, one `Present`, and the back-buffer index advanced by one modulo the
buffer count. -/
theorem executeFrame_frameCounters (cfg : ApplicationSettings) (passes : Passes)
    (requests : Nat → Nat → Bool) (frame : Nat) (rm rm1 : RenderManager)
    (h : executeFrame cfg passes requests frame rm = some rm1) :
    frameCounters rm1 =
      ((frameCounters rm).1 + 1, (frameCounters rm).2.1 + 1,
        (frameCounters rm).2.2.1 ++ [rm.currentBackBufferIndex],
        (rm.currentBackBufferIndex + 1) % cfg.sSwapChainBufferCount) := by
  unfold executeFrame at h
  cases hb : ExecuteBeginPass (enterStage Stage.BeginPass
      (observeTerminate requests frame 1 (observeTerminate requests frame 0 rm))) with
  | none => simp [hb] at h
  | some r2 =>
    simp only [hb] at h
    cases hf : ExecuteFinalPass (enterStage Stage.FinalPass
        (observeTerminate requests frame 7 (executePass passes Stage.PostProcessPass frame
        (observeTerminate requests frame 6 (executePass passes Stage.ToneMappingPass frame
        (observeTerminate requests frame 5 (executePass passes Stage.SkyBoxPass frame
        (observeTerminate requests frame 4 (executePass passes Stage.EnvironmentLightPass frame
        (observeTerminate requests frame 3 (executePass passes Stage.GeometryPass frame
        (observeTerminate requests frame 2 r2)))))))))))) with
    | none => simp [hf] at h
    | some r8 =>
      simp only [hf, Option.some.injEq] at h
      subst h
      have hB := ExecuteBeginPass_frameCounters _ _ hb
      have hF := ExecuteFinalPass_frameCounters _ _ hf
      have h8idx : r8.currentBackBufferIndex = rm.currentBackBufferIndex := by
        have h1 := congrArg (fun c => c.2.2.2) hF
        have h2 := congrArg (fun c => c.2.2.2) hB
        simp only [enterStage_frameCounters, observeTerminate_frameCounters,
          executePass_frameCounters] at h1 h2
        simp only [frameCounters] at h1 h2
        rw [h1, h2]
      rw [observeTerminate_frameCounters, Present_frameCounters, enterStage_frameCounters,
        observeTerminate_frameCounters, hF]
      simp only [enterStage_frameCounters, observeTerminate_frameCounters,
        executePass_frameCounters, hB]
      simp only [enterStage, observeTerminate, h8idx]

/-- A loop run that returns from iteration `frame`, whose back buffer is
`frame % sSwapChainBufferCount`, made the iterations `frame .. n - 1`; each added
one clear list and one `Present` and used back buffer `i % sSwapChainBufferCount`. -/
theorem executeLoop_frameCounters (cfg : ApplicationSettings) (passes : Passes)
    (requests : Nat → Nat → Bool) (initial : Bool) :
    ∀ (fuel frame : Nat) (rm rm1 : RenderManager),
      rm.mTerminate = terminateSeenAt requests initial frame →
      rm.currentBackBufferIndex = frame % cfg.sSwapChainBufferCount →
      executeLoop cfg passes requests fuel frame rm = some rm1 →
      ∃ n, frame ≤ n ∧ terminateSeenAt requests initial n = true ∧
        (∀ k, frame ≤ k → k < n → terminateSeenAt requests initial k = false) ∧
        (frameCounters rm1).1 = (frameCounters rm).1 + (n - frame) ∧
        (frameCounters rm1).2.1 = (frameCounters rm).2.1 + (n - frame) ∧
        (frameCounters rm1).2.2.1 = (frameCounters rm).2.2.1 ++
          (List.range' frame (n - frame)).map (fun i => i % cfg.sSwapChainBufferCount) := by
  intro fuel
  induction fuel with
  | zero =>
    intro frame rm rm1 _ _ h
    simp [executeLoop] at h
  | succ fuel ih =>
    intro frame rm rm1 hinv hidx h
    unfold executeLoop at h
    by_cases ht : rm.mTerminate = true
    · simp only [ht, if_true, Option.some.injEq] at h
      subst h
      exact ⟨frame, le_refl _, by rw [← hinv]; exact ht, fun k h1 h2 => by omega, by simp,
        by simp, by simp⟩
    · simp only [ht, Bool.false_eq_true, if_false] at h
      cases hf : executeFrame cfg passes requests frame rm with
      | none => simp [hf] at h
      | some rmf =>
        simp only [hf] at h
        obtain ⟨_, hterm, _⟩ := executeFrame_spec cfg passes requests frame rm rmf hf
        have hc := executeFrame_frameCounters cfg passes requests frame rm rmf hf
        have hinv1 : rmf.mTerminate = terminateSeenAt requests initial (frame + 1) := by
          rw [hterm, terminateSeenAt_succ, hinv]
        have hidx1 : rmf.currentBackBufferIndex = (frame + 1) % cfg.sSwapChainBufferCount := by
          have h4 := congrArg (fun c => c.2.2.2) hc
          simp only [frameCounters] at h4
          rw [h4, hidx, Nat.mod_add_mod]
        obtain ⟨n, hn, hseen, hbefore, hclears, hpresents, hbuffers⟩ :=
          ih (frame + 1) rmf rm1 hinv1 hidx1 h
        have hsub : n - frame = (n - (frame + 1)) + 1 := by omega
        refine ⟨n, by omega, hseen, ?_, ?_, ?_, ?_⟩
        · intro k hk1 hk2
          rcases Nat.eq_or_lt_of_le hk1 with hk | hk
          · rw [← hk, ← hinv]
            simpa using ht
          · exact hbefore k hk hk2
        · have h1 : (frameCounters rmf).1 = (frameCounters rm).1 + 1 := by rw [hc]
          rw [hclears, h1]
          omega
        · have h2 : (frameCounters rmf).2.1 = (frameCounters rm).2.1 + 1 := by rw [hc]
          rw [hpresents, h2]
          omega
        · have h3 : (frameCounters rmf).2.2.1 =
              (frameCounters rm).2.2.1 ++ [rm.currentBackBufferIndex] := by rw [hc]
          rw [hbuffers, h3, hsub, List.range'_succ, List.map_cons, hidx, List.append_assoc,
            List.singleton_append]

theorem frameCounters_afterLoop (rm : RenderManager) :
    frameCounters (afterLoop rm) = frameCounters rm := by
  simp [frameCounters, afterLoop, FlushCommandQueue, beginPassClearLists, backBuffersUsed,
    executedCommandLists_append, executedCommandLists, presentCalls_append]
  simp [presentCalls]

/-- C15: from back-buffer index 0, every run of `RenderManager::execute` that
returns after n iterations has issued exactly n clear command lists of the begin
pass and exactly n `Present` calls, and iteration i (from 0) used back buffer
`i % sSwapChainBufferCount`; with the resources registered and passes that keep
them registered the run of n iterations exists. For a swap chain of 2 buffers,
no-op passes and 5 iterations: 5 clear lists, 5 `Present` calls, back buffers
0, 1, 0, 1, 0. -/
theorem frame_loop_back_buffers (cfg : ApplicationSettings) (passes : Passes)
    (requests : Nat → Nat → Bool) (rm : RenderManager) (hidx : rm.currentBackBufferIndex = 0) :
    (∀ fuel rm1, execute cfg passes requests fuel rm = some rm1 →
      ∃ n, terminateSeenAt requests rm.mTerminate n = true ∧
        (∀ k, k < n → terminateSeenAt requests rm.mTerminate k = false) ∧
        (beginPassClearLists rm1.log).length = (beginPassClearLists rm.log).length + n ∧
        presentCalls rm1.log = presentCalls rm.log + n ∧
        backBuffersUsed rm1.log = backBuffersUsed rm.log ++
          (List.range n).map (fun i => i % cfg.sSwapChainBufferCount)) ∧
    (Registered cfg rm → KeepsRegistration passes →
      ∀ n, terminateSeenAt requests rm.mTerminate n = true →
        (∀ k, k < n → terminateSeenAt requests rm.mTerminate k = false) →
        ∀ fuel, n < fuel →
          ∃ rm1, execute cfg passes requests fuel rm = some rm1 ∧
            (beginPassClearLists rm1.log).length = (beginPassClearLists rm.log).length + n ∧
            presentCalls rm1.log = presentCalls rm.log + n ∧
            backBuffersUsed rm1.log = backBuffersUsed rm.log ++
              (List.range n).map (fun i => i % cfg.sSwapChainBufferCount)) := by
  have hsound : ∀ fuel rm1, execute cfg passes requests fuel rm = some rm1 →
      ∃ n, terminateSeenAt requests rm.mTerminate n = true ∧
        (∀ k, k < n → terminateSeenAt requests rm.mTerminate k = false) ∧
        (beginPassClearLists rm1.log).length = (beginPassClearLists rm.log).length + n ∧
        presentCalls rm1.log = presentCalls rm.log + n ∧
        backBuffersUsed rm1.log = backBuffersUsed rm.log ++
          (List.range n).map (fun i => i % cfg.sSwapChainBufferCount) := by
    intro fuel rm1 h
    obtain ⟨rmLoop, hl, rfl⟩ := execute_eq_some cfg passes requests fuel rm rm1 h
    obtain ⟨n, _, hseen, hbefore, hclears, hpresents, hbuffers⟩ :=
      executeLoop_frameCounters cfg passes requests rm.mTerminate fuel 0 rm rmLoop
        (terminateSeenAt_zero _ _).symm (by rw [hidx, Nat.zero_mod]) hl
    have hA := frameCounters_afterLoop rmLoop
    have h1 : (frameCounters (afterLoop rmLoop)).1 = (frameCounters rmLoop).1 := by rw [hA]
    have h2 : (frameCounters (afterLoop rmLoop)).2.1 = (frameCounters rmLoop).2.1 := by rw [hA]
    have h3 : (frameCounters (afterLoop rmLoop)).2.2.1 = (frameCounters rmLoop).2.2.1 := by
      rw [hA]
    rw [Nat.sub_zero] at hclears hpresents hbuffers
    rw [← List.range_eq_range'] at hbuffers
    exact ⟨n, hseen, fun k hk => hbefore k (Nat.zero_le _) hk, h1.trans hclears,
      h2.trans hpresents, h3.trans hbuffers⟩
  refine ⟨hsound, fun hreg hkeep n hseen hbefore fuel hfuel => ?_⟩
  obtain ⟨rmLoop, hl⟩ := executeLoop_runs cfg passes requests rm.mTerminate hkeep n hseen
    fuel 0 rm hreg (terminateSeenAt_zero _ _).symm (Nat.zero_le _) (by omega)
  have he : execute cfg passes requests fuel rm = some (afterLoop rmLoop) := by
    simp only [execute, hl]
  obtain ⟨m, hm, hmb, hfacts⟩ := hsound fuel _ he
  have hmn : m = n := by
    rcases Nat.lt_trichotomy m n with h | h | h
    · rw [hbefore m h] at hm; exact absurd hm (by simp)
    · exact h
    · rw [hmb n h] at hseen; exact absurd hseen (by simp)
  rw [hmn] at hfacts
  exact ⟨_, he, hfacts⟩

/-- Witness of C15: a swap chain of 2 buffers, no-op passes, `Terminate` called
during frame 4: five iterations, 5 clear lists, 5 `Present` calls, back buffers
0, 1, 0, 1, 0. -/
theorem frame_loop_back_buffers_witness :
    ∃ rm1, execute twoBufferSettings noopPasses fiveFrameRequests 6 twoBufferRenderManager =
        some rm1 ∧
      (beginPassClearLists rm1.log).length = 5 ∧
      presentCalls rm1.log = 5 ∧
      backBuffersUsed rm1.log = [0, 1, 0, 1, 0] := by
  have h := (frame_loop_back_buffers twoBufferSettings noopPasses fiveFrameRequests
    twoBufferRenderManager rfl).2
    ⟨by decide, fun i hi => by
      have hi2 : i < 2 := hi
      simp [twoBufferRenderManager, twoBufferStates, hi2], rfl, rfl, rfl⟩
    (fun _ _ _ _ _ h => h) 5 (by decide)
    (fun k hk => by interval_cases k <;> decide) 6 (by decide)
  obtain ⟨rm1, hrun, hclears, hpresents, hbuffers⟩ := h
  exact ⟨rm1, hrun, hclears, hpresents, hbuffers⟩

/-! ## Registration of the swap-chain buffers -/

theorem registerLoop_runs (m0 : ResourceStateManager) (n : Nat)
    (h : ∀ i, i < n → m0 (Resource.frameBuffer i) = none) :
    ∃ m1, (List.range n).foldlM
        (fun tracker i => ResourceStateManager.AddResource tracker (Resource.frameBuffer i)
          D3D12_RESOURCE_STATE_PRESENT) m0 = some m1 ∧
      (∀ i, i < n → m1 (Resource.frameBuffer i) = some D3D12_RESOURCE_STATE_PRESENT) ∧
      (∀ r, (∀ i, i < n → r ≠ Resource.frameBuffer i) → m1 r = m0 r) := by
  induction n with
  | zero => exact ⟨m0, rfl, fun i hi => by omega, fun _ _ => rfl⟩
  | succ n ih =>
    obtain ⟨mn, hfold, hpresent, hother⟩ := ih (fun i hi => h i (by omega))
    have hn : mn (Resource.frameBuffer n) = none := by
      rw [hother _ (fun i hi => by simp; omega)]
      exact h n (by omega)
    refine ⟨ResourceStateManager.setState mn (Resource.frameBuffer n)
      D3D12_RESOURCE_STATE_PRESENT, ?_, ?_, ?_⟩
    · rw [List.range_succ, List.foldlM_append, hfold]
      simp [ResourceStateManager.AddResource, hn]
    · intro i hi
      by_cases hin : i = n
      · rw [hin, setState_same]
      · rw [setState_other _ _ (by simp [hin])]
        exact hpresent i (by omega)
    · intro r hr
      rw [setState_other _ _ (hr n (by omega))]
      exact hother r (fun i hi => hr i (by omega))

theorem registerLoop_some (m0 m1 : ResourceStateManager) (n : Nat)
    (h : (List.range n).foldlM
        (fun tracker i => ResourceStateManager.AddResource tracker (Resource.frameBuffer i)
          D3D12_RESOURCE_STATE_PRESENT) m0 = some m1) :
    ∀ i, i < n → m0 (Resource.frameBuffer i) = none := by
  induction n generalizing m1 with
  | zero => intro i hi; omega
  | succ n ih =>
    rw [List.range_succ, List.foldlM_append] at h
    cases hfold : (List.range n).foldlM
        (fun tracker i => ResourceStateManager.AddResource tracker (Resource.frameBuffer i)
          D3D12_RESOURCE_STATE_PRESENT) m0 with
    | none => simp [hfold] at h
    | some mn =>
      have hprev := ih mn hfold
      rw [hfold] at h
      obtain ⟨mn1, hfold1, _, hother⟩ := registerLoop_runs m0 n hprev
      rw [hfold] at hfold1
      injection hfold1 with hfold1
      subst hfold1
      intro i hi
      by_cases hin : i = n
      · subst hin
        rw [← hother _ (fun j hj => by simp; omega)]
        cases hmn : mn (Resource.frameBuffer i) with
        | none => rfl
        | some st => simp [ResourceStateManager.AddResource, hmn] at h
      · exact hprev i (by omega)

/-- The first begin pass on a tracker in which the back buffer is in `PRESENT`,
the intermediate colour buffers in `RENDER_TARGET` and the depth buffer in
`DEPTH_WRITE`. -/
theorem ExecuteBeginPass_from_present (rm : RenderManager)
    (hb : rm.resourceStates rm.GetCurrentFrameBuffer = some D3D12_RESOURCE_STATE_PRESENT)
    (h1 : rm.resourceStates Resource.intermediateColorBuffer1 =
      some D3D12_RESOURCE_STATE_RENDER_TARGET)
    (h2 : rm.resourceStates Resource.intermediateColorBuffer2 =
      some D3D12_RESOURCE_STATE_RENDER_TARGET)
    (hd : rm.resourceStates Resource.depthBuffer = some D3D12_RESOURCE_STATE_DEPTH_WRITE) :
    ∃ rm1, ExecuteBeginPass rm = some rm1 ∧
      recordedBarriers rm1.log = recordedBarriers rm.log ++
        [⟨rm.GetCurrentFrameBuffer, D3D12_RESOURCE_STATE_PRESENT,
          D3D12_RESOURCE_STATE_RENDER_TARGET⟩] ∧
      rm1.resourceStates rm.GetCurrentFrameBuffer = some D3D12_RESOURCE_STATE_RENDER_TARGET := by
  refine ⟨_, ExecuteBeginPass_eq rm hb h1 h2 hd, ?_, ?_⟩
  · simp only [recordedBarriers_append, recordedBarriers, List.flatMap_append,
      flatMap_recordBarriers, List.append_nil]
    simp [List.flatMap, commandBarriers]
    decide
  · simp [ResourceStateManager.setState, GetCurrentFrameBuffer]

/-- C16: `CreateFrameBuffersAndRenderTargetViews` returns exactly when none of the
`sSwapChainBufferCount` swap-chain buffers is registered yet; it then registers
each of them in state `PRESENT`, changes no other entry, and a further
registration of any of them is refused. When the tracker of the render manager
holds these entries for the swap-chain buffers, the intermediate colour buffers
in `RENDER_TARGET` and the depth buffer in `DEPTH_WRITE`, `ExecuteBeginPass`
returns, records exactly one barrier, for the back buffer from `PRESENT` to
`RENDER_TARGET`, and the tracker then reports `RENDER_TARGET` for the back buffer. -/
theorem frame_buffers_registered_present (cfg : ApplicationSettings) (m0 : ResourceStateManager) :
    ((∃ m1, CreateFrameBuffersAndRenderTargetViews cfg m0 = some m1) ↔
      ∀ i, i < cfg.sSwapChainBufferCount → m0 (Resource.frameBuffer i) = none) ∧
    ∀ m1, CreateFrameBuffersAndRenderTargetViews cfg m0 = some m1 →
      (∀ i, i < cfg.sSwapChainBufferCount →
        ResourceStateManager.GetResourceState m1 (Resource.frameBuffer i) =
          some D3D12_RESOURCE_STATE_PRESENT) ∧
      (∀ r, (∀ i, i < cfg.sSwapChainBufferCount → r ≠ Resource.frameBuffer i) → m1 r = m0 r) ∧
      (∀ i, i < cfg.sSwapChainBufferCount →
        ResourceStateManager.AddResource m1 (Resource.frameBuffer i)
          D3D12_RESOURCE_STATE_PRESENT = none) ∧
      ∀ rm : RenderManager, rm.currentBackBufferIndex < cfg.sSwapChainBufferCount →
        (∀ i, rm.resourceStates (Resource.frameBuffer i) = m1 (Resource.frameBuffer i)) →
        rm.resourceStates Resource.intermediateColorBuffer1 =
          some D3D12_RESOURCE_STATE_RENDER_TARGET →
        rm.resourceStates Resource.intermediateColorBuffer2 =
          some D3D12_RESOURCE_STATE_RENDER_TARGET →
        rm.resourceStates Resource.depthBuffer = some D3D12_RESOURCE_STATE_DEPTH_WRITE →
        ∃ rm1, ExecuteBeginPass rm = some rm1 ∧
          recordedBarriers rm1.log = recordedBarriers rm.log ++
            [⟨rm.GetCurrentFrameBuffer, D3D12_RESOURCE_STATE_PRESENT,
              D3D12_RESOURCE_STATE_RENDER_TARGET⟩] ∧
          ResourceStateManager.GetResourceState rm1.resourceStates rm.GetCurrentFrameBuffer =
            some D3D12_RESOURCE_STATE_RENDER_TARGET := by
  constructor
  · constructor
    · rintro ⟨m1, h⟩
      exact registerLoop_some m0 m1 _ h
    · intro h
      obtain ⟨m1, hfold, _, _⟩ := registerLoop_runs m0 cfg.sSwapChainBufferCount h
      exact ⟨m1, hfold⟩
  · intro m1 h
    have hnone := registerLoop_some m0 m1 _ h
    obtain ⟨m2, hfold, hpresent, hother⟩ := registerLoop_runs m0 cfg.sSwapChainBufferCount hnone
    have h12 : m2 = m1 := by
      have : some m2 = some m1 := hfold.symm.trans h
      injection this
    subst h12
    refine ⟨hpresent, hother, ?_, ?_⟩
    · intro i hi
      simp [ResourceStateManager.AddResource, hpresent i hi]
    · intro rm hidx hframe h1 h2 hd
      have hb : rm.resourceStates rm.GetCurrentFrameBuffer =
          some D3D12_RESOURCE_STATE_PRESENT := by
        rw [GetCurrentFrameBuffer, hframe, hpresent _ hidx]
      exact ExecuteBeginPass_from_present rm hb h1 h2 hd

/-- Witness of C16: two swap-chain buffers registered on an empty tracker are in
`PRESENT`; the begin pass of a render manager whose tracker has them in `PRESENT`
and the other buffers in their creation states records one barrier, for back
buffer 0. -/
theorem frame_buffers_registered_present_witness :
    ∃ m1, CreateFrameBuffersAndRenderTargetViews twoBufferSettings emptyStates = some m1 ∧
      m1 (Resource.frameBuffer 0) = some D3D12_RESOURCE_STATE_PRESENT ∧
      m1 (Resource.frameBuffer 1) = some D3D12_RESOURCE_STATE_PRESENT ∧
      ∃ rm1, ExecuteBeginPass twoBufferRenderManager = some rm1 ∧
        recordedBarriers rm1.log =
          [⟨Resource.frameBuffer 0, D3D12_RESOURCE_STATE_PRESENT,
            D3D12_RESOURCE_STATE_RENDER_TARGET⟩] ∧
        rm1.resourceStates (Resource.frameBuffer 0) =
          some D3D12_RESOURCE_STATE_RENDER_TARGET := by
  have h := frame_buffers_registered_present twoBufferSettings emptyStates
  obtain ⟨m1, hm1⟩ := h.1.2 (fun _ _ => rfl)
  obtain ⟨hpresent, _, _, hbegin⟩ := h.2 m1 hm1
  refine ⟨m1, hm1, hpresent 0 (by decide), hpresent 1 (by decide), ?_⟩
  exact hbegin twoBufferRenderManager (by decide)
    (fun i => by
      by_cases hi : i < 2
      · have hp : m1 (Resource.frameBuffer i) = some D3D12_RESOURCE_STATE_PRESENT :=
          hpresent i hi
        rw [hp]
        simp [twoBufferRenderManager, twoBufferStates, hi]
      · obtain ⟨_, hother, _, _⟩ := h.2 m1 hm1
        rw [hother _ (fun j hj => by
          have hj2 : j < 2 := hj
          simp
          omega)]
        simp [twoBufferRenderManager, twoBufferStates, hi, emptyStates])
    rfl rfl rfl

/-- A returning request: the resource was registered, its entry is the target
afterwards, and one barrier was appended exactly when the state differed. -/
theorem transitionIfNeeded_some {r : Resource} {target : D3D12_RESOURCE_STATES}
    {m m1 : ResourceStateManager} {bs bs1 : List ResourceBarrier}
    (h : transitionIfNeeded r target (m, bs) = some (m1, bs1)) :
    ∃ s, m r = some s ∧ m1 = ResourceStateManager.setState m r target ∧
      bs1 = bs ++ (if s ≠ target then [⟨r, s, target⟩] else []) := by
  cases hs : m r with
  | none => rw [transitionIfNeeded_none _ _ hs] at h; exact absurd h (by simp)
  | some s =>
    rw [transitionIfNeeded_eq _ _ hs] at h
    simp only [Option.some.injEq, Prod.mk.injEq] at h
    exact ⟨s, rfl, h.1.symm, h.2.symm⟩

end RenderManager

/-! ## Ambient occlusion pass: facts -/

namespace AmbientOcclusionPass

theorem pushedCommandLists_append (l1 l2 : List Event) :
    pushedCommandLists (l1 ++ l2) = pushedCommandLists l1 ++ pushedCommandLists l2 := by
  induction l1 with
  | nil => simp [pushedCommandLists]
  | cons e rest ih => cases e <;> simp [pushedCommandLists, ih]

theorem pushedCommandLists_pushes (lists : List (List Command)) :
    pushedCommandLists (lists.map Event.PushCommandList) = lists := by
  induction lists with
  | nil => rfl
  | cons l rest ih => simp [pushedCommandLists, ih]

/-- What the pre-pass computes when the data is valid and the four buffers are
distinct registered resources. -/
theorem RecordAndPushPrePassCommandLists_eq (p : AmbientOcclusionPass) (ctx : PassContext)
    {a b n d : Resource} {sa sb sn sd : D3D12_RESOURCE_STATES}
    (hvalid : IsDataValid p = true)
    (ha : p.mAmbientAccessibilityBuffer = some a) (hb : p.mBlurBuffer = some b)
    (hn : p.mNormalRoughnessBuffer = some n) (hd : p.mDepthBuffer = some d)
    (hab : a ≠ b) (han : a ≠ n) (had : a ≠ d) (hbn : b ≠ n) (hbd : b ≠ d) (hnd : n ≠ d)
    (hsa : ctx.resourceStates a = some sa) (hsb : ctx.resourceStates b = some sb)
    (hsn : ctx.resourceStates n = some sn) (hsd : ctx.resourceStates d = some sd) :
    RecordAndPushPrePassCommandLists p ctx = some (1,
      { resourceStates :=
          ResourceStateManager.setState (ResourceStateManager.setState
            (ResourceStateManager.setState
              (ResourceStateManager.setState ctx.resourceStates a
                D3D12_RESOURCE_STATE_RENDER_TARGET)
              b D3D12_RESOURCE_STATE_PIXEL_SHADER_RESOURCE)
            n D3D12_RESOURCE_STATE_PIXEL_SHADER_RESOURCE)
            d D3D12_RESOURCE_STATE_PIXEL_SHADER_RESOURCE
        log := ctx.log ++
          [Event.ResetCommandListWithNextCommandAllocator
             CommandListOwner.mPrePassCommandListPerFrame,
           Event.PushCommandList
             (RenderManager.recordBarriers
                ((if sa ≠ D3D12_RESOURCE_STATE_RENDER_TARGET then
                    [⟨a, sa, D3D12_RESOURCE_STATE_RENDER_TARGET⟩] else []) ++
                 (if sb ≠ D3D12_RESOURCE_STATE_PIXEL_SHADER_RESOURCE then
                    [⟨b, sb, D3D12_RESOURCE_STATE_PIXEL_SHADER_RESOURCE⟩] else []) ++
                 (if sn ≠ D3D12_RESOURCE_STATE_PIXEL_SHADER_RESOURCE then
                    [⟨n, sn, D3D12_RESOURCE_STATE_PIXEL_SHADER_RESOURCE⟩] else []) ++
                 (if sd ≠ D3D12_RESOURCE_STATE_PIXEL_SHADER_RESOURCE then
                    [⟨d, sd, D3D12_RESOURCE_STATE_PIXEL_SHADER_RESOURCE⟩] else [])) ++
              [Command.ClearRenderTargetView a, Command.Close])] }) := by
  have e1 := RenderManager.transitionIfNeeded_eq D3D12_RESOURCE_STATE_RENDER_TARGET [] hsa
  have h1 : ResourceStateManager.setState ctx.resourceStates a
      D3D12_RESOURCE_STATE_RENDER_TARGET b = some sb := by
    rw [RenderManager.setState_other _ _ hab.symm]; exact hsb
  have h2 : ResourceStateManager.setState (ResourceStateManager.setState ctx.resourceStates a
      D3D12_RESOURCE_STATE_RENDER_TARGET) b D3D12_RESOURCE_STATE_PIXEL_SHADER_RESOURCE n =
      some sn := by
    rw [RenderManager.setState_other _ _ hbn.symm, RenderManager.setState_other _ _ han.symm]
    exact hsn
  have h3 : ResourceStateManager.setState (ResourceStateManager.setState
      (ResourceStateManager.setState ctx.resourceStates a
      D3D12_RESOURCE_STATE_RENDER_TARGET) b D3D12_RESOURCE_STATE_PIXEL_SHADER_RESOURCE) n
      D3D12_RESOURCE_STATE_PIXEL_SHADER_RESOURCE d = some sd := by
    rw [RenderManager.setState_other _ _ hnd.symm, RenderManager.setState_other _ _ hbd.symm,
      RenderManager.setState_other _ _ had.symm]
    exact hsd
  simp only [RecordAndPushPrePassCommandLists, hvalid, ha, hb, hn, hd, Option.some_bind,
    Option.bind_eq_bind, e1, RenderManager.transitionIfNeeded_eq _ _ h1,
    RenderManager.transitionIfNeeded_eq _ _ h2, RenderManager.transitionIfNeeded_eq _ _ h3,
    List.nil_append, List.append_assoc, Bool.true_eq_false, if_false]

/-- What the middle pass computes when the data is valid and its two buffers are
distinct registered resources. -/
theorem RecordAndPushMiddlePassCommandLists_eq (p : AmbientOcclusionPass) (ctx : PassContext)
    {a b : Resource} {sa sb : D3D12_RESOURCE_STATES}
    (hvalid : IsDataValid p = true)
    (ha : p.mAmbientAccessibilityBuffer = some a) (hb : p.mBlurBuffer = some b)
    (hab : a ≠ b)
    (hsa : ctx.resourceStates a = some sa) (hsb : ctx.resourceStates b = some sb) :
    RecordAndPushMiddlePassCommandLists p ctx = some (1,
      { resourceStates :=
          ResourceStateManager.setState
            (ResourceStateManager.setState ctx.resourceStates a
              D3D12_RESOURCE_STATE_PIXEL_SHADER_RESOURCE)
            b D3D12_RESOURCE_STATE_RENDER_TARGET
        log := ctx.log ++
          [Event.ResetCommandListWithNextCommandAllocator
             CommandListOwner.mMiddlePassCommandListPerFrame,
           Event.PushCommandList
             (RenderManager.recordBarriers
                ((if sa ≠ D3D12_RESOURCE_STATE_PIXEL_SHADER_RESOURCE then
                    [⟨a, sa, D3D12_RESOURCE_STATE_PIXEL_SHADER_RESOURCE⟩] else []) ++
                 (if sb ≠ D3D12_RESOURCE_STATE_RENDER_TARGET then
                    [⟨b, sb, D3D12_RESOURCE_STATE_RENDER_TARGET⟩] else [])) ++
              [Command.ClearRenderTargetView b, Command.Close])] }) := by
  have e1 := RenderManager.transitionIfNeeded_eq D3D12_RESOURCE_STATE_PIXEL_SHADER_RESOURCE []
    hsa
  have h1 : ResourceStateManager.setState ctx.resourceStates a
      D3D12_RESOURCE_STATE_PIXEL_SHADER_RESOURCE b = some sb := by
    rw [RenderManager.setState_other _ _ hab.symm]; exact hsb
  simp only [RecordAndPushMiddlePassCommandLists, hvalid, ha, hb, Option.some_bind,
    Option.bind_eq_bind, e1, RenderManager.transitionIfNeeded_eq _ _ h1,
    List.nil_append, Bool.true_eq_false, if_false]

theorem recordedBarriers_pushed_list (log : List Event) (owner : CommandListOwner)
    (bs : List ResourceBarrier) (target : Resource) :
    RenderManager.recordedBarriers (log ++
      [Event.ResetCommandListWithNextCommandAllocator owner,
       Event.PushCommandList (RenderManager.recordBarriers bs ++
         [Command.ClearRenderTargetView target, Command.Close])]) =
      RenderManager.recordedBarriers log ++ bs := by
  simp only [RenderManager.recordedBarriers_append, RenderManager.recordedBarriers,
    List.flatMap_append, RenderManager.flatMap_recordBarriers, List.append_nil]
  simp [List.flatMap, RenderManager.commandBarriers]

/-- C19: with valid data and the ambient-accessibility, blur, normal/roughness and
depth buffers four distinct registered resources, the pre-pass returns 1 and
records, in this order, a barrier for each buffer whose tracked state differs from
its target (ambient accessibility: `RENDER_TARGET`; blur, normal/roughness and
depth: `PIXEL_SHADER_RESOURCE`) and none for the others, and leaves all four in
their targets; the middle pass returns 1 and records a barrier for the ambient
accessibility buffer (target `PIXEL_SHADER_RESOURCE`) and for the blur buffer
(target `RENDER_TARGET`) exactly when the tracked state differs, and leaves both
in their targets. -/
theorem pass_barriers_iff_state_differs (p : AmbientOcclusionPass) (ctx : PassContext)
    (a b n d : Resource) (sa sb sn sd : D3D12_RESOURCE_STATES)
    (hvalid : IsDataValid p = true)
    (ha : p.mAmbientAccessibilityBuffer = some a) (hb : p.mBlurBuffer = some b)
    (hn : p.mNormalRoughnessBuffer = some n) (hd : p.mDepthBuffer = some d)
    (hab : a ≠ b) (han : a ≠ n) (had : a ≠ d) (hbn : b ≠ n) (hbd : b ≠ d) (hnd : n ≠ d)
    (hsa : ctx.resourceStates a = some sa) (hsb : ctx.resourceStates b = some sb)
    (hsn : ctx.resourceStates n = some sn) (hsd : ctx.resourceStates d = some sd) :
    (∃ ctx1, RecordAndPushPrePassCommandLists p ctx = some (1, ctx1) ∧
      RenderManager.recordedBarriers ctx1.log = RenderManager.recordedBarriers ctx.log ++
        ((if sa ≠ D3D12_RESOURCE_STATE_RENDER_TARGET then
            [⟨a, sa, D3D12_RESOURCE_STATE_RENDER_TARGET⟩] else []) ++
         (if sb ≠ D3D12_RESOURCE_STATE_PIXEL_SHADER_RESOURCE then
            [⟨b, sb, D3D12_RESOURCE_STATE_PIXEL_SHADER_RESOURCE⟩] else []) ++
         (if sn ≠ D3D12_RESOURCE_STATE_PIXEL_SHADER_RESOURCE then
            [⟨n, sn, D3D12_RESOURCE_STATE_PIXEL_SHADER_RESOURCE⟩] else []) ++
         (if sd ≠ D3D12_RESOURCE_STATE_PIXEL_SHADER_RESOURCE then
            [⟨d, sd, D3D12_RESOURCE_STATE_PIXEL_SHADER_RESOURCE⟩] else [])) ∧
      ctx1.resourceStates a = some D3D12_RESOURCE_STATE_RENDER_TARGET ∧
      ctx1.resourceStates b = some D3D12_RESOURCE_STATE_PIXEL_SHADER_RESOURCE ∧
      ctx1.resourceStates n = some D3D12_RESOURCE_STATE_PIXEL_SHADER_RESOURCE ∧
      ctx1.resourceStates d = some D3D12_RESOURCE_STATE_PIXEL_SHADER_RESOURCE) ∧
    (∃ ctx1, RecordAndPushMiddlePassCommandLists p ctx = some (1, ctx1) ∧
      RenderManager.recordedBarriers ctx1.log = RenderManager.recordedBarriers ctx.log ++
        ((if sa ≠ D3D12_RESOURCE_STATE_PIXEL_SHADER_RESOURCE then
            [⟨a, sa, D3D12_RESOURCE_STATE_PIXEL_SHADER_RESOURCE⟩] else []) ++
         (if sb ≠ D3D12_RESOURCE_STATE_RENDER_TARGET then
            [⟨b, sb, D3D12_RESOURCE_STATE_RENDER_TARGET⟩] else [])) ∧
      ctx1.resourceStates a = some D3D12_RESOURCE_STATE_PIXEL_SHADER_RESOURCE ∧
      ctx1.resourceStates b = some D3D12_RESOURCE_STATE_RENDER_TARGET) := by
  constructor
  · refine ⟨_, RecordAndPushPrePassCommandLists_eq p ctx hvalid ha hb hn hd hab han had hbn hbd
      hnd hsa hsb hsn hsd, recordedBarriers_pushed_list _ _ _ _, ?_, ?_, ?_, ?_⟩
    · show ResourceStateManager.setState (ResourceStateManager.setState
        (ResourceStateManager.setState (ResourceStateManager.setState ctx.resourceStates a
        D3D12_RESOURCE_STATE_RENDER_TARGET) b D3D12_RESOURCE_STATE_PIXEL_SHADER_RESOURCE) n
        D3D12_RESOURCE_STATE_PIXEL_SHADER_RESOURCE) d
        D3D12_RESOURCE_STATE_PIXEL_SHADER_RESOURCE a = _
      rw [RenderManager.setState_other _ _ had, RenderManager.setState_other _ _ han,
        RenderManager.setState_other _ _ hab, RenderManager.setState_same]
    · show ResourceStateManager.setState (ResourceStateManager.setState
        (ResourceStateManager.setState (ResourceStateManager.setState ctx.resourceStates a
        D3D12_RESOURCE_STATE_RENDER_TARGET) b D3D12_RESOURCE_STATE_PIXEL_SHADER_RESOURCE) n
        D3D12_RESOURCE_STATE_PIXEL_SHADER_RESOURCE) d
        D3D12_RESOURCE_STATE_PIXEL_SHADER_RESOURCE b = _
      rw [RenderManager.setState_other _ _ hbd, RenderManager.setState_other _ _ hbn,
        RenderManager.setState_same]
    · show ResourceStateManager.setState (ResourceStateManager.setState
        (ResourceStateManager.setState (ResourceStateManager.setState ctx.resourceStates a
        D3D12_RESOURCE_STATE_RENDER_TARGET) b D3D12_RESOURCE_STATE_PIXEL_SHADER_RESOURCE) n
        D3D12_RESOURCE_STATE_PIXEL_SHADER_RESOURCE) d
        D3D12_RESOURCE_STATE_PIXEL_SHADER_RESOURCE n = _
      rw [RenderManager.setState_other _ _ hnd, RenderManager.setState_same]
    · exact RenderManager.setState_same _ _ _
  · refine ⟨_, RecordAndPushMiddlePassCommandLists_eq p ctx hvalid ha hb hab hsa hsb,
      recordedBarriers_pushed_list _ _ _ _, ?_, ?_⟩
    · show ResourceStateManager.setState (ResourceStateManager.setState ctx.resourceStates a
        D3D12_RESOURCE_STATE_PIXEL_SHADER_RESOURCE) b D3D12_RESOURCE_STATE_RENDER_TARGET a = _
      rw [RenderManager.setState_other _ _ hab, RenderManager.setState_same]
    · exact RenderManager.setState_same _ _ _

/-- Witness of C19: on the example tracker the pre-pass records barriers for the
ambient accessibility, normal/roughness and depth buffers and none for the blur
buffer; the middle pass records one barrier, for the blur buffer. -/
theorem pass_barriers_iff_state_differs_witness :
    (∃ ctx1, RecordAndPushPrePassCommandLists examplePass exampleContext = some (1, ctx1) ∧
      RenderManager.recordedBarriers ctx1.log =
        [⟨Resource.other 1, D3D12_RESOURCE_STATE_PIXEL_SHADER_RESOURCE,
            D3D12_RESOURCE_STATE_RENDER_TARGET⟩,
         ⟨Resource.other 3, D3D12_RESOURCE_STATE_RENDER_TARGET,
            D3D12_RESOURCE_STATE_PIXEL_SHADER_RESOURCE⟩,
         ⟨Resource.depthBuffer, D3D12_RESOURCE_STATE_DEPTH_WRITE,
            D3D12_RESOURCE_STATE_PIXEL_SHADER_RESOURCE⟩]) ∧
    (∃ ctx1, RecordAndPushMiddlePassCommandLists examplePass exampleContext = some (1, ctx1) ∧
      RenderManager.recordedBarriers ctx1.log =
        [⟨Resource.other 2, D3D12_RESOURCE_STATE_PIXEL_SHADER_RESOURCE,
            D3D12_RESOURCE_STATE_RENDER_TARGET⟩]) := by
  have h := pass_barriers_iff_state_differs examplePass exampleContext
    (Resource.other 1) (Resource.other 2) (Resource.other 3) Resource.depthBuffer
    D3D12_RESOURCE_STATE_PIXEL_SHADER_RESOURCE D3D12_RESOURCE_STATE_PIXEL_SHADER_RESOURCE
    D3D12_RESOURCE_STATE_RENDER_TARGET D3D12_RESOURCE_STATE_DEPTH_WRITE
    (by decide) rfl rfl rfl rfl (by decide) (by decide) (by decide) (by decide) (by decide)
    (by decide) rfl rfl rfl rfl
  obtain ⟨⟨c1, hpre, hb1, _⟩, ⟨c2, hmid, hb2, _⟩⟩ := h
  exact ⟨⟨c1, hpre, hb1⟩, ⟨c2, hmid, hb2⟩⟩

/-- Every returning pre-pass call returns 1 and makes exactly two calls: it
acquires its command list and pushes one command list, which ends with the clear
of the ambient accessibility buffer. -/
theorem RecordAndPushPrePassCommandLists_some (p : AmbientOcclusionPass)
    (ctx ctx1 : PassContext) (c : Nat)
    (h : RecordAndPushPrePassCommandLists p ctx = some (c, ctx1)) :
    c = 1 ∧ ∃ a barriers, p.mAmbientAccessibilityBuffer = some a ∧
      ctx1.log = ctx.log ++
        [Event.ResetCommandListWithNextCommandAllocator
           CommandListOwner.mPrePassCommandListPerFrame,
         Event.PushCommandList (RenderManager.recordBarriers barriers ++
           [Command.ClearRenderTargetView a, Command.Close])] := by
  unfold RecordAndPushPrePassCommandLists at h
  split at h
  · exact absurd h (by simp)
  split at h
  · rename_i a b n d ha hb hn hd
    split at h
    · exact absurd h (by simp)
    · rename_i m barriers _
      simp only [Option.some.injEq, Prod.mk.injEq] at h
      obtain ⟨hc, hctx⟩ := h
      subst hctx
      exact ⟨hc.symm, a, barriers, ha, rfl⟩
  · exact absurd h (by simp)

/-- Every returning middle pass call returns 1 and makes exactly two calls: it
acquires its command list and pushes one command list, which ends with the clear
of the blur buffer. -/
theorem RecordAndPushMiddlePassCommandLists_some (p : AmbientOcclusionPass)
    (ctx ctx1 : PassContext) (c : Nat)
    (h : RecordAndPushMiddlePassCommandLists p ctx = some (c, ctx1)) :
    c = 1 ∧ ∃ b barriers, p.mBlurBuffer = some b ∧
      ctx1.log = ctx.log ++
        [Event.ResetCommandListWithNextCommandAllocator
           CommandListOwner.mMiddlePassCommandListPerFrame,
         Event.PushCommandList (RenderManager.recordBarriers barriers ++
           [Command.ClearRenderTargetView b, Command.Close])] := by
  unfold RecordAndPushMiddlePassCommandLists at h
  split at h
  · exact absurd h (by simp)
  split at h
  · rename_i a b ha hb
    split at h
    · exact absurd h (by simp)
    · rename_i m barriers _
      simp only [Option.some.injEq, Prod.mk.injEq] at h
      obtain ⟨hc, hctx⟩ := h
      subst hctx
      exact ⟨hc.symm, b, barriers, hb, rfl⟩
  · exact absurd h (by simp)

/-- Every returning `Execute`: the two returning calls it is made of. -/
theorem Execute_some (p : AmbientOcclusionPass) (occlusion blur : RecorderOutput)
    (ctx ctx2 : PassContext) (c : Nat) (h : Execute p occlusion blur ctx = some (c, ctx2)) :
    ∃ ctxPre ctxMid,
      RecordAndPushPrePassCommandLists p ctx = some (1, ctxPre) ∧
      RecordAndPushMiddlePassCommandLists p
        { ctxPre with log := ctxPre.log ++ occlusion.pushed.map Event.PushCommandList } =
          some (1, ctxMid) ∧
      c = ((((0 + 1) % 2 ^ 32 + occlusion.count) % 2 ^ 32 + 1) % 2 ^ 32 + blur.count) % 2 ^ 32 ∧
      ctx2 = { ctxMid with log := ctxMid.log ++ blur.pushed.map Event.PushCommandList } := by
  unfold Execute at h
  split at h
  · exact absurd h (by simp)
  split at h
  · exact absurd h (by simp)
  · rename_i c1 ctxPre hpre
    have hc1 := (RecordAndPushPrePassCommandLists_some p ctx ctxPre c1 hpre).1
    subst hc1
    simp only at h
    split at h
    · exact absurd h (by simp)
    · rename_i c3 ctxMid hmid
      have hc3 := (RecordAndPushMiddlePassCommandLists_some p _ ctxMid c3 hmid).1
      subst hc3
      simp only [recorderCall, Option.some.injEq, Prod.mk.injEq] at h
      exact ⟨ctxPre, ctxMid, hpre, hmid, h.1.symm, h.2.symm⟩

/-- What `Execute` computes when the data is valid and the four buffers are
distinct registered resources. After the pre-pass the ambient accessibility
buffer is a render target and the blur buffer a shader resource, so the middle
pass always records both of its barriers. -/
theorem Execute_eq (p : AmbientOcclusionPass) (occlusion blur : RecorderOutput)
    (ctx : PassContext) {a b n d : Resource} {sa sb sn sd : D3D12_RESOURCE_STATES}
    (hvalid : IsDataValid p = true)
    (ha : p.mAmbientAccessibilityBuffer = some a) (hb : p.mBlurBuffer = some b)
    (hn : p.mNormalRoughnessBuffer = some n) (hd : p.mDepthBuffer = some d)
    (hab : a ≠ b) (han : a ≠ n) (had : a ≠ d) (hbn : b ≠ n) (hbd : b ≠ d) (hnd : n ≠ d)
    (hsa : ctx.resourceStates a = some sa) (hsb : ctx.resourceStates b = some sb)
    (hsn : ctx.resourceStates n = some sn) (hsd : ctx.resourceStates d = some sd) :
    ∃ ctx2, Execute p occlusion blur ctx =
        some ((2 + occlusion.count + blur.count) % 2 ^ 32, ctx2) ∧
      ctx2.log = ctx.log ++
        [Event.ResetCommandListWithNextCommandAllocator
           CommandListOwner.mPrePassCommandListPerFrame,
         Event.PushCommandList
           (RenderManager.recordBarriers
              ((if sa ≠ D3D12_RESOURCE_STATE_RENDER_TARGET then
                  [⟨a, sa, D3D12_RESOURCE_STATE_RENDER_TARGET⟩] else []) ++
               (if sb ≠ D3D12_RESOURCE_STATE_PIXEL_SHADER_RESOURCE then
                  [⟨b, sb, D3D12_RESOURCE_STATE_PIXEL_SHADER_RESOURCE⟩] else []) ++
               (if sn ≠ D3D12_RESOURCE_STATE_PIXEL_SHADER_RESOURCE then
                  [⟨n, sn, D3D12_RESOURCE_STATE_PIXEL_SHADER_RESOURCE⟩] else []) ++
               (if sd ≠ D3D12_RESOURCE_STATE_PIXEL_SHADER_RESOURCE then
                  [⟨d, sd, D3D12_RESOURCE_STATE_PIXEL_SHADER_RESOURCE⟩] else [])) ++
            [Command.ClearRenderTargetView a, Command.Close])] ++
        occlusion.pushed.map Event.PushCommandList ++
        [Event.ResetCommandListWithNextCommandAllocator
           CommandListOwner.mMiddlePassCommandListPerFrame,
         Event.PushCommandList
           [Command.ResourceBarrier
              [⟨a, D3D12_RESOURCE_STATE_RENDER_TARGET,
                  D3D12_RESOURCE_STATE_PIXEL_SHADER_RESOURCE⟩,
               ⟨b, D3D12_RESOURCE_STATE_PIXEL_SHADER_RESOURCE,
                  D3D12_RESOURCE_STATE_RENDER_TARGET⟩],
            Command.ClearRenderTargetView b, Command.Close]] ++
        blur.pushed.map Event.PushCommandList := by
  have hpre := RecordAndPushPrePassCommandLists_eq p ctx hvalid ha hb hn hd hab han had hbn hbd
    hnd hsa hsb hsn hsd
  have hA : ResourceStateManager.setState (ResourceStateManager.setState
      (ResourceStateManager.setState (ResourceStateManager.setState ctx.resourceStates a
      D3D12_RESOURCE_STATE_RENDER_TARGET) b D3D12_RESOURCE_STATE_PIXEL_SHADER_RESOURCE) n
      D3D12_RESOURCE_STATE_PIXEL_SHADER_RESOURCE) d
      D3D12_RESOURCE_STATE_PIXEL_SHADER_RESOURCE a = some D3D12_RESOURCE_STATE_RENDER_TARGET := by
    rw [RenderManager.setState_other _ _ had, RenderManager.setState_other _ _ han,
      RenderManager.setState_other _ _ hab, RenderManager.setState_same]
  have hB : ResourceStateManager.setState (ResourceStateManager.setState
      (ResourceStateManager.setState (ResourceStateManager.setState ctx.resourceStates a
      D3D12_RESOURCE_STATE_RENDER_TARGET) b D3D12_RESOURCE_STATE_PIXEL_SHADER_RESOURCE) n
      D3D12_RESOURCE_STATE_PIXEL_SHADER_RESOURCE) d
      D3D12_RESOURCE_STATE_PIXEL_SHADER_RESOURCE b =
      some D3D12_RESOURCE_STATE_PIXEL_SHADER_RESOURCE := by
    rw [RenderManager.setState_other _ _ hbd, RenderManager.setState_other _ _ hbn,
      RenderManager.setState_same]
  have hne1 : D3D12_RESOURCE_STATE_RENDER_TARGET ≠ D3D12_RESOURCE_STATE_PIXEL_SHADER_RESOURCE := by
    decide
  have hne2 : D3D12_RESOURCE_STATE_PIXEL_SHADER_RESOURCE ≠ D3D12_RESOURCE_STATE_RENDER_TARGET := by
    decide
  have hcount : ((((0 + 1) % 2 ^ 32 + occlusion.count) % 2 ^ 32 + 1) % 2 ^ 32 + blur.count) %
      2 ^ 32 = (2 + occlusion.count + blur.count) % 2 ^ 32 := by
    omega
  simp only [Execute, hvalid, hpre, recorderCall, Bool.true_eq_false, if_false]
  rw [RecordAndPushMiddlePassCommandLists_eq p _ hvalid ha hb hab hA hB]
  simp only [hcount]
  refine ⟨_, rfl, ?_⟩
  simp [hne1, hne2, RenderManager.recordBarriers]

theorem pushedCommandLists_pass_list (log : List Event) (owner : CommandListOwner)
    (commands : List Command) :
    pushedCommandLists (log ++
      [Event.ResetCommandListWithNextCommandAllocator owner, Event.PushCommandList commands]) =
      pushedCommandLists log ++ [commands] := by
  simp [pushedCommandLists_append, pushedCommandLists]

/-- The command lists pushed by a returning `Execute`, in push order. -/
theorem Execute_pushed (p : AmbientOcclusionPass) (occlusion blur : RecorderOutput)
    (ctx ctx2 : PassContext) (c : Nat) (h : Execute p occlusion blur ctx = some (c, ctx2)) :
    ∃ a b preBarriers middleBarriers,
      p.mAmbientAccessibilityBuffer = some a ∧ p.mBlurBuffer = some b ∧
      pushedCommandLists ctx2.log = pushedCommandLists ctx.log ++
        [RenderManager.recordBarriers preBarriers ++
          [Command.ClearRenderTargetView a, Command.Close]] ++
        occlusion.pushed ++
        [RenderManager.recordBarriers middleBarriers ++
          [Command.ClearRenderTargetView b, Command.Close]] ++
        blur.pushed := by
  obtain ⟨ctxPre, ctxMid, hpre, hmid, _, hctx2⟩ := Execute_some p occlusion blur ctx ctx2 c h
  obtain ⟨_, a, preBarriers, ha, hprelog⟩ :=
    RecordAndPushPrePassCommandLists_some p ctx ctxPre 1 hpre
  obtain ⟨_, b, middleBarriers, hb, hmidlog⟩ :=
    RecordAndPushMiddlePassCommandLists_some p _ ctxMid 1 hmid
  refine ⟨a, b, preBarriers, middleBarriers, ha, hb, ?_⟩
  rw [hctx2]
  simp only [hmidlog, hprelog, pushedCommandLists_append, pushedCommandLists_pushes,
    pushedCommandLists]

/-- C17: every returning pre-pass call and every returning middle pass call
returns 1 and pushes exactly one command list; every returning `Execute` returns
2 plus the counts returned by the occlusion recorder and the blur recorder (in
32-bit arithmetic, so exactly that sum when it is below `2 ^ 32`) and pushes 2
command lists plus those the two recorders push, so that it returns exactly the
number of command lists it pushed when each recorder returns the number it
pushed. `Execute` returns when the data is valid and the four buffers are
distinct registered resources. -/
theorem Execute_returns_pushed_count (p : AmbientOcclusionPass)
    (occlusion blur : RecorderOutput) (ctx : PassContext) :
    (∀ c ctx1, RecordAndPushPrePassCommandLists p ctx = some (c, ctx1) →
      c = 1 ∧ (pushedCommandLists ctx1.log).length = (pushedCommandLists ctx.log).length + 1) ∧
    (∀ c ctx1, RecordAndPushMiddlePassCommandLists p ctx = some (c, ctx1) →
      c = 1 ∧ (pushedCommandLists ctx1.log).length = (pushedCommandLists ctx.log).length + 1) ∧
    (∀ c ctx2, Execute p occlusion blur ctx = some (c, ctx2) →
      c = (2 + occlusion.count + blur.count) % 2 ^ 32 ∧
      (2 + occlusion.count + blur.count < 2 ^ 32 → c = 2 + occlusion.count + blur.count) ∧
      (pushedCommandLists ctx2.log).length =
        (pushedCommandLists ctx.log).length + (2 + occlusion.pushed.length + blur.pushed.length) ∧
      (occlusion.count = occlusion.pushed.length → blur.count = blur.pushed.length →
        2 + occlusion.count + blur.count < 2 ^ 32 →
        (pushedCommandLists ctx2.log).length = (pushedCommandLists ctx.log).length + c)) ∧
    (IsDataValid p = true → ∀ a b n d sa sb sn sd,
      p.mAmbientAccessibilityBuffer = some a → p.mBlurBuffer = some b →
      p.mNormalRoughnessBuffer = some n → p.mDepthBuffer = some d →
      a ≠ b → a ≠ n → a ≠ d → b ≠ n → b ≠ d → n ≠ d →
      ctx.resourceStates a = some sa → ctx.resourceStates b = some sb →
      ctx.resourceStates n = some sn → ctx.resourceStates d = some sd →
      ∃ ctx2, Execute p occlusion blur ctx =
        some ((2 + occlusion.count + blur.count) % 2 ^ 32, ctx2)) := by
  refine ⟨?_, ?_, ?_, ?_⟩
  · intro c ctx1 h
    obtain ⟨hc, a, barriers, _, hlog⟩ := RecordAndPushPrePassCommandLists_some p ctx ctx1 c h
    exact ⟨hc, by rw [hlog, pushedCommandLists_pass_list]; simp⟩
  · intro c ctx1 h
    obtain ⟨hc, b, barriers, _, hlog⟩ := RecordAndPushMiddlePassCommandLists_some p ctx ctx1 c h
    exact ⟨hc, by rw [hlog, pushedCommandLists_pass_list]; simp⟩
  · intro c ctx2 h
    obtain ⟨_, _, _, _, hc, _⟩ := Execute_some p occlusion blur ctx ctx2 c h
    obtain ⟨a, b, preBarriers, middleBarriers, _, _, hpushed⟩ :=
      Execute_pushed p occlusion blur ctx ctx2 c h
    have hcount : c = (2 + occlusion.count + blur.count) % 2 ^ 32 := by
      rw [hc]
      omega
    have hlen : (pushedCommandLists ctx2.log).length =
        (pushedCommandLists ctx.log).length +
          (2 + occlusion.pushed.length + blur.pushed.length) := by
      rw [hpushed]
      simp only [List.length_append, List.length_singleton]
      omega
    refine ⟨hcount, fun hlt => ?_, hlen, fun ho hb hlt => ?_⟩
    · rw [hcount, Nat.mod_eq_of_lt hlt]
    · rw [hlen, hcount, Nat.mod_eq_of_lt hlt, ho, hb]
  · intro hvalid a b n d sa sb sn sd ha hb hn hd hab han had hbn hbd hnd hsa hsb hsn hsd
    obtain ⟨ctx2, hexec, _⟩ := Execute_eq p occlusion blur ctx hvalid ha hb hn hd hab han had
      hbn hbd hnd hsa hsb hsn hsd
    exact ⟨ctx2, hexec⟩

/-- Witness of C17: the example pass with recorders that push one command list
each returns 4 and pushes 4 command lists. -/
theorem Execute_returns_pushed_count_witness :
    ∃ ctx2, Execute examplePass exampleOcclusion exampleBlur exampleContext = some (4, ctx2) ∧
      (pushedCommandLists ctx2.log).length = 4 := by
  have h := Execute_returns_pushed_count examplePass exampleOcclusion exampleBlur exampleContext
  obtain ⟨ctx2, hexec⟩ := h.2.2.2 (by decide)
    (Resource.other 1) (Resource.other 2) (Resource.other 3) Resource.depthBuffer
    D3D12_RESOURCE_STATE_PIXEL_SHADER_RESOURCE D3D12_RESOURCE_STATE_PIXEL_SHADER_RESOURCE
    D3D12_RESOURCE_STATE_RENDER_TARGET D3D12_RESOURCE_STATE_DEPTH_WRITE
    rfl rfl rfl rfl (by decide) (by decide) (by decide) (by decide) (by decide) (by decide)
    rfl rfl rfl rfl
  exact ⟨ctx2, hexec, (h.2.2.1 _ ctx2 hexec).2.2.1⟩

/-- C18: `Execute` fails its entry assertion whenever `IsDataValid` is false, and
`Init` fails its entry assertion whenever `IsDataValid` is true. On the freshly
constructed pass `IsDataValid` is false, so `Execute` fails; one `Init` whose
created views are non-null returns a pass on which `IsDataValid` is true, so a
second `Init` fails, and `Execute` returns on it once the four buffers are
distinct registered resources. -/
theorem init_execute_protocol :
    (∀ p occlusion blur ctx, IsDataValid p = false → Execute p occlusion blur ctx = none) ∧
    (∀ p created normalRoughness depth, IsDataValid p = true →
      Init created normalRoughness depth p = none) ∧
    IsDataValid fresh = false ∧
    (∀ occlusion blur ctx, Execute fresh occlusion blur ctx = none) ∧
    (∀ created normalRoughness depth,
      created.ambientAccessibilityBufferRenderTargetView ≠ 0 →
      created.ambientAccessibilityBufferShaderResourceView ≠ 0 →
      created.blurBufferRenderTargetView ≠ 0 →
      created.blurBufferShaderResourceView ≠ 0 →
      ∃ p1, Init created normalRoughness depth fresh = some p1 ∧
        IsDataValid p1 = true ∧
        p1.mAmbientAccessibilityBuffer = some created.ambientAccessibilityBuffer ∧
        p1.mBlurBuffer = some created.blurBuffer ∧
        p1.mNormalRoughnessBuffer = some normalRoughness ∧
        p1.mDepthBuffer = some depth ∧
        (∀ created2 normalRoughness2 depth2,
          Init created2 normalRoughness2 depth2 p1 = none) ∧
        (∀ occlusion blur ctx sa sb sn sd,
          created.ambientAccessibilityBuffer ≠ created.blurBuffer →
          created.ambientAccessibilityBuffer ≠ normalRoughness →
          created.ambientAccessibilityBuffer ≠ depth →
          created.blurBuffer ≠ normalRoughness → created.blurBuffer ≠ depth →
          normalRoughness ≠ depth →
          ctx.resourceStates created.ambientAccessibilityBuffer = some sa →
          ctx.resourceStates created.blurBuffer = some sb →
          ctx.resourceStates normalRoughness = some sn →
          ctx.resourceStates depth = some sd →
          ∃ result, Execute p1 occlusion blur ctx = some result)) := by
  have hExecute : ∀ p occlusion blur ctx, IsDataValid p = false →
      Execute p occlusion blur ctx = none := by
    intro p occlusion blur ctx h
    simp [Execute, h]
  have hInit : ∀ p created normalRoughness depth, IsDataValid p = true →
      Init created normalRoughness depth p = none := by
    intro p created normalRoughness depth h
    simp [Init, h]
  refine ⟨hExecute, hInit, rfl, fun occlusion blur ctx => hExecute _ _ _ _ rfl, ?_⟩
  intro created normalRoughness depth h1 h2 h3 h4
  have hvalid : IsDataValid
      { mAmbientAccessibilityBuffer := some created.ambientAccessibilityBuffer
        mAmbientAccessibilityBufferShaderResourceView :=
          created.ambientAccessibilityBufferShaderResourceView
        mAmbientAccessibilityBufferRenderTargetView :=
          created.ambientAccessibilityBufferRenderTargetView
        mBlurBuffer := some created.blurBuffer
        mBlurBufferShaderResourceView := created.blurBufferShaderResourceView
        mBlurBufferRenderTargetView := created.blurBufferRenderTargetView
        mNormalRoughnessBuffer := some normalRoughness
        mDepthBuffer := some depth } = true := by
    simp [IsDataValid, h1, h2, h3, h4]
  refine ⟨_, ?_, hvalid, rfl, rfl, rfl, rfl, fun c2 n2 d2 => hInit _ _ _ _ hvalid, ?_⟩
  · simp only [Init, fresh]
    simp [IsDataValid, h1, h2, h3, h4]
  · intro occlusion blur ctx sa sb sn sd hab han had hbn hbd hnd hsa hsb hsn hsd
    obtain ⟨ctx2, hexec, _⟩ := Execute_eq _ occlusion blur ctx hvalid rfl rfl rfl rfl hab han had
      hbn hbd hnd hsa hsb hsn hsd
    exact ⟨_, hexec⟩

/-- An instance of C18: `Init` of the fresh pass with the example buffers gives the
example pass, on which `Execute` returns and a second `Init` fails. -/
theorem init_execute_protocol_witness :
    Execute fresh exampleOcclusion exampleBlur exampleContext = none ∧
    ∃ p1, Init exampleCreated (Resource.other 3) Resource.depthBuffer fresh = some p1 ∧
      IsDataValid p1 = true ∧
      Init exampleCreated (Resource.other 3) Resource.depthBuffer p1 = none ∧
      ∃ result, Execute p1 exampleOcclusion exampleBlur exampleContext = some result := by
  have h := init_execute_protocol
  obtain ⟨p1, hinit, hvalid, _, _, _, _, hsecond, hexec⟩ :=
    h.2.2.2.2 exampleCreated (Resource.other 3) Resource.depthBuffer
      (by decide) (by decide) (by decide) (by decide)
  exact ⟨h.2.2.2.1 _ _ _, p1, hinit, hvalid, hsecond _ _ _,
    hexec exampleOcclusion exampleBlur exampleContext
      D3D12_RESOURCE_STATE_PIXEL_SHADER_RESOURCE D3D12_RESOURCE_STATE_PIXEL_SHADER_RESOURCE
      D3D12_RESOURCE_STATE_RENDER_TARGET D3D12_RESOURCE_STATE_DEPTH_WRITE
      (by decide) (by decide) (by decide) (by decide) (by decide) (by decide)
      rfl rfl rfl rfl⟩

/-- C20: every returning `Execute` pushes, in this order, the pre-pass list, which
ends with the clear of the ambient accessibility buffer, every list of the
occlusion recorder, the middle pass list, which ends with the clear of the blur
buffer, and every list of the blur recorder. With valid data and the four buffers
distinct registered resources `Execute` returns, the pre-pass list starts with
the barriers of the pre-pass (ambient accessibility to `RENDER_TARGET` when it is
not there already) and the middle pass list starts with the barriers that move
the ambient accessibility buffer from `RENDER_TARGET` to `PIXEL_SHADER_RESOURCE`
and the blur buffer from `PIXEL_SHADER_RESOURCE` to `RENDER_TARGET`. -/
theorem Execute_push_order (p : AmbientOcclusionPass) (occlusion blur : RecorderOutput)
    (ctx : PassContext) :
    (∀ c ctx2, Execute p occlusion blur ctx = some (c, ctx2) →
      ∃ a b preBarriers middleBarriers,
        p.mAmbientAccessibilityBuffer = some a ∧ p.mBlurBuffer = some b ∧
        pushedCommandLists ctx2.log = pushedCommandLists ctx.log ++
          [RenderManager.recordBarriers preBarriers ++
            [Command.ClearRenderTargetView a, Command.Close]] ++
          occlusion.pushed ++
          [RenderManager.recordBarriers middleBarriers ++
            [Command.ClearRenderTargetView b, Command.Close]] ++
          blur.pushed) ∧
    (IsDataValid p = true → ∀ a b n d sa sb sn sd,
      p.mAmbientAccessibilityBuffer = some a → p.mBlurBuffer = some b →
      p.mNormalRoughnessBuffer = some n → p.mDepthBuffer = some d →
      a ≠ b → a ≠ n → a ≠ d → b ≠ n → b ≠ d → n ≠ d →
      ctx.resourceStates a = some sa → ctx.resourceStates b = some sb →
      ctx.resourceStates n = some sn → ctx.resourceStates d = some sd →
      ∃ c ctx2, Execute p occlusion blur ctx = some (c, ctx2) ∧
        pushedCommandLists ctx2.log = pushedCommandLists ctx.log ++
          [RenderManager.recordBarriers
              ((if sa ≠ D3D12_RESOURCE_STATE_RENDER_TARGET then
                  [⟨a, sa, D3D12_RESOURCE_STATE_RENDER_TARGET⟩] else []) ++
               (if sb ≠ D3D12_RESOURCE_STATE_PIXEL_SHADER_RESOURCE then
                  [⟨b, sb, D3D12_RESOURCE_STATE_PIXEL_SHADER_RESOURCE⟩] else []) ++
               (if sn ≠ D3D12_RESOURCE_STATE_PIXEL_SHADER_RESOURCE then
                  [⟨n, sn, D3D12_RESOURCE_STATE_PIXEL_SHADER_RESOURCE⟩] else []) ++
               (if sd ≠ D3D12_RESOURCE_STATE_PIXEL_SHADER_RESOURCE then
                  [⟨d, sd, D3D12_RESOURCE_STATE_PIXEL_SHADER_RESOURCE⟩] else [])) ++
            [Command.ClearRenderTargetView a, Command.Close]] ++
          occlusion.pushed ++
          [[Command.ResourceBarrier
              [⟨a, D3D12_RESOURCE_STATE_RENDER_TARGET,
                  D3D12_RESOURCE_STATE_PIXEL_SHADER_RESOURCE⟩,
               ⟨b, D3D12_RESOURCE_STATE_PIXEL_SHADER_RESOURCE,
                  D3D12_RESOURCE_STATE_RENDER_TARGET⟩],
            Command.ClearRenderTargetView b, Command.Close]] ++
          blur.pushed) := by
  refine ⟨fun c ctx2 h => Execute_pushed p occlusion blur ctx ctx2 c h, ?_⟩
  intro hvalid a b n d sa sb sn sd ha hb hn hd hab han had hbn hbd hnd hsa hsb hsn hsd
  obtain ⟨ctx2, hexec, hlog⟩ := Execute_eq p occlusion blur ctx hvalid ha hb hn hd hab han had
    hbn hbd hnd hsa hsb hsn hsd
  refine ⟨_, ctx2, hexec, ?_⟩
  rw [hlog]
  simp only [pushedCommandLists_append, pushedCommandLists_pushes, pushedCommandLists]

/-- Witness of C20: the four command lists the example pass pushes, in order. -/
theorem Execute_push_order_witness :
    ∃ c ctx2, Execute examplePass exampleOcclusion exampleBlur exampleContext = some (c, ctx2) ∧
      pushedCommandLists ctx2.log =
        [[Command.ResourceBarrier
            [⟨Resource.other 1, D3D12_RESOURCE_STATE_PIXEL_SHADER_RESOURCE,
                D3D12_RESOURCE_STATE_RENDER_TARGET⟩,
             ⟨Resource.other 3, D3D12_RESOURCE_STATE_RENDER_TARGET,
                D3D12_RESOURCE_STATE_PIXEL_SHADER_RESOURCE⟩,
             ⟨Resource.depthBuffer, D3D12_RESOURCE_STATE_DEPTH_WRITE,
                D3D12_RESOURCE_STATE_PIXEL_SHADER_RESOURCE⟩],
          Command.ClearRenderTargetView (Resource.other 1), Command.Close],
         [Command.Close],
         [Command.ResourceBarrier
            [⟨Resource.other 1, D3D12_RESOURCE_STATE_RENDER_TARGET,
                D3D12_RESOURCE_STATE_PIXEL_SHADER_RESOURCE⟩,
             ⟨Resource.other 2, D3D12_RESOURCE_STATE_PIXEL_SHADER_RESOURCE,
                D3D12_RESOURCE_STATE_RENDER_TARGET⟩],
          Command.ClearRenderTargetView (Resource.other 2), Command.Close],
         [Command.Close]] :=
  (Execute_push_order examplePass exampleOcclusion exampleBlur exampleContext).2 (by decide)
    (Resource.other 1) (Resource.other 2) (Resource.other 3) Resource.depthBuffer
    D3D12_RESOURCE_STATE_PIXEL_SHADER_RESOURCE D3D12_RESOURCE_STATE_PIXEL_SHADER_RESOURCE
    D3D12_RESOURCE_STATE_RENDER_TARGET D3D12_RESOURCE_STATE_DEPTH_WRITE
    rfl rfl rfl rfl (by decide) (by decide) (by decide) (by decide) (by decide) (by decide)
    rfl rfl rfl rfl

end AmbientOcclusionPass

namespace RenderManager

end RenderManager

/-! ## Application shell: facts -/

namespace D3DApp

/-- C21: `D3DApp::FlushCommandQueue` returns unless it has to wait and
`CreateEventEx` gave no event. When it returns it has incremented `mCurrentFence`
by 1 (in 64-bit arithmetic: exactly `mCurrentFence + 1` unless the counter was
`2 ^ 64 - 1`), has signalled the new value and then read the completed value, and
has created the event and blocked on it exactly when the completed value read was
less than the new value; when the wait returns only once the fence has reached
the requested value, the completed value is at least `mCurrentFence` on return. -/
theorem FlushCommandQueue_drains (app : D3DApp)
    (completedAfterSignal eventHandle completedAtWake : Nat) :
    ((∃ app1, FlushCommandQueue completedAfterSignal eventHandle completedAtWake app = some app1) ↔
      (completedAfterSignal < (app.mCurrentFence + 1) % 2 ^ 64 → eventHandle ≠ 0)) ∧
    ∀ app1, FlushCommandQueue completedAfterSignal eventHandle completedAtWake app = some app1 →
      app1.mCurrentFence = (app.mCurrentFence + 1) % 2 ^ 64 ∧
      (app.mCurrentFence + 1 < 2 ^ 64 → app1.mCurrentFence = app.mCurrentFence + 1) ∧
      app1.log = app.log ++
        [AppCall.Signal app1.mCurrentFence, AppCall.GetCompletedValue completedAfterSignal] ++
        (if completedAfterSignal < app1.mCurrentFence then
          waitCalls app1.mCurrentFence eventHandle else []) ∧
      ((completedAfterSignal < app1.mCurrentFence → app1.mCurrentFence ≤ completedAtWake) →
        app1.mCurrentFence ≤ app1.fenceCompletedValue) := by
  by_cases hlt : completedAfterSignal < (app.mCurrentFence + 1) % 2 ^ 64
  · by_cases hev : eventHandle = 0
    · refine ⟨⟨fun ⟨app1, h⟩ => ?_, fun h => absurd hev (h hlt)⟩, fun app1 h => ?_⟩
      · simp only [FlushCommandQueue, hlt, hev, if_true] at h
        exact absurd h (by simp)
      · simp only [FlushCommandQueue, hlt, hev, if_true] at h
        exact absurd h (by simp)
    · refine ⟨⟨fun _ _ => hev, fun _ => ?_⟩, fun app1 h => ?_⟩
      · simp only [FlushCommandQueue, hlt, hev, if_true, if_false]
        exact ⟨_, rfl⟩
      simp only [FlushCommandQueue, hlt, hev, if_true, if_false, Option.some.injEq] at h
      subst h
      refine ⟨rfl, fun hno => Nat.mod_eq_of_lt hno, ?_, fun hw => hw hlt⟩
      simp only [hlt, if_true]
  · refine ⟨⟨fun _ h => absurd h hlt, fun _ => ?_⟩, fun app1 h => ?_⟩
    · simp only [FlushCommandQueue, hlt, if_false]
      exact ⟨_, rfl⟩
    simp only [FlushCommandQueue, hlt, if_false, Option.some.injEq] at h
    subst h
    refine ⟨rfl, fun hno => Nat.mod_eq_of_lt hno, ?_, fun _ => Nat.le_of_not_lt hlt⟩
    simp only [hlt, if_false, List.append_nil]

/-- An instance of C21: from fence value 0 with completed value 0 read after the
signal, the call signals 1, blocks on the event, and returns with completed
value 1. -/
theorem FlushCommandQueue_drains_witness :
    ∃ app1, FlushCommandQueue 0 7 1 exampleApp = some app1 ∧
      app1.mCurrentFence = 1 ∧
      app1.log = [AppCall.Signal 1, AppCall.GetCompletedValue 0] ++ waitCalls 1 7 ∧
      app1.mCurrentFence ≤ app1.fenceCompletedValue := by
  have h := FlushCommandQueue_drains exampleApp 0 7 1
  obtain ⟨app1, happ1⟩ := h.1.2 (fun _ => by decide)
  obtain ⟨hfence, _, hlog, hdone⟩ := h.2 app1 happ1
  have hf1 : app1.mCurrentFence = 1 := hfence
  refine ⟨app1, happ1, hf1, ?_, hdone (fun _ => by rw [hf1])⟩
  rw [hlog, hf1]
  rfl

end D3DApp

namespace BlurCmdListRecorder

/-- C22: `RecordAndPushCommandLists` fails whenever `sPSO` or `sRootSignature` is
null, that is whenever `InitPSO` has not been called; every `InitPSO` that returns
leaves both non-null, so that every further `InitPSO` fails its entry assertion;
on null statics `InitPSO` returns when the root signature and the PSO it obtains
are non-null, and `RecordAndPushCommandLists` then returns on valid data. -/
theorem shared_pso_initialised_once {K : Nat} (r : BlurCmdListRecorder K) (statics : BlurStatics) :
    (statics.sPSO = 0 ∨ statics.sRootSignature = 0 →
      RecordAndPushCommandLists r statics = none) ∧
    (∀ createdRootSignature createdPSO statics1,
      InitPSO createdRootSignature createdPSO statics = some statics1 →
      statics.sPSO = 0 ∧ statics.sRootSignature = 0 ∧
      statics1.sPSO = createdPSO ∧ statics1.sRootSignature = createdRootSignature ∧
      statics1.sPSO ≠ 0 ∧ statics1.sRootSignature ≠ 0 ∧
      ∀ createdRootSignature2 createdPSO2,
        InitPSO createdRootSignature2 createdPSO2 statics1 = none) ∧
    (statics.sPSO = 0 → statics.sRootSignature = 0 →
      ∀ createdRootSignature createdPSO, createdRootSignature ≠ 0 → createdPSO ≠ 0 →
      ∃ statics1, InitPSO createdRootSignature createdPSO statics = some statics1 ∧
        (ValidateData r = true → statics1.currentFrameIndex < K →
          ∃ statics2, RecordAndPushCommandLists r statics1 = some statics2)) := by
  refine ⟨?_, ?_, ?_⟩
  · intro h
    unfold RecordAndPushCommandLists
    rcases h with h | h
    · by_cases hv : ValidateData r = false
      · simp [hv]
      · simp [hv, h]
    · by_cases hv : ValidateData r = false
      · simp [hv]
      · by_cases hp : statics.sPSO = 0
        · simp [hv, hp]
        · simp [hv, hp, h]
  · intro rs pso statics1 h
    unfold InitPSO at h
    split at h
    · exact absurd h (by simp)
    split at h
    · exact absurd h (by simp)
    split at h
    · exact absurd h (by simp)
    split at h
    · exact absurd h (by simp)
    rename_i h1 h2 h3 h4
    simp only [Option.some.injEq] at h
    subst h
    refine ⟨by simpa using h1, by simpa using h2, rfl, rfl, h3, h4, fun rs2 pso2 => ?_⟩
    simp [InitPSO, h3]
  · intro hp hr rs pso hrs hpso
    refine ⟨{ statics with sRootSignature := rs, sPSO := pso }, by simp [InitPSO, hp, hr, hrs, hpso],
      fun hv hidx => ?_⟩
    have hall : ∀ i, r.mCommandAllocators i ≠ 0 := by
      intro i
      unfold ValidateData at hv
      split at hv
      · exact absurd hv (by simp)
      · rename_i hany
        simp only [List.any_eq_true, not_exists, not_and, beq_iff_eq] at hany
        exact hany i (List.mem_finRange i)
    simp only [RecordAndPushCommandLists, hv, hpso, hrs, hidx, hall, Bool.true_eq_false, if_false,
      dite_true]
    exact ⟨_, rfl⟩

/-- An instance of C22: before `InitPSO` the recorder fails; after one `InitPSO` it
records and a second `InitPSO` fails. -/
theorem shared_pso_initialised_once_witness :
    RecordAndPushCommandLists instanceA uninitialisedStatics = none ∧
    ∃ statics1, InitPSO 2 1 uninitialisedStatics = some statics1 ∧
      InitPSO 2 1 statics1 = none ∧
      ∃ statics2, RecordAndPushCommandLists instanceA statics1 = some statics2 := by
  have h := shared_pso_initialised_once instanceA uninitialisedStatics
  obtain ⟨statics1, hinit, hrecord⟩ := h.2.2 rfl rfl 2 1 (by decide) (by decide)
  have hidx : statics1.currentFrameIndex < 2 := by
    simp only [InitPSO, uninitialisedStatics] at hinit
    simp only [ne_eq, not_true_eq_false, if_false, OfNat.ofNat_ne_zero, one_ne_zero,
      Option.some.injEq] at hinit
    rw [← hinit]
    decide
  exact ⟨h.1 (Or.inl rfl), statics1, hinit, (h.2.1 2 1 statics1 hinit).2.2.2.2.2.2 2 1,
    hrecord (by decide) hidx⟩

end BlurCmdListRecorder

namespace RenderManager

/-! ## Repeated barrier passes -/

/-- The tracker entries a returning begin pass leaves for its four resources. -/
theorem ExecuteBeginPass_states (rm rm1 : RenderManager) (h : ExecuteBeginPass rm = some rm1) :
    rm1.GetCurrentFrameBuffer = rm.GetCurrentFrameBuffer ∧
    rm1.resourceStates rm.GetCurrentFrameBuffer = some D3D12_RESOURCE_STATE_RENDER_TARGET ∧
    rm1.resourceStates Resource.intermediateColorBuffer1 =
      some D3D12_RESOURCE_STATE_RENDER_TARGET ∧
    rm1.resourceStates Resource.intermediateColorBuffer2 =
      some D3D12_RESOURCE_STATE_RENDER_TARGET ∧
    rm1.resourceStates Resource.depthBuffer = some D3D12_RESOURCE_STATE_DEPTH_WRITE := by
  obtain ⟨sb, s1, s2, sd, hb, h1, h2, hd⟩ := ExecuteBeginPass_registered rm rm1 h
  rw [ExecuteBeginPass_eq rm hb h1 h2 hd] at h
  injection h with h
  subst h
  refine ⟨rfl, ?_, ?_, ?_, ?_⟩
  · simp [ResourceStateManager.setState, GetCurrentFrameBuffer]
  · simp [ResourceStateManager.setState]
  · simp [ResourceStateManager.setState]
  · simp [ResourceStateManager.setState]

/-- The tracker entry a returning final pass leaves for the back buffer. -/
theorem ExecuteFinalPass_states (rm rm1 : RenderManager) (h : ExecuteFinalPass rm = some rm1) :
    rm1.GetCurrentFrameBuffer = rm.GetCurrentFrameBuffer ∧
    rm1.resourceStates rm.GetCurrentFrameBuffer = some D3D12_RESOURCE_STATE_PRESENT := by
  obtain ⟨s, hb⟩ := ExecuteFinalPass_registered rm rm1 h
  rw [ExecuteFinalPass_eq rm hb] at h
  injection h with h
  subst h
  exact ⟨rfl, setState_same _ _ _⟩

/-- C23: a second `ExecuteBeginPass` right after a returning one, with the same
current back buffer and the tracker as the first call left it, returns, records
no barrier (its command list holds the four clears and `Close` only) and leaves
the tracker unchanged; a second `ExecuteFinalPass` right after a returning one
returns, records no barrier and changes nothing at all. -/
theorem second_pass_records_no_barrier (rm : RenderManager) :
    (∀ rm1, ExecuteBeginPass rm = some rm1 →
      ∃ rm2, ExecuteBeginPass rm1 = some rm2 ∧
        recordedBarriers rm2.log = recordedBarriers rm1.log ∧
        rm2.log = rm1.log ++
          [Event.ResetCommandListWithNextCommandAllocator
             CommandListOwner.mBeginCommandListPerFrame,
           Event.ExecuteCommandListAndWaitForCompletion
             [Command.ClearRenderTargetView rm.GetCurrentFrameBuffer,
              Command.ClearRenderTargetView Resource.intermediateColorBuffer1,
              Command.ClearRenderTargetView Resource.intermediateColorBuffer2,
              Command.ClearDepthStencilView Resource.depthBuffer,
              Command.Close]] ∧
        rm2.resourceStates = rm1.resourceStates) ∧
    (∀ rm1, ExecuteFinalPass rm = some rm1 →
      ExecuteFinalPass rm1 = some rm1 ∧
      ∀ rm2, ExecuteFinalPass rm1 = some rm2 →
        recordedBarriers rm2.log = recordedBarriers rm1.log ∧
        rm2.resourceStates = rm1.resourceStates) := by
  constructor
  · intro rm1 h
    obtain ⟨hfb, hb, h1, h2, hd⟩ := ExecuteBeginPass_states rm rm1 h
    rw [← hfb] at hb
    have heq := ExecuteBeginPass_eq rm1 hb h1 h2 hd
    have hstates : ResourceStateManager.setState (ResourceStateManager.setState
        (ResourceStateManager.setState
          (ResourceStateManager.setState rm1.resourceStates rm1.GetCurrentFrameBuffer
            D3D12_RESOURCE_STATE_RENDER_TARGET)
          Resource.intermediateColorBuffer1 D3D12_RESOURCE_STATE_RENDER_TARGET)
        Resource.intermediateColorBuffer2 D3D12_RESOURCE_STATE_RENDER_TARGET)
        Resource.depthBuffer D3D12_RESOURCE_STATE_DEPTH_WRITE = rm1.resourceStates := by
      rw [setState_eq_self hb, setState_eq_self h1, setState_eq_self h2, setState_eq_self hd]
    refine ⟨_, heq, ?_, ?_, hstates⟩
    · simp only [recordedBarriers_append, recordedBarriers, List.flatMap_append,
        flatMap_recordBarriers, List.append_nil]
      simp [List.flatMap, commandBarriers]
    · simp [recordBarriers, hfb]
  · intro rm1 h
    obtain ⟨hfb, hb⟩ := ExecuteFinalPass_states rm rm1 h
    rw [← hfb] at hb
    have heq : ExecuteFinalPass rm1 = some rm1 := by
      rw [ExecuteFinalPass_eq rm1 hb, setState_eq_self hb]
      simp
    refine ⟨heq, fun rm2 h2 => ?_⟩
    rw [heq] at h2
    injection h2 with h2
    subst h2
    exact ⟨rfl, rfl⟩

/-- Witness of C23 on the example render manager: the second begin pass records
no barrier, and after the final pass that follows it a second final pass changes
nothing. -/
theorem second_pass_records_no_barrier_witness :
    ∃ rm1 rm2 rm3, ExecuteBeginPass exampleRenderManager = some rm1 ∧
      ExecuteBeginPass rm1 = some rm2 ∧
      recordedBarriers rm2.log = recordedBarriers rm1.log ∧
      rm2.resourceStates = rm1.resourceStates ∧
      ExecuteFinalPass rm2 = some rm3 ∧
      ExecuteFinalPass rm3 = some rm3 := by
  obtain ⟨rm1, hbegin⟩ : ∃ rm1, ExecuteBeginPass exampleRenderManager = some rm1 :=
    ⟨_, @ExecuteBeginPass_eq exampleRenderManager D3D12_RESOURCE_STATE_PRESENT
      D3D12_RESOURCE_STATE_RENDER_TARGET D3D12_RESOURCE_STATE_PIXEL_SHADER_RESOURCE
      D3D12_RESOURCE_STATE_DEPTH_WRITE rfl rfl rfl rfl⟩
  obtain ⟨rm2, h2, hbarriers, _, hstates⟩ :=
    (second_pass_records_no_barrier exampleRenderManager).1 rm1 hbegin
  obtain ⟨hfb, hb, _⟩ := ExecuteBeginPass_states rm1 rm2 h2
  rw [← hfb] at hb
  obtain ⟨rm3, hfinal⟩ : ∃ rm3, ExecuteFinalPass rm2 = some rm3 :=
    ⟨_, ExecuteFinalPass_eq rm2 hb⟩
  exact ⟨rm1, rm2, rm3, hbegin, h2, hbarriers, hstates, hfinal,
    ((second_pass_records_no_barrier rm2).2 rm3 hfinal).1⟩

/-! ## Capacity of the barrier arrays -/

theorem transitionIfNeededIn_eq (capacity : Nat) (r : Resource) (target : D3D12_RESOURCE_STATES)
    (m : ResourceStateManager) (bs : List ResourceBarrier) (h : bs.length < capacity) :
    transitionIfNeededIn capacity r target (m, bs) = transitionIfNeeded r target (m, bs) := by
  unfold transitionIfNeededIn transitionIfNeeded
  cases ResourceStateManager.GetResourceState m r with
  | none => rfl
  | some current =>
    simp only
    split
    · cases ResourceStateManager.ChangeResourceStateAndGetBarrier m r target with
      | none => rfl
      | some x => simp [h]
    · rfl

/-- One more block after blocks that have written at most `k < capacity` barriers:
the write is in bounds, and at most `k + 1` barriers are written afterwards. -/
theorem transition_step (capacity k : Nat) (r : Resource) (target : D3D12_RESOURCE_STATES)
    (x y : Option (ResourceStateManager × List ResourceBarrier)) (hxy : x = y)
    (hy : ∀ m bs, y = some (m, bs) → bs.length ≤ k) (hk : k < capacity) :
    (x >>= transitionIfNeededIn capacity r target) = (y >>= transitionIfNeeded r target) ∧
    ∀ m bs, (y >>= transitionIfNeeded r target) = some (m, bs) → bs.length ≤ k + 1 := by
  subst hxy
  cases x with
  | none => exact ⟨rfl, fun m bs h => by simp at h⟩
  | some st =>
    obtain ⟨m0, bs0⟩ := st
    have hlen := hy m0 bs0 rfl
    refine ⟨?_, fun m bs h => ?_⟩
    · simp only [Option.some_bind, Option.bind_eq_bind]
      exact transitionIfNeededIn_eq capacity r target m0 bs0 (by omega)
    · simp only [Option.some_bind, Option.bind_eq_bind] at h
      obtain ⟨s, _, _, hbs⟩ := transitionIfNeeded_some h
      rw [hbs]
      split <;> simp <;> omega

theorem barrierCounts_recordBarriers (bs : List ResourceBarrier) (rest : List Command)
    (hrest : barrierCounts rest = []) :
    barrierCounts (recordBarriers bs ++ rest) = if bs.length > 0 then [bs.length] else [] := by
  unfold barrierCounts at hrest ⊢
  rw [List.filterMap_append, hrest, List.append_nil]
  unfold recordBarriers
  split <;> rfl

theorem beginPassBarriers_eq (rm : RenderManager) :
    beginPassBarriers 4 rm =
      (some (rm.resourceStates, ([] : List ResourceBarrier))
        >>= transitionIfNeeded rm.GetCurrentFrameBuffer D3D12_RESOURCE_STATE_RENDER_TARGET
        >>= transitionIfNeeded Resource.intermediateColorBuffer1 D3D12_RESOURCE_STATE_RENDER_TARGET
        >>= transitionIfNeeded Resource.intermediateColorBuffer2 D3D12_RESOURCE_STATE_RENDER_TARGET
        >>= transitionIfNeeded Resource.depthBuffer D3D12_RESOURCE_STATE_DEPTH_WRITE) ∧
    ∀ m bs, beginPassBarriers 4 rm = some (m, bs) → bs.length ≤ 4 := by
  have h0 : ∀ m bs, some (rm.resourceStates, ([] : List ResourceBarrier)) = some (m, bs) →
      bs.length ≤ 0 := by
    intro m bs h
    simp only [Option.some.injEq, Prod.mk.injEq] at h
    rw [← h.2]
    simp
  obtain ⟨e1, h1⟩ := transition_step 4 0 rm.GetCurrentFrameBuffer
    D3D12_RESOURCE_STATE_RENDER_TARGET _ _ rfl h0 (by omega)
  obtain ⟨e2, h2⟩ := transition_step 4 1 Resource.intermediateColorBuffer1
    D3D12_RESOURCE_STATE_RENDER_TARGET _ _ e1 h1 (by omega)
  obtain ⟨e3, h3⟩ := transition_step 4 2 Resource.intermediateColorBuffer2
    D3D12_RESOURCE_STATE_RENDER_TARGET _ _ e2 h2 (by omega)
  obtain ⟨e4, h4⟩ := transition_step 4 3 Resource.depthBuffer
    D3D12_RESOURCE_STATE_DEPTH_WRITE _ _ e3 h3 (by omega)
  refine ⟨e4, fun m bs h => h4 m bs ?_⟩
  rw [← e4]
  exact h

theorem finalPassBarriers_eq (rm : RenderManager) :
    finalPassBarriers 4 rm =
      transitionIfNeeded rm.GetCurrentFrameBuffer D3D12_RESOURCE_STATE_PRESENT
        (rm.resourceStates, ([] : List ResourceBarrier)) ∧
    ∀ m bs, finalPassBarriers 4 rm = some (m, bs) → bs.length ≤ 1 := by
  have e : finalPassBarriers 4 rm =
      transitionIfNeeded rm.GetCurrentFrameBuffer D3D12_RESOURCE_STATE_PRESENT
        (rm.resourceStates, ([] : List ResourceBarrier)) :=
    transitionIfNeededIn_eq 4 _ _ _ _ (by simp)
  refine ⟨e, fun m bs h => ?_⟩
  rw [e] at h
  obtain ⟨s, _, _, hbs⟩ := transitionIfNeeded_some h
  rw [hbs]
  split <;> simp

theorem prePassBarriers_eq (m0 : ResourceStateManager) (a b n d : Resource) :
    prePassBarriers 4 m0 a b n d =
      (some (m0, ([] : List ResourceBarrier))
        >>= transitionIfNeeded a D3D12_RESOURCE_STATE_RENDER_TARGET
        >>= transitionIfNeeded b D3D12_RESOURCE_STATE_PIXEL_SHADER_RESOURCE
        >>= transitionIfNeeded n D3D12_RESOURCE_STATE_PIXEL_SHADER_RESOURCE
        >>= transitionIfNeeded d D3D12_RESOURCE_STATE_PIXEL_SHADER_RESOURCE) ∧
    ∀ m bs, prePassBarriers 4 m0 a b n d = some (m, bs) → bs.length ≤ 4 := by
  have h0 : ∀ m bs, some (m0, ([] : List ResourceBarrier)) = some (m, bs) →
      bs.length ≤ 0 := by
    intro m bs h
    simp only [Option.some.injEq, Prod.mk.injEq] at h
    rw [← h.2]
    simp
  obtain ⟨e1, h1⟩ := transition_step 4 0 a D3D12_RESOURCE_STATE_RENDER_TARGET _ _ rfl h0
    (by omega)
  obtain ⟨e2, h2⟩ := transition_step 4 1 b D3D12_RESOURCE_STATE_PIXEL_SHADER_RESOURCE _ _ e1 h1
    (by omega)
  obtain ⟨e3, h3⟩ := transition_step 4 2 n D3D12_RESOURCE_STATE_PIXEL_SHADER_RESOURCE _ _ e2 h2
    (by omega)
  obtain ⟨e4, h4⟩ := transition_step 4 3 d D3D12_RESOURCE_STATE_PIXEL_SHADER_RESOURCE _ _ e3 h3
    (by omega)
  refine ⟨e4, fun m bs h => h4 m bs ?_⟩
  rw [← e4]
  exact h

theorem middlePassBarriers_eq (m0 : ResourceStateManager) (a b : Resource) :
    middlePassBarriers 2 m0 a b =
      (some (m0, ([] : List ResourceBarrier))
        >>= transitionIfNeeded a D3D12_RESOURCE_STATE_PIXEL_SHADER_RESOURCE
        >>= transitionIfNeeded b D3D12_RESOURCE_STATE_RENDER_TARGET) ∧
    ∀ m bs, middlePassBarriers 2 m0 a b = some (m, bs) → bs.length ≤ 2 := by
  have h0 : ∀ m bs, some (m0, ([] : List ResourceBarrier)) = some (m, bs) →
      bs.length ≤ 0 := by
    intro m bs h
    simp only [Option.some.injEq, Prod.mk.injEq] at h
    rw [← h.2]
    simp
  obtain ⟨e1, h1⟩ := transition_step 2 0 a D3D12_RESOURCE_STATE_PIXEL_SHADER_RESOURCE _ _ rfl h0
    (by omega)
  obtain ⟨e2, h2⟩ := transition_step 2 1 b D3D12_RESOURCE_STATE_RENDER_TARGET _ _ e1 h1
    (by omega)
  refine ⟨e2, fun m bs h => h2 m bs ?_⟩
  rw [← e2]
  exact h

theorem counts_within (bs : List ResourceBarrier) (capacity : Nat) (h : bs.length ≤ capacity) :
    ∀ c ∈ (if bs.length > 0 then [bs.length] else []), 1 ≤ c ∧ c ≤ capacity := by
  intro c hc
  split at hc
  · simp only [List.mem_singleton] at hc
    omega
  · simp at hc

/-- C24: in each of the four barrier passes every write `barriers[barrierCount]` is
in bounds of the array the source declares (the blocks computed with the bounds
check are the blocks computed without it), and every returning call has counted
at most 4 barriers in `ExecuteBeginPass`, 1 in `ExecuteFinalPass`, 4 in
`RecordAndPushPrePassCommandLists` and 2 in `RecordAndPushMiddlePassCommandLists`,
and has called `ResourceBarrier` only with a count of at least 1 and at most that
bound. -/
theorem barrier_count_within_capacity :
    (∀ rm : RenderManager,
      beginPassBarriers 4 rm =
        (some (rm.resourceStates, ([] : List ResourceBarrier))
          >>= transitionIfNeeded rm.GetCurrentFrameBuffer D3D12_RESOURCE_STATE_RENDER_TARGET
          >>= transitionIfNeeded Resource.intermediateColorBuffer1
                D3D12_RESOURCE_STATE_RENDER_TARGET
          >>= transitionIfNeeded Resource.intermediateColorBuffer2
                D3D12_RESOURCE_STATE_RENDER_TARGET
          >>= transitionIfNeeded Resource.depthBuffer D3D12_RESOURCE_STATE_DEPTH_WRITE) ∧
      ∀ rm1, ExecuteBeginPass rm = some rm1 →
        ∃ barriers commands,
          beginPassBarriers 4 rm = some (rm1.resourceStates, barriers) ∧
          barriers.length ≤ 4 ∧
          rm1.log = rm.log ++
            [Event.ResetCommandListWithNextCommandAllocator
               CommandListOwner.mBeginCommandListPerFrame,
             Event.ExecuteCommandListAndWaitForCompletion commands] ∧
          barrierCounts commands = (if barriers.length > 0 then [barriers.length] else []) ∧
          ∀ c ∈ barrierCounts commands, 1 ≤ c ∧ c ≤ 4) ∧
    (∀ rm : RenderManager,
      finalPassBarriers 4 rm =
        transitionIfNeeded rm.GetCurrentFrameBuffer D3D12_RESOURCE_STATE_PRESENT
          (rm.resourceStates, ([] : List ResourceBarrier)) ∧
      ∀ rm1, ExecuteFinalPass rm = some rm1 →
        ∃ barriers,
          finalPassBarriers 4 rm = some (rm1.resourceStates, barriers) ∧
          barriers.length ≤ 1 ∧
          rm1.log = rm.log ++
            (if barriers.length > 0 then
              [Event.ResetCommandListWithNextCommandAllocator
                 CommandListOwner.mFinalCommandListPerFrame,
               Event.ExecuteCommandListAndWaitForCompletion
                 [Command.ResourceBarrier barriers, Command.Close]]
             else []) ∧
          (barriers.length > 0 →
            barrierCounts [Command.ResourceBarrier barriers, Command.Close] = [1])) ∧
    (∀ (p : AmbientOcclusionPass) (ctx : PassContext),
      (∀ a b n d, prePassBarriers 4 ctx.resourceStates a b n d =
        (some (ctx.resourceStates, ([] : List ResourceBarrier))
          >>= transitionIfNeeded a D3D12_RESOURCE_STATE_RENDER_TARGET
          >>= transitionIfNeeded b D3D12_RESOURCE_STATE_PIXEL_SHADER_RESOURCE
          >>= transitionIfNeeded n D3D12_RESOURCE_STATE_PIXEL_SHADER_RESOURCE
          >>= transitionIfNeeded d D3D12_RESOURCE_STATE_PIXEL_SHADER_RESOURCE)) ∧
      ∀ c ctx1, AmbientOcclusionPass.RecordAndPushPrePassCommandLists p ctx = some (c, ctx1) →
        ∃ a b n d barriers commands,
          p.mAmbientAccessibilityBuffer = some a ∧ p.mBlurBuffer = some b ∧
          p.mNormalRoughnessBuffer = some n ∧ p.mDepthBuffer = some d ∧
          prePassBarriers 4 ctx.resourceStates a b n d = some (ctx1.resourceStates, barriers) ∧
          barriers.length ≤ 4 ∧
          ctx1.log = ctx.log ++
            [Event.ResetCommandListWithNextCommandAllocator
               CommandListOwner.mPrePassCommandListPerFrame,
             Event.PushCommandList commands] ∧
          barrierCounts commands = (if barriers.length > 0 then [barriers.length] else []) ∧
          ∀ k ∈ barrierCounts commands, 1 ≤ k ∧ k ≤ 4) ∧
    (∀ (p : AmbientOcclusionPass) (ctx : PassContext),
      (∀ a b, middlePassBarriers 2 ctx.resourceStates a b =
        (some (ctx.resourceStates, ([] : List ResourceBarrier))
          >>= transitionIfNeeded a D3D12_RESOURCE_STATE_PIXEL_SHADER_RESOURCE
          >>= transitionIfNeeded b D3D12_RESOURCE_STATE_RENDER_TARGET)) ∧
      ∀ c ctx1, AmbientOcclusionPass.RecordAndPushMiddlePassCommandLists p ctx = some (c, ctx1) →
        ∃ a b barriers commands,
          p.mAmbientAccessibilityBuffer = some a ∧ p.mBlurBuffer = some b ∧
          middlePassBarriers 2 ctx.resourceStates a b = some (ctx1.resourceStates, barriers) ∧
          barriers.length ≤ 2 ∧
          ctx1.log = ctx.log ++
            [Event.ResetCommandListWithNextCommandAllocator
               CommandListOwner.mMiddlePassCommandListPerFrame,
             Event.PushCommandList commands] ∧
          barrierCounts commands = (if barriers.length > 0 then [barriers.length] else []) ∧
          ∀ k ∈ barrierCounts commands, 1 ≤ k ∧ k ≤ 2) := by
  refine ⟨fun rm => ?_, fun rm => ?_, fun p ctx => ?_, fun p ctx => ?_⟩
  · obtain ⟨e, hlen⟩ := beginPassBarriers_eq rm
    refine ⟨e, fun rm1 h => ?_⟩
    unfold ExecuteBeginPass at h
    simp only at h
    split at h
    · exact absurd h (by simp)
    · rename_i m barriers hchain
      simp only [Option.some.injEq] at h
      subst h
      have hb : beginPassBarriers 4 rm = some (m, barriers) := e.trans hchain
      have hcounts := barrierCounts_recordBarriers barriers
        [Command.ClearRenderTargetView rm.GetCurrentFrameBuffer,
         Command.ClearRenderTargetView Resource.intermediateColorBuffer1,
         Command.ClearRenderTargetView Resource.intermediateColorBuffer2,
         Command.ClearDepthStencilView Resource.depthBuffer,
         Command.Close] rfl
      refine ⟨barriers, _, hb, hlen m barriers hb, by simp, hcounts, ?_⟩
      rw [hcounts]
      exact counts_within barriers 4 (hlen m barriers hb)
  · obtain ⟨e, hlen⟩ := finalPassBarriers_eq rm
    refine ⟨e, fun rm1 h => ?_⟩
    unfold ExecuteFinalPass at h
    split at h
    · exact absurd h (by simp)
    · rename_i m barriers hchain
      have hb : finalPassBarriers 4 rm = some (m, barriers) := e.trans hchain
      have hle := hlen m barriers hb
      split at h
      · rename_i hpos
        simp only [Option.some.injEq] at h
        subst h
        refine ⟨barriers, hb, hle, by simp [hpos], fun _ => ?_⟩
        have h1 : barriers.length = 1 := by omega
        simp [barrierCounts, h1]
      · rename_i hpos
        simp only [Option.some.injEq] at h
        subst h
        exact ⟨barriers, hb, hle, by simp [hpos], fun hp => absurd hp hpos⟩
  · refine ⟨fun a b n d => (prePassBarriers_eq ctx.resourceStates a b n d).1, fun c ctx1 h => ?_⟩
    unfold AmbientOcclusionPass.RecordAndPushPrePassCommandLists at h
    split at h
    · exact absurd h (by simp)
    split at h
    · rename_i a b n d ha hb hn hd
      obtain ⟨e, hlen⟩ := prePassBarriers_eq ctx.resourceStates a b n d
      split at h
      · exact absurd h (by simp)
      · rename_i m barriers hchain
        simp only [Option.some.injEq, Prod.mk.injEq] at h
        obtain ⟨_, hctx⟩ := h
        subst hctx
        have hbar : prePassBarriers 4 ctx.resourceStates a b n d = some (m, barriers) :=
          e.trans hchain
        have hcounts := barrierCounts_recordBarriers barriers
          [Command.ClearRenderTargetView a, Command.Close] rfl
        refine ⟨a, b, n, d, barriers, _, ha, hb, hn, hd, hbar, hlen m barriers hbar, rfl,
          hcounts, ?_⟩
        rw [hcounts]
        exact counts_within barriers 4 (hlen m barriers hbar)
    · exact absurd h (by simp)
  · refine ⟨fun a b => (middlePassBarriers_eq ctx.resourceStates a b).1, fun c ctx1 h => ?_⟩
    unfold AmbientOcclusionPass.RecordAndPushMiddlePassCommandLists at h
    split at h
    · exact absurd h (by simp)
    split at h
    · rename_i a b ha hb
      obtain ⟨e, hlen⟩ := middlePassBarriers_eq ctx.resourceStates a b
      split at h
      · exact absurd h (by simp)
      · rename_i m barriers hchain
        simp only [Option.some.injEq, Prod.mk.injEq] at h
        obtain ⟨_, hctx⟩ := h
        subst hctx
        have hbar : middlePassBarriers 2 ctx.resourceStates a b = some (m, barriers) :=
          e.trans hchain
        have hcounts := barrierCounts_recordBarriers barriers
          [Command.ClearRenderTargetView b, Command.Close] rfl
        refine ⟨a, b, barriers, _, ha, hb, hbar, hlen m barriers hbar, rfl, hcounts, ?_⟩
        rw [hcounts]
        exact counts_within barriers 2 (hlen m barriers hbar)
    · exact absurd h (by simp)

/-- An instance of C24: the begin pass of the example render manager writes two
barriers into its array of four and calls `ResourceBarrier` with count 2. -/
theorem barrier_count_within_capacity_witness :
    ∃ rm1 barriers commands, ExecuteBeginPass exampleRenderManager = some rm1 ∧
      beginPassBarriers 4 exampleRenderManager = some (rm1.resourceStates, barriers) ∧
      barriers.length ≤ 4 ∧
      rm1.log = exampleRenderManager.log ++
        [Event.ResetCommandListWithNextCommandAllocator
           CommandListOwner.mBeginCommandListPerFrame,
         Event.ExecuteCommandListAndWaitForCompletion commands] ∧
      ∀ c ∈ barrierCounts commands, 1 ≤ c ∧ c ≤ 4 := by
  obtain ⟨rm1, hbegin⟩ : ∃ rm1, ExecuteBeginPass exampleRenderManager = some rm1 :=
    ⟨_, @ExecuteBeginPass_eq exampleRenderManager D3D12_RESOURCE_STATE_PRESENT
      D3D12_RESOURCE_STATE_RENDER_TARGET D3D12_RESOURCE_STATE_PIXEL_SHADER_RESOURCE
      D3D12_RESOURCE_STATE_DEPTH_WRITE rfl rfl rfl rfl⟩
  obtain ⟨barriers, commands, hb, hlen, hlog, _, hcounts⟩ :=
    (barrier_count_within_capacity.1 exampleRenderManager).2 rm1 hbegin
  exact ⟨rm1, barriers, commands, hbegin, hb, hlen, hlog, hcounts⟩

/-! ## Swap-chain buffers at the top of the loop -/

theorem OnlyBackBufferChanged_refl (rm : RenderManager) : OnlyBackBufferChanged rm rm :=
  ⟨rfl, fun _ _ => rfl⟩

theorem OnlyBackBufferChanged_observe (requests : Nat → Nat → Bool) (frame statement : Nat)
    {rm s : RenderManager} (h : OnlyBackBufferChanged rm s) :
    OnlyBackBufferChanged rm (observeTerminate requests frame statement s) := h

theorem OnlyBackBufferChanged_enter (stage : Stage) {rm s : RenderManager}
    (h : OnlyBackBufferChanged rm s) : OnlyBackBufferChanged rm (enterStage stage s) := h

theorem OnlyBackBufferChanged_pass {passes : Passes} (hkeep : KeepsOtherFrameBuffers passes)
    (stage : Stage) (frame : Nat) {rm s : RenderManager} (h : OnlyBackBufferChanged rm s) :
    OnlyBackBufferChanged rm (executePass passes stage frame s) := by
  refine ⟨h.1, fun i hi => ?_⟩
  have hne : Resource.frameBuffer i ≠ (enterStage stage s).GetCurrentFrameBuffer := by
    simp only [GetCurrentFrameBuffer, enterStage, ne_eq, Resource.frameBuffer.injEq]
    rw [h.1]
    exact hi
  show (passes.Execute stage frame (enterStage stage s).GetCurrentFrameBuffer
    (enterStage stage s).resourceStates).1 (Resource.frameBuffer i) = _
  rw [hkeep stage frame _ _ i hne]
  exact h.2 i hi

theorem OnlyBackBufferChanged_begin {rm s s1 : RenderManager} (h : OnlyBackBufferChanged rm s)
    (hb : ExecuteBeginPass s = some s1) : OnlyBackBufferChanged rm s1 := by
  obtain ⟨sb, s1', s2, sd, hsb, hs1, hs2, hsd⟩ := ExecuteBeginPass_registered s s1 hb
  rw [ExecuteBeginPass_eq s hsb hs1 hs2 hsd] at hb
  injection hb with hb
  subst hb
  refine ⟨h.1, fun i hi => ?_⟩
  have hne : Resource.frameBuffer i ≠ s.GetCurrentFrameBuffer := by
    simp only [GetCurrentFrameBuffer, ne_eq, Resource.frameBuffer.injEq]
    rw [h.1]
    exact hi
  simp [ResourceStateManager.setState, hne, h.2 i hi]

theorem OnlyBackBufferChanged_final {rm s s1 : RenderManager} (h : OnlyBackBufferChanged rm s)
    (hf : ExecuteFinalPass s = some s1) :
    OnlyBackBufferChanged rm s1 ∧
    s1.resourceStates (Resource.frameBuffer rm.currentBackBufferIndex) =
      some D3D12_RESOURCE_STATE_PRESENT := by
  obtain ⟨_, hpresent⟩ := ExecuteFinalPass_states s s1 hf
  obtain ⟨st, hst⟩ := ExecuteFinalPass_registered s s1 hf
  rw [ExecuteFinalPass_eq s hst] at hf
  injection hf with hf
  subst hf
  refine ⟨⟨h.1, fun i hi => ?_⟩, ?_⟩
  · have hne : Resource.frameBuffer i ≠ s.GetCurrentFrameBuffer := by
      simp only [GetCurrentFrameBuffer, ne_eq, Resource.frameBuffer.injEq]
      rw [h.1]
      exact hi
    simp [ResourceStateManager.setState, hne, h.2 i hi]
  · rw [← h.1]
    exact hpresent

/-- Inside an iteration the back-buffer index stays and no swap-chain buffer other
than the current back buffer changes its tracked state. -/
theorem executeFrameStates_others {passes : Passes} (hkeep : KeepsOtherFrameBuffers passes)
    (requests : Nat → Nat → Bool) (frame : Nat) (rm : RenderManager) :
    ∀ s ∈ executeFrameStates passes requests frame rm, OnlyBackBufferChanged rm s := by
  intro s hs
  unfold executeFrameStates at hs
  cases hb : ExecuteBeginPass (beginPassEntry requests frame rm) with
  | none => simp [hb] at hs
  | some r2 =>
    simp only [hb] at hs
    have h2 : OnlyBackBufferChanged rm r2 :=
      OnlyBackBufferChanged_begin (s := beginPassEntry requests frame rm)
        (OnlyBackBufferChanged_refl rm) hb
    have h3 := OnlyBackBufferChanged_observe requests frame 3
      (OnlyBackBufferChanged_pass hkeep Stage.GeometryPass frame
        (OnlyBackBufferChanged_observe requests frame 2 h2))
    have h4 := OnlyBackBufferChanged_observe requests frame 4
      (OnlyBackBufferChanged_pass hkeep Stage.EnvironmentLightPass frame h3)
    have h5 := OnlyBackBufferChanged_observe requests frame 5
      (OnlyBackBufferChanged_pass hkeep Stage.SkyBoxPass frame h4)
    have h6 := OnlyBackBufferChanged_observe requests frame 6
      (OnlyBackBufferChanged_pass hkeep Stage.ToneMappingPass frame h5)
    have h7 := OnlyBackBufferChanged_observe requests frame 7
      (OnlyBackBufferChanged_pass hkeep Stage.PostProcessPass frame h6)
    simp only [List.cons_append, List.nil_append, List.mem_cons] at hs
    rcases hs with hs | hs | hs | hs | hs | hs | hs
    · rw [hs]; exact h2
    · rw [hs]; exact h3
    · rw [hs]; exact h4
    · rw [hs]; exact h5
    · rw [hs]; exact h6
    · rw [hs]; exact h7
    · split at hs
      · simp at hs
      · rename_i r8 hf
        simp only [List.mem_singleton] at hs
        rw [hs]
        exact (OnlyBackBufferChanged_final (OnlyBackBufferChanged_enter Stage.FinalPass h7) hf).1

/-- A returning iteration that starts with every swap-chain buffer in `PRESENT`
ends with every swap-chain buffer in `PRESENT`. -/
theorem executeFrame_allPresent (cfg : ApplicationSettings) {passes : Passes}
    (hkeep : KeepsOtherFrameBuffers passes) (requests : Nat → Nat → Bool) (frame : Nat)
    (rm rm1 : RenderManager) (hall : AllPresent cfg rm.resourceStates)
    (h : executeFrame cfg passes requests frame rm = some rm1) :
    AllPresent cfg rm1.resourceStates ∧
    rm1.currentBackBufferIndex =
      (rm.currentBackBufferIndex + 1) % cfg.sSwapChainBufferCount := by
  unfold executeFrame at h
  cases hb : ExecuteBeginPass (enterStage Stage.BeginPass
      (observeTerminate requests frame 1 (observeTerminate requests frame 0 rm))) with
  | none => simp [hb] at h
  | some r2 =>
    simp only [hb] at h
    cases hf : ExecuteFinalPass (enterStage Stage.FinalPass
        (observeTerminate requests frame 7 (executePass passes Stage.PostProcessPass frame
        (observeTerminate requests frame 6 (executePass passes Stage.ToneMappingPass frame
        (observeTerminate requests frame 5 (executePass passes Stage.SkyBoxPass frame
        (observeTerminate requests frame 4 (executePass passes Stage.EnvironmentLightPass frame
        (observeTerminate requests frame 3 (executePass passes Stage.GeometryPass frame
        (observeTerminate requests frame 2 r2)))))))))))) with
    | none => simp [hf] at h
    | some r8 =>
      simp only [hf, Option.some.injEq] at h
      subst h
      have h2 : OnlyBackBufferChanged rm r2 :=
        OnlyBackBufferChanged_begin (s := enterStage Stage.BeginPass
          (observeTerminate requests frame 1 (observeTerminate requests frame 0 rm)))
          (OnlyBackBufferChanged_refl rm) hb
      have h7 := OnlyBackBufferChanged_observe requests frame 7
        (OnlyBackBufferChanged_pass hkeep Stage.PostProcessPass frame
        (OnlyBackBufferChanged_observe requests frame 6
        (OnlyBackBufferChanged_pass hkeep Stage.ToneMappingPass frame
        (OnlyBackBufferChanged_observe requests frame 5
        (OnlyBackBufferChanged_pass hkeep Stage.SkyBoxPass frame
        (OnlyBackBufferChanged_observe requests frame 4
        (OnlyBackBufferChanged_pass hkeep Stage.EnvironmentLightPass frame
        (OnlyBackBufferChanged_observe requests frame 3
        (OnlyBackBufferChanged_pass hkeep Stage.GeometryPass frame
        (OnlyBackBufferChanged_observe requests frame 2 h2))))))))))
      obtain ⟨h8, hpresent⟩ :=
        OnlyBackBufferChanged_final (OnlyBackBufferChanged_enter Stage.FinalPass h7) hf
      refine ⟨fun i hi => ?_, ?_⟩
      · show r8.resourceStates (Resource.frameBuffer i) = _
        by_cases hidx : i = rm.currentBackBufferIndex
        · rw [hidx]; exact hpresent
        · rw [h8.2 i hidx]; exact hall i hi
      · show (r8.currentBackBufferIndex + 1) % cfg.sSwapChainBufferCount = _
        rw [h8.1]

/-- With every swap-chain buffer in `PRESENT` at the top of an iteration, the begin
pass of the iteration records the barrier of the back buffer from `PRESENT` to
`RENDER_TARGET` first. -/
theorem beginPass_present_barrier (cfg : ApplicationSettings) (requests : Nat → Nat → Bool)
    (frame : Nat) (rm rmB : RenderManager) (hall : AllPresent cfg rm.resourceStates)
    (hidx : rm.currentBackBufferIndex < cfg.sSwapChainBufferCount)
    (hb : ExecuteBeginPass (beginPassEntry requests frame rm) = some rmB) :
    ∃ rest, recordedBarriers rmB.log = recordedBarriers rm.log ++
      (⟨Resource.frameBuffer rm.currentBackBufferIndex, D3D12_RESOURCE_STATE_PRESENT,
        D3D12_RESOURCE_STATE_RENDER_TARGET⟩ :: rest) := by
  obtain ⟨sb, s1, s2, sd, hsb, hs1, hs2, hsd⟩ := ExecuteBeginPass_registered _ rmB hb
  have hpresent : (beginPassEntry requests frame rm).resourceStates
      (beginPassEntry requests frame rm).GetCurrentFrameBuffer =
      some D3D12_RESOURCE_STATE_PRESENT := hall _ hidx
  rw [ExecuteBeginPass_eq _ hpresent hs1 hs2 hsd] at hb
  injection hb with hb
  subst hb
  have hne : D3D12_RESOURCE_STATE_PRESENT ≠ D3D12_RESOURCE_STATE_RENDER_TARGET := by decide
  refine ⟨(if s1 ≠ D3D12_RESOURCE_STATE_RENDER_TARGET then
      [⟨Resource.intermediateColorBuffer1, s1, D3D12_RESOURCE_STATE_RENDER_TARGET⟩] else []) ++
    (if s2 ≠ D3D12_RESOURCE_STATE_RENDER_TARGET then
      [⟨Resource.intermediateColorBuffer2, s2, D3D12_RESOURCE_STATE_RENDER_TARGET⟩] else []) ++
    (if sd ≠ D3D12_RESOURCE_STATE_DEPTH_WRITE then
      [⟨Resource.depthBuffer, sd, D3D12_RESOURCE_STATE_DEPTH_WRITE⟩] else []), ?_⟩
  simp only [recordedBarriers_append, recordedBarriers, List.flatMap_append,
    flatMap_recordBarriers, List.append_nil, beginPassEntry, enterStage, observeTerminate]
  simp [List.flatMap, commandBarriers, hne, GetCurrentFrameBuffer]

/-- The invariant of the loop: at the top of every iteration every swap-chain buffer
is in `PRESENT` and the back-buffer index is the index of a swap-chain buffer. -/
theorem executeLoopTops_allPresent (cfg : ApplicationSettings) {passes : Passes}
    (hkeep : KeepsOtherFrameBuffers passes) (requests : Nat → Nat → Bool) :
    ∀ (fuel frame : Nat) (rm : RenderManager),
      AllPresent cfg rm.resourceStates →
      rm.currentBackBufferIndex < cfg.sSwapChainBufferCount →
      ∀ top ∈ executeLoopTops cfg passes requests fuel frame rm,
        AllPresent cfg top.2.resourceStates ∧
        top.2.currentBackBufferIndex < cfg.sSwapChainBufferCount := by
  intro fuel
  induction fuel with
  | zero =>
    intro frame rm _ _ top htop
    simp [executeLoopTops] at htop
  | succ fuel ih =>
    intro frame rm hall hidx top htop
    unfold executeLoopTops at htop
    rcases List.mem_cons.mp htop with htop | htop
    · rw [htop]
      exact ⟨hall, hidx⟩
    · split at htop
      · simp at htop
      · split at htop
        · simp at htop
        · rename_i rm1 hf
          obtain ⟨hall1, hidx1⟩ := executeFrame_allPresent cfg hkeep requests frame rm rm1 hall hf
          exact ih (frame + 1) rm1 hall1
            (by rw [hidx1]; exact Nat.mod_lt _ (by omega)) top htop

/-- C25: after `CreateFrameBuffersAndRenderTargetViews` registered the swap-chain
buffers, with the back-buffer index that of a swap-chain buffer and passes that
change the tracked state of no swap-chain buffer other than the current back
buffer: at the top of every iteration of the loop of `RenderManager::execute`
every swap-chain buffer is tracked in `PRESENT`; the begin pass of the iteration
records the barrier of the back buffer from `PRESENT` to `RENDER_TARGET`; and in
every state inside the iteration every swap-chain buffer other than the current
back buffer is still tracked in `PRESENT`. -/
theorem swap_chain_buffers_present_at_loop_top (cfg : ApplicationSettings) (passes : Passes)
    (requests : Nat → Nat → Bool) (m0 m1 : ResourceStateManager) (rm : RenderManager)
    (hcreate : CreateFrameBuffersAndRenderTargetViews cfg m0 = some m1)
    (hframe : ∀ i, rm.resourceStates (Resource.frameBuffer i) = m1 (Resource.frameBuffer i))
    (hidx : rm.currentBackBufferIndex < cfg.sSwapChainBufferCount)
    (hkeep : KeepsOtherFrameBuffers passes) (fuel : Nat) :
    ∀ top ∈ executeLoopTops cfg passes requests fuel 0 rm,
      (∀ i, i < cfg.sSwapChainBufferCount →
        ResourceStateManager.GetResourceState top.2.resourceStates (Resource.frameBuffer i) =
          some D3D12_RESOURCE_STATE_PRESENT) ∧
      top.2.currentBackBufferIndex < cfg.sSwapChainBufferCount ∧
      (∀ rmB, ExecuteBeginPass (beginPassEntry requests top.1 top.2) = some rmB →
        ∃ rest, recordedBarriers rmB.log = recordedBarriers top.2.log ++
          (⟨Resource.frameBuffer top.2.currentBackBufferIndex, D3D12_RESOURCE_STATE_PRESENT,
            D3D12_RESOURCE_STATE_RENDER_TARGET⟩ :: rest)) ∧
      (∀ s ∈ executeFrameStates passes requests top.1 top.2,
        s.currentBackBufferIndex = top.2.currentBackBufferIndex ∧
        ∀ i, i < cfg.sSwapChainBufferCount → i ≠ top.2.currentBackBufferIndex →
          ResourceStateManager.GetResourceState s.resourceStates (Resource.frameBuffer i) =
            some D3D12_RESOURCE_STATE_PRESENT) := by
  have hnone := registerLoop_some m0 m1 _ hcreate
  obtain ⟨m2, hfold, hpresent, _⟩ := registerLoop_runs m0 cfg.sSwapChainBufferCount hnone
  have h12 : m2 = m1 := by
    have : some m2 = some m1 := hfold.symm.trans hcreate
    injection this
  subst h12
  have hall : AllPresent cfg rm.resourceStates := by
    intro i hi
    rw [hframe i]
    exact hpresent i hi
  intro top htop
  obtain ⟨hallTop, hidxTop⟩ :=
    executeLoopTops_allPresent cfg hkeep requests fuel 0 rm hall hidx top htop
  refine ⟨hallTop, hidxTop,
    fun rmB hb => beginPass_present_barrier cfg requests top.1 top.2 rmB hallTop hidxTop hb,
    fun s hs => ?_⟩
  obtain ⟨hsidx, hothers⟩ := executeFrameStates_others hkeep requests top.1 top.2 s hs
  refine ⟨hsidx, fun i hi hne => ?_⟩
  show s.resourceStates (Resource.frameBuffer i) = _
  rw [hothers i hne]
  exact hallTop i hi

/-- Witness of C25: on the swap chain of two buffers with no-op passes, at the top
of iteration 1 both swap-chain buffers are tracked in `PRESENT`. -/
theorem swap_chain_buffers_present_at_loop_top_witness :
    ∃ top ∈ executeLoopTops twoBufferSettings noopPasses fiveFrameRequests 6 0
        twoBufferRenderManager,
      top.1 = 1 ∧
      top.2.resourceStates (Resource.frameBuffer 0) = some D3D12_RESOURCE_STATE_PRESENT ∧
      top.2.resourceStates (Resource.frameBuffer 1) = some D3D12_RESOURCE_STATE_PRESENT := by
  have hreg : Registered twoBufferSettings twoBufferRenderManager :=
    ⟨by decide, fun i hi => by
      have hi2 : i < 2 := hi
      simp [twoBufferRenderManager, twoBufferStates, hi2], rfl, rfl, rfl⟩
  obtain ⟨rm1, hf, _⟩ := executeFrame_runs twoBufferSettings noopPasses fiveFrameRequests 0
    twoBufferRenderManager hreg (fun _ _ _ _ _ h => h)
  have hmem : (1, rm1) ∈ executeLoopTops twoBufferSettings noopPasses fiveFrameRequests 6 0
      twoBufferRenderManager := by
    have hterm : twoBufferRenderManager.mTerminate = false := rfl
    simp only [executeLoopTops, hf, hterm, Bool.false_eq_true, if_false, List.mem_cons, true_or,
      or_true]
  obtain ⟨m1, hm1, hpresent, hother⟩ := registerLoop_runs emptyStates 2 (fun _ _ => rfl)
  have hframe : ∀ i, twoBufferRenderManager.resourceStates (Resource.frameBuffer i) =
      m1 (Resource.frameBuffer i) := by
    intro i
    by_cases hi : i < 2
    · rw [hpresent i hi]
      simp [twoBufferRenderManager, twoBufferStates, hi]
    · rw [hother _ (fun j hj => by simp; omega)]
      simp [twoBufferRenderManager, twoBufferStates, hi, emptyStates]
  have h := swap_chain_buffers_present_at_loop_top twoBufferSettings noopPasses
    fiveFrameRequests emptyStates m1 twoBufferRenderManager hm1 hframe (by decide)
    (fun _ _ _ _ _ _ => rfl) 6 (1, rm1) hmem
  exact ⟨(1, rm1), hmem, rfl, h.1 0 (by decide), h.1 1 (by decide)⟩

end RenderManager

/-! ## Draws of the basic recorder -/

namespace BasicCmdListRecorder

theorem handleAt_mod (handleBegin inc k : Nat) :
    handleAt handleBegin inc k % 2 ^ 64 = (handleBegin + k * inc) % 2 ^ 64 := by
  induction k with
  | zero => simp [handleAt]
  | succ k ih =>
    simp only [handleAt, Nat.succ_mul]
    omega

theorem handleAt_exact (handleBegin inc k : Nat) (h : handleBegin + k * inc < 2 ^ 64) :
    handleAt handleBegin inc k = handleBegin + k * inc := by
  induction k with
  | zero => simp [handleAt]
  | succ k ih =>
    rw [Nat.succ_mul] at h
    simp only [handleAt, Nat.succ_mul]
    rw [ih (by omega)]
    omega

/-- The draws of one geometry entry: draw number `k0 + j` for the `j`-th world
matrix, whatever follows and whatever was bound before. -/
theorem drawsFrom_drawInstances (objectBegin materialsBegin inc indexCount : Nat)
    (tail : List RecorderCall) (expected : List (Option Nat × Option Nat × Nat))
    (htail : ∀ b0 b2, drawsFrom b0 b2 tail = expected) :
    ∀ (count k0 : Nat) (b0 b2 : Option Nat),
      drawsFrom b0 b2 ((drawInstances indexCount inc count (handleAt objectBegin inc k0)
          (handleAt materialsBegin inc k0)).1 ++ tail) =
        (List.enumFrom k0 (List.replicate count indexCount)).map
          (fun kc => (some (handleAt objectBegin inc kc.1),
            some (handleAt materialsBegin inc kc.1), kc.2)) ++ expected := by
  intro count
  induction count with
  | zero =>
    intro k0 b0 b2
    simp [drawInstances, htail]
  | succ count ih =>
    intro k0 b0 b2
    have hnext := ih (k0 + 1) (some (handleAt objectBegin inc k0))
      (some (handleAt materialsBegin inc k0))
    simp only [handleAt] at hnext
    simp only [drawInstances, List.cons_append, List.nil_append, drawsFrom, List.replicate_succ,
      List.enumFrom_cons, List.map_cons, if_true, List.append_assoc]
    exact congrArg _ hnext

theorem drawInstances_handles (objectBegin materialsBegin inc indexCount : Nat) :
    ∀ (count k0 : Nat),
      (drawInstances indexCount inc count (handleAt objectBegin inc k0)
        (handleAt materialsBegin inc k0)).2 =
        (handleAt objectBegin inc (k0 + count), handleAt materialsBegin inc (k0 + count)) := by
  intro count
  induction count with
  | zero => intro k0; rfl
  | succ count ih =>
    intro k0
    have hnext := ih (k0 + 1)
    simp only [handleAt] at hnext
    simp only [drawInstances]
    rw [show k0 + (count + 1) = k0 + 1 + count by omega]
    exact hnext

theorem indexCounts_cons (g : VertexAndIndexBufferData) (rest : List VertexAndIndexBufferData)
    (ws : List Unit) (worlds : List (List Unit)) :
    indexCounts (g :: rest) (ws :: worlds) =
      List.replicate ws.length g.mCount ++ indexCounts rest worlds := by
  simp [indexCounts]

theorem drawsFrom_geometry (b0 b2 : Option Nat) (i j : Nat) (rest : List RecorderCall) :
    drawsFrom b0 b2
      (RecorderCall.IASetVertexBuffers i :: RecorderCall.IASetIndexBuffer j :: rest) =
      drawsFrom b0 b2 rest := rfl

/-- The draws of the outer loop from geometry index `i` and draw number `k0`. -/
theorem drawsFrom_drawObjects (worldMatrices : List (List Unit))
    (objectBegin materialsBegin inc : Nat)
    (tail : List RecorderCall) (expected : List (Option Nat × Option Nat × Nat))
    (htail : ∀ b0 b2, drawsFrom b0 b2 tail = expected) :
    ∀ (geometry : List VertexAndIndexBufferData) (i k0 : Nat) (calls : List RecorderCall),
      drawObjects worldMatrices inc i geometry (handleAt objectBegin inc k0)
        (handleAt materialsBegin inc k0) = some calls →
      ∀ b0 b2, drawsFrom b0 b2 (calls ++ tail) =
        (List.enumFrom k0 (indexCounts geometry (worldMatrices.drop i))).map
          (fun kc => (some (handleAt objectBegin inc kc.1),
            some (handleAt materialsBegin inc kc.1), kc.2)) ++ expected := by
  intro geometry
  induction geometry with
  | nil =>
    intro i k0 calls h b0 b2
    simp only [drawObjects, Option.some.injEq] at h
    subst h
    simp [indexCounts, htail]
  | cons g rest ih =>
    intro i k0 calls h b0 b2
    simp only [drawObjects] at h
    cases hw : worldMatrices[i]? with
    | none => simp [hw] at h
    | some ws =>
      simp only [hw] at h
      obtain ⟨hi, hget⟩ := List.getElem?_eq_some.mp hw
      have hdrop : worldMatrices.drop i = ws :: worldMatrices.drop (i + 1) := by
        rw [List.drop_eq_getElem_cons hi, hget]
      have hhandles := drawInstances_handles objectBegin materialsBegin inc g.mCount ws.length k0
      cases hd : drawObjects worldMatrices inc (i + 1) rest
          (drawInstances g.mCount inc ws.length (handleAt objectBegin inc k0)
            (handleAt materialsBegin inc k0)).2.1
          (drawInstances g.mCount inc ws.length (handleAt objectBegin inc k0)
            (handleAt materialsBegin inc k0)).2.2 with
      | none => simp [hd] at h
      | some restCalls =>
        simp only [hd, Option.some.injEq] at h
        subst h
        rw [hhandles] at hd
        have hrest := ih (i + 1) (k0 + ws.length) restCalls hd
        have hblock := drawsFrom_drawInstances objectBegin materialsBegin inc g.mCount
          (restCalls ++ tail) _ hrest ws.length k0 b0 b2
        rw [hdrop, indexCounts_cons, List.enumFrom_append, List.map_append,
          List.length_replicate]
        simp only [List.cons_append, List.nil_append, List.append_assoc]
        rw [drawsFrom_geometry]
        exact hblock

/-- The command list a returning call records: the calls before the draw loops,
the calls of the draw loops, and `Close`. -/
theorem RecordCommandLists_list {K : Nat} (env : RecorderEnvironment K) (a b : Nat)
    (r r1 : BasicCmdListRecorder K) (h : RecordCommandLists env a b r = some r1) :
    ∃ draws before, drawObjects r.mWorldMatrices env.descHandleIncSize 0
        r.mVertexAndIndexBufferDataVec r.mObjectCBufferGpuDescHandleBegin
        r.mMaterialsCBufferGpuDescHandleBegin = some draws ∧
      (∀ b0 b2 rest, drawsFrom b0 b2 (before ++ rest) = drawsFrom b0 b2 rest) ∧
      r1.mCmdListQueue = r.mCmdListQueue ++ [before ++ (draws ++ [RecorderCall.Close])] := by
  unfold RecordCommandLists at h
  split at h
  · exact absurd h (by simp)
  split at h
  · exact absurd h (by simp)
  split at h
  · exact absurd h (by simp)
  split at h
  · simp only at h
    split at h
    · exact absurd h (by simp)
    split at h
    · exact absurd h (by simp)
    · rename_i draws hd
      rename_i hK hA x
      simp only [Option.some.injEq] at h
      subst h
      refine ⟨draws,
        [RecorderCall.CopyData r.mCurrFrameIndex,
         RecorderCall.AllocatorReset r.mCurrFrameIndex (r.mCmdAlloc ⟨r.mCurrFrameIndex, hK⟩),
         RecorderCall.CommandListReset r.mCurrFrameIndex (r.mCmdAlloc ⟨r.mCurrFrameIndex, hK⟩),
         RecorderCall.RSSetViewports,
         RecorderCall.RSSetScissorRects,
         RecorderCall.OMSetRenderTargets b,
         RecorderCall.SetDescriptorHeaps,
         RecorderCall.SetGraphicsRootSignature,
         RecorderCall.IASetPrimitiveTopology,
         RecorderCall.SetGraphicsRootConstantBufferView 1 r.mCurrFrameIndex,
         RecorderCall.SetGraphicsRootConstantBufferView 3 r.mCurrFrameIndex], hd, ?_, ?_⟩
      · intro b0 b2 rest
        rfl
      · simp only [List.append_assoc]
  · exact absurd h (by simp)

theorem length_indexCounts (geometry : List VertexAndIndexBufferData)
    (worldMatrices : List (List Unit)) (h : geometry.length = worldMatrices.length) :
    (indexCounts geometry worldMatrices).length = (worldMatrices.map List.length).sum := by
  induction geometry generalizing worldMatrices with
  | nil =>
    cases worldMatrices with
    | nil => rfl
    | cons ws rest => simp at h
  | cons g rest ih =>
    cases worldMatrices with
    | nil => simp at h
    | cons ws worlds =>
      simp only [List.length_cons, Nat.add_right_cancel_iff] at h
      rw [indexCounts_cons, List.length_append, List.length_replicate, ih worlds h]
      simp

/-- C26: on a state that satisfies `ValidateData` the draw loops of
`RecordCommandLists` read `mWorldMatrices[i]` in bounds; every returning call
records one command list whose indexed draws are, in order, one per world matrix
of each geometry entry, `sum over i of |mWorldMatrices[i]|` in all, draw number k
(from 0) with the object descriptor and the material descriptor obtained from
`mObjectCBufferGpuDescHandleBegin` and `mMaterialsCBufferGpuDescHandleBegin` by k
additions of the increment and with the index count of its geometry entry. The
descriptor of draw k is `begin + k * increment` in 64-bit arithmetic, exactly that
value when it is below `2 ^ 64`. The call returns when the arguments and the
allocators are non-null and the frame index is below `K`. -/
theorem RecordCommandLists_draws {K : Nat} (env : RecorderEnvironment K)
    (r : BasicCmdListRecorder K) (hv : ValidateData env r = true) :
    (∃ draws, drawObjects r.mWorldMatrices env.descHandleIncSize 0
        r.mVertexAndIndexBufferDataVec r.mObjectCBufferGpuDescHandleBegin
        r.mMaterialsCBufferGpuDescHandleBegin = some draws) ∧
    (∀ a b r1, RecordCommandLists env a b r = some r1 →
      ∃ calls, r1.mCmdListQueue = r.mCmdListQueue ++ [calls] ∧
        indexedDraws calls =
          (List.enum (indexCounts r.mVertexAndIndexBufferDataVec r.mWorldMatrices)).map
            (fun kc =>
              (some (handleAt r.mObjectCBufferGpuDescHandleBegin env.descHandleIncSize kc.1),
               some (handleAt r.mMaterialsCBufferGpuDescHandleBegin env.descHandleIncSize kc.1),
               kc.2)) ∧
        (indexedDraws calls).length = (r.mWorldMatrices.map List.length).sum) ∧
    (∀ handleBegin k,
      handleAt handleBegin env.descHandleIncSize k % 2 ^ 64 =
        (handleBegin + k * env.descHandleIncSize) % 2 ^ 64 ∧
      (handleBegin + k * env.descHandleIncSize < 2 ^ 64 →
        handleAt handleBegin env.descHandleIncSize k =
          handleBegin + k * env.descHandleIncSize)) ∧
    (∀ a b, a ≠ 0 → b ≠ 0 → r.mCurrFrameIndex < K → (∀ i, r.mCmdAlloc i ≠ 0) →
      ∃ r1, RecordCommandLists env a b r = some r1) := by
  have hlen := ValidateData_lengths env r hv
  refine ⟨?_, ?_, ?_, ?_⟩
  · exact drawObjects_isSome _ _ _ 0 _ _ (by rw [hlen]; omega)
  · intro a b r1 h
    obtain ⟨draws, before, hd, hbefore, hqueue⟩ := RecordCommandLists_list env a b r r1 h
    have hdraws := drawsFrom_drawObjects r.mWorldMatrices r.mObjectCBufferGpuDescHandleBegin
      r.mMaterialsCBufferGpuDescHandleBegin env.descHandleIncSize [RecorderCall.Close] []
      (fun _ _ => rfl) r.mVertexAndIndexBufferDataVec 0 0 draws hd none none
    have hindexed : indexedDraws (before ++ (draws ++ [RecorderCall.Close])) =
        (List.enum (indexCounts r.mVertexAndIndexBufferDataVec r.mWorldMatrices)).map
          (fun kc =>
            (some (handleAt r.mObjectCBufferGpuDescHandleBegin env.descHandleIncSize kc.1),
             some (handleAt r.mMaterialsCBufferGpuDescHandleBegin env.descHandleIncSize kc.1),
             kc.2)) := by
      unfold indexedDraws
      rw [hbefore, hdraws, List.append_nil, List.drop_zero]
      rfl
    refine ⟨_, hqueue, hindexed, ?_⟩
    rw [hindexed, List.length_map, List.enum_length, length_indexCounts _ _ hlen]
  · intro handleBegin k
    exact ⟨handleAt_mod _ _ _, handleAt_exact _ _ _⟩
  · intro a b ha hb hK halloc
    obtain ⟨calls, hcall⟩ := RecordCommandLists_runs env a b r hv ha hb hK halloc
    exact ⟨_, hcall⟩

/-- Witness of C26: the example recorder, one geometry entry with two world
matrices: two draws of 36 indices, with descriptors 1000 and 2000, then 1032 and
2032. -/
theorem RecordCommandLists_draws_witness :
    ∃ r1 calls, RecordCommandLists exampleEnvironment 1 1 exampleRecorder = some r1 ∧
      r1.mCmdListQueue = [calls] ∧
      indexedDraws calls = [(some 1000, some 2000, 36), (some 1032, some 2032, 36)] := by
  have h := RecordCommandLists_draws exampleEnvironment exampleRecorder (by decide)
  obtain ⟨r1, hr1⟩ := h.2.2.2 1 1 (by decide) (by decide) (by decide)
    (by intro i; simp [exampleRecorder])
  obtain ⟨calls, hqueue, hdraws, _⟩ := h.2.1 1 1 r1 hr1
  refine ⟨r1, calls, hr1, hqueue, ?_⟩
  rw [hdraws]
  decide

end BasicCmdListRecorder

/-! ## Keyboard: facts -/

namespace Keyboard

theorem and_0x80 (x : Nat) : (x &&& 0x80 != 0) = x.testBit 7 := by
  have h := Nat.and_two_pow x 7
  have h2 : (2 : Nat) ^ 7 = 0x80 := by norm_num
  rw [h2] at h
  rw [h]
  cases x.testBit 7 <;> simp

/-- C27: for every key and every pair of state arrays, `IsKeyDown` holds exactly
when bit `0x80` (bit 7) of the current state byte is set, `IsKeyUp` is its negation
(and `WasKeyUp` the negation of `WasKeyDown`), and exactly one of
`WasKeyPressedThisFrame`, `WasKeyReleasedThisFrame`, `IsKeyHeldDown` and
`IsKeyUp && WasKeyUp` is true. -/
theorem key_state_partition (kb : Keyboard) (key : Fin 256) :
    IsKeyDown kb key = (kb.mCurrentState key).testBit 7 ∧
    IsKeyUp kb key = !IsKeyDown kb key ∧
    WasKeyDown kb key = (kb.mLastState key).testBit 7 ∧
    WasKeyUp kb key = !WasKeyDown kb key ∧
    [WasKeyPressedThisFrame kb key, WasKeyReleasedThisFrame kb key, IsKeyHeldDown kb key,
      IsKeyUp kb key && WasKeyUp kb key].count true = 1 := by
  have hup : IsKeyUp kb key = !IsKeyDown kb key := by
    simp [IsKeyUp, IsKeyDown, bne]
  have hwas : WasKeyUp kb key = !WasKeyDown kb key := by
    simp [WasKeyUp, WasKeyDown, bne]
  refine ⟨and_0x80 _, hup, and_0x80 _, hwas, ?_⟩
  simp only [WasKeyPressedThisFrame, WasKeyReleasedThisFrame, IsKeyHeldDown, hup, hwas]
  cases IsKeyDown kb key <;> cases WasKeyDown kb key <;> decide

/-- An instance of C27: key 17 went down in this frame, key 30 is held, and for
key 17 exactly one of the four conditions holds. -/
theorem key_state_partition_witness :
    WasKeyPressedThisFrame exampleKeyboard 17 = true ∧
    IsKeyHeldDown exampleKeyboard 30 = true ∧
    (IsKeyUp exampleKeyboard 5 && WasKeyUp exampleKeyboard 5) = true ∧
    [WasKeyPressedThisFrame exampleKeyboard 17, WasKeyReleasedThisFrame exampleKeyboard 17,
      IsKeyHeldDown exampleKeyboard 17,
      IsKeyUp exampleKeyboard 17 && WasKeyUp exampleKeyboard 17].count true = 1 :=
  ⟨by decide, by decide, by decide, (key_state_partition exampleKeyboard 17).2.2.2.2⟩

end Keyboard

/-! ## Camera update: facts -/

theorem droppedBits_small (fuel n : Nat) (h : n < 2 ^ 24) : droppedBits fuel n = 0 := by
  cases fuel with
  | zero => rfl
  | succ f =>
    unfold droppedBits
    rw [if_pos h]

theorem droppedBits_bounds :
    ∀ (fuel n : Nat), n < 2 ^ 24 * 2 ^ fuel → 2 ^ 24 ≤ n →
      1 ≤ droppedBits fuel n ∧ 2 ^ (droppedBits fuel n + 23) ≤ n ∧
        n < 2 ^ (droppedBits fuel n + 24) := by
  intro fuel
  induction fuel with
  | zero => intro n h1 h2; omega
  | succ f ih =>
    intro n h1 h2
    have hnot : ¬ n < 2 ^ 24 := by omega
    have hhalf : n / 2 < 2 ^ 24 * 2 ^ f := by
      rw [Nat.pow_succ] at h1
      omega
    have hdef : droppedBits (f + 1) n = droppedBits f (n / 2) + 1 := by
      show (if n < 2 ^ 24 then 0 else droppedBits f (n / 2) + 1) = _
      rw [if_neg hnot]
    rw [hdef]
    by_cases hsmall : n / 2 < 2 ^ 24
    · rw [droppedBits_small f (n / 2) hsmall]
      refine ⟨by omega, ?_, ?_⟩
      · simpa using h2
      · have : (2 : Nat) ^ (0 + 1 + 24) = 2 * 2 ^ 24 := by norm_num
        rw [this]
        omega
    · obtain ⟨_, hlo, hhi⟩ := ih (n / 2) hhalf (by omega)
      refine ⟨by omega, ?_, ?_⟩
      · have : (2 : Nat) ^ (droppedBits f (n / 2) + 1 + 23) =
            2 * 2 ^ (droppedBits f (n / 2) + 23) := by
          rw [show droppedBits f (n / 2) + 1 + 23 = (droppedBits f (n / 2) + 23) + 1 by omega,
            Nat.pow_succ]
          omega
        rw [this]
        omega
      · have : (2 : Nat) ^ (droppedBits f (n / 2) + 1 + 24) =
            2 * 2 ^ (droppedBits f (n / 2) + 24) := by
          rw [show droppedBits f (n / 2) + 1 + 24 = (droppedBits f (n / 2) + 24) + 1 by omega,
            Nat.pow_succ]
          omega
        rw [this]
        omega

theorem droppedBits_spec (n : Nat) (h : 2 ^ 24 ≤ n) :
    1 ≤ droppedBits n n ∧ 2 ^ (droppedBits n n + 23) ≤ n ∧ n < 2 ^ (droppedBits n n + 24) := by
  have h1 : n < 2 ^ n := Nat.lt_two_pow n
  have h2 : 2 ^ n ≤ 2 ^ 24 * 2 ^ n := Nat.le_mul_of_pos_left _ (by norm_num)
  exact droppedBits_bounds n n (by omega) h

theorem roundToNearestEven_small (n : Nat) (h : n < 2 ^ 24) : roundToNearestEven n = n := by
  unfold roundToNearestEven roundAt
  rw [droppedBits_small n n h]
  simp [Nat.mod_one]

theorem roundToNearestEven_cases (n : Nat) :
    roundToNearestEven n = n / 2 ^ droppedBits n n * 2 ^ droppedBits n n ∨
    (roundToNearestEven n = (n / 2 ^ droppedBits n n + 1) * 2 ^ droppedBits n n ∧
      2 ^ droppedBits n n ≤ 2 * (n % 2 ^ droppedBits n n)) := by
  unfold roundToNearestEven roundAt
  split
  · rename_i h
    right
    refine ⟨rfl, ?_⟩
    rcases h with h | h
    · omega
    · omega
  · left
    rfl


theorem exponent_lt_of_between (x y m : Nat) (h1 : 2 ^ x ≤ m) (h2 : m < 2 ^ y) : x < y := by
  by_contra h
  have hle : (2 : Nat) ^ y ≤ 2 ^ x := Nat.pow_le_pow_right (by norm_num) (by omega)
  omega

theorem two_pow_dvd_of_le (x y : Nat) (h : x ≤ y) : (2 : Nat) ^ x ∣ 2 ^ y :=
  Nat.pow_dvd_pow 2 h

theorem two_pow_add (d k : Nat) : (2 : Nat) ^ (d + k) = 2 ^ k * 2 ^ d := by
  rw [Nat.pow_add, Nat.mul_comm]

/-- The quotient kept by the rounding has 24 significant bits. -/
theorem quotient_bounds (n : Nat) (h : 2 ^ 24 ≤ n) :
    2 ^ 23 ≤ n / 2 ^ droppedBits n n ∧ n / 2 ^ droppedBits n n < 2 ^ 24 := by
  obtain ⟨_, hlo, hhi⟩ := droppedBits_spec n h
  rw [two_pow_add] at hlo hhi
  have hpos : 0 < 2 ^ droppedBits n n := Nat.two_pow_pos _
  exact ⟨(Nat.le_div_iff_mul_le hpos).mpr hlo, (Nat.div_lt_iff_lt_mul hpos).mpr hhi⟩

/-- Every rounded value is a multiple of the quantum of its own binade. -/
theorem roundToNearestEven_onGrid (n : Nat) :
    2 ^ droppedBits (roundToNearestEven n) (roundToNearestEven n) ∣ roundToNearestEven n := by
  by_cases hsmall : n < 2 ^ 24
  · rw [roundToNearestEven_small n hsmall, droppedBits_small n n hsmall]
    simp
  · have hn : 2 ^ 24 ≤ n := by omega
    obtain ⟨hd, hlo, hhi⟩ := droppedBits_spec n hn
    obtain ⟨hq1, hq2⟩ := quotient_bounds n hn
    have key : ∀ c : Nat, 2 ^ 23 ≤ c → c ≤ 2 ^ 24 →
        2 ^ droppedBits (c * 2 ^ droppedBits n n) (c * 2 ^ droppedBits n n) ∣
          c * 2 ^ droppedBits n n := by
      intro c hc1 hc2
      have hm1 : 2 ^ (droppedBits n n + 23) ≤ c * 2 ^ droppedBits n n := by
        rw [two_pow_add]
        exact Nat.mul_le_mul_right _ hc1
      have hbig : 2 ^ 24 ≤ c * 2 ^ droppedBits n n := by
        have : (2 : Nat) ^ 24 ≤ 2 ^ (droppedBits n n + 23) :=
          Nat.pow_le_pow_right (by norm_num) (by omega)
        omega
      obtain ⟨_, hlo2, hhi2⟩ := droppedBits_spec (c * 2 ^ droppedBits n n) hbig
      rcases Nat.lt_or_ge c (2 ^ 24) with hlt | hge
      · have hm2 : c * 2 ^ droppedBits n n < 2 ^ (droppedBits n n + 24) := by
          rw [two_pow_add]
          exact Nat.mul_lt_mul_of_pos_right hlt (Nat.two_pow_pos _)
        have hle := exponent_lt_of_between _ _ _ hlo2 hm2
        exact Dvd.dvd.mul_left (two_pow_dvd_of_le _ _ (by omega)) c
      · have hc : c = 2 ^ 24 := by omega
        have hm2 : c * 2 ^ droppedBits n n = 2 ^ (droppedBits n n + 24) := by
          rw [two_pow_add, hc]
        have hle := exponent_lt_of_between _ (droppedBits n n + 24 + 1) _ hlo2
          (by rw [hm2]; exact Nat.pow_lt_pow_right (by norm_num) (by omega))
        rw [hm2]
        have hm3 : droppedBits (c * 2 ^ droppedBits n n) (c * 2 ^ droppedBits n n) =
            droppedBits (2 ^ (droppedBits n n + 24)) (2 ^ (droppedBits n n + 24)) := by
          rw [hm2]
        rw [← hm3]
        exact two_pow_dvd_of_le _ _ (by omega)
    rcases roundToNearestEven_cases n with h | ⟨h, _⟩
    · rw [h]
      exact key _ hq1 (by omega)
    · rw [h]
      exact key _ (by omega) (by omega)

/-- Subtracting a positive `s` from a value `a` on the grid with `a ≤ 2 ^ 24 * s`
and rounding gives a value strictly below `a`. -/
theorem roundToNearestEven_sub_lt (a s : Nat) (hgrid : 2 ^ droppedBits a a ∣ a)
    (hs : 0 < s) (hsa : s ≤ a) (hb : a ≤ 2 ^ 24 * s) : roundToNearestEven (a - s) < a := by
  by_cases hsmall : a - s < 2 ^ 24
  · rw [roundToNearestEven_small _ hsmall]
    omega
  · have hn : 2 ^ 24 ≤ a - s := by omega
    obtain ⟨hd, hlo, hhi⟩ := droppedBits_spec (a - s) hn
    obtain ⟨_, hloa, hhia⟩ := droppedBits_spec a (by omega)
    have hdle := exponent_lt_of_between _ _ _ hlo (by omega : a - s < 2 ^ (droppedBits a a + 24))
    have hdvd : 2 ^ droppedBits (a - s) (a - s) ∣ a :=
      Dvd.dvd.trans (two_pow_dvd_of_le _ _ (by omega)) hgrid
    obtain ⟨c, hc⟩ := hdvd
    have hdiv := Nat.div_add_mod (a - s) (2 ^ droppedBits (a - s) (a - s))
    have hmod : (a - s) % 2 ^ droppedBits (a - s) (a - s) < 2 ^ droppedBits (a - s) (a - s) :=
      Nat.mod_lt _ (Nat.two_pow_pos _)
    rcases roundToNearestEven_cases (a - s) with h | ⟨h, hhalf⟩
    · rw [h]
      have := Nat.div_mul_le_self (a - s) (2 ^ droppedBits (a - s) (a - s))
      omega
    · rw [h]
      generalize hP : 2 ^ droppedBits (a - s) (a - s) = P at *
      generalize hq : (a - s) / P = q at *
      generalize hr : (a - s) % P = r at *
      have hcq : q < c := by
        by_contra hcon
        have : P * c ≤ P * q := Nat.mul_le_mul_left P (by omega)
        omega
      have hpow : 2 ^ (droppedBits (a - s) (a - s) + 24) = 2 ^ 24 * P := by
        rw [two_pow_add, hP]
      have hpow2 : 2 ^ (droppedBits (a - s) (a - s) + 23) = 2 ^ 23 * P := by
        rw [two_pow_add, hP]
      have hsucc : (q + 1) * P = P * q + P := by
        rw [Nat.add_mul, Nat.one_mul, Nat.mul_comm]
      rw [hsucc]
      rcases Nat.eq_or_lt_of_le (show q + 1 ≤ c by omega) with heq | hlt
      · exfalso
        have hc2 : P * c = P * q + P := by
          rw [← heq, Nat.mul_add, Nat.mul_one]
        omega
      · have hc2 : P * q + 2 * P ≤ P * c := by
          have : P * (q + 2) ≤ P * c := Nat.mul_le_mul_left P (by omega)
          rw [Nat.mul_add] at this
          omega
        have hPpos : 0 < P := by
          rw [← hP]
          exact Nat.two_pow_pos _
        omega


namespace Binary32

theorem ofExact_natCast (n : Nat) :
    ofExact (n : Int) =
      if roundToNearestEven n ≥ 2 ^ 128 * 2 ^ 149 then posInf
      else finite (roundToNearestEven n : Int) := by
  have hneg : ¬ ((n : Int) < 0) := by omega
  unfold ofExact
  rw [Int.natAbs_ofNat, if_neg hneg, if_neg hneg]

theorem sub_finite (a b : Int) : sub (finite a) (finite b) = ofExact (a - b) := rfl

theorem add_finite (a b : Int) : add (finite a) (finite b) = ofExact (a + b) := rfl

theorem ge_finite (a b : Int) : ge (finite a) (finite b) = decide (a ≥ b) := rfl

end Binary32

theorem catchUpLoop_succ (sSecondsPerFrame : Binary32) (fuel : Nat) (acc : Binary32)
    (steps : Nat) :
    catchUpLoop sSecondsPerFrame (fuel + 1) acc steps =
      if Binary32.ge acc sSecondsPerFrame then
        catchUpLoop sSecondsPerFrame fuel (Binary32.sub acc sSecondsPerFrame) (steps + 1)
      else
        some (acc, steps) := rfl

/-- Whatever the loop returns is a finite value below `sSecondsPerFrame`, and not
negative when the loop was entered with a value that is not negative. -/
theorem catchUpLoop_result (S : Nat) :
    ∀ (fuel : Nat) (acc : Binary32) (steps : Nat) (acc1 : Binary32) (n : Nat),
      (acc = Binary32.posInf ∨ ∃ A : Nat, acc = Binary32.finite (A : Int)) →
      catchUpLoop (Binary32.finite (S : Int)) fuel acc steps = some (acc1, n) →
      ∃ r : Nat, acc1 = Binary32.finite (r : Int) ∧ r < S := by
  intro fuel
  induction fuel with
  | zero => intro acc steps acc1 n _ h; exact absurd h (by simp [catchUpLoop])
  | succ fuel ih =>
    intro acc steps acc1 n hacc h
    rw [catchUpLoop_succ] at h
    rcases hacc with hinf | ⟨A, hA⟩
    · subst hinf
      have hge : Binary32.ge Binary32.posInf (Binary32.finite (S : Int)) = true := rfl
      have hsub : Binary32.sub Binary32.posInf (Binary32.finite (S : Int)) =
          Binary32.posInf := rfl
      rw [hge, if_pos rfl, hsub] at h
      exact ih _ _ _ _ (Or.inl rfl) h
    · subst hA
      rw [Binary32.ge_finite] at h
      by_cases hle : S ≤ A
      · have hd : decide ((A : Int) ≥ (S : Int)) = true := by
          rw [decide_eq_true_iff]
          omega
        rw [hd, if_pos rfl, Binary32.sub_finite] at h
        have hcast : (A : Int) - (S : Int) = ((A - S : Nat) : Int) := by omega
        rw [hcast, Binary32.ofExact_natCast] at h
        refine ih _ _ _ _ ?_ h
        split
        · exact Or.inl rfl
        · exact Or.inr ⟨_, rfl⟩
      · have hd : decide ((A : Int) ≥ (S : Int)) = false := by
          rw [decide_eq_false_iff_not]
          omega
        rw [hd] at h
        simp only [Bool.false_eq_true, if_false, Option.some.injEq, Prod.mk.injEq] at h
        exact ⟨A, h.1.symm, by omega⟩

/-- From a value on the grid that is at most `2 ^ 24` times `sSecondsPerFrame` the
loop exits: every subtraction lowers the accumulator. -/
theorem catchUpLoop_exits (S : Nat) (hS : 0 < S) :
    ∀ (A : Nat), 2 ^ droppedBits A A ∣ A → A < 2 ^ 128 * 2 ^ 149 → A ≤ 2 ^ 24 * S →
      ∃ n r : Nat, r < S ∧ ∀ fuel steps, n < fuel →
        catchUpLoop (Binary32.finite (S : Int)) fuel (Binary32.finite (A : Int)) steps =
          some (Binary32.finite (r : Int), steps + n) := by
  intro A
  induction A using Nat.strong_induction_on with
  | _ A ih =>
    intro hgrid hfin hbound
    by_cases hle : S ≤ A
    · have hlt := roundToNearestEven_sub_lt A S hgrid hS hle hbound
      obtain ⟨n, r, hr, hrun⟩ := ih (roundToNearestEven (A - S)) hlt
        (roundToNearestEven_onGrid _) (by omega) (by omega)
      refine ⟨n + 1, r, hr, ?_⟩
      intro fuel steps hfuel
      obtain ⟨f, rfl⟩ : ∃ f, fuel = f + 1 := ⟨fuel - 1, by omega⟩
      have hd : decide ((A : Int) ≥ (S : Int)) = true := by
        rw [decide_eq_true_iff]
        omega
      have hcast : (A : Int) - (S : Int) = ((A - S : Nat) : Int) := by omega
      have hno : ¬ roundToNearestEven (A - S) ≥ 2 ^ 128 * 2 ^ 149 := by omega
      rw [catchUpLoop_succ, Binary32.ge_finite, hd, if_pos rfl, Binary32.sub_finite, hcast,
        Binary32.ofExact_natCast, if_neg hno, hrun f (steps + 1) (by omega)]
      congr 2
      omega
    · refine ⟨0, A, by omega, ?_⟩
      intro fuel steps hfuel
      obtain ⟨f, rfl⟩ : ∃ f, fuel = f + 1 := ⟨fuel - 1, by omega⟩
      have hd : decide ((A : Int) ≥ (S : Int)) = false := by
        rw [decide_eq_false_iff_not]
        omega
      rw [catchUpLoop_succ, Binary32.ge_finite, hd]
      rfl

/-- When every subtraction is exact the loop makes `k` sub-steps from a value in
`[k * s, (k + 1) * s)` and leaves the exact remainder. -/
theorem catchUpLoop_exact (s : Int) (hs : 0 < s) :
    ∀ (k : Nat) (x : Int) (fuel steps : Nat),
      (∀ i : Nat, i < k →
        Binary32.sub (Binary32.finite (x - i * s)) (Binary32.finite s) =
          Binary32.finite (x - (i + 1) * s)) →
      k * s ≤ x → x < (k + 1) * s → k < fuel →
      catchUpLoop (Binary32.finite s) fuel (Binary32.finite x) steps =
        some (Binary32.finite (x - k * s), steps + k) := by
  intro k
  induction k with
  | zero =>
    intro x fuel steps _ h1 h2 hfuel
    obtain ⟨f, rfl⟩ : ∃ f, fuel = f + 1 := ⟨fuel - 1, by omega⟩
    have hd : decide (x ≥ s) = false := by
      rw [decide_eq_false_iff_not]
      simp at h2
      omega
    rw [catchUpLoop_succ, Binary32.ge_finite, hd]
    simp
  | succ k ih =>
    intro x fuel steps hexact h1 h2 hfuel
    obtain ⟨f, rfl⟩ : ∃ f, fuel = f + 1 := ⟨fuel - 1, by omega⟩
    have hks : 0 ≤ (k : Int) * s := Int.mul_nonneg (by omega) (le_of_lt hs)
    have h1' : (k : Int) * s + s ≤ x := by
      have : ((k + 1 : Nat) : Int) * s = (k : Int) * s + s := by push_cast; ring
      omega
    have h2' : x < (k : Int) * s + s + s := by
      have : (((k + 1 : Nat) : Int) + 1) * s = (k : Int) * s + s + s := by push_cast; ring
      omega
    have hd : decide (x ≥ s) = true := by
      rw [decide_eq_true_iff]
      omega
    have hfirst := hexact 0 (by omega)
    have e1 : x - ((0 : Nat) : Int) * s = x := by simp
    have e2 : x - (((0 : Nat) : Int) + 1) * s = x - s := by simp
    rw [e1, e2] at hfirst
    rw [catchUpLoop_succ, Binary32.ge_finite, hd, if_pos rfl, hfirst,
      ih (x - s) f (steps + 1) ?_ ?_ ?_ (by omega)]
    · have e3 : x - s - (k : Int) * s = x - ((k + 1 : Nat) : Int) * s := by push_cast; ring
      rw [e3]
      congr 2
      omega
    · intro i hi
      have h := hexact (i + 1) (by omega)
      have e4 : x - ((i + 1 : Nat) : Int) * s = x - s - (i : Int) * s := by push_cast; ring
      have e5 : x - (((i + 1 : Nat) : Int) + 1) * s = x - s - ((i : Int) + 1) * s := by
        push_cast; ring
      rw [e4, e5] at h
      exact h
    · omega
    · have : ((k : Int) + 1) * s = (k : Int) * s + s := by ring
      omega


/-- A state in which the loop condition holds and the subtraction returns the
accumulator unchanged is never left: no fuel gives a result. -/
theorem catchUpLoop_stuck (sSecondsPerFrame acc : Binary32)
    (hge : Binary32.ge acc sSecondsPerFrame = true)
    (hsub : Binary32.sub acc sSecondsPerFrame = acc) :
    ∀ (fuel steps : Nat), catchUpLoop sSecondsPerFrame fuel acc steps = none := by
  intro fuel
  induction fuel with
  | zero => intro steps; rfl
  | succ fuel ih =>
    intro steps
    rw [catchUpLoop_succ, hge, if_pos rfl, hsub]
    exact ih (steps + 1)

/-- C28: in binary32 arithmetic with `sSecondsPerFrame > 0` and a non-negative
accumulator and elapsed frame time: whatever `UpdateCameraAndFrameCBuffer` returns
leaves the accumulator finite, at least 0 and below `sSecondsPerFrame`; the catch-up
loop exits (every fuel above the number of sub-steps gives the result) whenever the
accumulator after the addition is finite and at most `2 ^ 24 * sSecondsPerFrame`;
and when the addition and every subtraction are exact the loop makes exactly
`floor((accumulator + elapsedFrameTime) / sSecondsPerFrame)` sub-steps and leaves
the exact remainder. -/
theorem catch_up_loop_in_binary32 (s a e : Int) (hs : 0 < s) (ha : 0 ≤ a) (he : 0 ≤ e) :
    (∀ fuel acc1 n,
      UpdateCameraAndFrameCBuffer (Binary32.finite s) fuel (Binary32.finite a)
          (Binary32.finite e) = some (acc1, n) →
        ∃ r, acc1 = Binary32.finite r ∧ 0 ≤ r ∧ r < s) ∧
    (∀ total, Binary32.add (Binary32.finite a) (Binary32.finite e) = Binary32.finite total →
      total ≤ 2 ^ 24 * s →
        ∃ (n : Nat) (r : Int), 0 ≤ r ∧ r < s ∧ ∀ fuel, n < fuel →
          UpdateCameraAndFrameCBuffer (Binary32.finite s) fuel (Binary32.finite a)
              (Binary32.finite e) = some (Binary32.finite r, n)) ∧
    (Binary32.add (Binary32.finite a) (Binary32.finite e) = Binary32.finite (a + e) →
      (∀ i : Nat, (i : Int) < (a + e) / s →
        Binary32.sub (Binary32.finite (a + e - i * s)) (Binary32.finite s) =
          Binary32.finite (a + e - (i + 1) * s)) →
        ∀ fuel, ((a + e) / s).toNat < fuel →
          UpdateCameraAndFrameCBuffer (Binary32.finite s) fuel (Binary32.finite a)
              (Binary32.finite e) =
            some (Binary32.finite ((a + e) % s), ((a + e) / s).toNat)) := by
  obtain ⟨S, rfl⟩ := Int.eq_ofNat_of_zero_le (le_of_lt hs)
  obtain ⟨A, rfl⟩ := Int.eq_ofNat_of_zero_le ha
  obtain ⟨E, rfl⟩ := Int.eq_ofNat_of_zero_le he
  have hS : 0 < S := by omega
  have hcast : (A : Int) + (E : Int) = ((A + E : Nat) : Int) := by omega
  have hadd : Binary32.add (Binary32.finite (A : Int)) (Binary32.finite (E : Int)) =
      if roundToNearestEven (A + E) ≥ 2 ^ 128 * 2 ^ 149 then Binary32.posInf
      else Binary32.finite (roundToNearestEven (A + E) : Int) := by
    rw [Binary32.add_finite, hcast, Binary32.ofExact_natCast]
  refine ⟨?_, ?_, ?_⟩
  · intro fuel acc1 n h
    unfold UpdateCameraAndFrameCBuffer at h
    have hinv : Binary32.add (Binary32.finite (A : Int)) (Binary32.finite (E : Int)) =
          Binary32.posInf ∨
        ∃ B : Nat, Binary32.add (Binary32.finite (A : Int)) (Binary32.finite (E : Int)) =
          Binary32.finite (B : Int) := by
      rw [hadd]
      split
      · exact Or.inl rfl
      · exact Or.inr ⟨_, rfl⟩
    obtain ⟨r, hr, hlt⟩ := catchUpLoop_result S fuel _ 0 acc1 n hinv h
    exact ⟨r, hr, by omega, by omega⟩
  · intro total htotal hbound
    rw [hadd] at htotal
    by_cases hover : roundToNearestEven (A + E) ≥ 2 ^ 128 * 2 ^ 149
    · rw [if_pos hover] at htotal
      exact absurd htotal (by simp)
    · rw [if_neg hover] at htotal
      have ht : total = (roundToNearestEven (A + E) : Int) := by
        injection htotal with h
        exact h.symm
      subst ht
      obtain ⟨n, r, hr, hrun⟩ := catchUpLoop_exits S hS (roundToNearestEven (A + E))
        (roundToNearestEven_onGrid _) (by omega) (by exact_mod_cast hbound)
      refine ⟨n, r, by omega, by omega, ?_⟩
      intro fuel hfuel
      unfold UpdateCameraAndFrameCBuffer
      rw [hadd, if_neg hover, hrun fuel 0 hfuel, Nat.zero_add]
  · intro hsum hexact fuel hfuel
    have hq : 0 ≤ ((A : Int) + (E : Int)) / (S : Int) :=
      Int.ediv_nonneg (by omega) (by omega)
    have hk : ((((A : Int) + (E : Int)) / (S : Int)).toNat : Int) =
        ((A : Int) + (E : Int)) / (S : Int) := Int.toNat_of_nonneg hq
    have hmul := Int.ediv_add_emod ((A : Int) + (E : Int)) (S : Int)
    have hmod1 := Int.emod_nonneg ((A : Int) + (E : Int)) (show (S : Int) ≠ 0 by omega)
    have hmod2 := Int.emod_lt_of_pos ((A : Int) + (E : Int)) hs
    have hcomm : (S : Int) * (((A : Int) + (E : Int)) / (S : Int)) =
        ((A : Int) + (E : Int)) / (S : Int) * (S : Int) := Int.mul_comm _ _
    have hrun := catchUpLoop_exact (S : Int) hs
      (((A : Int) + (E : Int)) / (S : Int)).toNat ((A : Int) + (E : Int)) fuel 0
      (fun i hi => hexact i (by omega))
      (by rw [hk]; omega)
      (by rw [hk, Int.add_mul, Int.one_mul]; omega)
      hfuel
    unfold UpdateCameraAndFrameCBuffer
    rw [hsum, hrun, hk, Nat.zero_add]
    congr 3
    omega

set_option maxRecDepth 100000 in
/-- An instance of C28 at `sSecondsPerFrame = 1.0f / 60.0f` from an empty
accumulator: for the elapsed time `0.05f` the loop returns after 2 sub-steps with
the accumulator in range, and the sum is below `2 ^ 24` times `sSecondsPerFrame`,
so that enough fuel gives a result in range; for the elapsed time `2 * sSecondsPerFrame`, where nothing rounds, it makes
the 2 sub-steps of the floor and leaves 0. -/
theorem catch_up_loop_in_binary32_witness :
    (0 : Int) < 8947849 * 2 ^ 120 ∧
    (∃ r, UpdateCameraAndFrameCBuffer exampleSecondsPerFrame 10 (Binary32.finite 0)
        (Binary32.finite (13421773 * 2 ^ 121)) = some (Binary32.finite r, 2) ∧
      0 ≤ r ∧ r < 8947849 * 2 ^ 120) ∧
    (∃ (n : Nat) (r : Int), 0 ≤ r ∧ r < 8947849 * 2 ^ 120 ∧
      UpdateCameraAndFrameCBuffer exampleSecondsPerFrame (n + 1) (Binary32.finite 0)
        (Binary32.finite (13421773 * 2 ^ 121)) = some (Binary32.finite r, n)) ∧
    UpdateCameraAndFrameCBuffer exampleSecondsPerFrame 3 (Binary32.finite 0)
        (Binary32.finite (8947849 * 2 ^ 121)) = some (Binary32.finite 0, 2) := by
  have h1 := catch_up_loop_in_binary32 (8947849 * 2 ^ 120) 0 (13421773 * 2 ^ 121)
    (by decide) (by decide) (by decide)
  have h2 := catch_up_loop_in_binary32 (8947849 * 2 ^ 120) 0 (8947849 * 2 ^ 121)
    (by decide) (by decide) (by decide)
  have hrun : UpdateCameraAndFrameCBuffer exampleSecondsPerFrame 10 (Binary32.finite 0)
      (Binary32.finite (13421773 * 2 ^ 121)) =
      some (Binary32.finite (8947847 * 2 ^ 120), 2) := by decide
  obtain ⟨r, hr, h0, hlt⟩ := h1.1 10 _ _ hrun
  obtain ⟨n, r2, hr0, hr1, hexit⟩ := h1.2.1 (13421773 * 2 ^ 121) (by decide) (by decide)
  refine ⟨by decide, ⟨r, ?_, h0, hlt⟩, ⟨n, r2, hr0, hr1, hexit (n + 1) (by omega)⟩, ?_⟩
  · rw [hrun, hr]
  · have hq : ((0 : Int) + 8947849 * 2 ^ 121) / (8947849 * 2 ^ 120) = 2 := by decide
    have hm : ((0 : Int) + 8947849 * 2 ^ 121) % (8947849 * 2 ^ 120) = 0 := by decide
    have h3 := h2.2.2 (by decide) (fun i hi => by
      rw [hq] at hi
      have hi2 : i = 0 ∨ i = 1 := by omega
      rcases hi2 with rfl | rfl <;> decide) 3 (by rw [hq]; decide)
    rw [hq, hm] at h3
    exact h3

set_option maxRecDepth 100000 in
/-- C28 fails on the code: with `sSecondsPerFrame = 1.0f / 60.0f` and an empty
accumulator the loop makes 5 sub-steps for the elapsed time `0.0833333358f`, where
the floor of the exact quotient is 4, and 24 sub-steps for `0.41666678f`, where the
floor is 25; and at the accumulator `1000000.0f` the loop condition holds and the
subtraction returns `1000000.0f` again, so the loop never exits. The three values
are binary32 values: rounding leaves them unchanged. -/
theorem catch_up_loop_rounds :
    Binary32.ofExact (8947849 * 2 ^ 120) = exampleSecondsPerFrame ∧
    Binary32.ofExact (11184811 * 2 ^ 122) = Binary32.finite (11184811 * 2 ^ 122) ∧
    Binary32.ofExact (13981017 * 2 ^ 124) = Binary32.finite (13981017 * 2 ^ 124) ∧
    UpdateCameraAndFrameCBuffer exampleSecondsPerFrame 10 (Binary32.finite 0)
        (Binary32.finite (11184811 * 2 ^ 122)) = some (Binary32.finite (2 ^ 121), 5) ∧
    ((0 : Int) + 11184811 * 2 ^ 122) / (8947849 * 2 ^ 120) = 4 ∧
    UpdateCameraAndFrameCBuffer exampleSecondsPerFrame 30 (Binary32.finite 0)
        (Binary32.finite (13981017 * 2 ^ 124)) =
      some (Binary32.finite (8947847 * 2 ^ 120), 24) ∧
    ((0 : Int) + 13981017 * 2 ^ 124) / (8947849 * 2 ^ 120) = 25 ∧
    Binary32.add (Binary32.finite 0) (Binary32.finite (15625 * 2 ^ 155)) =
      Binary32.finite (15625 * 2 ^ 155) ∧
    Binary32.ge (Binary32.finite (15625 * 2 ^ 155)) exampleSecondsPerFrame = true ∧
    Binary32.sub (Binary32.finite (15625 * 2 ^ 155)) exampleSecondsPerFrame =
      Binary32.finite (15625 * 2 ^ 155) ∧
    UpdateCameraAndFrameCBuffer exampleSecondsPerFrame 100 (Binary32.finite 0)
        (Binary32.finite (15625 * 2 ^ 155)) = none := by
  refine ⟨by decide, by decide, by decide, by decide, by decide, by decide, by decide,
    by decide, by decide, by decide, by decide⟩

/-! ## Window messages and render target views -/

namespace D3DApp

theorem timerLastStopped_cons (c : AppCall) (rest : List AppCall) :
    timerLastStopped (c :: rest) =
      (match timerLastStopped rest with
       | some stopped => some stopped
       | none =>
         match c with
         | AppCall.TimerStop => some true
         | AppCall.TimerStart => some false
         | _ => none) := rfl

theorem timerLastStopped_append (log : List AppCall) (call : AppCall) :
    timerLastStopped (log ++ [call]) =
      (match call with
       | AppCall.TimerStop => some true
       | AppCall.TimerStart => some false
       | _ => timerLastStopped log) := by
  induction log with
  | nil => cases call <;> rfl
  | cons c rest ih =>
    rw [List.cons_append, timerLastStopped_cons, ih, timerLastStopped_cons]
    cases call <;> rfl

theorem renderTargetViewOf_cons (buffer : Nat) (c : AppCall) (rest : List AppCall) :
    renderTargetViewOf buffer (c :: rest) =
      (match renderTargetViewOf buffer rest with
       | some handle => some handle
       | none =>
         match c with
         | AppCall.CreateRenderTargetView b handle => if b = buffer then some handle else none
         | _ => none) := rfl

/-- C29: `WM_ACTIVATE` sets `mAppPaused` to true exactly when
`LOWORD(wParam) == WA_INACTIVE` and to false otherwise, `WM_ENTERSIZEMOVE` sets it
to true and `WM_EXITSIZEMOVE` to false; each of the three returns 0 and makes
exactly one call on the timer, `Stop` when it sets the flag to true and `Start`
when it sets it to false, so that afterwards the application is paused exactly
when the timer was last stopped. -/
theorem pause_flag_follows_messages (defWindowProcResult wParam lParam : Nat) (app : D3DApp) :
    ((MsgProc defWindowProcResult WM_ACTIVATE wParam lParam app).1 = 0 ∧
      (MsgProc defWindowProcResult WM_ACTIVATE wParam lParam app).2.mAppPaused =
        decide (LOWORD wParam = WA_INACTIVE) ∧
      (MsgProc defWindowProcResult WM_ACTIVATE wParam lParam app).2.log =
        app.log ++ [if LOWORD wParam = WA_INACTIVE then AppCall.TimerStop
          else AppCall.TimerStart]) ∧
    ((MsgProc defWindowProcResult WM_ENTERSIZEMOVE wParam lParam app).1 = 0 ∧
      (MsgProc defWindowProcResult WM_ENTERSIZEMOVE wParam lParam app).2.mAppPaused = true ∧
      (MsgProc defWindowProcResult WM_ENTERSIZEMOVE wParam lParam app).2.log =
        app.log ++ [AppCall.TimerStop]) ∧
    ((MsgProc defWindowProcResult WM_EXITSIZEMOVE wParam lParam app).1 = 0 ∧
      (MsgProc defWindowProcResult WM_EXITSIZEMOVE wParam lParam app).2.mAppPaused = false ∧
      (MsgProc defWindowProcResult WM_EXITSIZEMOVE wParam lParam app).2.log =
        app.log ++ [AppCall.TimerStart]) ∧
    (∀ msg, msg = WM_ACTIVATE ∨ msg = WM_ENTERSIZEMOVE ∨ msg = WM_EXITSIZEMOVE →
      timerLastStopped (MsgProc defWindowProcResult msg wParam lParam app).2.log =
        some (MsgProc defWindowProcResult msg wParam lParam app).2.mAppPaused) := by
  have hactivate : (MsgProc defWindowProcResult WM_ACTIVATE wParam lParam app).1 = 0 ∧
      (MsgProc defWindowProcResult WM_ACTIVATE wParam lParam app).2.mAppPaused =
        decide (LOWORD wParam = WA_INACTIVE) ∧
      (MsgProc defWindowProcResult WM_ACTIVATE wParam lParam app).2.log =
        app.log ++ [if LOWORD wParam = WA_INACTIVE then AppCall.TimerStop
          else AppCall.TimerStart] := by
    by_cases h : LOWORD wParam = WA_INACTIVE
    · simp [MsgProc, h]
    · simp [MsgProc, h]
  have henter : (MsgProc defWindowProcResult WM_ENTERSIZEMOVE wParam lParam app).1 = 0 ∧
      (MsgProc defWindowProcResult WM_ENTERSIZEMOVE wParam lParam app).2.mAppPaused = true ∧
      (MsgProc defWindowProcResult WM_ENTERSIZEMOVE wParam lParam app).2.log =
        app.log ++ [AppCall.TimerStop] := ⟨rfl, rfl, rfl⟩
  have hexit : (MsgProc defWindowProcResult WM_EXITSIZEMOVE wParam lParam app).1 = 0 ∧
      (MsgProc defWindowProcResult WM_EXITSIZEMOVE wParam lParam app).2.mAppPaused = false ∧
      (MsgProc defWindowProcResult WM_EXITSIZEMOVE wParam lParam app).2.log =
        app.log ++ [AppCall.TimerStart] := ⟨rfl, rfl, rfl⟩
  refine ⟨hactivate, henter, hexit, fun msg hmsg => ?_⟩
  rcases hmsg with h | h | h
  · rw [h, hactivate.2.2, hactivate.2.1, timerLastStopped_append]
    by_cases hw : LOWORD wParam = WA_INACTIVE
    · simp [hw]
    · simp [hw]
  · rw [h, henter.2.2, henter.2.1, timerLastStopped_append]
  · rw [h, hexit.2.2, hexit.2.1, timerLastStopped_append]

/-- An instance of C29: deactivating the window pauses the application and stops the
timer; leaving the resize loop afterwards resumes it and starts the timer. -/
theorem pause_flag_follows_messages_witness :
    (MsgProc 0 WM_ACTIVATE 0x10000 0 exampleApp).2.mAppPaused = true ∧
    (MsgProc 0 WM_ACTIVATE 0x10000 0 exampleApp).2.log = [AppCall.TimerStop] ∧
    (MsgProc 0 WM_EXITSIZEMOVE 0 0 (MsgProc 0 WM_ACTIVATE 0x10000 0 exampleApp).2).2.mAppPaused =
      false ∧
    timerLastStopped
      (MsgProc 0 WM_EXITSIZEMOVE 0 0 (MsgProc 0 WM_ACTIVATE 0x10000 0 exampleApp).2).2.log =
      some false := by
  have h1 := pause_flag_follows_messages 0 0x10000 0 exampleApp
  have h2 := pause_flag_follows_messages 0 0 0 (MsgProc 0 WM_ACTIVATE 0x10000 0 exampleApp).2
  refine ⟨h1.1.2.1, h1.1.2.2, h2.2.2.1.2.1, ?_⟩
  rw [h2.2.2.2 WM_EXITSIZEMOVE (Or.inr (Or.inr rfl)), h2.2.2.1.2.1]

theorem renderTargetViewOf_append (buffer : Nat) (l1 l2 : List AppCall) :
    renderTargetViewOf buffer (l1 ++ l2) =
      (match renderTargetViewOf buffer l2 with
       | some handle => some handle
       | none => renderTargetViewOf buffer l1) := by
  induction l1 with
  | nil =>
    simp only [List.nil_append, renderTargetViewOf]
    cases renderTargetViewOf buffer l2 <;> rfl
  | cons c rest ih =>
    rw [List.cons_append, renderTargetViewOf_cons, ih, renderTargetViewOf_cons]
    cases renderTargetViewOf buffer l2 <;> rfl

theorem createRtvLoop_succ (size remaining i handle : Nat) :
    createRtvLoop size (remaining + 1) i handle =
      AppCall.GetBuffer i :: AppCall.CreateRenderTargetView i handle ::
        createRtvLoop size remaining (i + 1) (offsetHandle handle 1 size) := rfl

theorem createRtvLoop_earlier (size : Nat) :
    ∀ (remaining i handle buffer : Nat), buffer < i →
      renderTargetViewOf buffer (createRtvLoop size remaining i handle) = none := by
  intro remaining
  induction remaining with
  | zero => intro i handle buffer _; rfl
  | succ n ih =>
    intro i handle buffer hb
    have hne : i ≠ buffer := by omega
    rw [createRtvLoop_succ, renderTargetViewOf_cons, renderTargetViewOf_cons,
      ih (i + 1) _ buffer (by omega)]
    simp [hne]

/-- The loop of `CreateRtvAndDsv` creates the view of buffer `b` at the handle
`b` descriptors after the heap start. -/
theorem createRtvLoop_view (size start : Nat) :
    ∀ (remaining i buffer : Nat), i ≤ buffer → buffer < i + remaining →
      renderTargetViewOf buffer
          (createRtvLoop size remaining i ((start + i * size) % 2 ^ 64)) =
        some ((start + buffer * size) % 2 ^ 64) := by
  intro remaining
  induction remaining with
  | zero => intro i buffer h1 h2; omega
  | succ n ih =>
    intro i buffer h1 h2
    have hnext : offsetHandle ((start + i * size) % 2 ^ 64) 1 size =
        (start + (i + 1) * size) % 2 ^ 64 := by
      simp only [offsetHandle, Nat.succ_mul, Nat.one_mul]
      omega
    rw [createRtvLoop_succ, renderTargetViewOf_cons, renderTargetViewOf_cons, hnext]
    rcases Nat.eq_or_lt_of_le h1 with heq | hlt
    · subst heq
      rw [createRtvLoop_earlier size n (i + 1) _ i (by omega)]
      simp
    · rw [ih (i + 1) buffer (by omega) (by omega)]

/-- C30: after `CreateRtvAndDsvDescriptorHeaps` and `CreateRtvAndDsv`, for every
back-buffer index `i < sSwapChainBufferCount` the handle `CurrentBackBufferView`
returns when `mCurrBackBuffer = i` is the handle at which the render target view of
swap-chain buffer `i` was created; it is heap start + `i * mRtvDescSize` in 64-bit
arithmetic, the heap has `sSwapChainBufferCount` descriptors, and when the
descriptor range of the heap is addressable the handle is exactly heap start +
`i * mRtvDescSize` and its descriptor lies inside the heap. -/
theorem back_buffer_view_is_created_view (sSwapChainBufferCount heapStart : Nat)
    (app : D3DApp) (i : Nat) (hi : i < sSwapChainBufferCount) :
    renderTargetViewOf i
        (CreateRtvAndDsv sSwapChainBufferCount
          (CreateRtvAndDsvDescriptorHeaps sSwapChainBufferCount heapStart app)).log =
      some (CurrentBackBufferView
        { CreateRtvAndDsv sSwapChainBufferCount
            (CreateRtvAndDsvDescriptorHeaps sSwapChainBufferCount heapStart app) with
          mCurrBackBuffer := i }) ∧
    CurrentBackBufferView
        { CreateRtvAndDsv sSwapChainBufferCount
            (CreateRtvAndDsvDescriptorHeaps sSwapChainBufferCount heapStart app) with
          mCurrBackBuffer := i } =
      (heapStart % 2 ^ 64 + i * app.mRtvDescSize) % 2 ^ 64 ∧
    (CreateRtvAndDsv sSwapChainBufferCount
      (CreateRtvAndDsvDescriptorHeaps sSwapChainBufferCount heapStart app)).rtvHeapNumDescriptors =
      sSwapChainBufferCount ∧
    (heapStart % 2 ^ 64 + sSwapChainBufferCount * app.mRtvDescSize ≤ 2 ^ 64 →
      CurrentBackBufferView
          { CreateRtvAndDsv sSwapChainBufferCount
              (CreateRtvAndDsvDescriptorHeaps sSwapChainBufferCount heapStart app) with
            mCurrBackBuffer := i } =
        heapStart % 2 ^ 64 + i * app.mRtvDescSize ∧
      heapStart % 2 ^ 64 ≤ heapStart % 2 ^ 64 + i * app.mRtvDescSize ∧
      heapStart % 2 ^ 64 + i * app.mRtvDescSize + app.mRtvDescSize ≤
        heapStart % 2 ^ 64 +
          (CreateRtvAndDsv sSwapChainBufferCount
            (CreateRtvAndDsvDescriptorHeaps sSwapChainBufferCount heapStart
              app)).rtvHeapNumDescriptors * app.mRtvDescSize) := by
  have hview : CurrentBackBufferView
        { CreateRtvAndDsv sSwapChainBufferCount
            (CreateRtvAndDsvDescriptorHeaps sSwapChainBufferCount heapStart app) with
          mCurrBackBuffer := i } =
      (heapStart % 2 ^ 64 + i * app.mRtvDescSize) % 2 ^ 64 := rfl
  have hloop := createRtvLoop_view app.mRtvDescSize (heapStart % 2 ^ 64)
    sSwapChainBufferCount 0 i (Nat.zero_le _) (by omega)
  have hstart : (heapStart % 2 ^ 64 + 0 * app.mRtvDescSize) % 2 ^ 64 = heapStart % 2 ^ 64 := by
    rw [Nat.zero_mul, Nat.add_zero, Nat.mod_mod]
  rw [hstart] at hloop
  have hlog : (CreateRtvAndDsv sSwapChainBufferCount
        (CreateRtvAndDsvDescriptorHeaps sSwapChainBufferCount heapStart app)).log =
      app.log ++ createRtvLoop app.mRtvDescSize sSwapChainBufferCount 0 (heapStart % 2 ^ 64) :=
    rfl
  have hstep : (i + 1) * app.mRtvDescSize ≤ sSwapChainBufferCount * app.mRtvDescSize :=
    Nat.mul_le_mul_right _ hi
  have hsucc : (i + 1) * app.mRtvDescSize = i * app.mRtvDescSize + app.mRtvDescSize :=
    Nat.succ_mul _ _
  refine ⟨?_, hview, rfl, fun hrange => ⟨?_, Nat.le_add_right _ _, ?_⟩⟩
  · rw [hlog, renderTargetViewOf_append, hloop, hview]
  · rw [hview]
    by_cases hzero : app.mRtvDescSize = 0
    · rw [hzero, Nat.mul_zero, Nat.add_zero, Nat.mod_mod]
    · have hpos : 0 < app.mRtvDescSize := Nat.pos_of_ne_zero hzero
      exact Nat.mod_eq_of_lt (by omega)
  · show heapStart % 2 ^ 64 + i * app.mRtvDescSize + app.mRtvDescSize ≤
      heapStart % 2 ^ 64 + sSwapChainBufferCount * app.mRtvDescSize
    omega

/-- An instance of C30: with heap start 4096, descriptor size 32 and three buffers,
the view of buffer 2 is created at 4160, which is what `CurrentBackBufferView`
returns for `mCurrBackBuffer = 2`, and 4160 + 32 is the end of the heap. -/
theorem back_buffer_view_is_created_view_witness :
    2 < 3 ∧
    renderTargetViewOf 2
        (CreateRtvAndDsv 3 (CreateRtvAndDsvDescriptorHeaps 3 4096 exampleApp)).log =
      some 4160 ∧
    CurrentBackBufferView
        { CreateRtvAndDsv 3 (CreateRtvAndDsvDescriptorHeaps 3 4096 exampleApp) with
          mCurrBackBuffer := 2 } = 4160 ∧
    4160 + 32 ≤ 4096 + 3 * 32 := by
  have h := back_buffer_view_is_created_view 3 4096 exampleApp 2 (by decide)
  have hv : CurrentBackBufferView
        { CreateRtvAndDsv 3 (CreateRtvAndDsvDescriptorHeaps 3 4096 exampleApp) with
          mCurrBackBuffer := 2 } = 4160 := by
    rw [h.2.1]
    rfl
  refine ⟨by decide, ?_, hv, by decide⟩
  rw [h.1, hv]

end D3DApp

end BRE
